import Mathlib

/-!
# ebusd: message dictionary, frame preparation and bus state machine

A shallow embedding of `src/lib/ebus/message.cpp` and `src/ebusd/bushandler.cpp`.

* C++ `unsigned char` / `unsigned long long` values are natural numbers, reduced
  `% 256` / `% 2 ^ 64` where the C++ code converts or can overflow.
* `std::string` is `List Char`, `std::map` is an association list whose newest entry
  for a key shadows older ones (`operator[]` assignment), `Message*` is a `Message` value.
* Code of the repository that is not part of the sources (`symbol.h`, `result.h`,
  `data.cpp`, `message.h`, `bushandler.h`) is either a parameter (`getMasterNumber`, the
  virtual methods of `DataField`) or a definition marked `Modelled from the spec:`.
-/

namespace Ebusd

/-! ## Symbols, addresses and result codes -/

/-- Modelled from the spec: the inter-frame idle symbol of `symbol.h`, `SYN = 0xAA`. -/
def SYN : Nat := 0xAA

/-- Modelled from the spec: the escape prefix of `symbol.h`, `ESC = 0xA9`. -/
def ESC : Nat := 0xA9

/-- Modelled from the spec: the positive acknowledge of `symbol.h`, `ACK = 0x00`. -/
def ACK : Nat := 0x00

/-- Modelled from the spec: the negative acknowledge of `symbol.h`, `NAK = 0xFF`. -/
def NAK : Nat := 0xFF

/-- Modelled from the spec: the broadcast destination of `symbol.h`, `BROADCAST = 0xFE`. -/
def BROADCAST : Nat := 0xFE

/-- Modelled from the spec: the nibble test behind `isMaster` of `symbol.h`; a nibble is
self-valid when it is one of 0, 1, 3, 7, F. -/
def isMasterNibble (n : Nat) : Bool :=
  n == 0x0 || n == 0x1 || n == 0x3 || n == 0x7 || n == 0xF

/-- Modelled from the spec: `isMaster` of `symbol.h`; master addresses are those whose two
nibbles are each from the set 0, 1, 3, 7, F. -/
def isMaster (addr : Nat) : Bool :=
  isMasterNibble (addr % 256 / 16) && isMasterNibble (addr % 16)

/-- Modelled from the spec: the result codes of `result.h` (the error taxonomy of the spec,
and `RESULT_IN_ESC`, the non-error answer of a push that only holds an escape prefix). -/
inductive result_t where
  | RESULT_OK
  | RESULT_IN_ESC
  | RESULT_SYN
  | RESULT_ERR_GENERIC_IO
  | RESULT_ERR_DEVICE
  | RESULT_ERR_SEND
  | RESULT_ERR_ESC
  | RESULT_ERR_TIMEOUT
  | RESULT_ERR_NOTFOUND
  | RESULT_ERR_EOF
  | RESULT_ERR_INVALID_ARG
  | RESULT_ERR_OUT_OF_RANGE
  | RESULT_ERR_DUPLICATE
  | RESULT_ERR_BUS_LOST
  | RESULT_ERR_CRC
  | RESULT_ERR_ACK
  | RESULT_ERR_NAK
  deriving DecidableEq, Repr

open result_t

/-- Modelled from the spec: the comparison `result < RESULT_OK` on the codes of `result.h`;
it holds exactly for the error codes. -/
def result_t.isError : result_t → Bool
  | RESULT_OK => false
  | RESULT_IN_ESC => false
  | RESULT_SYN => false
  | _ => true

/-- A `std::string`. -/
abbrev Str := List Char

/-- The macro `FIELD_SEPARATOR` of `data.h`. -/
def FIELD_SEPARATOR : Char := ','

/-- The macro `VALUE_SEPARATOR` of `data.h`. -/
def VALUE_SEPARATOR : Char := ';'

/-- The macro `UI_FIELD_SEPARATOR` of `data.h`. -/
def UI_FIELD_SEPARATOR : Char := ';'

/-- The enum `PartType` of `data.h`. -/
inductive PartType where
  | pt_any
  | pt_masterData
  | pt_slaveData
  deriving DecidableEq, Repr

open PartType

/-! ## Symbol strings -/

/-- Modelled from the spec: the class `SymbolString` of `symbol.h`: an ordered byte
sequence with a mode flag (escaped form or unescaped form), the escape state carried
across pushes and an incrementally maintained CRC. -/
structure SymbolString where
  /-- the stored symbols -/
  data : List Nat
  /-- the mode flag: `true` for escaped form -/
  escaped : Bool
  /-- unescaped form only: the previous pushed symbol was an unresolved `ESC` -/
  expectEscape : Bool
  /-- the running CRC -/
  crc : Nat
  deriving DecidableEq, Repr

/-- Modelled from the spec: one bit step of the CRC of `symbol.h`: if the MSB is set,
shift left and XOR with 0x9C, else shift left (the constant is the one section 4.2 of the
spec names for this step). -/
def crcShift (crc : Nat) : Nat :=
  if crc % 256 / 128 = 1 then ((crc * 2) % 256) ^^^ 0x9C else (crc * 2) % 256

/-- Modelled from the spec: the byte step of the CRC-8 with polynomial 0x9B: XOR the byte
into the accumulator, then eight shift steps. -/
def updateCRC (crc value : Nat) : Nat :=
  crcShift (crcShift (crcShift (crcShift (crcShift (crcShift (crcShift (crcShift
    ((crc % 256) ^^^ (value % 256)))))))))

/-- Modelled from the spec: the default constructor of `SymbolString`; the strings
the dictionary and the bus handler fill symbol by symbol are in unescaped form. -/
def SymbolString.empty : SymbolString :=
  { data := [], escaped := false, expectEscape := false, crc := 0 }

/-- Modelled from the spec: an empty `SymbolString` in escaped form. -/
def SymbolString.emptyEscaped : SymbolString :=
  { data := [], escaped := true, expectEscape := false, crc := 0 }

/-- Modelled from the spec: `SymbolString::size`. -/
def SymbolString.size (s : SymbolString) : Nat := s.data.length

/-- Modelled from the spec: `SymbolString::operator[]` (an index beyond the end, undefined
in C++, reads 0). -/
def SymbolString.get (s : SymbolString) (i : Nat) : Nat := s.data.getD i 0

/-- Modelled from the spec: `SymbolString::getCRC`. -/
def SymbolString.getCRC (s : SymbolString) : Nat := s.crc

/-- Modelled from the spec: `SymbolString::clear`: empties the buffer and restarts the CRC
and the escape state, keeping the mode. -/
def SymbolString.clear (s : SymbolString) : SymbolString :=
  { data := [], escaped := s.escaped, expectEscape := false, crc := 0 }

/-- Modelled from the spec: `SymbolString::push_back(value, isEscaped, updateCRC)` of
`symbol.h`. In escaped mode an unescaped `ESC` is emitted as `ESC 00`, an unescaped `SYN`
as `ESC 01`, anything else as is. In unescaped mode an escaped input resolves an escape
pair into the literal (`00` gives `ESC`, `01` gives `SYN`, anything else fails), holds an
`ESC` or stores the literal; an unescaped input is stored as is. The CRC is updated with
the unescaped symbol when `updateCRC` is set. -/
def SymbolString.push_back (s : SymbolString) (value : Nat) (isEscaped : Bool)
    (updateCrc : Bool) : result_t × SymbolString :=
  let crc' := fun (v : Nat) => if updateCrc then updateCRC s.crc v else s.crc
  if s.escaped then
    if !isEscaped && value == ESC then
      (RESULT_OK, { s with data := s.data ++ [ESC, 0x00], crc := crc' value })
    else if !isEscaped && value == SYN then
      (RESULT_OK, { s with data := s.data ++ [ESC, 0x01], crc := crc' value })
    else
      (RESULT_OK, { s with data := s.data ++ [value], crc := crc' value })
  else if !isEscaped then
    (RESULT_OK, { s with data := s.data ++ [value], crc := crc' value })
  else if s.expectEscape then
    if value == 0x00 then
      (RESULT_OK, { s with data := s.data ++ [ESC], expectEscape := false, crc := crc' ESC })
    else if value == 0x01 then
      (RESULT_OK, { s with data := s.data ++ [SYN], expectEscape := false, crc := crc' SYN })
    else
      (RESULT_ERR_ESC, { s with expectEscape := false })
  else if value == ESC then
    (RESULT_IN_ESC, { s with expectEscape := true })
  else
    (RESULT_OK, { s with data := s.data ++ [value], crc := crc' value })

/-- Modelled from the spec: the constructor `SymbolString(str, escape, addCrc)` of
`symbol.h` for an unescaped source: the symbols of `str` are pushed one by one into an
empty string of the requested form, the CRC running if `addCrc`, and the CRC itself is
pushed last, without updating it. -/
def SymbolString.copy (str : SymbolString) (escape : Bool) (addCrc : Bool) : SymbolString :=
  let start := if escape then SymbolString.emptyEscaped else SymbolString.empty
  let body := str.data.foldl (fun acc b => (acc.push_back b false addCrc).2) start
  if addCrc then (body.push_back body.crc false false).2 else body

/-- Reading a list of escaped symbols back in unescaped form: every symbol is pushed as
escaped input into an empty unescaped string; `none` when an escape pair is invalid. -/
def readUnescaped : List Nat → SymbolString → Option SymbolString
  | [], acc => some acc
  | b :: bs, acc =>
    let r := acc.push_back b true false
    if r.1.isError then none else readUnescaped bs r.2

/-- The unescaped content of an escaped `SymbolString`. -/
def SymbolString.unescapedData (s : SymbolString) : Option (List Nat) :=
  (readUnescaped s.data SymbolString.empty).map (fun u => u.data)

/-! ## Data fields -/

/-- The abstract class `DataField` of `data.h`, as the record of the virtual methods the
dictionary calls. `write` gets the input text, the part, the unescaped buffer, the extra
offset and the separator and returns the result with the buffer it leaves; `read` gets the
part, the buffer, the offset, the leading-separator and verbose flags and the separator and
returns the result with the text it appended to the output. -/
structure DataField where
  /-- `virtual unsigned char getLength(PartType partType)` -/
  getLength : PartType → Nat
  /-- `virtual result_t write(input, partType, data, offset, separator)` -/
  write : Str → PartType → SymbolString → Nat → Char → result_t × SymbolString
  /-- `virtual result_t read(partType, data, offset, output, leadingSeparator, verbose, separator)` -/
  read : PartType → SymbolString → Nat → Bool → Bool → Char → result_t × Str

/-! ## Messages -/

/-- The members of the class `Message` (`message.cpp`, constructor at lines 30-51). -/
structure Message where
  /-- `m_class` -/
  clazz : Str
  /-- `m_name` -/
  name : Str
  /-- `m_isSet` -/
  isSet : Bool
  /-- `m_isPassive` -/
  isPassive : Bool
  /-- `m_comment` -/
  comment : Str
  /-- `m_srcAddress` -/
  srcAddress : Nat
  /-- `m_dstAddress` -/
  dstAddress : Nat
  /-- `m_id` -/
  id : List Nat
  /-- `m_data` -/
  data : DataField
  /-- `m_pollPriority` -/
  pollPriority : Nat
  /-- `m_lastValue` -/
  lastValue : Str := []
  /-- `m_lastUpdateTime` -/
  lastUpdateTime : Nat := 0
  /-- `m_pollCount` -/
  pollCount : Nat := 0
  /-- `m_lastPollTime` -/
  lastPollTime : Nat := 0

/-- The loop `key |= (unsigned long long)*it << (8 * exp--)` over symbols, on 64 bits.
(`exp` stays at 0 once it is used up: the C++ shift by a negative amount is undefined and
arises only for ids of more than six symbols.) -/
def orSymbols : List Nat → Nat → Nat → Nat
  | [], _, key => key
  | b :: bs, exp, key => orSymbols bs (exp - 1) ((key ||| (b <<< (8 * exp))) % 2 ^ 64)

/-- The key computed by the constructor `Message::Message` (lines 41-50), `getKey()`:
the id length minus 2 above bit 61, the master number of the source (or 0x1f for an active
message) at bit 56, the destination at bit 48 and the id symbols below. -/
def Message.getKey (getMasterNumber : Nat → Nat) (m : Message) : Nat :=
  let key := ((m.id.length + (2 ^ 64 - 2)) % 2 ^ 64) <<< (8 * 7 + 5) % 2 ^ 64
  let key := if m.isPassive = true then
      (key ||| (getMasterNumber m.srcAddress <<< (8 * 7))) % 2 ^ 64
    else
      (key ||| (0x1f <<< (8 * 7))) % 2 ^ 64
  let key := (key ||| (m.dstAddress <<< (8 * 6))) % 2 ^ 64
  orSymbols m.id 5 key

/-! ## The message dictionary -/

/-- A `std::map`: `find` is the first entry with the key, `operator[]` assignment puts
a new entry in front. -/
abbrev Map (κ ν : Type) := List (κ × ν)

/-- The lookup `map.find(key)`, `none` for `end()`. -/
def Map.find {κ ν : Type} [DecidableEq κ] (m : Map κ ν) (key : κ) : Option ν :=
  match m with
  | [] => none
  | (k, v) :: rest => if k = key then some v else Map.find rest key

/-- The assignment `map[key] = value`. -/
def Map.set {κ ν : Type} (m : Map κ ν) (key : κ) (value : ν) : Map κ ν :=
  (key, value) :: m

/-- The members of the class `MessageMap`. -/
structure MessageMap where
  /-- `m_messageCount` -/
  messageCount : Nat
  /-- `m_messagesByName` -/
  messagesByName : Map Str Message
  /-- `m_passiveMessagesByKey` -/
  passiveMessagesByKey : Map Nat Message
  /-- `m_minIdLength` -/
  minIdLength : Nat
  /-- `m_maxIdLength` -/
  maxIdLength : Nat
  /-- `m_pollMessages` (the content of the priority queue, newest push first) -/
  pollMessages : List Message

/-- The empty dictionary: the state `MessageMap::clear` (lines 452-472) establishes. -/
def MessageMap.clear : MessageMap :=
  { messageCount := 0, messagesByName := [], passiveMessagesByKey := [],
    minIdLength := 4, maxIdLength := 0, pollMessages := [] }

/-- The prefix `string(isPassive ? "P" : (isSet ? "W" : "R"))` of a name key. -/
def kindPrefix (isPassive isSet : Bool) : Str :=
  if isPassive then ['P'] else if isSet then ['W'] else ['R']

/-- The key with class of lines 345 and 403. -/
def nameKey (isPassive isSet : Bool) (clazz name : Str) : Str :=
  kindPrefix isPassive isSet ++ clazz ++ [FIELD_SEPARATOR] ++ name

/-- The key without class of lines 354 and 405. -/
def nameKeyNoClass (isPassive isSet : Bool) (name : Str) : Str :=
  (if isPassive then ['-', 'P'] else if isSet then ['-', 'W'] else ['-', 'R']) ++ name

/-- The method `MessageMap::add` (lines 332-370). -/
def MessageMap.add (getMasterNumber : Nat → Nat) (mm : MessageMap) (message : Message) :
    result_t × MessageMap :=
  let pkey := message.getKey getMasterNumber
  let isPassive := message.isPassive
  if isPassive = true ∧ (mm.passiveMessagesByKey.find pkey).isSome then
    (RESULT_ERR_DUPLICATE, mm)
  else
    let isSet := message.isSet
    let clazz := message.clazz
    let name := message.name
    let key := nameKey isPassive isSet clazz name
    if (mm.messagesByName.find key).isSome then
      (RESULT_ERR_DUPLICATE, mm)
    else
      let byName := mm.messagesByName.set key message
      let count := mm.messageCount + 1
      let byName := byName.set (nameKeyNoClass isPassive isSet name) message
      let idLength := (message.id.length + 254) % 256
      let minId := if message.isPassive = true ∧ idLength < mm.minIdLength then idLength
        else mm.minIdLength
      let maxId := if message.isPassive = true ∧ idLength > mm.maxIdLength then idLength
        else mm.maxIdLength
      let byKey := if message.isPassive = true then mm.passiveMessagesByKey.set pkey message
        else mm.passiveMessagesByKey
      let poll := if message.pollPriority > 0 then message :: mm.pollMessages
        else mm.pollMessages
      (RESULT_OK, { messageCount := count, messagesByName := byName,
                    passiveMessagesByKey := byKey, minIdLength := minId,
                    maxIdLength := maxId, pollMessages := poll })

/-- The method `MessageMap::find(clazz, name, isSet, isPassive)` (lines 398-412). -/
def MessageMap.findByName (mm : MessageMap) (clazz name : Str) (isSet isPassive : Bool) :
    Option Message :=
  match mm.messagesByName.find (nameKey isPassive isSet clazz name) with
  | some m => some m
  | none => mm.messagesByName.find (nameKeyNoClass isPassive isSet name)

/-- The constant `sourceMask = 0x1fLL << (8 * 7)` of line 426. -/
def sourceMask : Nat := (0x1f <<< (8 * 7)) % 2 ^ 64

/-- The key `MessageMap::find(SymbolString&)` builds from the frame for `idLength` id
symbols beyond PB SB (lines 428-435). -/
def frameKey (getMasterNumber : Nat → Nat) (master : SymbolString) (idLength : Nat) : Nat :=
  let key := (idLength <<< (8 * 7 + 5)) % 2 ^ 64
  let key := (key ||| (getMasterNumber (master.get 0) <<< (8 * 7))) % 2 ^ 64
  let key := (key ||| (master.get 1 <<< (8 * 6))) % 2 ^ 64
  let key := (key ||| (master.get 2 <<< (8 * 5))) % 2 ^ 64
  let key := (key ||| (master.get 3 <<< (8 * 4))) % 2 ^ 64
  orSymbols ((List.range idLength).map (fun i => master.get (5 + i))) 3 key

/-- One round of the loop of `MessageMap::find(SymbolString&)` (lines 428-446): the
probe with the key of the frame and, on a miss and when the source bits of the key are not
zero, the probe with the source bits cleared (`key &= ~sourceMask`). -/
def MessageMap.probe (getMasterNumber : Nat → Nat) (mm : MessageMap) (master : SymbolString)
    (idLength : Nat) : Option Message :=
  let key := frameKey getMasterNumber master idLength
  match mm.passiveMessagesByKey.find key with
  | some m => some m
  | none =>
    if key &&& sourceMask ≠ 0 then
      mm.passiveMessagesByKey.find (key &&& (2 ^ 64 - 1 - sourceMask))
    else none

/-- The loop `for (int idLength = maxIdLength; idLength >= m_minIdLength; idLength--)`
of `MessageMap::find(SymbolString&)`, started at `idLength`. -/
def MessageMap.findLoop (getMasterNumber : Nat → Nat) (mm : MessageMap)
    (master : SymbolString) : Nat → Option Message
  | 0 =>
    if 0 < mm.minIdLength then none
    else mm.probe getMasterNumber master 0
  | n + 1 =>
    if n + 1 < mm.minIdLength then none
    else match mm.probe getMasterNumber master (n + 1) with
      | some m => some m
      | none => MessageMap.findLoop getMasterNumber mm master n

/-- The method `MessageMap::find(SymbolString& master)` (lines 414-450). -/
def MessageMap.find (getMasterNumber : Nat → Nat) (mm : MessageMap) (master : SymbolString) :
    Option Message :=
  if master.size < 5 then none
  else
    let maxIdLength := master.get 4 % 256
    if maxIdLength < mm.minIdLength then none
    else
      let maxIdLength := if maxIdLength > mm.maxIdLength then mm.maxIdLength else maxIdLength
      if master.size < 5 + maxIdLength then none
      else MessageMap.findLoop getMasterNumber mm master maxIdLength

/-- The messages the dictionary owns: the values of the entries of `m_messagesByName`
whose key does not start with `-` (the test `MessageMap::clear` uses, line 461), newest
first. -/
def MessageMap.stored (mm : MessageMap) : List Message :=
  (mm.messagesByName.filter (fun e => e.1.head? != some '-')).map Prod.snd

/-- The passive messages of the dictionary: the values of `m_passiveMessagesByKey`. -/
def MessageMap.passiveMessages (mm : MessageMap) : List Message :=
  mm.passiveMessagesByKey.map Prod.snd

/-- The P, W or R kind of a message, the first letter of its name key. -/
def Message.kind (m : Message) : Str := kindPrefix m.isPassive m.isSet

/-- A dictionary built by successful `add` calls, starting from the empty one, together
with the list of the messages that were added, newest first. -/
inductive MessageMap.Built (getMasterNumber : Nat → Nat) : List Message → MessageMap → Prop where
  | clear : MessageMap.Built getMasterNumber [] MessageMap.clear
  | add (msgs : List Message) (mm : MessageMap) (message : Message) :
      MessageMap.Built getMasterNumber msgs mm →
      (mm.add getMasterNumber message).1 = RESULT_OK →
      MessageMap.Built getMasterNumber (message :: msgs) (mm.add getMasterNumber message).2

/-- The invariants of the two indexes of a dictionary. -/
structure MessageMap.Inv (gmn : Nat → Nat) (mm : MessageMap) : Prop where
  /-- every entry of the name index is keyed by the with-class or the class-less key of
  its message -/
  byName : ∀ k m, (k, m) ∈ mm.messagesByName →
    k = nameKey m.isPassive m.isSet m.clazz m.name ∨ k = nameKeyNoClass m.isPassive m.isSet m.name
  /-- every owned message is found under its with-class key -/
  storedFind : ∀ m ∈ mm.stored,
    mm.messagesByName.find (nameKey m.isPassive m.isSet m.clazz m.name) = some m
  /-- the class-less key finds the newest owned message of the kind and name -/
  noClassFind : ∀ p s n, mm.messagesByName.find (nameKeyNoClass p s n) =
    mm.stored.find? (fun m => decide (m.kind = kindPrefix p s ∧ m.name = n))
  /-- every entry of the passive index is a passive message under its own key, with an id
  length inside the scan window -/
  byKey : ∀ k m, (k, m) ∈ mm.passiveMessagesByKey →
    m.isPassive = true ∧ k = m.getKey gmn ∧ mm.minIdLength ≤ (m.id.length + 254) % 256 ∧
      (m.id.length + 254) % 256 ≤ mm.maxIdLength
  /-- the passive index has no duplicate keys -/
  byKeyFind : ∀ k m, (k, m) ∈ mm.passiveMessagesByKey → mm.passiveMessagesByKey.find k = some m

/-! ## The type column of a message row -/

/-- What `Message::create` derives from the type column (lines 89-118). -/
structure MessageType where
  /-- `isSet` -/
  isSet : Bool
  /-- `isPassive` -/
  isPassive : Bool
  /-- `pollPriority` -/
  pollPriority : Nat
  /-- `defaultName`, the name under which default rows are looked up -/
  defaultName : Str
  deriving DecidableEq, Repr

/-- The comparison `strncasecmp(str, "R", 1) == 0` resp. `"W"` for a non-empty C string:
the first character is the letter, in either case. -/
def startsWithLetter (str : Str) (lower upper : Char) : Bool :=
  str.head? == some lower || str.head? == some upper

/-- The classification of the type column in `Message::create` (lines 97-118); `str` is
the C string `(*it++).c_str()`. -/
def Message.createType (str : Str) : MessageType :=
  let len := str.length
  if len = 0 then
    { isSet := false, isPassive := false, pollPriority := 0, defaultName := ['r'] }
  else if startsWithLetter str 'r' 'R' then
    let last := str.getLastD ' '
    if '0' ≤ last ∧ last ≤ '9' then
      { isSet := false, isPassive := false, pollPriority := last.toNat - '0'.toNat,
        defaultName := str.take (len - 1) }
    else
      { isSet := false, isPassive := false, pollPriority := 0, defaultName := str }
  else if startsWithLetter str 'w' 'W' then
    { isSet := true, isPassive := false, pollPriority := 0, defaultName := str }
  else
    let last := str.getLastD ' '
    { isSet := last == 'w' || last == 'W', isPassive := true, pollPriority := 0,
      defaultName := str }

/-! ## Preparing the master frame -/

/-- The loop `for (size_t i=2; i<m_id.size(); i++)` of `Message::prepareMaster` (lines
265-269) over the id symbols from the third on: each is pushed unescaped without CRC, and
the first push that is not `RESULT_OK` ends the loop with its result. -/
def pushSymbols : SymbolString → List Nat → result_t × SymbolString
  | master, [] => (RESULT_OK, master)
  | master, b :: bs =>
    let r := master.push_back b false false
    if r.1 ≠ RESULT_OK then r else pushSymbols r.2 bs

/-- The method `Message::prepareMaster` (lines 240-275): `Except.ok masterData` stands for
the return of `RESULT_OK` with `masterData` assigned, `Except.error result` for a return
that leaves `masterData` alone. -/
def Message.prepareMaster (m : Message) (srcAddress : Nat) (input : Str) (separator : Char)
    (dstAddress : Nat) : Except result_t SymbolString :=
  if m.isPassive = true then Except.error RESULT_ERR_INVALID_ARG
  else
    let master := SymbolString.empty
    let r := master.push_back (srcAddress % 256) false false
    if r.1 ≠ RESULT_OK then Except.error r.1
    else
      let r := if dstAddress % 256 = SYN then r.2.push_back m.dstAddress false false
        else r.2.push_back (dstAddress % 256) false false
      if r.1 ≠ RESULT_OK then Except.error r.1
      else
        let r := r.2.push_back (m.id.getD 0 0) false false
        if r.1 ≠ RESULT_OK then Except.error r.1
        else
          let r := r.2.push_back (m.id.getD 1 0) false false
          if r.1 ≠ RESULT_OK then Except.error r.1
          else
            let addData := m.data.getLength pt_masterData % 256
            let r := r.2.push_back ((m.id.length + (2 ^ 64 - 2) + addData) % 2 ^ 64 % 256)
              false false
            if r.1 ≠ RESULT_OK then Except.error r.1
            else
              let r := pushSymbols r.2 (m.id.drop 2)
              if r.1 ≠ RESULT_OK then Except.error r.1
              else
                let w := m.data.write input pt_masterData r.2 ((m.id.length + 254) % 256)
                  separator
                if w.1 ≠ RESULT_OK then Except.error w.1
                else Except.ok (SymbolString.copy w.2 true true)

/-- The buffer `Message::prepareMaster` hands to the write of the field data (lines
245-269): `QQ ZZ PB SB NN` and the id symbols from the third on, unescaped. -/
def Message.masterHeader (m : Message) (srcAddress dstAddress : Nat) : SymbolString :=
  { SymbolString.empty with
    data := [srcAddress % 256,
             if dstAddress % 256 = SYN then m.dstAddress else dstAddress % 256,
             m.id.getD 0 0, m.id.getD 1 0,
             (m.id.length + (2 ^ 64 - 2) + m.data.getLength pt_masterData % 256) % 2 ^ 64 % 256]
            ++ m.id.drop 2 }

/-- The escaped form of a list of symbols: `ESC` becomes `ESC 00`, `SYN` becomes `ESC 01`. -/
def escapeSymbols : List Nat → List Nat
  | [] => []
  | b :: bs =>
    (if b = ESC then [ESC, 0x00] else if b = SYN then [ESC, 0x01] else [b]) ++ escapeSymbols bs

/-- The CRC over a list of symbols, starting from 0. -/
def crcOf (symbols : List Nat) : Nat := symbols.foldl updateCRC 0

/-- The hex digit value of a character. -/
def hexDigit (c : Char) : Option Nat :=
  if '0' ≤ c ∧ c ≤ '9' then some (c.toNat - '0'.toNat)
  else if 'a' ≤ c ∧ c ≤ 'f' then some (c.toNat - 'a'.toNat + 10)
  else if 'A' ≤ c ∧ c ≤ 'F' then some (c.toNat - 'A'.toNat + 10)
  else none

/-- The bytes a string of hex digit pairs stands for. -/
def parseHex : Str → Option (List Nat)
  | [] => some []
  | [_] => none
  | a :: b :: rest =>
    match hexDigit a, hexDigit b, parseHex rest with
    | some x, some y, some bs => some ((16 * x + y) :: bs)
    | _, _, _ => none

/-- An example field set: one hex string field of `n` symbols in the master data, whose
write appends the `n` symbols the input spells in hex digits behind the buffer. -/
def hexField (n : Nat) : DataField :=
  { getLength := fun part => if part = pt_masterData then n else 0
    write := fun input part data _ _ =>
      if part = pt_masterData then
        match parseHex input with
        | some bs =>
          if bs.length = n then (RESULT_OK, { data with data := data.data ++ bs })
          else (RESULT_ERR_INVALID_ARG, data)
        | none => (RESULT_ERR_INVALID_ARG, data)
      else (RESULT_OK, data)
    read := fun _ _ _ _ _ _ => (RESULT_OK, []) }

/-- The example active write of the spec: broadcast (destination 0xFE) with id B5 16 08
and three symbols of master data. -/
def exMsgBroadcast : Message :=
  { clazz := "time".toList, name := "set".toList, isSet := true, isPassive := false,
    comment := [], srcAddress := SYN, dstAddress := 0xFE, id := [0xB5, 0x16, 0x08],
    data := hexField 3, pollPriority := 0 }

/-- The frame of the broadcast example: 03 FE B5 16 04 08 04 00 00, escaped, with CRC. -/
def exFrameBroadcast : SymbolString :=
  SymbolString.copy
    { SymbolString.empty with data := [0x03, 0xFE, 0xB5, 0x16, 0x04, 0x08, 0x04, 0x00, 0x00] }
    true true

/-- An example active write to 0x08 with id B5 09 and 17 symbols of master data, so that
`NN = 17`. -/
def exMsgLong : Message :=
  { clazz := "long".toList, name := "set".toList, isSet := true, isPassive := false,
    comment := [], srcAddress := SYN, dstAddress := 0x08, id := [0xB5, 0x09],
    data := hexField 17, pollPriority := 0 }

/-- The example active read of the spec: to 0x08 with id 50 22 and no master data, so that
`NN = 0`. -/
def exMsgEmpty : Message :=
  { clazz := "ident".toList, name := "get".toList, isSet := false, isPassive := false,
    comment := [], srcAddress := SYN, dstAddress := 0x08, id := [0x50, 0x22],
    data := hexField 0, pollPriority := 0 }

/-- An example active write to 0x08 with id B5 09 and 16 symbols of master data, so that
`NN = 16`. -/
def exMsgFull : Message :=
  { clazz := "full".toList, name := "set".toList, isSet := true, isPassive := false,
    comment := [], srcAddress := SYN, dstAddress := 0x08, id := [0xB5, 0x09],
    data := hexField 16, pollPriority := 0 }

/-- The input of 16 symbols for `exMsgFull`. -/
def exInputFull : Str := "000102030405060708090a0b0c0d0e0f".toList

/-- The input of 17 symbols for `exMsgLong`. -/
def exInputLong : Str := "000102030405060708090a0b0c0d0e0f10".toList

/-! ## The bus state machine -/

/-- The enum `BusState` (`bushandler.cpp`, lines 42-58). -/
inductive BusState where
  | bs_skip
  | bs_ready
  | bs_recvCmd
  | bs_recvCmdAck
  | bs_recvRes
  | bs_recvResAck
  | bs_sendCmd
  | bs_sendResAck
  | bs_sendSyn
  deriving DecidableEq, Repr

open BusState

/-- A `BusRequest` (lines 61-66): the escaped master frame to send; `id` stands for the
identity of the object, which the queue compares as a pointer. -/
structure BusRequest where
  /-- the identity of the request object -/
  id : Nat
  /-- `m_master` -/
  master : SymbolString
  deriving DecidableEq, Repr

/-- What a step of the bus handler does to the outside. -/
inductive BusEvent where
  /-- `m_port->send` wrote the symbol -/
  | sent (symbol : Nat)
  /-- `m_port->send` failed for the symbol -/
  | sendFailed (symbol : Nat)
  /-- `m_port->recv` was called with the timeout -/
  | recv (timeout : Nat)
  /-- `m_request->m_slave = m_response; m_request->notify(result)` (lines 438-439) -/
  | notified (request : BusRequest) (result : result_t) (slave : SymbolString)
  /-- `receiveCompleted()` was called with these buffers and CRC flags -/
  | receiveCompleted (command response : SymbolString) (commandCrcValid responseCrcValid : Bool)
  deriving DecidableEq, Repr

/-- The members of `BusHandler` the state machine uses, and the log of its effects. -/
structure BusHandler where
  /-- `m_state` -/
  state : BusState
  /-- `m_request`, `none` for NULL -/
  request : Option BusRequest
  /-- `m_requests`, the queue of pending requests, first in front -/
  requests : List BusRequest
  /-- `m_remainLockCount` -/
  remainLockCount : Nat
  /-- `m_lockCount` -/
  lockCount : Nat
  /-- `m_nextSendPos` -/
  nextSendPos : Nat
  /-- `m_repeat` -/
  repeated : Bool
  /-- `m_command` -/
  command : SymbolString
  /-- `m_commandCrcValid` -/
  commandCrcValid : Bool
  /-- `m_response` -/
  response : SymbolString
  /-- `m_responseCrcValid` -/
  responseCrcValid : Bool
  /-- `m_busAcquireTimeout` -/
  busAcquireTimeout : Nat
  /-- `m_slaveRecvTimeout` -/
  slaveRecvTimeout : Nat
  /-- the effects so far, oldest first -/
  events : List BusEvent
  deriving DecidableEq, Repr

/-- Modelled from the spec: the constant `SYN_TIMEOUT` of `bushandler.h` (about 4500
microseconds). -/
def SYN_TIMEOUT : Nat := 4500

/-- Modelled from the spec: the constant `SEND_TIMEOUT` of `bushandler.h` (about 15000
microseconds). -/
def SEND_TIMEOUT : Nat := 15000

/-- The outcome of `m_port->recv(timeout, 1, &recvSymbol)`: a negative count, which is
a `RESULT_ERR_` code, or the symbol read. -/
inductive RecvResult where
  | error (code : result_t)
  | symbol (value : Nat)
  deriving DecidableEq, Repr

/-- What the port and the client threads do during one step: the value `m_port->send`
returns if it is called, the outcome of `m_port->recv`, and whether a client took the
request in flight out of the queue meanwhile (its wait timed out). -/
structure PortStep where
  /-- the return value of `m_port->send(&sendSymbol, 1)` -/
  sendResult : Int
  /-- the outcome of `m_port->recv` -/
  recv : RecvResult
  /-- a client removed the request in flight from `m_requests` during the step -/
  clientRemoved : Bool
  deriving DecidableEq, Repr

/-- The method `WQueue::remove(T item)` (`wqueue.h`, lines 100-109): the queue without the
item and whether its size changed. -/
def queueRemove (queue : List BusRequest) (item : BusRequest) : Bool × List BusRequest :=
  let rest := queue.filter (fun r => r.id != item.id)
  (rest.length != queue.length, rest)

/-- The first part of `BusHandler::setState` (lines 435-442): a request in flight is
notified and dropped when the new state is `bs_sendSyn` or the result is not `RESULT_OK`
and this is not the first repetition. -/
def BusHandler.notifyRequest (h : BusHandler) (state : BusState) (result : result_t)
    (firstRepetition : Bool) : BusHandler :=
  match h.request with
  | some req =>
    if state = bs_sendSyn ∨ (result ≠ RESULT_OK ∧ firstRepetition = false) then
      { h with events := h.events ++ [BusEvent.notified req result h.response],
               request := none }
    else h
  | none => h

/-- The method `BusHandler::setState` (lines 433-462). -/
def BusHandler.setState (h : BusHandler) (state : BusState) (result : result_t)
    (firstRepetition : Bool) : result_t × BusHandler :=
  let h := h.notifyRequest state result firstRepetition
  if state = h.state then (result, h)
  else if state = bs_ready ∨ state = bs_skip then
    (result, { h with state := state, command := h.command.clear, commandCrcValid := false,
                      response := h.response.clear, responseCrcValid := false,
                      nextSendPos := 0 })
  else (result, { h with state := state })

/-- The call `receiveCompleted()` (lines 464-488) as far as the handler is concerned: it
reads the buffers and changes nothing in the handler, so the call is logged. -/
def BusHandler.receiveCompleted (h : BusHandler) : BusHandler :=
  { h with events := h.events ++
      [BusEvent.receiveCompleted h.command h.response h.commandCrcValid h.responseCrcValid] }

/-- What the first part of `BusHandler::handleSymbol` decides. -/
structure SendDecision where
  /-- the handler after the decision -/
  handler : BusHandler
  /-- `timeout` -/
  timeout : Nat
  /-- `sendSymbol` -/
  sendSymbol : Nat
  /-- `sending` -/
  sending : Bool
  deriving DecidableEq, Repr

/-- The first part of `BusHandler::handleSymbol` (lines 159-207): whether another symbol
has to be sent, and the timeout for the receive. -/
def BusHandler.decideSend (h : BusHandler) : SendDecision :=
  match h.state with
  | bs_skip => { handler := h, timeout := 0, sendSymbol := ESC, sending := false }
  | bs_ready =>
    let h := if h.request.isSome then (h.setState bs_ready RESULT_ERR_TIMEOUT false).2 else h
    if h.remainLockCount = 0 then
      match h.requests.head? with
      | some req =>
        { handler := { h with request := some req }, timeout := SYN_TIMEOUT,
          sendSymbol := req.master.get 0, sending := true }
      | none =>
        { handler := { h with request := none }, timeout := SYN_TIMEOUT,
          sendSymbol := ESC, sending := false }
    else { handler := h, timeout := SYN_TIMEOUT, sendSymbol := ESC, sending := false }
  | bs_recvCmd | bs_recvCmdAck | bs_recvRes | bs_recvResAck =>
    { handler := h, timeout := h.slaveRecvTimeout, sendSymbol := ESC, sending := false }
  | bs_sendCmd =>
    match h.request with
    | some req =>
      { handler := h, timeout := SYN_TIMEOUT, sendSymbol := req.master.get h.nextSendPos,
        sending := true }
    | none => { handler := h, timeout := SYN_TIMEOUT, sendSymbol := ESC, sending := false }
  | bs_sendResAck =>
    match h.request with
    | some _ =>
      { handler := h, timeout := SYN_TIMEOUT,
        sendSymbol := if h.responseCrcValid then ACK else NAK, sending := true }
    | none => { handler := h, timeout := SYN_TIMEOUT, sendSymbol := ESC, sending := false }
  | bs_sendSyn =>
    { handler := h, timeout := SYN_TIMEOUT, sendSymbol := SYN, sending := true }

/-- The second part of `BusHandler::handleSymbol` (lines 209-221): the symbol is sent if
necessary; a failed send ends the sending and switches to `bs_skip`. -/
def BusHandler.doSend (d : SendDecision) (io : PortStep) : SendDecision :=
  if d.sending = true then
    if io.sendResult = 1 then
      { d with handler := { d.handler with
                 events := d.handler.events ++ [BusEvent.sent d.sendSymbol] },
               timeout := if d.handler.state = bs_ready then d.handler.busAcquireTimeout
                 else SEND_TIMEOUT }
    else
      let h := { d.handler with events := d.handler.events ++ [BusEvent.sendFailed d.sendSymbol] }
      { d with handler := (h.setState bs_skip RESULT_ERR_SEND false).2, timeout := 0,
               sending := false }
  else d

/-- The third part of `BusHandler::handleSymbol` (lines 237-430): the transition for a
received symbol other than `SYN`, by the state. -/
def BusHandler.dispatch (h : BusHandler) (sendSymbol : Nat) (sending : Bool)
    (recvSymbol : Nat) : result_t × BusHandler :=
  match h.state with
  | bs_skip => (RESULT_OK, h)
  | bs_ready =>
    let continueReceive := fun (h : BusHandler) =>
      let r := h.command.push_back recvSymbol false true
      let h := { h with command := r.2 }
      if r.1.isError then h.setState bs_skip r.1 false
      else ({ h with repeated := false }).setState bs_recvCmd RESULT_OK false
    match h.request with
    | some req =>
      if sending = true then
        let q := queueRemove h.requests req
        let h := { h with requests := q.2 }
        if q.1 = false then h.setState bs_skip RESULT_ERR_TIMEOUT false
        else if recvSymbol = sendSymbol then
          ({ h with nextSendPos := 1, repeated := false }).setState bs_sendCmd RESULT_OK false
        else
          let remain := if isMaster recvSymbol then 2 else 1
          let remain := if recvSymbol % 16 ≠ sendSymbol % 16 ∧ h.lockCount > remain
            then h.lockCount else remain
          let h := { h with remainLockCount := remain }
          continueReceive (h.setState h.state RESULT_ERR_BUS_LOST false).2
      else continueReceive h
    | none => continueReceive h
  | bs_recvCmd =>
    let headerLen := 4
    let crcPos := if h.command.size > headerLen
      then (headerLen + 1 + h.command.get headerLen) % 256 else 0xff
    let r := h.command.push_back recvSymbol true (h.command.size < crcPos)
    let h := { h with command := r.2 }
    if r.1.isError then h.setState bs_skip r.1 false
    else if r.1 = RESULT_OK ∧ crcPos ≠ 0xff ∧ h.command.size = crcPos + 1 then
      let dstAddress := h.command.get 1
      let crcValid :=
        h.command.get (headerLen + 1 + h.command.get headerLen) == h.command.getCRC
      let h := { h with commandCrcValid := crcValid }
      if h.commandCrcValid = true then
        if dstAddress = BROADCAST then h.receiveCompleted.setState bs_skip RESULT_OK false
        else h.setState bs_recvCmdAck RESULT_OK false
      else if dstAddress = BROADCAST then h.setState bs_skip RESULT_OK false
      else if h.repeated = true then h.setState bs_skip RESULT_ERR_CRC false
      else h.setState bs_recvCmdAck RESULT_ERR_CRC false
    else (RESULT_OK, h)
  | bs_recvCmdAck =>
    if recvSymbol = ACK then
      if h.commandCrcValid = false then h.setState bs_skip RESULT_ERR_ACK false
      else
        match h.request with
        | some req =>
          if isMaster (req.master.get 1) = true then h.setState bs_sendSyn RESULT_OK false
          else ({ h with repeated := false }).setState bs_recvRes RESULT_OK false
        | none =>
          if isMaster (h.command.get 1) = true then
            h.receiveCompleted.setState bs_skip RESULT_OK false
          else ({ h with repeated := false }).setState bs_recvRes RESULT_OK false
    else if recvSymbol = NAK then
      if h.repeated = false then
        let h := { h with repeated := true, nextSendPos := 0, command := h.command.clear }
        if h.request.isSome then h.setState bs_sendCmd RESULT_ERR_NAK true
        else h.setState bs_recvCmd RESULT_ERR_NAK false
      else h.setState bs_skip RESULT_ERR_NAK false
    else h.setState bs_skip RESULT_ERR_ACK false
  | bs_recvRes =>
    let headerLen := 0
    let crcPos := if h.response.size > headerLen
      then (headerLen + 1 + h.response.get headerLen) % 256 else 0xff
    let r := h.response.push_back recvSymbol true (h.response.size < crcPos)
    let h := { h with response := r.2 }
    if r.1.isError then h.setState bs_skip r.1 false
    else if r.1 = RESULT_OK ∧ crcPos ≠ 0xff ∧ h.response.size = crcPos + 1 then
      let crcValid :=
        h.response.get (headerLen + 1 + h.response.get headerLen) == h.response.getCRC
      let h := { h with responseCrcValid := crcValid }
      if h.responseCrcValid = true then
        if h.request.isSome then h.setState bs_sendResAck RESULT_OK false
        else h.setState bs_recvResAck RESULT_OK false
      else if h.repeated = true then h.setState bs_skip RESULT_ERR_CRC false
      else if h.request.isSome then h.setState bs_sendResAck RESULT_ERR_CRC false
      else h.setState bs_recvResAck RESULT_ERR_CRC false
    else (RESULT_OK, h)
  | bs_recvResAck =>
    if recvSymbol = ACK then
      if h.responseCrcValid = false then h.setState bs_skip RESULT_ERR_ACK false
      else h.receiveCompleted.setState bs_skip RESULT_OK false
    else if recvSymbol = NAK then
      if h.repeated = false then
        ({ h with repeated := true, response := h.response.clear }).setState
          bs_recvRes RESULT_ERR_NAK true
      else h.setState bs_skip RESULT_ERR_NAK false
    else h.setState bs_skip RESULT_ERR_ACK false
  | bs_sendCmd =>
    match h.request with
    | some req =>
      if sending = true ∧ recvSymbol = sendSymbol then
        let h := { h with nextSendPos := h.nextSendPos + 1 }
        if h.nextSendPos ≥ req.master.size then
          if req.master.get 1 = BROADCAST then h.setState bs_sendSyn RESULT_OK false
          else ({ h with commandCrcValid := true }).setState bs_recvCmdAck RESULT_OK false
        else (RESULT_OK, h)
      else h.setState bs_skip RESULT_ERR_INVALID_ARG false
    | none => h.setState bs_skip RESULT_ERR_INVALID_ARG false
  | bs_sendResAck =>
    if h.request.isSome ∧ sending = true ∧ recvSymbol = sendSymbol then
      h.setState bs_sendSyn RESULT_OK false
    else h.setState bs_skip RESULT_ERR_INVALID_ARG false
  | bs_sendSyn =>
    if sending = true ∧ recvSymbol = sendSymbol then h.setState bs_skip RESULT_OK false
    else h.setState bs_skip RESULT_ERR_INVALID_ARG false

/-- The method `BusHandler::handleSymbol` (lines 157-431): one step of the state machine
for what the port does in it. -/
def BusHandler.handleSymbol (h : BusHandler) (io : PortStep) : result_t × BusHandler :=
  let d := BusHandler.doSend h.decideSend io
  let h := { d.handler with events := d.handler.events ++ [BusEvent.recv d.timeout] }
  let h := if io.clientRemoved = true then
      match h.request with
      | some req => { h with requests := (queueRemove h.requests req).2 }
      | none => h
    else h
  match io.recv with
  | RecvResult.error code => h.setState bs_skip code false
  | RecvResult.symbol recvSymbol =>
    if recvSymbol = SYN then
      let h := if d.sending = false ∧ h.remainLockCount > 0
        then { h with remainLockCount := h.remainLockCount - 1 } else h
      h.setState bs_ready RESULT_SYN false
    else BusHandler.dispatch h d.sendSymbol d.sending recvSymbol

/-- Whether a symbol is emitted in the step: the handler decided to send and the port wrote
the symbol (`sending` after lines 209-221). -/
def BusHandler.emits (h : BusHandler) (io : PortStep) : Bool :=
  (BusHandler.doSend h.decideSend io).sending

/-- Modelled from the spec: the handler as its constructor in `bushandler.h` leaves it:
state `skip`, no request in flight, empty buffers. -/
def BusHandler.initial (lockCount busAcquireTimeout slaveRecvTimeout : Nat) : BusHandler :=
  { state := bs_skip, request := none, requests := [], remainLockCount := 0,
    lockCount := lockCount, nextSendPos := 0, repeated := false,
    command := SymbolString.empty, commandCrcValid := false,
    response := SymbolString.empty, responseCrcValid := false,
    busAcquireTimeout := busAcquireTimeout, slaveRecvTimeout := slaveRecvTimeout,
    events := [] }

/-- An example request: the broadcast frame 03 FE B5 16 04 08 04 00 00 with its CRC. -/
def exRequest : BusRequest :=
  { id := 1,
    master := { SymbolString.emptyEscaped with
      data := [0x03, 0xFE, 0xB5, 0x16, 0x04, 0x08, 0x04, 0x00, 0x00, 0xF8] } }

/-- An example handler: ready, with `exRequest` queued and two SYN symbols to wait. -/
def exHandlerLocked : BusHandler :=
  { BusHandler.initial 5 10000 15000 with
    state := bs_ready, requests := [exRequest], remainLockCount := 2 }

/-- An example handler: ready, with `exRequest` queued and no SYN symbol to wait. -/
def exHandlerReady : BusHandler :=
  { BusHandler.initial 5 10000 15000 with state := bs_ready, requests := [exRequest] }

/-- An example request to the slave 0x08: the frame 03 08 B5 09 01 0D with its CRC. -/
def exRequestSlave : BusRequest :=
  { id := 2,
    master := { SymbolString.emptyEscaped with
      data := [0x03, 0x08, 0xB5, 0x09, 0x01, 0x0D, 0xF0] } }

/-- An example request to the master 0x10: the frame 03 10 B5 09 01 0D with its CRC. -/
def exRequestMaster : BusRequest :=
  { id := 3,
    master := { SymbolString.emptyEscaped with
      data := [0x03, 0x10, 0xB5, 0x09, 0x01, 0x0D, 0xD0] } }

/-- An example handler: ready, with `exRequest` and `exRequestSlave` queued and no SYN
symbol to wait. -/
def exHandlerTwo : BusHandler :=
  { BusHandler.initial 5 10000 15000 with
    state := bs_ready, requests := [exRequest, exRequestSlave] }

/-- An example handler: ready, with `exRequestMaster` queued and no SYN symbol to wait. -/
def exHandlerMaster : BusHandler :=
  { BusHandler.initial 5 10000 15000 with state := bs_ready, requests := [exRequestMaster] }

/-- An example handler: ready, with `exRequestSlave` queued and no SYN symbol to wait. -/
def exHandlerSlave : BusHandler :=
  { BusHandler.initial 5 10000 15000 with state := bs_ready, requests := [exRequestSlave] }

/-! ## Runs of the bus state machine -/

/-- The handler after a sequence of steps, one `handleSymbol` call for each element. -/
def BusHandler.run (h : BusHandler) : List PortStep → BusHandler
  | [] => h
  | io :: ios => BusHandler.run (h.handleSymbol io).2 ios

/-- The effects of one step: what the `handleSymbol` call appends to the log. -/
def BusHandler.stepEvents (h : BusHandler) (io : PortStep) : List BusEvent :=
  (h.handleSymbol io).2.events.drop h.events.length

/-- The event is a notification of the request. -/
def BusEvent.isNotification (req : BusRequest) : BusEvent → Bool
  | BusEvent.notified r _ _ => r == req
  | _ => false

/-- The event is a notification of some request. -/
def BusEvent.isNotified : BusEvent → Bool
  | BusEvent.notified _ _ _ => true
  | _ => false

/-- The event is a call of `receiveCompleted`. -/
def BusEvent.isReceiveCompleted : BusEvent → Bool
  | BusEvent.receiveCompleted _ _ _ _ => true
  | _ => false

/-- The step in which the port writes the symbol the handler sends, if any, and the symbol
`b` is received. -/
def PortStep.echo (b : Nat) : PortStep :=
  { sendResult := 1, recv := RecvResult.symbol b, clientRemoved := false }

/-- What the client threads do to the handler between two steps (`sendAndWait`, lines
114-118): `m_requests.add(request)` and `m_requests.remove(request)`. -/
inductive ClientStep where
  | add (request : BusRequest)
  | remove (request : BusRequest)
  deriving DecidableEq, Repr

/-- The handler after a client step: `WQueue::add` appends the request (`wqueue.h`),
`WQueue::remove` takes it out. -/
def BusHandler.client (h : BusHandler) : ClientStep → BusHandler
  | ClientStep.add request => { h with requests := h.requests ++ [request] }
  | ClientStep.remove request => { h with requests := (queueRemove h.requests request).2 }

/-- The handlers that can be reached from the initial one by steps of the state machine
and by the client threads changing the queue in between. -/
inductive BusHandler.Reachable : BusHandler → Prop where
  | initial (lockCount busAcquireTimeout slaveRecvTimeout : Nat) :
      BusHandler.Reachable (BusHandler.initial lockCount busAcquireTimeout slaveRecvTimeout)
  | step (h : BusHandler) (io : PortStep) :
      BusHandler.Reachable h → BusHandler.Reachable (h.handleSymbol io).2
  | client (h : BusHandler) (c : ClientStep) :
      BusHandler.Reachable h → BusHandler.Reachable (h.client c)

/-- Both buffers are empty, `m_nextSendPos` is 0 and both CRC flags are false. -/
def BusHandler.isResynced (h : BusHandler) : Bool :=
  h.command.data.isEmpty && h.response.data.isEmpty && h.nextSendPos == 0 &&
    !h.commandCrcValid && !h.responseCrcValid

/-- A handler that sends nothing and waits for SYN symbols: no request is in flight and
the state is `ready` with a lock count left, or one of `skip` and `recvCmd`. -/
def BusHandler.isWaiting (h : BusHandler) : Prop :=
  h.request = none ∧
    ((h.state = bs_ready ∧ 0 < h.remainLockCount) ∨ h.state = bs_skip ∨ h.state = bs_recvCmd)

/-- An example handler: `exHandlerMaster` after it has won the arbitration and read back
all bytes of the frame of `exRequestMaster` but the CRC. -/
def exSendingMaster : BusHandler :=
  exHandlerMaster.run ([0x03, 0x10, 0xB5, 0x09, 0x01, 0x0D].map PortStep.echo)

/-- An example handler: `exHandlerReady` after it has won the arbitration and read back
all bytes of the broadcast frame of `exRequest` but the CRC. -/
def exSendingBroadcast : BusHandler :=
  exHandlerReady.run ([0x03, 0xFE, 0xB5, 0x16, 0x04, 0x08, 0x04, 0x00, 0x00].map PortStep.echo)

/-- An example handler: `exHandlerSlave` after it has won the arbitration and read back
all bytes of the frame of `exRequestSlave`, the CRC included: it waits for the
acknowledgement of the slave. -/
def exSentSlave : BusHandler :=
  exHandlerSlave.run ([0x03, 0x08, 0xB5, 0x09, 0x01, 0x0D, 0xF0].map PortStep.echo)

/-- An example handler: `exSentSlave` after the slave has acknowledged the frame and sent
the first two symbols 01 05 of its response, the CRC of which is B8. -/
def exReceivingSlave : BusHandler :=
  exSentSlave.run ([ACK, 0x01, 0x05].map PortStep.echo)

/-- The re-synchronisation property of a handler: in the states `ready` and `skip` both
buffers are empty, `m_nextSendPos` is 0 and both CRC flags are false. -/
def BusHandler.resyncOk (h : BusHandler) : Prop :=
  (h.state = bs_ready ∨ h.state = bs_skip) → h.isResynced = true

/-- The handler at the moment the receive call of a step has returned (lines 209-225): the
symbol is sent if necessary, the receive call is logged, and the client's removal of the
request in flight from the queue, if any, has taken place. -/
def BusHandler.received (h : BusHandler) (io : PortStep) : BusHandler :=
  let d := BusHandler.doSend h.decideSend io
  let h := { d.handler with events := d.handler.events ++ [BusEvent.recv d.timeout] }
  if io.clientRemoved = true then
    match h.request with
    | some req => { h with requests := (queueRemove h.requests req).2 }
    | none => h
  else h

/-- An example handler: the initial handler after a client has queued `exRequest`, a SYN
was received and the arbitration was lost against 0x10. -/
def exHandlerLost : BusHandler :=
  ((BusHandler.initial 5 10000 15000).client (ClientStep.add exRequest)).run
    [PortStep.echo SYN, PortStep.echo 0x10]

/-- The port step is possible: a negative count of the receive call is an error code, and
a symbol received is a byte. -/
def PortStep.valid (io : PortStep) : Prop :=
  (∀ code, io.recv = RecvResult.error code → code.isError = true) ∧
  (∀ b, io.recv = RecvResult.symbol b → b < 256)

/-- The history of a handler: the steps made since the initial handler, the newest first,
each with the handler it started from; the clients change the queue in between. -/
inductive BusHandler.History : List (BusHandler × PortStep) → BusHandler → Prop where
  | initial (lockCount busAcquireTimeout slaveRecvTimeout : Nat) :
      BusHandler.History [] (BusHandler.initial lockCount busAcquireTimeout slaveRecvTimeout)
  | step (hist : List (BusHandler × PortStep)) (h : BusHandler) (io : PortStep) :
      BusHandler.History hist h → io.valid →
      BusHandler.History ((h, io) :: hist) (h.handleSymbol io).2
  | client (hist : List (BusHandler × PortStep)) (h : BusHandler) (c : ClientStep) :
      BusHandler.History hist h → BusHandler.History hist (h.client c)

/-- The step wins the arbitration for the request: in state `ready` the request is taken
from the queue, its source address is emitted and read back, and `sendCmd` follows. -/
def BusHandler.wins (req : BusRequest) (p : BusHandler × PortStep) : Prop :=
  p.1.state = bs_ready ∧ p.1.decideSend.handler.request = some req ∧
  p.1.emits p.2 = true ∧ p.1.decideSend.sendSymbol = req.master.get 0 ∧
  p.2.recv = RecvResult.symbol (req.master.get 0) ∧
  (p.1.handleSymbol p.2).2.state = bs_sendCmd

/-- The step reads back the symbol with index `k` of the master frame of the request in
flight, emitted in state `sendCmd`. -/
def BusHandler.echoes (req : BusRequest) (k : Nat) (p : BusHandler × PortStep) : Prop :=
  p.1.state = bs_sendCmd ∧ p.1.request = some req ∧ p.1.nextSendPos = k ∧
  p.1.emits p.2 = true ∧ p.1.decideSend.sendSymbol = req.master.get k ∧
  p.2.recv = RecvResult.symbol (req.master.get k)

/-- The step receives the ACK for the master frame of the request in flight. -/
def BusHandler.acknowledged (req : BusRequest) (p : BusHandler × PortStep) : Prop :=
  p.1.state = bs_recvCmdAck ∧ p.1.request = some req ∧ p.2.recv = RecvResult.symbol ACK

/-- The step receives the last symbol of the response to the request in flight: the
response buffer is complete after it, the CRC is found valid and `sendResAck` follows. -/
def BusHandler.responded (req : BusRequest) (response : SymbolString)
    (p : BusHandler × PortStep) : Prop :=
  p.1.state = bs_recvRes ∧ p.1.request = some req ∧
  (p.1.handleSymbol p.2).2.state = bs_sendResAck ∧
  (p.1.handleSymbol p.2).2.responseCrcValid = true ∧
  (p.1.handleSymbol p.2).2.response = response

/-- The unescaped symbols are a response `NN D1..Dn CRC` with a valid CRC. -/
def SymbolString.isResponse (s : SymbolString) : Bool :=
  s.data.length == s.get 0 + 2 && s.get (s.get 0 + 1) == crcOf (s.data.take (s.get 0 + 1))

/-- The exchange invariant of a handler with its history: when a request is in flight,
the history has a step that won the arbitration for it, the request was in flight in all
steps since, and among these steps are: in `sendCmd`, a step for each symbol of the frame
before `m_nextSendPos` (the source address apart) that read it back; in `recvCmdAck`, one
for each symbol of the frame; in `recvRes`, moreover the step that received the ACK; in
`sendResAck`, moreover the step that completed the response buffer and found the CRC
valid. In no other state a request is in flight. -/
def BusHandler.exchange (hist : List (BusHandler × PortStep)) (h : BusHandler) : Prop :=
  ∀ req, h.request = some req →
    ∃ rest pw pre, hist = rest ++ pw :: pre ∧ BusHandler.wins req pw ∧
      (∀ p ∈ rest, p.1.request = some req) ∧
      ((h.state = bs_sendCmd ∧
          ∀ k, 1 ≤ k → k < h.nextSendPos → ∃ p ∈ rest, BusHandler.echoes req k p) ∨
       ((∀ k, 1 ≤ k → k < req.master.size → ∃ p ∈ rest, BusHandler.echoes req k p) ∧
         (h.state = bs_recvCmdAck ∨
          ((∃ p ∈ rest, BusHandler.acknowledged req p) ∧
            (h.state = bs_recvRes ∨
             (h.state = bs_sendResAck ∧ h.responseCrcValid = true ∧
               ∃ p ∈ rest, BusHandler.responded req h.response p))))))

/-- The running CRC of a receive buffer in unescaped form: the symbols are bytes, and
the CRC covers the length symbol `NN` and the `NN` symbols after it, as far as they have
been received. -/
def SymbolString.crcTracks (s : SymbolString) : Prop :=
  s.escaped = false ∧ (∀ x ∈ s.data, x < 256) ∧ (s.data = [] → s.crc = 0) ∧
  (s.data ≠ [] → s.get 0 ≤ 253 → s.crc = crcOf (s.data.take (s.get 0 + 1)))

/-- The response invariant of a handler: the CRC of the response buffer is the running one,
and in `sendResAck` with the CRC flag set the buffer holds a response with a valid CRC. -/
def BusHandler.responseOk (h : BusHandler) : Prop :=
  h.response.crcTracks ∧
  (h.state = bs_sendResAck → h.responseCrcValid = true → h.response.isResponse = true)

/-- The history of a run: the steps of the run, the newest first, put in front of the
history so far. -/
def BusHandler.trace (h : BusHandler) :
    List PortStep → List (BusHandler × PortStep) → List (BusHandler × PortStep)
  | [], hist => hist
  | io :: ios, hist => BusHandler.trace (h.handleSymbol io).2 ios ((h, io) :: hist)

/-- The symbols of an example exchange, as the handler receives them: a SYN, the frame of
`exRequestSlave` read back, the ACK of the slave and the response 01 05 with its CRC. -/
def exExchangeSteps : List PortStep :=
  [SYN, 0x03, 0x08, 0xB5, 0x09, 0x01, 0x0D, 0xF0, ACK, 0x01, 0x05, 0xB8].map PortStep.echo

/-- An example handler: the initial handler after a client has queued `exRequestSlave` and
the symbols of the example exchange have been received. -/
def exExchanged : BusHandler :=
  ((BusHandler.initial 5 10000 15000).client (ClientStep.add exRequestSlave)).run
    exExchangeSteps

/-- The history of the example handler `exExchanged`. -/
def exExchangeHistory : List (BusHandler × PortStep) :=
  ((BusHandler.initial 5 10000 15000).client (ClientStep.add exRequestSlave)).trace
    exExchangeSteps []

/-! ## The retry loop of `sendAndWait` -/

/-- The value of an `unsigned int`: the number modulo 2^32. -/
def wrapUnsigned (n : Nat) : Nat := n % 4294967296

/-- The value of an `int`: the number in the range of `int` that is congruent to `i` modulo
2^32. The conversion of an `unsigned int` to `int` gives this value on the usual platforms;
an overflow of `int`, which is undefined in C++, is taken the same way. -/
def wrapInt (i : Int) : Int := (i + 2147483648) % 4294967296 - 2147483648

/-- The `for` loop of `BusHandler::sendAndWait` (lines 113-134) from the start of an
iteration (the condition `sendRetries >= 0` holds there) with the given values of the `int`
counters `sendRetries` and `lostRetries`, after `attempt` attempts. `lostStart` is the
value of `m_busLostRetries+1` as an `int`. `results n` is `result` after line 120 in the
attempt with index `n` (the result the bus handler thread gave the request, or
`RESULT_ERR_TIMEOUT` when the wait failed). The value is the number of attempts made and
the result returned. -/
def BusHandler.sendLoop (lostStart : Int) (results : Nat → result_t) :
    Int → Int → Nat → Nat × result_t
  | sendRetries, lostRetries, attempt =>
    let result := results attempt
    if result = RESULT_OK then (attempt + 1, result)
    else if result = RESULT_ERR_BUS_LOST ∧ wrapInt (lostRetries - 1) > 0 then
      let next := wrapInt (wrapInt (sendRetries + 1) - 1)
      if next ≥ 0 then
        BusHandler.sendLoop lostStart results next (wrapInt (lostRetries - 1)) (attempt + 1)
      else (attempt + 1, result)
    else
      let lostRetries := if result = RESULT_ERR_BUS_LOST then lostStart else lostRetries
      let next := wrapInt (sendRetries - 1)
      if next ≥ 0 then
        BusHandler.sendLoop lostStart results next lostRetries (attempt + 1)
      else (attempt + 1, result)
termination_by sendRetries lostRetries =>
  (sendRetries.natAbs, (wrapInt (lostRetries - 1)).toNat)
decreasing_by
  · rename_i h hn
    have hn2 : wrapInt (wrapInt (sendRetries + 1) - 1) ≥ 0 := hn
    have h2 := h.2
    simp only [wrapInt] at hn2 h2 ⊢
    apply Prod.Lex.right'
    · omega
    · omega
  · rename_i hn
    have hn2 : wrapInt (sendRetries - 1) ≥ 0 := hn
    simp only [wrapInt] at hn2 ⊢
    apply Prod.Lex.left
    omega

/-- The method `BusHandler::sendAndWait` (lines 108-137) for the results of the attempts:
the number of attempts made and the result returned. The members `m_failedSendRetries` and
`m_busLostRetries` are `unsigned int`, as the options they are set from (`baseloop.cpp`,
lines 63-64): the sums with 1 are taken on `unsigned int` and converted to the `int`
counters. When the loop makes no attempt the result is the initial `RESULT_SYN`. -/
def BusHandler.sendAndWait (failedSendRetries busLostRetries : Nat)
    (results : Nat → result_t) : Nat × result_t :=
  let sendRetries := wrapInt (wrapUnsigned (wrapUnsigned failedSendRetries + 1))
  let lostRetries := wrapInt (wrapUnsigned (wrapUnsigned busLostRetries + 1))
  if sendRetries ≥ 0 then
    BusHandler.sendLoop lostRetries results sendRetries lostRetries 0
  else (0, RESULT_SYN)

/-- Every attempt times out. -/
def exAllTimeout : Nat → result_t := fun _ => RESULT_ERR_TIMEOUT

/-- The attempts with index below `count` end with `BUS_LOST`, the later ones time out. -/
def exLostThen (count : Nat) : Nat → result_t :=
  fun attempt => if attempt < count then RESULT_ERR_BUS_LOST else RESULT_ERR_TIMEOUT

/-! ## The poll queue -/

/-- The method `Message::isLessPollWeight` (lines 320-329): three tests in a row, each of
which returns `true` when it holds. The products are taken on `unsigned int`. -/
def Message.isLessPollWeight (m other : Message) : Bool :=
  if (m.pollPriority * m.pollCount) % 2 ^ 32
      < (other.pollPriority * other.pollCount) % 2 ^ 32 then true
  else if m.pollPriority < other.pollPriority then true
  else if m.lastPollTime < other.lastPollTime then true
  else false

/-- The weight of a message in the words of the specification: the tuple
(priority × pollCount, priority, lastPollTime). -/
def Message.pollWeight (m : Message) : Nat × Nat × Nat :=
  (m.pollPriority * m.pollCount, m.pollPriority, m.lastPollTime)

/-- The lexicographic order on triples of numbers. -/
def lexLess (a b : Nat × Nat × Nat) : Bool :=
  decide (a.1 < b.1) ||
    (decide (a.1 = b.1) &&
      (decide (a.2.1 < b.2.1) || (decide (a.2.1 = b.2.1) && decide (a.2.2 < b.2.2))))

/-- The order on messages in the words of the specification: the weight of `a` is
lexicographically smaller than the weight of `b`. -/
def Message.pollWeightLess (a b : Message) : Bool := lexLess a.pollWeight b.pollWeight

/-- The member `m_queue` of `WQueue<T>` (`wqueue.h`), front first, for a pointer type `T`
whose values are `none` (NULL) or an item. -/
abbrev WQueue (α : Type) := List (Option α)

/-- The method `WQueue::add` (lines 58-66): `push_back`. -/
def WQueue.add {α : Type} (q : WQueue α) (item : Option α) : WQueue α := q ++ [item]

/-- The method `WQueue::remove(bool wait)` (lines 73-92) without other threads: the
returned item and the queue afterwards, `none` when the call waits for ever (`wait` set
and the queue empty). -/
def WQueue.remove {α : Type} (q : WQueue α) (wait : Bool) : Option (Option α × WQueue α) :=
  if wait = true then
    match q with
    | [] => none
    | item :: rest => some (item, rest)
  else if q.length > 0 then
    match q with
    | [] => some (none, q)
    | item :: rest => some (item, rest)
  else some (none, q)

/-- The method `WQueue::next(bool wait)` (lines 113-130) without other threads: the
returned item and the queue afterwards, `none` when the call waits for ever. -/
def WQueue.next {α : Type} (q : WQueue α) (wait : Bool) : Option (Option α × WQueue α) :=
  if wait = true then
    match q with
    | [] => none
    | item :: _ => some (item, q)
  else if q.length > 0 then some (q.head?.join, q)
  else some (none, q)

/-- The queue after `add(a1)`, ..., `add(an)` on the queue `q`. -/
def WQueue.addAll {α : Type} (q : WQueue α) (items : List (Option α)) : WQueue α :=
  items.foldl WQueue.add q

/-- The items returned by `count` successive calls `remove(false)`, in the order of the
calls, and the queue afterwards. -/
def WQueue.removeMany {α : Type} : Nat → WQueue α → List (Option α) × WQueue α
  | 0, q => ([], q)
  | count + 1, q =>
    match q.remove false with
    | none => ([], q)
    | some (item, rest) =>
      let r := WQueue.removeMany count rest
      (item :: r.1, r.2)

/-! ## The device of a port -/

/-- The enumeration `DeviceType` of `port.h`. -/
inductive DeviceType
  | dt_serial
  | dt_network
  deriving DecidableEq, Repr

/-- The characters of `s.c_str()` that the functions of `string.h` see: those before the
first NUL character. -/
def cString (s : Str) : Str := s.takeWhile (fun c => c ≠ Char.ofNat 0)

/-- The test `strchr(s.c_str(), c) != NULL` for a character `c` other than NUL. -/
def strchrFound (s : Str) (c : Char) : Bool := (cString s).contains c

/-- The device type that the constructor `Port::Port` passes to `setType`
(`port.cpp`, lines 273-277): `dt_network` makes a `DeviceNetwork`, `dt_serial` a
`DeviceSerial`. -/
def Port.deviceType (deviceName : Str) : DeviceType :=
  if strchrFound deviceName '/' = false ∧ strchrFound deviceName ':' = true then
    DeviceType.dt_network
  else DeviceType.dt_serial

/-! ## Creating a message from a row -/

/-- The helper `getDefault` (lines 74-82): the value if it is not empty, if there is no
defaults row, or if `pos` is larger than the size of the row; the cell `defaults->at(pos)`
otherwise. `none` stands for the exception `out_of_range` that `at` throws when `pos` is
the size of the row. -/
def getDefault (value : Str) (defaults : Option (List Str)) (pos : Nat) : Option Str :=
  match defaults with
  | none => some value
  | some row =>
    if value.length > 0 ∨ pos > row.length then some value
    else row.get? pos

/-- The functions that `Message::create` calls and whose definitions are not part of the
sources (`data.cpp`, `symbol.h`). -/
structure RowLib where
  /-- `parseInt(str, 16, 0, 0xff, result)` on a C string: the result code and the value -/
  parseInt : Str → result_t × Nat
  /-- `isValidAddress` -/
  isValidAddress : Nat → Bool
  /-- `DataField::create(it, realEnd, templates, data, isSet, dstAddress)` on the cells from
  `it` to `realEnd`, for the templates at hand: the result code and the fields -/
  createData : List Str → Bool → Nat → result_t × DataField

/-- The search for the defaults row in `Message::create` (lines 120-131): the last of the
default rows whose first cell is `defaultName`, `none` for NULL. (A default row without
cells, on which `(*it)[0]` is undefined, is passed over.) -/
def Message.findDefaults (defaultsRows : Option (List (List Str))) (defaultName : Str) :
    Option (List Str) :=
  match defaultsRows with
  | none => none
  | some rows => rows.reverse.find? (fun row => row.head? == some defaultName)

/-- The loop over one id token in `Message::create` (lines 186-202) from the rest of the
input stream: blanks are skipped, two characters are taken (the second is `char(-1)` when
the stream ends after the first: `eof()` is not yet set there) and parsed as a hex byte,
which is appended to the id. The value is the result code and the id. -/
def Message.parseId (lib : RowLib) : Str → List Nat → result_t × List Nat
  | [], id => (RESULT_OK, id)
  | c :: rest, id =>
    if c = ' ' then Message.parseId lib rest id
    else
      match rest with
      | [] =>
        let r := lib.parseInt (cString [c, Char.ofNat 255])
        if r.1 ≠ RESULT_OK then (r.1, id) else (RESULT_OK, id ++ [r.2 % 256])
      | d :: rest =>
        let r := lib.parseInt (cString [c, d])
        if r.1 ≠ RESULT_OK then (r.1, id) else Message.parseId lib rest (id ++ [r.2 % 256])

/-- The loop that copies field definitions from the defaults row in `Message::create`
(lines 211-221), from `defaultPos = pos`: while the row has a non-empty cell at
`pos + 2`, the six cells from `pos` on are taken (empty strings behind the end of the
row). `fuel` bounds the number of rounds; the size of the row is enough. -/
def Message.defaultFields (defaults : List Str) : Nat → Nat → List Str
  | 0, _ => []
  | fuel + 1, pos =>
    if defaults.length > pos + 2 ∧ (defaults.getD (pos + 2) []).length > 0 then
      (List.range 6).map (fun i => defaults.getD (pos + i) [])
        ++ Message.defaultFields defaults fuel (pos + 6)
    else []

/-- The cells that `Message::create` passes to `DataField::create` (lines 208-230): the
field definitions of the defaults row, if it has some, followed by the cells of the row
behind the id columns. -/
def Message.fieldCells (defaults : Option (List Str)) (it : List Str) : List Str :=
  match defaults with
  | none => it
  | some row =>
    if row.length > 8 + 2 then
      let newTypes := Message.defaultFields row row.length 8
      if newTypes.length > 0 then newTypes ++ it else it
    else it

/-- The part of `Message::create` behind the search for the defaults row (lines 133-237),
for the classification `type` of the type cell, the defaults row found (`none` for NULL)
and the cells from `it` on, which is not at the end there. `*it++` is the head of the
cells left. The value is `none` when `getDefault` throws, else the result code and the
message created (`none` unless the code is `RESULT_OK`). The pointers that lines 145 and
160 take from a temporary string are read as the string. -/
def Message.createWith (lib : RowLib) (type : MessageType) (defaults : Option (List Str))
    (it : List Str) : Option (result_t × Option Message) :=
  let classCell := it.headD []
  let it := it.tail
  match getDefault classCell defaults 1 with
  | none => none
  | some clazz =>
  if it.isEmpty then some (RESULT_ERR_EOF, none) else
  let name := it.headD []
  let it := it.tail
  if it.isEmpty then some (RESULT_ERR_EOF, none) else
  if name.length = 0 then some (RESULT_ERR_INVALID_ARG, none) else
  let commentCell := it.headD []
  let it := it.tail
  match getDefault commentCell defaults 3 with
  | none => none
  | some comment =>
  if it.isEmpty then some (RESULT_ERR_EOF, none) else
  let srcCell := it.headD []
  let it := it.tail
  match getDefault srcCell defaults 4 with
  | none => none
  | some src =>
  if it.isEmpty then some (RESULT_ERR_EOF, none) else
  let srcParsed := lib.parseInt (cString src)
  if cString src ≠ [] ∧ srcParsed.1 ≠ RESULT_OK then some (srcParsed.1, none) else
  if cString src ≠ [] ∧ isMaster (srcParsed.2 % 256) = false then
    some (RESULT_ERR_INVALID_ARG, none) else
  let srcAddress := if cString src = [] then SYN else srcParsed.2 % 256
  let dstCell := it.headD []
  let it := it.tail
  match getDefault dstCell defaults 5 with
  | none => none
  | some dst =>
  if it.isEmpty then some (RESULT_ERR_EOF, none) else
  let dstParsed := lib.parseInt (cString dst)
  if dstParsed.1 ≠ RESULT_OK then some (dstParsed.1, none) else
  let dstAddress := dstParsed.2 % 256
  if lib.isValidAddress dstAddress = false then some (RESULT_ERR_INVALID_ARG, none) else
  let idCell := it.headD []
  let it := it.tail
  let useDefaults := decide (idCell.length = 0)
  match (if useDefaults = true then (getDefault [] defaults 6).map (fun d => d ++ idCell)
      else some idCell) with
  | none => none
  | some token =>
  if it.isEmpty then some (RESULT_ERR_EOF, none) else
  let parsed := Message.parseId lib token []
  if parsed.1 ≠ RESULT_OK then some (parsed.1, none) else
  if parsed.2.length ≠ 2 then some (RESULT_ERR_INVALID_ARG, none) else
  let idCell := it.headD []
  let it := it.tail
  match (if useDefaults = true then (getDefault [] defaults 7).map (fun d => d ++ idCell)
      else some idCell) with
  | none => none
  | some token =>
  if it.isEmpty then some (RESULT_ERR_EOF, none) else
  let parsed := Message.parseId lib token parsed.2
  if parsed.1 ≠ RESULT_OK then some (parsed.1, none) else
  if parsed.2.length < 2 ∨ parsed.2.length > 6 then some (RESULT_ERR_INVALID_ARG, none) else
  let data := lib.createData (Message.fieldCells defaults it) type.isSet dstAddress
  if data.1 ≠ RESULT_OK then some (data.1, none) else
  some (RESULT_OK, some
    { clazz := clazz, name := name, isSet := type.isSet, isPassive := type.isPassive,
      comment := comment, srcAddress := srcAddress, dstAddress := dstAddress,
      id := parsed.2, data := data.2, pollPriority := type.pollPriority })

/-- The method `Message::create` (lines 84-239) on the cells of a row from `it` to `end`
and the default rows read so far (`none` for NULL), oldest first. The value is `none` when
`getDefault` throws, else the result code and the message created. -/
def Message.create (lib : RowLib) (row : List Str) (defaultsRows : Option (List (List Str))) :
    Option (result_t × Option Message) :=
  if row.isEmpty then some (RESULT_ERR_EOF, none) else
  let str := cString (row.headD [])
  let it := row.tail
  if it.isEmpty then some (RESULT_ERR_EOF, none) else
  let type := Message.createType str
  Message.createWith lib type (Message.findDefaults defaultsRows type.defaultName) it

/-! ## Decoding a received frame -/

/-- The method `Message::decode` (lines 295-318) at the time `now`, for the text `output`
already in the stream: the result code, the text in the stream afterwards and the message
afterwards. The offset is an `unsigned char`; `lastValue` is the text behind the position
at which the call found the stream. -/
def Message.decode (m : Message) (partType : PartType) (data : SymbolString) (output : Str)
    (leadingSeparator : Bool) (separator : Char) (now : Nat) : result_t × Str × Message :=
  let offset := if partType = pt_masterData then (m.id.length + 254) % 256 else 0
  let startPos := output.length
  let r := m.data.read partType data offset leadingSeparator false separator
  let output := output ++ r.2
  if r.1 ≠ RESULT_OK then
    (r.1, output, { m with lastUpdateTime := now, lastValue := [] })
  else
    (RESULT_OK, output, { m with lastUpdateTime := now, lastValue := output.drop startPos })

/-- The two calls of `decode` in `BusHandler::receiveCompleted` (lines 470-473) for the
message found, at the times `now` and `later` of the calls: the result code, the text in
`output` and the message afterwards. The default values of the parameters
`leadingSeparator` and `separator` of `decode` are declared in `message.h`, which is not
part of the sources; they are the parameters `leading` and `separator`. -/
def BusHandler.decodeReceived (message : Message) (command response : SymbolString)
    (leading : Bool) (separator : Char) (now later : Nat) : result_t × Str × Message :=
  let r := message.decode pt_masterData command [] leading separator now
  if r.1 = RESULT_OK then
    r.2.2.decode pt_slaveData response r.2.1 (decide (r.2.1.isEmpty = false)) separator later
  else r

/-- The branch of `BusHandler::receiveCompleted` (lines 464-478) for a message found in
the dictionary, `none` when `find` returns NULL. -/
def BusHandler.receiveCompletedFound (getMasterNumber : Nat → Nat) (messages : MessageMap)
    (command response : SymbolString) (leading : Bool) (separator : Char)
    (now later : Nat) : Option (result_t × Str × Message) :=
  match messages.find getMasterNumber command with
  | none => none
  | some message =>
    some (BusHandler.decodeReceived message command response leading separator now later)

/-- An example handler that receives the frame 10 08 B5 09 01 0D of another master for the
second time: the first transfer ended with the wrong CRC 00 and was answered with NAK, so
`m_repeat` is set, and the six symbols before the CRC are in again. -/
def exHandlerRepeat : BusHandler :=
  (BusHandler.initial 5 10000 15000).run
    ([SYN, 0x10, 0x08, 0xB5, 0x09, 0x01, 0x0D, 0x00, NAK,
      0x10, 0x08, 0xB5, 0x09, 0x01, 0x0D].map PortStep.echo)

/-! ## Adding the messages of a row -/

/-- The strings that `getline(stream, type, VALUE_SEPARATOR)` reads from a stream over
`types` until it fails: the pieces between the separators, without a last empty piece
(at the end of the stream `getline` extracts nothing and fails). -/
def getlines (types : Str) : List Str :=
  let pieces := types.splitOn VALUE_SEPARATOR
  if pieces.getLast? = some [] then pieces.dropLast else pieces

/-- The loop of `MessageMap::addFromFile` (lines 381-394) over the types still to read,
with `result` as it stands: for each type the message is created from the row with the
type as its first cell; a failure of `create` returns its result at once; otherwise the
message is added, `result` is the result of `add`, and the loop goes on. The value is
`none` when `create` throws, else the returned result and the dictionary afterwards. -/
def MessageMap.addTypes (lib : RowLib) (getMasterNumber : Nat → Nat) (row : List Str)
    (defaults : Option (List (List Str))) :
    List Str → result_t → MessageMap → Option (result_t × MessageMap)
  | [], result, mm => some (result, mm)
  | type :: types, _, mm =>
    match Message.create lib (type :: row.tail) defaults with
    | none => none
    | some (result, none) => some (result, mm)
    | some (result, some message) =>
      if result ≠ RESULT_OK then some (result, mm)
      else
        let added := mm.add getMasterNumber message
        MessageMap.addTypes lib getMasterNumber row defaults types added.1 added.2

/-- The method `MessageMap::addFromFile` (lines 372-396) on a row with at least one cell:
the first cell lists the types, separated by `VALUE_SEPARATOR`; an empty cell stands for
`r`. -/
def MessageMap.addFromFile (lib : RowLib) (getMasterNumber : Nat → Nat) (mm : MessageMap)
    (row : List Str) (defaults : Option (List (List Str))) : Option (result_t × MessageMap) :=
  let types := row.headD []
  let types := if types.length = 0 then types ++ ['r'] else types
  MessageMap.addTypes lib getMasterNumber row defaults (getlines types) RESULT_ERR_EOF mm

/-- The CRC flags logged with a call of `receiveCompleted` are set: the flag of the
command, and, for a call from `recvResAck`, the flag of the response as well. Any other
event passes. -/
def BusEvent.crcChecked (fromResAck : Bool) : BusEvent → Bool
  | BusEvent.receiveCompleted _ _ commandCrcValid responseCrcValid =>
    commandCrcValid && (!fromResAck || responseCrcValid)
  | _ => true

/-- The property that the CRC flag of the command is set while a response is received or
acknowledged. -/
def BusHandler.commandChecked (h : BusHandler) : Prop :=
  (h.state = bs_recvRes ∨ h.state = bs_recvResAck) → h.commandCrcValid = true

/-- An example handler that has received the frame 10 08 B5 09 01 0D 30 of another master,
the ACK of the slave and the response 01 05 B8 of the slave, and waits for the
acknowledgement of the master. -/
def exHandlerPassive : BusHandler :=
  (BusHandler.initial 5 10000 15000).run
    ([SYN, 0x10, 0x08, 0xB5, 0x09, 0x01, 0x0D, 0x30, ACK, 0x01, 0x05, 0xB8].map PortStep.echo)

/-! ## The life of a request in the state machine -/

/-- The number of times the request is in flight: 1 when `m_request` is the request, 0
otherwise. -/
def BusHandler.inFlight (req : BusRequest) (h : BusHandler) : Nat :=
  if h.request = some req then 1 else 0

/-- The step that starts from the handler takes up the request: the state is `ready` and
the send decision leaves the request in `m_request` (lines 173-174:
`m_request = m_requests.next(false)`). -/
def BusHandler.takesUp (req : BusRequest) (h : BusHandler) : Bool :=
  decide (h.state = bs_ready ∧ h.decideSend.handler.request = some req)

/-- The number of steps of a history that took up the request. -/
def BusHandler.takeUps (req : BusRequest) (hist : List (BusHandler × PortStep)) : Nat :=
  hist.countP (fun p => p.1.takesUp req)

/-- The number of notifications of the request among the events. -/
def BusEvent.notifications (req : BusRequest) (events : List BusEvent) : Nat :=
  events.countP (BusEvent.isNotification req)

/-! ## Notions used to state the lookup claims -/

/-- The assumptions on `getMasterNumber` of `symbol.h`, which is not part of the sources:
the numbers stay below the value 0x1f reserved for active messages, `SYN` (no specific
source) has the number 0 of a cleared source, and the master addresses have pairwise
different numbers. The numbering of the specification (the masters numbered 0 to 24) and a
numbering of the masters from 1 on (the constructor notes the range as `0..25`, line 44)
both meet them. -/
structure MasterNumbering (getMasterNumber : Nat → Nat) : Prop where
  /-- the number fits below the active sentinel 0x1f -/
  lt : ∀ a, getMasterNumber a < 0x1f
  /-- `SYN` stands for no specific source -/
  syn : getMasterNumber SYN = 0
  /-- different master addresses have different numbers -/
  inj : ∀ a b, a < 256 → b < 256 → isMaster a = true → isMaster b = true →
    getMasterNumber a = getMasterNumber b → a = b

/-- A message as `Message::create` builds it (lines 149-208): source `SYN` or a master
address, two to six id symbols, and all of them bytes. -/
def Message.wellFormed (m : Message) : Prop :=
  2 ≤ m.id.length ∧ m.id.length ≤ 6 ∧ (∀ b ∈ m.id, b < 256) ∧ m.dstAddress < 256 ∧
    m.srcAddress < 256 ∧ (m.srcAddress = SYN ∨ isMaster m.srcAddress = true)

/-- A frame of bytes. -/
def SymbolString.isBytes (s : SymbolString) : Prop := ∀ b ∈ s.data, b < 256

/-- The destination and id of the message are those of the master frame: `ZZ` is the
destination, `PB SB` are the first two id symbols and the further id symbols are the first
data symbols. -/
def Message.idMatches (m : Message) (master : SymbolString) : Prop :=
  m.dstAddress = master.get 1 ∧ m.id.take 2 = [master.get 2, master.get 3] ∧
    m.id.drop 2 <+: master.data.drop 5

/-- A passive message matches a master frame: destination and id are those of the frame
and the source is the source of the frame (exact) or `SYN` (wildcard). -/
def Message.matchesFrame (m : Message) (master : SymbolString) : Prop :=
  m.isPassive = true ∧ (m.srcAddress = master.get 0 ∨ m.srcAddress = SYN) ∧
    m.idMatches master

/-- A passive message matches a master frame by its key: destination and id are those of
the frame, and the source is the source of the frame, `SYN`, or a master address with the
master number 0, which gives the key the cleared source of a wildcard-source message. -/
def Message.matchesKey (getMasterNumber : Nat → Nat) (m : Message)
    (master : SymbolString) : Prop :=
  m.isPassive = true ∧
    (m.srcAddress = master.get 0 ∨ m.srcAddress = SYN ∨
      (isMaster m.srcAddress = true ∧ getMasterNumber m.srcAddress = 0)) ∧
    m.idMatches master

/-- The id a frame shows for `idLength` id symbols beyond PB SB: `PB SB` and the first
`idLength` data symbols. -/
def frameId (master : SymbolString) (idLength : Nat) : List Nat :=
  master.get 2 :: master.get 3 :: (List.range idLength).map (fun i => master.get (5 + i))

/-- The frame with the header of `F`, `NN` set to `n`, the first `n` data symbols of `F`
and any further symbols `tail` (such as the CRC). -/
def SymbolString.truncateData (F : SymbolString) (n : Nat) (tail : List Nat) : SymbolString :=
  { F with data := F.data.take 4 ++ [n] ++ (F.data.drop 5).take n ++ tail }

/-- The symbols packed below a key, in arithmetic form: symbol `i` is weighted with
`2 ^ (8 * (exp - i))`. -/
def packSymbols : List Nat → Nat → Nat
  | [], _ => 0
  | b :: bs, exp => b * 2 ^ (8 * exp) + packSymbols bs (exp - 1)

/-! ## Concrete data for the examples -/

/-- An example field set without fields: length 0, writes and reads nothing. -/
def noFields : DataField :=
  { getLength := fun _ => 0
    write := fun _ _ data _ _ => (RESULT_OK, data)
    read := fun _ _ _ _ _ _ => (RESULT_OK, []) }

/-- Modelled from the spec: the index of a self-valid nibble in the table 0, 1, 3, 7, F
(0 to 4), 0 for any other nibble. -/
def exampleNibbleIndex (n : Nat) : Nat :=
  if n = 0x1 then 1 else if n = 0x3 then 2 else if n = 0x7 then 3
  else if n = 0xF then 4 else 0

/-- Modelled from the spec: `getMasterNumber` of `symbol.h`, a bijection of the 25 master
addresses onto 0..24. The masters are numbered in the order of their addresses here, so the
master 0x00 has the number 0; an address that is no master gets 0, the source of a key
without a specific source. -/
def exampleMasterNumber (addr : Nat) : Nat :=
  if isMaster addr then
    5 * exampleNibbleIndex (addr % 256 / 16) + exampleNibbleIndex (addr % 16)
  else 0

/-- An example passive read `heat/temp` from any source to 0x08 with id B5 09 0D. -/
def exMsgWild : Message :=
  { clazz := "heat".toList, name := "temp".toList, isSet := false, isPassive := true,
    comment := [], srcAddress := SYN, dstAddress := 0x08, id := [0xB5, 0x09, 0x0D],
    data := noFields, pollPriority := 0 }

/-- An example passive read `boiler/temp` from source 0x10 to 0x08 with id B5 09 0D. -/
def exMsgExact : Message :=
  { clazz := "boiler".toList, name := "temp".toList, isSet := false, isPassive := true,
    comment := [], srcAddress := 0x10, dstAddress := 0x08, id := [0xB5, 0x09, 0x0D],
    data := noFields, pollPriority := 0 }

/-- An example passive read `heat/mode` from any source to 0x08 with id B5 09. -/
def exMsgShort : Message :=
  { clazz := "heat".toList, name := "mode".toList, isSet := false, isPassive := true,
    comment := [], srcAddress := SYN, dstAddress := 0x08, id := [0xB5, 0x09],
    data := noFields, pollPriority := 0 }

/-- An example master frame from source 0x10 to 0x08: B5 09, three data symbols 0D 01 00
and a last symbol in the place of the CRC. -/
def exFrame10 : SymbolString :=
  { SymbolString.empty with data := [0x10, 0x08, 0xB5, 0x09, 0x03, 0x0D, 0x01, 0x00, 0x77] }

/-- The same example master frame sent from source 0x03. -/
def exFrame03 : SymbolString :=
  { SymbolString.empty with data := [0x03, 0x08, 0xB5, 0x09, 0x03, 0x0D, 0x01, 0x00, 0x77] }

/-- The dictionary after adding `exMsgWild` to the empty one. -/
def exMap1 : MessageMap := (MessageMap.clear.add exampleMasterNumber exMsgWild).2

/-- The dictionary after adding `exMsgWild` and then `exMsgExact`. -/
def exMap2 : MessageMap := (exMap1.add exampleMasterNumber exMsgExact).2

/-- The dictionary after adding `exMsgWild`, `exMsgExact` and then `exMsgShort`. -/
def exMap3 : MessageMap := (exMap2.add exampleMasterNumber exMsgShort).2

/-- An example active read with poll priority 1 that has been polled three times. -/
def exPollLow : Message :=
  { clazz := "heat".toList, name := "low".toList, isSet := false, isPassive := false,
    comment := [], srcAddress := SYN, dstAddress := 0x08, id := [0xB5, 0x09],
    data := noFields, pollPriority := 1, pollCount := 3 }

/-- An example active read with poll priority 3 that has not been polled. -/
def exPollHigh : Message :=
  { clazz := "heat".toList, name := "high".toList, isSet := false, isPassive := false,
    comment := [], srcAddress := SYN, dstAddress := 0x08, id := [0xB5, 0x10],
    data := noFields, pollPriority := 3 }

/-- An example active read with poll priority 1 that has not been polled. -/
def exPollFresh : Message := { exPollLow with pollCount := 0 }

/-- An example passive write `heat/temp` from any source to 0x08 with id B5 09 0E: the
class and name of the passive read `exMsgWild`, another id. -/
def exMsgWildWrite : Message :=
  { exMsgWild with isSet := true, id := [0xB5, 0x09, 0x0E] }

/-- An example active write `heat/low`: the class and name of the active read
`exPollFresh`. -/
def exActiveWrite : Message := { exPollFresh with isSet := true, pollPriority := 0 }

/-- The example dictionary with the active read `exPollFresh` only. -/
def exActiveMap : MessageMap := (MessageMap.clear.add exampleMasterNumber exPollFresh).2

/-- An example of `parseInt(str, 16, 0, 0xff, result)`: one or two hex digits give their
value, anything else is an invalid argument. -/
def exampleParseInt (str : Str) : result_t × Nat :=
  match str with
  | [a] =>
    match hexDigit a with
    | some x => (RESULT_OK, x)
    | none => (RESULT_ERR_INVALID_ARG, 0)
  | [a, b] =>
    match hexDigit a, hexDigit b with
    | some x, some y => (RESULT_OK, 16 * x + y)
    | _, _ => (RESULT_ERR_INVALID_ARG, 0)
  | _ => (RESULT_ERR_INVALID_ARG, 0)

/-- An example of the functions that `Message::create` calls: every address but `SYN` and
`ESC` is valid, and the field definitions give no fields. -/
def exampleLib : RowLib :=
  { parseInt := exampleParseInt
    isValidAddress := fun addr => addr != SYN && addr != ESC
    createData := fun _ _ _ => (RESULT_OK, noFields) }

/-- The cells of an example row, written with commas between the cells; an empty last cell
is a cell. (The reader of `data.h`, lines 628-630, takes the cells with `getline` and drops
an empty last cell, so it reads these cells from the text with one more comma at its
end.) -/
def splitCells (line : Str) : List Str :=
  (line.splitOn FIELD_SEPARATOR)

/-- An example row of an active read with poll priority 2, the master 0x10 in the source
column and no class: `r2,,temp,,10,08,b509,0d,,,`. -/
def exRowSource : List Str := splitCells "r2,,temp,,10,08,b509,0d,,,".toList

/-- The example row without a source: `r2,,temp,,,08,b509,0d,,,`. -/
def exRowPlain : List Str := splitCells "r2,,temp,,,08,b509,0d,,,".toList

/-- An example default row for the type `r2`: `r2,boiler,,,,,,,`. -/
def exDefaultsR2 : List Str := splitCells "r2,boiler,,,,,,,".toList

/-- An example default row for the type `r`: `r,heat,,,,,,,`. -/
def exDefaultsR : List Str := splitCells "r,heat,,,,,,,".toList

/-- The message of the example row `exRowPlain` without default rows. -/
def exCreatedPlain : Message :=
  { clazz := [], name := "temp".toList, isSet := false, isPassive := false, comment := [],
    srcAddress := SYN, dstAddress := 0x08, id := [0xB5, 0x09, 0x0D], data := noFields,
    pollPriority := 2 }

/-- The hex digit of a number below 16. -/
def hexChar (n : Nat) : Char :=
  if n < 10 then Char.ofNat ('0'.toNat + n) else Char.ofNat ('a'.toNat + (n - 10))

/-- The text of a list of symbols in hex digits. -/
def hexText : List Nat → Str
  | [] => []
  | b :: bs => hexChar (b % 256 / 16) :: hexChar (b % 16) :: hexText bs

/-- An example field set: one hex string field of `n` symbols in the master data. The
read of the master data prints the `n` symbols behind the header and the rest of the id in
hex digits, behind the separator if one is asked for; the read of another part prints
nothing. -/
def hexReadField (n : Nat) : DataField :=
  { (hexField n) with
    read := fun part data offset leadingSeparator _ separator =>
      if part = pt_masterData then
        if data.data.length < 5 + offset + n then (RESULT_ERR_INVALID_ARG, [])
        else
          (RESULT_OK, (if leadingSeparator = true then [separator] else [])
            ++ hexText ((data.data.drop (5 + offset)).take n))
      else (RESULT_OK, []) }

/-- An example passive broadcast `time/now` with id B5 16 whose three symbols of data are
all in the master data. -/
def exMsgPassiveBroadcast : Message :=
  { clazz := "time".toList, name := "now".toList, isSet := false, isPassive := true,
    comment := [], srcAddress := SYN, dstAddress := 0xFE, id := [0xB5, 0x16],
    data := hexReadField 3, pollPriority := 0 }

/-- The example dictionary with the passive broadcast only. -/
def exPassiveMap : MessageMap :=
  (MessageMap.clear.add exampleMasterNumber exMsgPassiveBroadcast).2

/-- An example broadcast frame from the master 0x10 with id B5 16 and the data 01 02 03,
with its CRC. -/
def exCommandBroadcast : SymbolString :=
  { SymbolString.empty with
    data := [0x10, 0xFE, 0xB5, 0x16, 0x03, 0x01, 0x02, 0x03,
      crcOf [0x10, 0xFE, 0xB5, 0x16, 0x03, 0x01, 0x02, 0x03]] }

/-- An example default row for the type `r` with four cells: `r,heat,,`. -/
def exDefaultsShort : List Str := splitCells "r,heat,,".toList

/-- An example row laid out with the id in the seventh column alone and the first field
definition from the eighth column on: `r,heat,temp,,,08,b5090d,value,,UCH,,,`. -/
def exRowIdColumn : List Str := splitCells "r,heat,temp,,,08,b5090d,value,,UCH,,,".toList

/-- An example row with the id in the seventh and eighth column and the first field
definition from the ninth column on: `r,heat,temp,,,08,b509,0d,value,,UCH,,,`. -/
def exRowTwoColumns : List Str := splitCells "r,heat,temp,,,08,b509,0d,value,,UCH,,,".toList

/-- The message of the example row `exRowTwoColumns` without default rows. -/
def exCreatedTwoColumns : Message :=
  { clazz := "heat".toList, name := "temp".toList, isSet := false, isPassive := false,
    comment := [], srcAddress := SYN, dstAddress := 0x08, id := [0xB5, 0x09, 0x0D],
    data := noFields, pollPriority := 0 }

/-- An example row that lists the types `r` and `w`:
`r;w,heat,temp,,,08,b509,0d,,,`. -/
def exRowReadWrite : List Str := splitCells "r;w,heat,temp,,,08,b509,0d,,,".toList

/-- The example row with the types in the other order: `w;r,heat,temp,,,08,b509,0d,,,`. -/
def exRowWriteRead : List Str := splitCells "w;r,heat,temp,,,08,b509,0d,,,".toList

/-- An example active read `heat/temp` to 0x08 with id B5 09 0D. -/
def exMsgActiveRead : Message :=
  { clazz := "heat".toList, name := "temp".toList, isSet := false, isPassive := false,
    comment := [], srcAddress := SYN, dstAddress := 0x08, id := [0xB5, 0x09, 0x0D],
    data := noFields, pollPriority := 0 }

/-- The example dictionary with the active read `heat/temp` only. -/
def exReadMap : MessageMap := (MessageMap.clear.add exampleMasterNumber exMsgActiveRead).2

/-- The symbols of a completed exchange: those of `exExchangeSteps`, then the ACK of the
handler and the SYN that ends the exchange, both read back. -/
def exCompletedSteps : List PortStep :=
  exExchangeSteps ++ [PortStep.echo ACK, PortStep.echo SYN]

/-- An example handler: the initial handler after a client has queued `exRequestSlave` and
the symbols of the completed exchange have been received. -/
def exCompleted : BusHandler :=
  ((BusHandler.initial 5 10000 15000).client (ClientStep.add exRequestSlave)).run
    exCompletedSteps

/-- The history of the example handler `exCompleted`. -/
def exCompletedHistory : List (BusHandler × PortStep) :=
  ((BusHandler.initial 5 10000 15000).client (ClientStep.add exRequestSlave)).trace
    exCompletedSteps []

/-! # Theorems -/

/-! ## Lemmas on maps and name keys -/

theorem Map.find_some_mem {κ ν : Type} [DecidableEq κ] (m : Map κ ν) (k : κ) (v : ν)
    (h : Map.find m k = some v) : (k, v) ∈ m := by
  induction m with
  | nil => simp [Map.find] at h
  | cons e rest ih =>
    obtain ⟨k', v'⟩ := e
    simp only [Map.find] at h
    by_cases hk : k' = k
    · simp [hk] at h
      simp [hk, h]
    · simp [hk] at h
      exact List.mem_cons_of_mem _ (ih h)

theorem Map.find_isSome_of_mem {κ ν : Type} [DecidableEq κ] (m : Map κ ν) (k : κ) (v : ν)
    (h : (k, v) ∈ m) : (Map.find m k).isSome = true := by
  induction m with
  | nil => simp at h
  | cons e rest ih =>
    obtain ⟨k', v'⟩ := e
    simp only [Map.find]
    by_cases hk : k' = k
    · simp [hk]
    · simp only [hk, if_false]
      rcases List.mem_cons.1 h with h1 | h1
      · exact absurd (congrArg Prod.fst h1).symm hk
      · exact ih h1

theorem Map.find_eq_none_iff {κ ν : Type} [DecidableEq κ] (m : Map κ ν) (k : κ) :
    Map.find m k = none ↔ ∀ v, (k, v) ∉ m := by
  constructor
  · intro h v hv
    have := Map.find_isSome_of_mem m k v hv
    simp [h] at this
  · intro h
    cases hf : Map.find m k with
    | none => rfl
    | some v => exact absurd (Map.find_some_mem m k v hf) (h v)

theorem nameKey_ne_nameKeyNoClass (p s p' s' : Bool) (c n n' : Str) :
    nameKey p s c n ≠ nameKeyNoClass p' s' n' := by
  cases p <;> cases s <;> cases p' <;> cases s' <;> simp [nameKey, nameKeyNoClass, kindPrefix]

theorem nameKey_head (p s : Bool) (c n : Str) :
    ((nameKey p s c n).head? != some '-') = true := by
  cases p <;> cases s <;> simp [nameKey, kindPrefix]

theorem nameKeyNoClass_head (p s : Bool) (n : Str) :
    ((nameKeyNoClass p s n).head? != some '-') = false := by
  cases p <;> cases s <;> simp [nameKeyNoClass]

theorem nameKeyNoClass_inj (p s p' s' : Bool) (n n' : Str) :
    nameKeyNoClass p s n = nameKeyNoClass p' s' n' ↔ kindPrefix p s = kindPrefix p' s' ∧ n = n' := by
  cases p <;> cases s <;> cases p' <;> cases s' <;> simp [nameKeyNoClass, kindPrefix]

/-- A text with one separator splits in one way only when both of its parts have none. -/
theorem split_unique_left (sep : Char) (c c' n n' : Str) (hc : sep ∉ c) (hn : sep ∉ n)
    (h : c ++ [sep] ++ n = c' ++ [sep] ++ n') : c = c' ∧ n = n' := by
  induction c generalizing c' with
  | nil =>
    cases c' with
    | nil => simpa using h
    | cons x xs =>
      simp at h
      exact absurd (by rw [h.2]; simp) hn
  | cons a as ih =>
    cases c' with
    | nil =>
      simp at h
      exact absurd (h.1 ▸ List.mem_cons_self _ _) hc
    | cons x xs =>
      simp at h
      have hc1 : sep ∉ as := fun hm => hc (List.mem_cons_of_mem _ hm)
      have := ih xs hc1 (by simpa using h.2)
      exact ⟨by rw [h.1, this.1], this.2⟩

theorem nameKey_inj_left (p s p' s' : Bool) (c n c' n' : Str)
    (hc : FIELD_SEPARATOR ∉ c) (hn : FIELD_SEPARATOR ∉ n)
    (h : nameKey p s c n = nameKey p' s' c' n') :
    kindPrefix p s = kindPrefix p' s' ∧ c = c' ∧ n = n' := by
  have hk : kindPrefix p s = kindPrefix p' s' ∧ c ++ [FIELD_SEPARATOR] ++ n = c' ++ [FIELD_SEPARATOR] ++ n' := by
    revert h
    cases p <;> cases s <;> cases p' <;> cases s' <;> simp [nameKey, kindPrefix]
  exact ⟨hk.1, split_unique_left FIELD_SEPARATOR c c' n n' hc hn hk.2⟩

/-! ## Lemmas on the 64 bit keys -/

theorem and_mul_pow_eq_zero (x y s : Nat) (hy : y < 2 ^ s) : (x * 2 ^ s) &&& y = 0 := by
  apply Nat.eq_of_testBit_eq
  intro i
  rw [Nat.testBit_and, Nat.zero_testBit, ← Nat.shiftLeft_eq, Nat.testBit_shiftLeft]
  by_cases hi : i < s
  · simp [hi]
  · have : y.testBit i = false :=
      Nat.testBit_lt_two_pow (lt_of_lt_of_le hy (Nat.pow_le_pow_right (by norm_num) (not_lt.1 hi)))
    simp [this]

theorem mul_pow_and_mul_pow (a b s : Nat) : (a * 2 ^ s) &&& (b * 2 ^ s) = (a &&& b) * 2 ^ s := by
  apply Nat.eq_of_testBit_eq
  intro i
  simp only [Nat.testBit_and, ← Nat.shiftLeft_eq, Nat.testBit_shiftLeft]
  by_cases hi : i ≥ s <;> simp [hi]

theorem add_eq_or (a b s : Nat) (hb : b < 2 ^ s) : a * 2 ^ s + b = (a * 2 ^ s) ||| b := by
  rw [Nat.mul_comm a]; exact Nat.mul_add_lt_is_or hb a

theorem key_and_mask (k g L : Nat) (hg : g < 32) (hL : L < 2 ^ 56) :
    (k * 2 ^ 61 + g * 2 ^ 56 + L) &&& ((0x1f <<< (8 * 7)) % 2 ^ 64) = g * 2 ^ 56 := by
  have hM : ((0x1f <<< (8 * 7)) % 2 ^ 64) = 31 * 2 ^ 56 := by decide
  have hGL : g * 2 ^ 56 + L < 2 ^ 61 := by omega
  rw [hM, Nat.add_assoc, add_eq_or _ _ 61 hGL, add_eq_or _ _ 56 hL, Nat.and_comm,
    Nat.and_or_distrib_left, Nat.and_or_distrib_left]
  have h1 : 31 * 2 ^ 56 &&& k * 2 ^ 61 = 0 := by
    rw [Nat.and_comm]; exact and_mul_pow_eq_zero _ _ _ (by norm_num)
  have h2 : 31 * 2 ^ 56 &&& g * 2 ^ 56 = g * 2 ^ 56 := by
    rw [mul_pow_and_mul_pow, Nat.and_comm]
    have : g &&& 31 = g % 2 ^ 5 := Nat.and_pow_two_sub_one_eq_mod g 5
    rw [this, Nat.mod_eq_of_lt (by omega)]
  have h3 : 31 * 2 ^ 56 &&& L = 0 := and_mul_pow_eq_zero _ _ _ hL
  rw [h1, h2, h3]; simp

theorem key_and_not_mask (k g L : Nat) (hk : k < 8) (hg : g < 32) (hL : L < 2 ^ 56) :
    (k * 2 ^ 61 + g * 2 ^ 56 + L) &&& (2 ^ 64 - 1 - (0x1f <<< (8 * 7)) % 2 ^ 64)
      = k * 2 ^ 61 + L := by
  have hM : (2 ^ 64 - 1 - (0x1f <<< (8 * 7)) % 2 ^ 64) = (7 * 2 ^ 61) ||| (2 ^ 56 - 1) := by decide
  have hGL : g * 2 ^ 56 + L < 2 ^ 61 := by omega
  have hL61 : L < 2 ^ 61 := by omega
  rw [hM, Nat.add_assoc, add_eq_or _ _ 61 hGL, add_eq_or _ _ 56 hL, add_eq_or _ _ 61 hL61,
    Nat.and_comm, Nat.and_or_distrib_left, Nat.and_or_distrib_left]
  have h1 : (7 * 2 ^ 61 ||| 2 ^ 56 - 1) &&& k * 2 ^ 61 = k * 2 ^ 61 := by
    rw [Nat.and_comm, Nat.and_or_distrib_left, mul_pow_and_mul_pow,
      and_mul_pow_eq_zero _ _ _ (by norm_num)]
    have : k &&& 7 = k % 2 ^ 3 := Nat.and_pow_two_sub_one_eq_mod k 3
    rw [this, Nat.mod_eq_of_lt (by omega)]; simp
  have h2 : (7 * 2 ^ 61 ||| 2 ^ 56 - 1) &&& g * 2 ^ 56 = 0 := by
    have a : g * 2 ^ 56 &&& 7 * 2 ^ 61 = 0 := by
      rw [Nat.and_comm]; exact and_mul_pow_eq_zero 7 (g * 2 ^ 56) 61 (by omega)
    have b : g * 2 ^ 56 &&& (2 ^ 56 - 1) = 0 := and_mul_pow_eq_zero g (2 ^ 56 - 1) 56 (by norm_num)
    rw [Nat.and_comm, Nat.and_or_distrib_left, a, b]; simp
  have h3 : (7 * 2 ^ 61 ||| 2 ^ 56 - 1) &&& L = L := by
    have a : L &&& 7 * 2 ^ 61 = 0 := by
      rw [Nat.and_comm]; exact and_mul_pow_eq_zero 7 L 61 hL61
    rw [Nat.and_comm, Nat.and_or_distrib_left, a,
      Nat.and_pow_two_sub_one_eq_mod, Nat.mod_eq_of_lt hL]; simp
  rw [h1, h2, h3]; simp

theorem or_step (key b e : Nat) (hb : b < 256) (hk : key % 2 ^ (8 * e + 8) = 0)
    (hlt : key < 2 ^ 64) (he : e ≤ 7) :
    (key ||| b <<< (8 * e)) % 2 ^ 64 = key + b * 2 ^ (8 * e) ∧
      key + b * 2 ^ (8 * e) < 2 ^ 64 ∧ (key + b * 2 ^ (8 * e)) % 2 ^ (8 * e) = 0 := by
  have hx : b * 2 ^ (8 * e) < 2 ^ (8 * e + 8) := by
    have hpos : 0 < 2 ^ (8 * e) := Nat.pow_pos (by norm_num)
    rw [Nat.pow_add]
    have : b * 2 ^ (8 * e) < 256 * 2 ^ (8 * e) := Nat.mul_lt_mul_of_pos_right hb hpos
    omega
  have hkey : key = key / 2 ^ (8 * e + 8) * 2 ^ (8 * e + 8) :=
    (Nat.div_mul_cancel (Nat.dvd_of_mod_eq_zero hk)).symm
  have hor : key ||| b <<< (8 * e) = key + b * 2 ^ (8 * e) := by
    rw [Nat.shiftLeft_eq]
    conv_lhs => rw [hkey]
    conv_rhs => rw [hkey]
    exact (add_eq_or _ _ _ hx).symm
  have hbound : key + b * 2 ^ (8 * e) < 2 ^ 64 ∧ (key + b * 2 ^ (8 * e)) % 2 ^ (8 * e) = 0 := by
    interval_cases e <;> norm_num at hk hx ⊢ <;> omega
  exact ⟨by rw [hor, Nat.mod_eq_of_lt hbound.1], hbound⟩

theorem packSymbols_lt (bs : List Nat) (e : Nat) (hlen : bs.length ≤ e + 1)
    (hb : ∀ b ∈ bs, b < 256) : packSymbols bs e < 2 ^ (8 * e + 8) := by
  induction bs generalizing e with
  | nil => simp [packSymbols]
  | cons b bs ih =>
    simp only [packSymbols]
    have hb0 : b < 256 := hb b (List.mem_cons_self _ _)
    have hbs : ∀ x ∈ bs, x < 256 := fun x hx => hb x (List.mem_cons_of_mem _ hx)
    cases bs with
    | nil =>
      simp only [packSymbols, Nat.add_zero]
      have hpos : 0 < 2 ^ (8 * e) := Nat.pow_pos (by norm_num)
      rw [Nat.pow_add]
      have : b * 2 ^ (8 * e) < 256 * 2 ^ (8 * e) := Nat.mul_lt_mul_of_pos_right hb0 hpos
      omega
    | cons c cs =>
      have he : 1 ≤ e := by simp at hlen; omega
      have := ih (e - 1) (by simp at hlen ⊢; omega) hbs
      have h8 : 8 * (e - 1) + 8 = 8 * e := by omega
      rw [h8] at this
      have : b * 2 ^ (8 * e) + packSymbols (c :: cs) (e - 1) < 256 * 2 ^ (8 * e) := by
        have : b * 2 ^ (8 * e) ≤ 255 * 2 ^ (8 * e) := Nat.mul_le_mul_right _ (by omega)
        omega
      rw [Nat.pow_add]; omega

theorem orSymbols_eq (bs : List Nat) (e key : Nat) (hlen : bs.length ≤ e + 1)
    (hb : ∀ b ∈ bs, b < 256) (hk : key % 2 ^ (8 * e + 8) = 0) (hlt : key < 2 ^ 64)
    (he : e ≤ 7) : orSymbols bs e key = key + packSymbols bs e := by
  induction bs generalizing e key with
  | nil => simp [orSymbols, packSymbols]
  | cons b bs ih =>
    have hb0 : b < 256 := hb b (List.mem_cons_self _ _)
    have hbs : ∀ x ∈ bs, x < 256 := fun x hx => hb x (List.mem_cons_of_mem _ hx)
    obtain ⟨h1, h2, h3⟩ := or_step key b e hb0 hk hlt he
    simp only [orSymbols, packSymbols]
    rw [h1]
    cases bs with
    | nil => simp [orSymbols, packSymbols]
    | cons c cs =>
      have he1 : 1 ≤ e := by simp at hlen; omega
      have h8 : 8 * (e - 1) + 8 = 8 * e := by omega
      rw [ih (e - 1) _ (by simp at hlen ⊢; omega) hbs (by rw [h8]; exact h3) h2 (by omega)]
      omega


theorem or_field (key x s w : Nat) (hx : x < 2 ^ w) (hk : key % 2 ^ (s + w) = 0) :
    key ||| x <<< s = key + x * 2 ^ s := by
  have hxs : x * 2 ^ s < 2 ^ (s + w) := by
    have hpos : 0 < 2 ^ s := Nat.pow_pos (by norm_num)
    rw [Nat.pow_add, Nat.mul_comm (2 ^ s)]
    exact Nat.mul_lt_mul_of_pos_right hx hpos
  have hkey : key = key / 2 ^ (s + w) * 2 ^ (s + w) :=
    (Nat.div_mul_cancel (Nat.dvd_of_mod_eq_zero hk)).symm
  rw [Nat.shiftLeft_eq]
  conv_lhs => rw [hkey]
  conv_rhs => rw [hkey]
  exact (add_eq_or _ _ _ hxs).symm

theorem mul_add_inj (a a' r r' M : Nat) (hr : r < M) (hr' : r' < M)
    (h : a * M + r = a' * M + r') : a = a' ∧ r = r' := by
  have h1 : (a * M + r) % M = (a' * M + r') % M := by rw [h]
  rw [Nat.mul_add_mod_of_lt hr, Nat.mul_add_mod_of_lt hr'] at h1
  subst h1
  have hM : 0 < M := by omega
  have h2 : a * M = a' * M := by omega
  exact ⟨Nat.eq_of_mul_eq_mul_right hM h2, rfl⟩

theorem packSymbols_tail_lt (bs : List Nat) (e : Nat) (hlen : bs.length ≤ e)
    (hb : ∀ b ∈ bs, b < 256) : packSymbols bs (e - 1) < 2 ^ (8 * e) := by
  cases bs with
  | nil => simp [packSymbols]
  | cons c cs =>
    have he : 1 ≤ e := by simp at hlen; omega
    have := packSymbols_lt (c :: cs) (e - 1) (by simp at hlen ⊢; omega) hb
    have h8 : 8 * (e - 1) + 8 = 8 * e := by omega
    rwa [h8] at this

theorem packSymbols_inj (bs bs' : List Nat) (e : Nat) (hl : bs.length = bs'.length)
    (hlen : bs.length ≤ e + 1) (hb : ∀ b ∈ bs, b < 256) (hb' : ∀ b ∈ bs', b < 256)
    (h : packSymbols bs e = packSymbols bs' e) : bs = bs' := by
  induction bs generalizing bs' e with
  | nil =>
    cases bs' with
    | nil => rfl
    | cons _ _ => simp at hl
  | cons b bs ih =>
    cases bs' with
    | nil => simp at hl
    | cons b' bs' =>
      simp only [packSymbols] at h
      have hbs : ∀ x ∈ bs, x < 256 := fun x hx => hb x (List.mem_cons_of_mem _ hx)
      have hbs' : ∀ x ∈ bs', x < 256 := fun x hx => hb' x (List.mem_cons_of_mem _ hx)
      have hl' : bs.length = bs'.length := by simpa using hl
      have hle : bs.length ≤ e := by simp at hlen; omega
      have t1 := packSymbols_tail_lt bs e hle hbs
      have t2 := packSymbols_tail_lt bs' e (by omega) hbs'
      obtain ⟨e1, e2⟩ := mul_add_inj _ _ _ _ _ t1 t2 h
      cases bs with
      | nil =>
        cases bs' with
        | nil => rw [e1]
        | cons _ _ => simp at hl'
      | cons c cs =>
        have he : 1 ≤ e := by simp at hle; omega
        rw [e1, ih bs' (e - 1) hl' (by omega) hbs hbs' e2]

theorem SymbolString.get_lt (s : SymbolString) (h : s.isBytes) (i : Nat) : s.get i < 256 := by
  unfold SymbolString.get
  rw [List.getD_eq_getElem?_getD]
  cases hi : s.data[i]? with
  | none => simp
  | some v =>
    obtain ⟨hlt, hv⟩ := List.getElem?_eq_some_iff.1 hi
    have : v ∈ s.data := hv ▸ List.getElem_mem hlt
    simpa using h v this

/-- The key of a passive message in arithmetic form. -/
theorem Message.getKey_eq (gmn : Nat → Nat) (m : Message) (hp : m.isPassive = true)
    (h2 : 2 ≤ m.id.length) (h6 : m.id.length ≤ 6) (hb : ∀ b ∈ m.id, b < 256)
    (hd : m.dstAddress < 256) (hg : gmn m.srcAddress < 32) :
    m.getKey gmn = (m.id.length - 2) * 2 ^ 61 + gmn m.srcAddress * 2 ^ 56
      + m.dstAddress * 2 ^ 48 + packSymbols m.id 5 := by
  unfold Message.getKey
  simp only [hp, if_true]
  have e0 : (m.id.length + (2 ^ 64 - 2)) % 2 ^ 64 = m.id.length - 2 := by omega
  have e1 : (m.id.length - 2) <<< (8 * 7 + 5) % 2 ^ 64 = (m.id.length - 2) * 2 ^ 61 := by
    rw [Nat.shiftLeft_eq]; apply Nat.mod_eq_of_lt; omega
  have e2 : ((m.id.length - 2) * 2 ^ 61 ||| gmn m.srcAddress <<< (8 * 7)) % 2 ^ 64
      = (m.id.length - 2) * 2 ^ 61 + gmn m.srcAddress * 2 ^ 56 := by
    rw [or_field _ _ (8 * 7) 5 (by omega) (by omega)]; apply Nat.mod_eq_of_lt; omega
  have e3 : ((m.id.length - 2) * 2 ^ 61 + gmn m.srcAddress * 2 ^ 56 |||
      m.dstAddress <<< (8 * 6)) % 2 ^ 64
      = (m.id.length - 2) * 2 ^ 61 + gmn m.srcAddress * 2 ^ 56 + m.dstAddress * 2 ^ 48 := by
    rw [or_field _ _ (8 * 6) 8 (by omega) (by omega)]; apply Nat.mod_eq_of_lt; omega
  rw [e0, e1, e2, e3]
  exact orSymbols_eq m.id 5 _ (by omega) hb (by omega) (by omega) (by omega)

/-- The first `j` data symbols of a frame that has them. -/
theorem range_map_get (s : SymbolString) (j : Nat) (hs : 5 + j ≤ s.size) :
    (List.range j).map (fun i => s.get (5 + i)) = (s.data.drop 5).take j := by
  apply List.ext_getElem
  · simp [SymbolString.size] at hs ⊢; omega
  · intro i h1 h2
    simp only [List.getElem_map, List.getElem_range, List.getElem_take, List.getElem_drop]
    unfold SymbolString.get
    simp [SymbolString.size] at hs h1
    rw [List.getD_eq_getElem _ _ (by omega)]

/-- The key of a frame in arithmetic form. -/
theorem frameKey_eq (gmn : Nat → Nat) (F : SymbolString) (j : Nat) (hF : F.isBytes)
    (hj : j ≤ 4) (hg : gmn (F.get 0) < 32) :
    frameKey gmn F j = j * 2 ^ 61 + gmn (F.get 0) * 2 ^ 56 + F.get 1 * 2 ^ 48
      + packSymbols (F.get 2 :: F.get 3 :: (List.range j).map (fun i => F.get (5 + i))) 5 := by
  unfold frameKey
  simp only
  have b1 := F.get_lt hF 1
  have b2 := F.get_lt hF 2
  have b3 := F.get_lt hF 3
  have e1 : j <<< (8 * 7 + 5) % 2 ^ 64 = j * 2 ^ 61 := by
    rw [Nat.shiftLeft_eq]; apply Nat.mod_eq_of_lt; omega
  have e2 : (j * 2 ^ 61 ||| gmn (F.get 0) <<< (8 * 7)) % 2 ^ 64
      = j * 2 ^ 61 + gmn (F.get 0) * 2 ^ 56 := by
    rw [or_field _ _ (8 * 7) 5 (by omega) (by omega)]; apply Nat.mod_eq_of_lt; omega
  have e3 : (j * 2 ^ 61 + gmn (F.get 0) * 2 ^ 56 ||| F.get 1 <<< (8 * 6)) % 2 ^ 64
      = j * 2 ^ 61 + gmn (F.get 0) * 2 ^ 56 + F.get 1 * 2 ^ 48 := by
    rw [or_field _ _ (8 * 6) 8 (by omega) (by omega)]; apply Nat.mod_eq_of_lt; omega
  have e4 : (j * 2 ^ 61 + gmn (F.get 0) * 2 ^ 56 + F.get 1 * 2 ^ 48 |||
      F.get 2 <<< (8 * 5)) % 2 ^ 64
      = j * 2 ^ 61 + gmn (F.get 0) * 2 ^ 56 + F.get 1 * 2 ^ 48 + F.get 2 * 2 ^ 40 := by
    rw [or_field _ _ (8 * 5) 8 (by omega) (by omega)]; apply Nat.mod_eq_of_lt; omega
  have e5 : (j * 2 ^ 61 + gmn (F.get 0) * 2 ^ 56 + F.get 1 * 2 ^ 48 + F.get 2 * 2 ^ 40 |||
      F.get 3 <<< (8 * 4)) % 2 ^ 64
      = j * 2 ^ 61 + gmn (F.get 0) * 2 ^ 56 + F.get 1 * 2 ^ 48 + F.get 2 * 2 ^ 40
        + F.get 3 * 2 ^ 32 := by
    rw [or_field _ _ (8 * 4) 8 (by omega) (by omega)]; apply Nat.mod_eq_of_lt; omega
  rw [e1, e2, e3, e4, e5]
  have hdata : ∀ b ∈ (List.range j).map (fun i => F.get (5 + i)), b < 256 := by
    intro b hb
    obtain ⟨i, _, rfl⟩ := List.mem_map.1 hb
    exact F.get_lt hF _
  rw [orSymbols_eq _ 3 _ (by simp; omega) hdata (by omega) (by omega) (by omega)]
  simp only [packSymbols]
  have h53 : 5 - 1 - 1 = 3 := rfl
  have h51 : 5 - 1 = 4 := rfl
  rw [h51, h53]
  omega

/-! ## Invariants of a built dictionary -/

/-- The result of `add` is either `RESULT_ERR_DUPLICATE` with the dictionary unchanged or
`RESULT_OK`. -/
theorem MessageMap.add_result (gmn : Nat → Nat) (mm : MessageMap) (msg : Message) :
    ((mm.add gmn msg).1 = RESULT_ERR_DUPLICATE ∧ (mm.add gmn msg).2 = mm) ∨
      (mm.add gmn msg).1 = RESULT_OK := by
  unfold MessageMap.add
  simp only
  split
  · exact Or.inl ⟨rfl, rfl⟩
  · split
    · exact Or.inl ⟨rfl, rfl⟩
    · exact Or.inr rfl

/-- When `add` succeeds both duplicate checks missed, and the new dictionary is the old one
with the message entered. -/
theorem MessageMap.add_ok (gmn : Nat → Nat) (mm : MessageMap) (msg : Message)
    (h : (mm.add gmn msg).1 = RESULT_OK) :
    (msg.isPassive = true → mm.passiveMessagesByKey.find (msg.getKey gmn) = none) ∧
    mm.messagesByName.find (nameKey msg.isPassive msg.isSet msg.clazz msg.name) = none ∧
    (mm.add gmn msg).2.messagesByName =
      (nameKeyNoClass msg.isPassive msg.isSet msg.name, msg) ::
        (nameKey msg.isPassive msg.isSet msg.clazz msg.name, msg) :: mm.messagesByName ∧
    (mm.add gmn msg).2.messageCount = mm.messageCount + 1 ∧
    (mm.add gmn msg).2.passiveMessagesByKey =
      (if msg.isPassive = true then (msg.getKey gmn, msg) :: mm.passiveMessagesByKey
       else mm.passiveMessagesByKey) ∧
    (mm.add gmn msg).2.minIdLength =
      (if msg.isPassive = true ∧ (msg.id.length + 254) % 256 < mm.minIdLength
       then (msg.id.length + 254) % 256 else mm.minIdLength) ∧
    (mm.add gmn msg).2.maxIdLength =
      (if msg.isPassive = true ∧ (msg.id.length + 254) % 256 > mm.maxIdLength
       then (msg.id.length + 254) % 256 else mm.maxIdLength) := by
  unfold MessageMap.add at h ⊢
  simp only at h ⊢
  split at h
  · simp at h
  · rename_i h1
    split at h
    · simp at h
    · rename_i h2
      rw [if_neg h1, if_neg h2]
      refine ⟨?_, ?_, rfl, rfl, rfl, rfl, rfl⟩
      · intro hp
        cases hf : Map.find mm.passiveMessagesByKey (msg.getKey gmn) with
        | none => rfl
        | some v => exact absurd ⟨hp, by simp [hf]⟩ h1
      · cases hf : Map.find mm.messagesByName
            (nameKey msg.isPassive msg.isSet msg.clazz msg.name) with
        | none => rfl
        | some v => exact absurd (by simp [hf]) h2

theorem MessageMap.stored_add (gmn : Nat → Nat) (mm : MessageMap) (msg : Message)
    (h : (mm.add gmn msg).1 = RESULT_OK) : (mm.add gmn msg).2.stored = msg :: mm.stored := by
  obtain ⟨_, _, hn, _⟩ := MessageMap.add_ok gmn mm msg h
  unfold MessageMap.stored
  rw [hn]
  simp [List.filter_cons, nameKey_head, nameKeyNoClass_head]

theorem MessageMap.mem_stored_iff (mm : MessageMap) (m : Message) :
    m ∈ mm.stored ↔ ∃ k, (k, m) ∈ mm.messagesByName ∧ (k.head? != some '-') = true := by
  unfold MessageMap.stored
  simp only [List.mem_map, List.mem_filter]
  constructor
  · rintro ⟨⟨k, m'⟩, ⟨hm, hk⟩, rfl⟩
    exact ⟨k, hm, hk⟩
  · rintro ⟨k, hm, hk⟩
    exact ⟨(k, m), ⟨hm, hk⟩, rfl⟩

theorem MessageMap.Built.inv {gmn : Nat → Nat} {msgs : List Message} {mm : MessageMap}
    (hb : MessageMap.Built gmn msgs mm) : MessageMap.Inv gmn mm := by
  induction hb with
  | clear =>
    constructor
    · intro k m h; simp [MessageMap.clear] at h
    · intro m h; simp [MessageMap.clear, MessageMap.stored] at h
    · intro p s n; simp [MessageMap.clear, MessageMap.stored, Map.find]
    · intro k m h; simp [MessageMap.clear] at h
    · intro k m h; simp [MessageMap.clear] at h
  | add msgs mm msg _ hok ih =>
    obtain ⟨hpk, hnk, hn, _, hk, hmin, hmax⟩ := MessageMap.add_ok gmn mm msg hok
    have hst := MessageMap.stored_add gmn mm msg hok
    constructor
    · intro k m h
      rw [hn] at h
      rcases List.mem_cons.1 h with h1 | h1
      · injection h1 with h1 h2
        subst h2; exact Or.inr h1
      · rcases List.mem_cons.1 h1 with h2 | h2
        · injection h2 with h2 h3
          subst h3; exact Or.inl h2
        · exact ih.byName k m h2
    · intro m hm
      rw [hst] at hm
      rw [hn]
      simp only [Map.find]
      rw [if_neg (fun hc => nameKey_ne_nameKeyNoClass _ _ _ _ _ _ _ hc.symm)]
      rcases List.mem_cons.1 hm with h1 | h1
      · subst h1; simp
      · have hf := ih.storedFind m h1
        by_cases hkk : nameKey msg.isPassive msg.isSet msg.clazz msg.name
            = nameKey m.isPassive m.isSet m.clazz m.name
        · rw [hkk] at hnk; rw [hnk] at hf; cases hf
        · rw [if_neg hkk]; exact hf
    · intro p s n
      rw [hst, hn]
      simp only [Map.find, List.find?_cons]
      by_cases hkk : nameKeyNoClass msg.isPassive msg.isSet msg.name = nameKeyNoClass p s n
      · rw [if_pos hkk]
        have := (nameKeyNoClass_inj _ _ _ _ _ _).1 hkk
        simp [Message.kind, this.1, this.2]
      · rw [if_neg hkk, if_neg (nameKey_ne_nameKeyNoClass _ _ _ _ _ _ _)]
        have hne : ¬ (msg.kind = kindPrefix p s ∧ msg.name = n) := by
          intro hc
          exact hkk ((nameKeyNoClass_inj _ _ _ _ _ _).2 hc)
        simp only [hne, decide_False]
        exact ih.noClassFind p s n
    · intro k m h
      rw [hk] at h
      rw [hmin, hmax]
      by_cases hp : msg.isPassive = true
      · simp only [hp, if_true, true_and] at h ⊢
        rcases List.mem_cons.1 h with h1 | h1
        · injection h1 with h1 h2
          subst h2
          refine ⟨hp, h1, ?_, ?_⟩
          · split <;> omega
          · split <;> omega
        · obtain ⟨a, b, c, d⟩ := ih.byKey k m h1
          refine ⟨a, b, ?_, ?_⟩
          · split <;> omega
          · split <;> omega
      · simp only [hp, if_false, false_and] at h ⊢
        exact ih.byKey k m h
    · intro k m h
      rw [hk] at h ⊢
      by_cases hp : msg.isPassive = true
      · simp only [hp, if_true] at h ⊢
        simp only [Map.find]
        rcases List.mem_cons.1 h with h1 | h1
        · injection h1 with h1 h2
          subst h1 h2; simp
        · have hf := ih.byKeyFind k m h1
          by_cases hkk : msg.getKey gmn = k
          · rw [hkk] at hpk; rw [hpk hp] at hf; cases hf
          · rw [if_neg hkk]; exact hf
      · simp only [hp, if_false] at h ⊢
        exact ih.byKeyFind k m h

/-- The messages a built dictionary owns are the added ones. -/
theorem MessageMap.Built.stored_eq {gmn : Nat → Nat} {msgs : List Message} {mm : MessageMap}
    (hb : MessageMap.Built gmn msgs mm) : mm.stored = msgs := by
  induction hb with
  | clear => simp [MessageMap.clear, MessageMap.stored]
  | add msgs mm msg _ hok ih => rw [MessageMap.stored_add gmn mm msg hok, ih]

/-- The passive index of a built dictionary holds the added passive messages. -/
theorem MessageMap.Built.passive_eq {gmn : Nat → Nat} {msgs : List Message} {mm : MessageMap}
    (hb : MessageMap.Built gmn msgs mm) :
    mm.passiveMessages = msgs.filter (fun m => m.isPassive) := by
  induction hb with
  | clear => simp [MessageMap.clear, MessageMap.passiveMessages]
  | add msgs mm msg _ hok ih =>
    obtain ⟨_, _, _, _, hk, _, _⟩ := MessageMap.add_ok gmn mm msg hok
    unfold MessageMap.passiveMessages at ih ⊢
    rw [hk]
    by_cases hp : msg.isPassive = true
    · simp [hp, List.filter_cons, ih]
    · simp [hp, List.filter_cons, ih]

theorem MessageMap.mem_passive_find {gmn : Nat → Nat} {msgs : List Message} {mm : MessageMap}
    (hb : MessageMap.Built gmn msgs mm) (m : Message) (hm : m ∈ msgs)
    (hp : m.isPassive = true) :
    mm.passiveMessagesByKey.find (m.getKey gmn) = some m := by
  have hmem : m ∈ mm.passiveMessages := by
    rw [hb.passive_eq]; exact List.mem_filter.2 ⟨hm, by simpa using hp⟩
  unfold MessageMap.passiveMessages at hmem
  obtain ⟨⟨k, m'⟩, hkm, rfl⟩ := List.mem_map.1 hmem
  have := hb.inv.byKey k m' hkm
  rw [← this.2.1]
  exact hb.inv.byKeyFind k m' hkm

theorem MessageMap.find_passive_mem {gmn : Nat → Nat} {msgs : List Message} {mm : MessageMap}
    (hb : MessageMap.Built gmn msgs mm) (k : Nat) (m : Message)
    (hf : mm.passiveMessagesByKey.find k = some m) :
    m ∈ msgs ∧ m.isPassive = true ∧ k = m.getKey gmn ∧
      mm.minIdLength ≤ (m.id.length + 254) % 256 ∧ (m.id.length + 254) % 256 ≤ mm.maxIdLength := by
  have hkm := Map.find_some_mem _ _ _ hf
  have hmem : m ∈ mm.passiveMessages := List.mem_map.2 ⟨(k, m), hkm, rfl⟩
  rw [hb.passive_eq] at hmem
  exact ⟨(List.mem_filter.1 hmem).1, hb.inv.byKey k m hkm⟩


/-! ## Lemmas on the lookup by frame -/

theorem frameId_length (F : SymbolString) (j : Nat) : (frameId F j).length = j + 2 := by
  simp [frameId]

theorem frameId_lt (F : SymbolString) (hF : F.isBytes) (j : Nat) :
    ∀ b ∈ frameId F j, b < 256 := by
  intro b hb
  simp only [frameId, List.mem_cons, List.mem_map] at hb
  rcases hb with rfl | rfl | ⟨i, _, rfl⟩ <;> exact F.get_lt hF _

/-- A message of `j + 2` id symbols has the destination and id of the frame exactly when
its id is the id the frame shows for `j`. -/
theorem idMatches_iff (m : Message) (F : SymbolString) (j : Nat) (hs : 5 + j ≤ F.size) :
    (m.id.length = j + 2 ∧ m.idMatches F) ↔
      (m.dstAddress = F.get 1 ∧ m.id = frameId F j) := by
  unfold Message.idMatches frameId
  rw [range_map_get F j hs]
  constructor
  · rintro ⟨hl, hd, ht, hp⟩
    refine ⟨hd, ?_⟩
    have h1 : m.id.drop 2 = (F.data.drop 5).take j := by
      have := List.prefix_iff_eq_take.1 hp
      rw [this]; simp [hl]
    calc m.id = m.id.take 2 ++ m.id.drop 2 := (List.take_append_drop 2 m.id).symm
      _ = _ := by rw [ht, h1]; rfl
  · rintro ⟨hd, hid⟩
    have hlen : ((F.data.drop 5).take j).length = j := by
      simp [SymbolString.size] at hs ⊢; omega
    refine ⟨by rw [hid]; simp [hlen], hd, by rw [hid]; rfl, ?_⟩
    rw [hid]
    simpa using List.take_prefix j (F.data.drop 5)

theorem frameKey_lt_parts (F : SymbolString) (hF : F.isBytes) (j : Nat) (hj : j ≤ 4) :
    F.get 1 * 2 ^ 48 + packSymbols (frameId F j) 5 < 2 ^ 56 := by
  have h1 := F.get_lt hF 1
  have h2 := packSymbols_lt (frameId F j) 5 (by rw [frameId_length]; omega) (frameId_lt F hF j)
  omega

/-- A message whose key is the key of the frame with source number `g` has the id length,
source number, destination and id the key stands for. -/
theorem key_decode (gmn : Nat → Nat) (m : Message) (F : SymbolString) (j g : Nat)
    (hp : m.isPassive = true) (hwf : m.wellFormed) (hlt : ∀ a, gmn a < 0x1f)
    (hF : F.isBytes) (hj : j ≤ 4) (hg : g < 32)
    (h : m.getKey gmn = j * 2 ^ 61 + g * 2 ^ 56 + F.get 1 * 2 ^ 48
      + packSymbols (frameId F j) 5) :
    m.id.length = j + 2 ∧ gmn m.srcAddress = g ∧ m.dstAddress = F.get 1 ∧
      m.id = frameId F j := by
  obtain ⟨h2, h6, hb, hd, _, _⟩ := hwf
  have hgs := hlt m.srcAddress
  rw [Message.getKey_eq gmn m hp h2 h6 hb hd (by omega)] at h
  have p1 := packSymbols_lt m.id 5 (by omega) hb
  have p2 := packSymbols_lt (frameId F j) 5 (by rw [frameId_length]; omega) (frameId_lt F hF j)
  have b1 := F.get_lt hF 1
  have hk : m.id.length - 2 = j ∧ gmn m.srcAddress = g ∧ m.dstAddress = F.get 1 ∧
      packSymbols m.id 5 = packSymbols (frameId F j) 5 := by
    norm_num at p1 p2 h ⊢
    omega
  have hl : m.id.length = j + 2 := by omega
  exact ⟨hl, hk.2.1, hk.2.2.1,
    packSymbols_inj _ _ 5 (by rw [frameId_length]; exact hl) (by omega) hb
      (frameId_lt F hF j) hk.2.2.2⟩

/-- The key of a passive message whose id is the id of the frame. -/
theorem key_encode (gmn : Nat → Nat) (m : Message) (F : SymbolString) (j : Nat)
    (hp : m.isPassive = true) (hwf : m.wellFormed) (hlt : ∀ a, gmn a < 0x1f)
    (hd : m.dstAddress = F.get 1) (hid : m.id = frameId F j) :
    m.getKey gmn = j * 2 ^ 61 + gmn m.srcAddress * 2 ^ 56 + F.get 1 * 2 ^ 48
      + packSymbols (frameId F j) 5 := by
  obtain ⟨h2, h6, hb, hd', _, _⟩ := hwf
  have hgs := hlt m.srcAddress
  rw [Message.getKey_eq gmn m hp h2 h6 hb hd' (by omega), hd, hid, frameId_length]
  simp

theorem frameKey_eq' (gmn : Nat → Nat) (F : SymbolString) (j : Nat) (hF : F.isBytes)
    (hj : j ≤ 4) (hlt : ∀ a, gmn a < 0x1f) :
    frameKey gmn F j = j * 2 ^ 61 + gmn (F.get 0) * 2 ^ 56
      + (F.get 1 * 2 ^ 48 + packSymbols (frameId F j) 5) := by
  have := hlt (F.get 0)
  rw [frameKey_eq gmn F j hF hj (by omega), frameId]
  omega

/-- What a hit of one round of the loop tells about the message found. -/
theorem MessageMap.probe_hit {gmn : Nat → Nat} {msgs : List Message} {mm : MessageMap}
    (hb : MessageMap.Built gmn msgs mm)
    (hwf : ∀ m ∈ msgs, m.isPassive = true → m.wellFormed) (hlt : ∀ a, gmn a < 0x1f)
    (F : SymbolString) (hF : F.isBytes) (j : Nat) (hj : j ≤ 4) (m : Message)
    (h : mm.probe gmn F j = some m) :
    m ∈ msgs ∧ m.isPassive = true ∧ m.id.length = j + 2 ∧ m.dstAddress = F.get 1 ∧
      m.id = frameId F j ∧
      ((mm.passiveMessagesByKey.find (frameKey gmn F j) = some m ∧
          gmn m.srcAddress = gmn (F.get 0)) ∨
       (mm.passiveMessagesByKey.find (frameKey gmn F j) = none ∧ gmn m.srcAddress = 0)) := by
  have hg0 := hlt (F.get 0)
  have hparts := frameKey_lt_parts F hF j hj
  unfold MessageMap.probe at h
  simp only at h
  cases hf : Map.find mm.passiveMessagesByKey (frameKey gmn F j) with
  | some m' =>
    rw [hf] at h
    simp only [Option.some.injEq] at h
    subst h
    obtain ⟨a, b, c, _⟩ := MessageMap.find_passive_mem hb _ m' hf
    rw [frameKey_eq' gmn F j hF hj hlt, ← Nat.add_assoc] at c
    obtain ⟨d1, d2, d3, d4⟩ := key_decode gmn m' F j _ b (hwf m' a b) hlt hF hj (by omega) c.symm
    exact ⟨a, b, d1, d3, d4, Or.inl ⟨rfl, d2⟩⟩
  | none =>
    rw [hf] at h
    simp only at h
    split at h
    · obtain ⟨a, b, c, _⟩ := MessageMap.find_passive_mem hb _ m h
      rw [frameKey_eq' gmn F j hF hj hlt, sourceMask,
        key_and_not_mask j _ _ (by omega) (by omega) hparts] at c
      have c' : m.getKey gmn = j * 2 ^ 61 + 0 * 2 ^ 56 + F.get 1 * 2 ^ 48
          + packSymbols (frameId F j) 5 := by rw [← c]; omega
      obtain ⟨d1, d2, d3, d4⟩ := key_decode gmn m F j 0 b (hwf m a b) hlt hF hj (by omega) c'
      exact ⟨a, b, d1, d3, d4, Or.inr ⟨rfl, d2⟩⟩
    · cases h

/-- The round for `j` finds an added message with the id of the frame and the same source
number as the frame. -/
theorem MessageMap.probe_exact {gmn : Nat → Nat} {msgs : List Message} {mm : MessageMap}
    (hb : MessageMap.Built gmn msgs mm) (hlt : ∀ a, gmn a < 0x1f)
    (F : SymbolString) (hF : F.isBytes) (j : Nat) (hj : j ≤ 4) (m : Message)
    (hm : m ∈ msgs) (hp : m.isPassive = true) (hwf : m.wellFormed)
    (hsrc : gmn m.srcAddress = gmn (F.get 0)) (hd : m.dstAddress = F.get 1)
    (hid : m.id = frameId F j) :
    mm.passiveMessagesByKey.find (frameKey gmn F j) = some m ∧ mm.probe gmn F j = some m := by
  have hk : frameKey gmn F j = m.getKey gmn := by
    rw [frameKey_eq' gmn F j hF hj hlt, key_encode gmn m F j hp hwf hlt hd hid, hsrc]
    omega
  have hf := MessageMap.mem_passive_find hb m hm hp
  rw [← hk] at hf
  refine ⟨hf, ?_⟩
  unfold MessageMap.probe
  simp only [hf]

/-- The round for `j` finds an added message with the id of the frame and source number 0
when the probe with the exact key misses. -/
theorem MessageMap.probe_wild {gmn : Nat → Nat} {msgs : List Message} {mm : MessageMap}
    (hb : MessageMap.Built gmn msgs mm) (hlt : ∀ a, gmn a < 0x1f)
    (F : SymbolString) (hF : F.isBytes) (j : Nat) (hj : j ≤ 4) (m : Message)
    (hm : m ∈ msgs) (hp : m.isPassive = true) (hwf : m.wellFormed)
    (hsrc : gmn m.srcAddress = 0) (hd : m.dstAddress = F.get 1)
    (hid : m.id = frameId F j)
    (hmiss : mm.passiveMessagesByKey.find (frameKey gmn F j) = none) :
    mm.probe gmn F j = some m := by
  have hg0 := hlt (F.get 0)
  have hparts := frameKey_lt_parts F hF j hj
  by_cases hz : gmn (F.get 0) = 0
  · have := (MessageMap.probe_exact hb hlt F hF j hj m hm hp hwf (by rw [hsrc, hz]) hd hid).1
    rw [hmiss] at this; cases this
  · have hf := MessageMap.mem_passive_find hb m hm hp
    have hk : frameKey gmn F j &&& (2 ^ 64 - 1 - sourceMask) = m.getKey gmn := by
      rw [frameKey_eq' gmn F j hF hj hlt, sourceMask,
        key_and_not_mask j _ _ (by omega) (by omega) hparts,
        key_encode gmn m F j hp hwf hlt hd hid, hsrc]
      omega
    have hmask : frameKey gmn F j &&& sourceMask ≠ 0 := by
      rw [frameKey_eq' gmn F j hF hj hlt, sourceMask,
        key_and_mask j _ _ (by omega) hparts]
      omega
    unfold MessageMap.probe
    simp only [hmiss, hmask, ne_eq, not_false_eq_true, if_true, hk, hf]


/-- The loop returns the hit of the first round that hits. -/
theorem MessageMap.findLoop_eq (gmn : Nat → Nat) (mm : MessageMap) (F : SymbolString)
    (L k : Nat) (m : Message) (hmin : mm.minIdLength ≤ k) (hk : k ≤ L)
    (hhit : mm.probe gmn F k = some m)
    (hmiss : ∀ j, k < j → j ≤ L → mm.probe gmn F j = none) :
    MessageMap.findLoop gmn mm F L = some m := by
  induction L with
  | zero =>
    have : k = 0 := by omega
    subst this
    unfold MessageMap.findLoop
    rw [if_neg (by omega), hhit]
  | succ n ih =>
    unfold MessageMap.findLoop
    by_cases hkn : k = n + 1
    · subst hkn
      rw [if_neg (by omega), hhit]
    · rw [if_neg (by omega), hmiss (n + 1) (by omega) (le_refl _)]
      exact ih (by omega) (fun j h1 h2 => hmiss j h1 (by omega))

/-- A result of the loop is the hit of a round inside the window, and the rounds for more
id symbols missed. -/
theorem MessageMap.findLoop_some (gmn : Nat → Nat) (mm : MessageMap) (F : SymbolString)
    (L : Nat) (m : Message) (h : MessageMap.findLoop gmn mm F L = some m) :
    ∃ k, mm.minIdLength ≤ k ∧ k ≤ L ∧ mm.probe gmn F k = some m ∧
      ∀ j, k < j → j ≤ L → mm.probe gmn F j = none := by
  induction L with
  | zero =>
    unfold MessageMap.findLoop at h
    split at h
    · cases h
    · exact ⟨0, by omega, le_refl _, h, fun j h1 h2 => by omega⟩
  | succ n ih =>
    unfold MessageMap.findLoop at h
    split at h
    · cases h
    · rename_i hmin
      cases hp : mm.probe gmn F (n + 1) with
      | some m' =>
        rw [hp] at h
        simp only [Option.some.injEq] at h
        subst h
        exact ⟨n + 1, by omega, le_refl _, hp, fun j h1 h2 => by omega⟩
      | none =>
        rw [hp] at h
        obtain ⟨k, a, b, c, d⟩ := ih h
        refine ⟨k, a, by omega, c, fun j h1 h2 => ?_⟩
        by_cases hj : j = n + 1
        · rw [hj]; exact hp
        · exact d j h1 (by omega)

/-- The lookup by frame is the loop started at `min(NN, maxIdLength)` once the frame has
passed the three length checks. -/
theorem MessageMap.find_eq_findLoop (gmn : Nat → Nat) (mm : MessageMap) (F : SymbolString)
    (h5 : 5 ≤ F.size) (hmin : mm.minIdLength ≤ F.get 4 % 256)
    (hsize : 5 + min (F.get 4 % 256) mm.maxIdLength ≤ F.size) :
    MessageMap.find gmn mm F
      = MessageMap.findLoop gmn mm F (min (F.get 4 % 256) mm.maxIdLength) := by
  unfold MessageMap.find
  simp only
  have hmineq : (if F.get 4 % 256 > mm.maxIdLength then mm.maxIdLength else F.get 4 % 256)
      = min (F.get 4 % 256) mm.maxIdLength := by
    split <;> omega
  rw [if_neg (by omega), if_neg (by omega), hmineq, if_neg (by omega)]

/-- A result of the lookup by frame: the frame passed the length checks and the result is
the hit of a round inside the window. -/
theorem MessageMap.find_some (gmn : Nat → Nat) (mm : MessageMap) (F : SymbolString)
    (m : Message) (h : MessageMap.find gmn mm F = some m) :
    5 ≤ F.size ∧ mm.minIdLength ≤ F.get 4 % 256 ∧
      5 + min (F.get 4 % 256) mm.maxIdLength ≤ F.size ∧
      MessageMap.findLoop gmn mm F (min (F.get 4 % 256) mm.maxIdLength) = some m := by
  unfold MessageMap.find at h
  simp only at h
  have hmineq : (if F.get 4 % 256 > mm.maxIdLength then mm.maxIdLength else F.get 4 % 256)
      = min (F.get 4 % 256) mm.maxIdLength := by
    split <;> omega
  rw [hmineq] at h
  split at h
  · cases h
  · split at h
    · cases h
    · split at h
      · cases h
      · exact ⟨by omega, by omega, by omega, h⟩

/-- The scan window of a built dictionary of well-formed passive messages ends at four id
symbols beyond PB SB. -/
theorem MessageMap.maxIdLength_le {gmn : Nat → Nat} {msgs : List Message} {mm : MessageMap}
    (hb : MessageMap.Built gmn msgs mm)
    (hwf : ∀ m ∈ msgs, m.isPassive = true → m.wellFormed) : mm.maxIdLength ≤ 4 := by
  induction hb with
  | clear => simp [MessageMap.clear]
  | add msgs mm msg _ hok ih =>
    obtain ⟨_, _, _, _, _, _, hmax⟩ := MessageMap.add_ok gmn mm msg hok
    rw [hmax]
    have ih' := ih (fun m hm hp => hwf m (List.mem_cons_of_mem _ hm) hp)
    split
    · rename_i h
      obtain ⟨h2, h6, _⟩ := hwf msg (List.mem_cons_self _ _) h.1
      omega
    · exact ih'

/-- The id length of an added well-formed passive message lies in the scan window. -/
theorem MessageMap.idLength_window {gmn : Nat → Nat} {msgs : List Message} {mm : MessageMap}
    (hb : MessageMap.Built gmn msgs mm) (m : Message) (hm : m ∈ msgs)
    (hp : m.isPassive = true) (hwf : m.wellFormed) :
    mm.minIdLength ≤ m.id.length - 2 ∧ m.id.length - 2 ≤ mm.maxIdLength := by
  have hf := MessageMap.mem_passive_find hb m hm hp
  obtain ⟨_, _, _, a, b⟩ := MessageMap.find_passive_mem hb _ m hf
  obtain ⟨h2, h6, _⟩ := hwf
  omega

/-- The master number of the source of a message that matches a frame by its key is the number
of the source of the frame or 0. -/
theorem Message.matchesKey_number {gmn : Nat → Nat} (hn : MasterNumbering gmn) (m : Message)
    (F : SymbolString) (h : m.matchesKey gmn F) :
    gmn m.srcAddress = gmn (F.get 0) ∨ gmn m.srcAddress = 0 := by
  rcases h.2.1 with h | h | h
  · exact Or.inl (by rw [h])
  · exact Or.inr (by rw [h, hn.syn])
  · exact Or.inr h.2

/-- A hit of a round is a message that matches the frame by its key; when the probe with the
full key hit and the source of the frame has a number other than 0, the message has the
source of the frame. -/
theorem MessageMap.probe_matches {gmn : Nat → Nat} {msgs : List Message} {mm : MessageMap}
    (hb : MessageMap.Built gmn msgs mm) (hn : MasterNumbering gmn)
    (hwf : ∀ m ∈ msgs, m.isPassive = true → m.wellFormed)
    (F : SymbolString) (hF : F.isBytes) (hsrc : isMaster (F.get 0) = true)
    (j : Nat) (hj : j ≤ 4) (hs : 5 + j ≤ F.size) (m : Message)
    (h : mm.probe gmn F j = some m) :
    m ∈ msgs ∧ m.id.length = j + 2 ∧ m.matchesKey gmn F ∧
      (mm.passiveMessagesByKey.find (frameKey gmn F j) = some m → gmn (F.get 0) ≠ 0 →
        m.srcAddress = F.get 0) := by
  obtain ⟨a, b, c, d, e, f⟩ := MessageMap.probe_hit hb hwf hn.lt F hF j hj m h
  have hid := (idMatches_iff m F j hs).2 ⟨d, e⟩
  obtain ⟨_, _, _, _, hs256, hsm⟩ := hwf m a b
  have hF0 := F.get_lt hF 0
  rcases f with ⟨f1, f2⟩ | ⟨f1, f2⟩
  · rcases hsm with hsyn | hmas
    · refine ⟨a, c, ⟨b, Or.inr (Or.inl hsyn), hid.2⟩, fun _ hne => ?_⟩
      rw [hsyn, hn.syn] at f2
      exact absurd f2.symm hne
    · have hx : m.srcAddress = F.get 0 := hn.inj _ _ hs256 hF0 hmas hsrc f2
      exact ⟨a, c, ⟨b, Or.inl hx, hid.2⟩, fun _ _ => hx⟩
  · refine ⟨a, c, ⟨b, ?_, hid.2⟩, fun hc => ?_⟩
    · rcases hsm with hsyn | hmas
      · exact Or.inr (Or.inl hsyn)
      · exact Or.inr (Or.inr ⟨hmas, f2⟩)
    · rw [f1] at hc; cases hc

/-- The round for the id length of an added message that matches the frame by its key
hits, and it hits that message unless the probe with the full key finds another one. -/
theorem MessageMap.probe_of_matchesKey {gmn : Nat → Nat} {msgs : List Message}
    {mm : MessageMap} (hb : MessageMap.Built gmn msgs mm) (hn : MasterNumbering gmn)
    (hwf : ∀ m ∈ msgs, m.isPassive = true → m.wellFormed)
    (F : SymbolString) (hF : F.isBytes) (m : Message) (hm : m ∈ msgs)
    (hmatch : m.matchesKey gmn F) (hs : 5 + (m.id.length - 2) ≤ F.size) :
    (∃ r, mm.probe gmn F (m.id.length - 2) = some r) ∧
      (mm.probe gmn F (m.id.length - 2) = some m ∨
        ∃ r, r ≠ m ∧
          mm.passiveMessagesByKey.find (frameKey gmn F (m.id.length - 2)) = some r) := by
  have hnum := Message.matchesKey_number hn m F hmatch
  obtain ⟨hp, _, hid⟩ := hmatch
  have hw := hwf m hm hp
  have h2 := hw.1
  have h6 := hw.2.1
  have hidk := (idMatches_iff m F (m.id.length - 2) hs).1 ⟨by omega, hid⟩
  rcases hnum with h | h
  · have := (MessageMap.probe_exact hb hn.lt F hF _ (by omega) m hm hp hw h
      hidk.1 hidk.2).2
    exact ⟨⟨m, this⟩, Or.inl this⟩
  · cases hf : Map.find mm.passiveMessagesByKey (frameKey gmn F (m.id.length - 2)) with
    | some r =>
      have hpr : mm.probe gmn F (m.id.length - 2) = some r := by
        unfold MessageMap.probe; simp only [hf]
      refine ⟨⟨r, hpr⟩, ?_⟩
      by_cases hrm : r = m
      · exact Or.inl (by rw [hpr, hrm])
      · exact Or.inr ⟨r, hrm, rfl⟩
    | none =>
      have := MessageMap.probe_wild hb hn.lt F hF _ (by omega) m hm hp hw h hidk.1 hidk.2 hf
      exact ⟨⟨m, this⟩, Or.inl this⟩

/-! ## Claims on `MessageMap::add` and the lookup by name -/

/-- C5: for a dictionary built by successful adds whose messages have class and name cells
free of the field separator, `add` answers `RESULT_ERR_DUPLICATE` exactly when an added
message has the same P, W or R kind, class and name as the new one or the new one is
passive and an added passive message has the same passive key; otherwise it answers
`RESULT_OK`, the message count grows by one and the message is found under its with-class
name key and, if passive, under its passive key. -/
theorem MessageMap.add_duplicate_iff (gmn : Nat → Nat) (msgs : List Message) (mm : MessageMap)
    (msg : Message) (hb : MessageMap.Built gmn msgs mm)
    (hsep : ∀ m ∈ msgs, FIELD_SEPARATOR ∉ m.clazz ∧ FIELD_SEPARATOR ∉ m.name) :
    ((mm.add gmn msg).1 = RESULT_ERR_DUPLICATE ↔
      ((∃ m ∈ msgs, m.kind = msg.kind ∧ m.clazz = msg.clazz ∧ m.name = msg.name) ∨
       (msg.isPassive = true ∧
         ∃ m ∈ msgs, m.isPassive = true ∧ m.getKey gmn = msg.getKey gmn))) ∧
    ((mm.add gmn msg).1 ≠ RESULT_ERR_DUPLICATE →
      (mm.add gmn msg).1 = RESULT_OK ∧
      (mm.add gmn msg).2.messageCount = mm.messageCount + 1 ∧
      (mm.add gmn msg).2.messagesByName.find
        (nameKey msg.isPassive msg.isSet msg.clazz msg.name) = some msg ∧
      (msg.isPassive = true →
        (mm.add gmn msg).2.passiveMessagesByKey.find (msg.getKey gmn) = some msg)) := by
  have hdup : ((∃ m ∈ msgs, m.kind = msg.kind ∧ m.clazz = msg.clazz ∧ m.name = msg.name) ∨
       (msg.isPassive = true ∧
         ∃ m ∈ msgs, m.isPassive = true ∧ m.getKey gmn = msg.getKey gmn)) →
      (mm.add gmn msg).1 = RESULT_ERR_DUPLICATE := by
    intro h
    rcases MessageMap.add_result gmn mm msg with hd | hok
    · exact hd.1
    · exfalso
      obtain ⟨hpk, hnk, _⟩ := MessageMap.add_ok gmn mm msg hok
      rcases h with ⟨m, hm, hkind, hc, hn⟩ | ⟨hp, m, hm, hmp, hkey⟩
      · have hf := hb.inv.storedFind m (by rw [hb.stored_eq]; exact hm)
        unfold Message.kind at hkind
        have hkeq : nameKey m.isPassive m.isSet m.clazz m.name
            = nameKey msg.isPassive msg.isSet msg.clazz msg.name := by
          unfold nameKey; rw [hkind, hc, hn]
        rw [hkeq, hnk] at hf; cases hf
      · have hf := MessageMap.mem_passive_find hb m hm hmp
        rw [hkey, hpk hp] at hf; cases hf
  refine ⟨⟨?_, hdup⟩, ?_⟩
  · intro hd
    unfold MessageMap.add at hd
    simp only at hd
    split at hd
    · rename_i h1
      right
      refine ⟨h1.1, ?_⟩
      cases hf : Map.find mm.passiveMessagesByKey (msg.getKey gmn) with
      | none => simp [hf] at h1
      | some m =>
        obtain ⟨a, b, c, _⟩ := MessageMap.find_passive_mem hb _ m hf
        exact ⟨m, a, b, c.symm⟩
    · split at hd
      · rename_i h2
        left
        cases hf : Map.find mm.messagesByName
            (nameKey msg.isPassive msg.isSet msg.clazz msg.name) with
        | none => simp [hf] at h2
        | some m =>
          have hkm := Map.find_some_mem _ _ _ hf
          have hst : m ∈ mm.stored :=
            (MessageMap.mem_stored_iff mm m).2 ⟨_, hkm, nameKey_head _ _ _ _⟩
          rw [hb.stored_eq] at hst
          rcases hb.inv.byName _ m hkm with hk | hk
          · have := nameKey_inj_left _ _ _ _ _ _ _ _ (hsep m hst).1 (hsep m hst).2 hk.symm
            exact ⟨m, hst, this.1, this.2.1, this.2.2⟩
          · exact absurd hk (nameKey_ne_nameKeyNoClass _ _ _ _ _ _ _)
      · simp at hd
  · intro hne
    rcases MessageMap.add_result gmn mm msg with hd | hok
    · exact absurd hd.1 hne
    · obtain ⟨_, _, hn, hc, hk, _, _⟩ := MessageMap.add_ok gmn mm msg hok
      refine ⟨hok, hc, ?_, ?_⟩
      · rw [hn]
        simp only [Map.find]
        rw [if_neg (fun hc => nameKey_ne_nameKeyNoClass _ _ _ _ _ _ _ hc.symm)]
        simp
      · intro hp
        rw [hk]
        simp [hp, Map.find]

/-- C6: for a dictionary built by successful adds whose messages have class and name cells
free of the field separator, the lookup by name returns the added message with exactly the
asked kind, class and name if there is one; otherwise it returns the most recently added
message of that kind with that name, whatever its class, and NULL if there is none. -/
theorem MessageMap.findByName_spec (gmn : Nat → Nat) (msgs : List Message) (mm : MessageMap)
    (hb : MessageMap.Built gmn msgs mm)
    (hsep : ∀ m ∈ msgs, FIELD_SEPARATOR ∉ m.clazz ∧ FIELD_SEPARATOR ∉ m.name)
    (clazz name : Str) (isSet isPassive : Bool) :
    (∀ m ∈ msgs, m.kind = kindPrefix isPassive isSet → m.clazz = clazz → m.name = name →
      mm.findByName clazz name isSet isPassive = some m) ∧
    ((∀ m ∈ msgs, ¬ (m.kind = kindPrefix isPassive isSet ∧ m.clazz = clazz ∧ m.name = name)) →
      mm.findByName clazz name isSet isPassive =
        msgs.find? (fun m => decide (m.kind = kindPrefix isPassive isSet ∧ m.name = name))) := by
  constructor
  · intro m hm hkind hc hn
    have hf := hb.inv.storedFind m (by rw [hb.stored_eq]; exact hm)
    unfold Message.kind at hkind
    have hkeq : nameKey m.isPassive m.isSet m.clazz m.name
        = nameKey isPassive isSet clazz name := by
      unfold nameKey; rw [hkind, hc, hn]
    unfold MessageMap.findByName
    rw [← hkeq, hf]
  · intro hno
    have hnone : mm.messagesByName.find (nameKey isPassive isSet clazz name) = none := by
      rw [Map.find_eq_none_iff]
      intro v hv
      have hst : v ∈ mm.stored :=
        (MessageMap.mem_stored_iff mm v).2 ⟨_, hv, nameKey_head _ _ _ _⟩
      rw [hb.stored_eq] at hst
      rcases hb.inv.byName _ v hv with hk | hk
      · have := nameKey_inj_left _ _ _ _ _ _ _ _ (hsep v hst).1 (hsep v hst).2 hk.symm
        exact hno v hst ⟨this.1, this.2.1, this.2.2⟩
      · exact absurd hk (nameKey_ne_nameKeyNoClass _ _ _ _ _ _ _)
    unfold MessageMap.findByName
    rw [hnone]
    simp only
    rw [hb.inv.noClassFind, hb.stored_eq]


/-! ## Claims on the lookup by frame -/

/-- C2: exact source before wildcard. For a master frame `F` from a master and every probed
id length `j`: the round returns an added passive message of that id length bound to
exactly the source of `F` with the destination and id of `F`, also when a wildcard-source
message (source `SYN`) with the same destination and id is in the dictionary; and when no
added message with that destination and id is bound to the source of `F`, the round
returns an added wildcard-source message with them. `find(F)` returns what the round
returns when the rounds for more id symbols find nothing. -/
theorem MessageMap.find_exact_before_wildcard (gmn : Nat → Nat) (msgs : List Message)
    (mm : MessageMap) (hb : MessageMap.Built gmn msgs mm) (hn : MasterNumbering gmn)
    (hwf : ∀ m' ∈ msgs, m'.isPassive = true → m'.wellFormed)
    (F : SymbolString) (hF : F.isBytes) (hsrc : isMaster (F.get 0) = true)
    (j : Nat) (hj : j ≤ 4) (hs : 5 + j ≤ F.size) :
    (∀ mE ∈ msgs, ∀ mW ∈ msgs, mE.isPassive = true → mW.isPassive = true →
      mE.srcAddress = F.get 0 → mW.srcAddress = SYN →
      mW.dstAddress = mE.dstAddress → mW.id = mE.id →
      mE.idMatches F → mE.id.length = j + 2 →
      mm.probe gmn F j = some mE) ∧
    (∀ mW ∈ msgs, mW.isPassive = true → mW.srcAddress = SYN →
      mW.idMatches F → mW.id.length = j + 2 →
      (∀ m' ∈ msgs, m'.isPassive = true → m'.srcAddress = F.get 0 →
        ¬ (m'.dstAddress = mW.dstAddress ∧ m'.id = mW.id)) →
      mm.probe gmn F j = some mW) ∧
    (∀ m, mm.probe gmn F j = some m → j ≤ F.get 4 →
      5 + min (F.get 4) mm.maxIdLength ≤ F.size →
      (∀ j', j < j' → j' ≤ min (F.get 4) mm.maxIdLength → mm.probe gmn F j' = none) →
      MessageMap.find gmn mm F = some m) := by
  have h4 := F.get_lt hF 4
  have hmod : F.get 4 % 256 = F.get 4 := Nat.mod_eq_of_lt h4
  refine ⟨?_, ?_, ?_⟩
  · intro mE hE mW _ hpE _ hsE _ _ _ hid hlen
    have hw := hwf mE hE hpE
    have hidk := (idMatches_iff mE F j hs).1 ⟨hlen, hid⟩
    exact (MessageMap.probe_exact hb hn.lt F hF j hj mE hE hpE hw (by rw [hsE])
      hidk.1 hidk.2).2
  · intro mW hW hpW hsW hid hlen hnoexact
    have hw := hwf mW hW hpW
    have hidk := (idMatches_iff mW F j hs).1 ⟨hlen, hid⟩
    by_cases hz : gmn (F.get 0) = 0
    · exact (MessageMap.probe_exact hb hn.lt F hF j hj mW hW hpW hw
        (by rw [hsW, hn.syn, hz]) hidk.1 hidk.2).2
    · apply MessageMap.probe_wild hb hn.lt F hF j hj mW hW hpW hw
        (by rw [hsW, hn.syn]) hidk.1 hidk.2
      cases hf : Map.find mm.passiveMessagesByKey (frameKey gmn F j) with
      | none => rfl
      | some m' =>
        exfalso
        have hpr : mm.probe gmn F j = some m' := by
          unfold MessageMap.probe; simp only [hf]
        obtain ⟨a, b, c, d⟩ := MessageMap.probe_matches hb hn hwf F hF hsrc j hj hs m' hpr
        have hid' := (idMatches_iff m' F j hs).1 ⟨b, c.2.2⟩
        exact hnoexact m' a c.1 (d hf hz)
          ⟨hid'.1.trans hidk.1.symm, hid'.2.trans hidk.2.symm⟩
  · intro m hpr hjNN hsize hmiss
    obtain ⟨a, b, c, d, _, _⟩ := MessageMap.probe_hit hb hwf hn.lt F hF j hj m hpr
    obtain ⟨w1, w2⟩ := MessageMap.idLength_window hb m a b (hwf m a b)
    rw [MessageMap.find_eq_findLoop gmn mm F (by omega) (by omega)
      (by rw [hmod]; exact hsize), hmod]
    exact MessageMap.findLoop_eq gmn mm F _ j m (by omega) (by omega) hpr hmiss


theorem SymbolString.truncateData_size (F : SymbolString) (n : Nat) (tail : List Nat)
    (h5 : 5 ≤ F.size) :
    (F.truncateData n tail).size = 5 + min n (F.size - 5) + tail.length := by
  simp [SymbolString.truncateData, SymbolString.size] at h5 ⊢
  omega

theorem SymbolString.truncateData_get_header (F : SymbolString) (n : Nat) (tail : List Nat)
    (h5 : 5 ≤ F.size) (i : Nat) (hi : i < 4) : (F.truncateData n tail).get i = F.get i := by
  simp only [SymbolString.truncateData, SymbolString.get, SymbolString.size] at h5 ⊢
  rw [List.getD_eq_getElem?_getD, List.getD_eq_getElem?_getD]
  rw [List.append_assoc, List.append_assoc, List.getElem?_append_left (by simp; omega)]
  rw [List.getElem?_take_of_lt hi]

theorem SymbolString.truncateData_get_NN (F : SymbolString) (n : Nat) (tail : List Nat)
    (h5 : 5 ≤ F.size) : (F.truncateData n tail).get 4 = n := by
  simp only [SymbolString.truncateData, SymbolString.get, SymbolString.size] at h5 ⊢
  rw [List.getD_eq_getElem?_getD]
  rw [List.append_assoc, List.append_assoc, List.getElem?_append_right (by simp)]
  have : 4 - (List.take 4 F.data).length = 0 := by simp; omega
  rw [this]; simp

theorem SymbolString.truncateData_get_data (F : SymbolString) (n : Nat) (tail : List Nat)
    (h5 : 5 ≤ F.size) (i : Nat) (hi : i < n) (hi' : 5 + i < F.size) :
    (F.truncateData n tail).get (5 + i) = F.get (5 + i) := by
  simp only [SymbolString.truncateData, SymbolString.get, SymbolString.size] at h5 hi' ⊢
  rw [List.getD_eq_getElem?_getD, List.getD_eq_getElem?_getD]
  have hl : (List.take 4 F.data ++ [n]).length = 5 := by simp; omega
  rw [List.append_assoc (List.take 4 F.data ++ [n]),
    List.getElem?_append_right (by rw [hl]; omega), hl]
  have : 5 + i - 5 = i := by omega
  rw [this, List.getElem?_append_left (by simp; omega), List.getElem?_take_of_lt hi,
    List.getElem?_drop]

theorem frameKey_truncateData (gmn : Nat → Nat) (F : SymbolString) (n : Nat)
    (tail : List Nat) (h5 : 5 ≤ F.size) (j : Nat) (hj : j ≤ n) (hs : 5 + j ≤ F.size) :
    frameKey gmn (F.truncateData n tail) j = frameKey gmn F j := by
  unfold frameKey
  simp only
  rw [F.truncateData_get_header n tail h5 0 (by omega),
    F.truncateData_get_header n tail h5 1 (by omega),
    F.truncateData_get_header n tail h5 2 (by omega),
    F.truncateData_get_header n tail h5 3 (by omega)]
  have : (List.range j).map (fun i => (F.truncateData n tail).get (5 + i))
      = (List.range j).map (fun i => F.get (5 + i)) := by
    apply List.map_congr_left
    intro i hi
    have := List.mem_range.1 hi
    exact F.truncateData_get_data n tail h5 i (by omega) (by omega)
  rw [this]

theorem MessageMap.probe_truncateData (gmn : Nat → Nat) (mm : MessageMap) (F : SymbolString)
    (n : Nat) (tail : List Nat) (h5 : 5 ≤ F.size) (j : Nat) (hj : j ≤ n)
    (hs : 5 + j ≤ F.size) :
    mm.probe gmn (F.truncateData n tail) j = mm.probe gmn F j := by
  unfold MessageMap.probe
  rw [frameKey_truncateData gmn F n tail h5 j hj hs]

/-- C4: the lookup is monotone under the id length of the frame. If `find(F)` returns a
message `m` whose id has `k` symbols beyond PB SB, then for every frame obtained from `F`
by cutting the data down to `n` symbols with `k <= n <= NN` (header unchanged, `NN` set to
`n`, anything after the data), `find` returns the same message `m`. -/
theorem MessageMap.find_truncate (gmn : Nat → Nat) (msgs : List Message) (mm : MessageMap)
    (hb : MessageMap.Built gmn msgs mm) (hlt : ∀ a, gmn a < 0x1f)
    (hwf : ∀ m' ∈ msgs, m'.isPassive = true → m'.wellFormed)
    (F : SymbolString) (hF : F.isBytes) (m : Message)
    (h : MessageMap.find gmn mm F = some m)
    (n : Nat) (hk : m.id.length - 2 ≤ n) (hn : n ≤ F.get 4) (tail : List Nat) :
    MessageMap.find gmn mm (F.truncateData n tail) = some m := by
  obtain ⟨h5, hmin, hsize, hloop⟩ := MessageMap.find_some gmn mm F m h
  obtain ⟨k, k1, k2, k3, k4⟩ := MessageMap.findLoop_some gmn mm F _ m hloop
  have hmax := MessageMap.maxIdLength_le hb hwf
  have h4 := F.get_lt hF 4
  have hmod : F.get 4 % 256 = F.get 4 := Nat.mod_eq_of_lt h4
  rw [hmod] at hsize k2 k4 hmin
  obtain ⟨_, _, hlen, _⟩ := MessageMap.probe_hit hb hwf hlt F hF k (by omega) m k3
  have hkk : k = m.id.length - 2 := by omega
  have hnmod : n % 256 = n := Nat.mod_eq_of_lt (by omega)
  have hsz := F.truncateData_size n tail h5
  have hNN := F.truncateData_get_NN n tail h5
  rw [MessageMap.find_eq_findLoop gmn mm _ (by omega) (by rw [hNN, hnmod]; omega)
    (by rw [hNN, hnmod]; omega), hNN, hnmod]
  apply MessageMap.findLoop_eq gmn mm _ _ k m k1 (by omega)
  · rw [MessageMap.probe_truncateData gmn mm F n tail h5 k (by omega) (by omega)]
    exact k3
  · intro j h1 h2
    rw [MessageMap.probe_truncateData gmn mm F n tail h5 j (by omega) (by omega)]
    exact k4 j h1 (by omega)


/-! ## Facts on the concrete data -/

theorem exampleNibbleIndex_cases (x : Nat) (h : isMasterNibble x = true) :
    (x = 0 ∧ exampleNibbleIndex x = 0) ∨ (x = 1 ∧ exampleNibbleIndex x = 1) ∨
    (x = 3 ∧ exampleNibbleIndex x = 2) ∨ (x = 7 ∧ exampleNibbleIndex x = 3) ∨
    (x = 15 ∧ exampleNibbleIndex x = 4) := by
  simp only [isMasterNibble, Bool.or_eq_true, beq_iff_eq] at h
  rcases h with (((h | h) | h) | h) | h <;> subst h <;> simp [exampleNibbleIndex]

theorem exampleNibbleIndex_range (x : Nat) (h : isMasterNibble x = true) :
    exampleNibbleIndex x ≤ 4 := by
  have := exampleNibbleIndex_cases x h
  omega

theorem exampleNibbleIndex_inj (x y : Nat) (hx : isMasterNibble x = true)
    (hy : isMasterNibble y = true) (h : exampleNibbleIndex x = exampleNibbleIndex y) :
    x = y := by
  have h1 := exampleNibbleIndex_cases x hx
  have h2 := exampleNibbleIndex_cases y hy
  omega

/-- The example numbering numbers the masters 0 to 24, with 0 for the master 0x00. -/
theorem exampleMasterNumber_range (a : Nat) :
    exampleMasterNumber a ≤ 24 ∧ exampleMasterNumber 0x00 = 0 ∧
      exampleMasterNumber 0xFF = 24 := by
  refine ⟨?_, by decide, by decide⟩
  unfold exampleMasterNumber
  split
  · rename_i h
    simp only [isMaster, Bool.and_eq_true] at h
    have h1 := exampleNibbleIndex_range _ h.1
    have h2 := exampleNibbleIndex_range _ h.2
    omega
  · omega

theorem exampleMasterNumber_numbering : MasterNumbering exampleMasterNumber := by
  constructor
  · intro a
    have := (exampleMasterNumber_range a).1
    omega
  · decide
  · intro a b ha hb h1 h2 h
    unfold exampleMasterNumber at h
    rw [if_pos h1, if_pos h2] at h
    simp only [isMaster, Bool.and_eq_true] at h1 h2
    have r1 := exampleNibbleIndex_range _ h1.1
    have r2 := exampleNibbleIndex_range _ h1.2
    have r3 := exampleNibbleIndex_range _ h2.1
    have r4 := exampleNibbleIndex_range _ h2.2
    have e1 := exampleNibbleIndex_inj _ _ h1.1 h2.1 (by omega)
    have e2 := exampleNibbleIndex_inj _ _ h1.2 h2.2 (by omega)
    omega

theorem exMap1_built : MessageMap.Built exampleMasterNumber [exMsgWild] exMap1 :=
  MessageMap.Built.add [] MessageMap.clear exMsgWild MessageMap.Built.clear (by decide)

theorem exMap2_built : MessageMap.Built exampleMasterNumber [exMsgExact, exMsgWild] exMap2 :=
  MessageMap.Built.add [exMsgWild] exMap1 exMsgExact exMap1_built (by decide)

theorem exMap3_built :
    MessageMap.Built exampleMasterNumber [exMsgShort, exMsgExact, exMsgWild] exMap3 :=
  MessageMap.Built.add [exMsgExact, exMsgWild] exMap2 exMsgShort exMap2_built (by decide)

theorem exMsgs_wellFormed :
    ∀ m ∈ [exMsgShort, exMsgExact, exMsgWild], m.isPassive = true → m.wellFormed := by
  intro m hm _
  simp only [List.mem_cons, List.mem_singleton, List.not_mem_nil, or_false] at hm
  rcases hm with rfl | rfl | rfl <;>
    simp [Message.wellFormed, exMsgShort, exMsgExact, exMsgWild, SYN, isMaster, isMasterNibble]

theorem exMsgs_noSeparator :
    ∀ m ∈ [exMsgShort, exMsgExact, exMsgWild],
      FIELD_SEPARATOR ∉ m.clazz ∧ FIELD_SEPARATOR ∉ m.name := by
  intro m hm
  simp only [List.mem_cons, List.mem_singleton, List.not_mem_nil, or_false] at hm
  rcases hm with rfl | rfl | rfl <;> decide

theorem exFrame10_isBytes : exFrame10.isBytes := by
  intro b hb
  simp [exFrame10, SymbolString.empty] at hb
  omega

theorem exFrame03_isBytes : exFrame03.isBytes := by
  intro b hb
  simp [exFrame03, SymbolString.empty] at hb
  omega


theorem isMaster_SYN : isMaster SYN = false := by decide

/-- The loop returns a hit of a round at least as far up as any round that hits. -/
theorem MessageMap.findLoop_ge (gmn : Nat → Nat) (mm : MessageMap) (F : SymbolString)
    (L k : Nat) (x : Message) (hmin : mm.minIdLength ≤ k) (hk : k ≤ L)
    (hhit : mm.probe gmn F k = some x) :
    ∃ r k', MessageMap.findLoop gmn mm F L = some r ∧ k ≤ k' ∧ k' ≤ L ∧
      mm.probe gmn F k' = some r := by
  induction L with
  | zero =>
    have : k = 0 := by omega
    subst this
    refine ⟨x, 0, ?_, le_refl _, le_refl _, hhit⟩
    unfold MessageMap.findLoop
    rw [if_neg (by omega), hhit]
  | succ n ih =>
    cases hp : mm.probe gmn F (n + 1) with
    | some r =>
      refine ⟨r, n + 1, ?_, hk, le_refl _, hp⟩
      unfold MessageMap.findLoop
      rw [if_neg (by omega), hp]
    | none =>
      have hkn : k ≤ n := by
        by_cases h : k = n + 1
        · rw [h, hp] at hhit; cases hhit
        · omega
      obtain ⟨r, k', a, b, c, d⟩ := ih hkn
      refine ⟨r, k', ?_, b, by omega, d⟩
      unfold MessageMap.findLoop
      rw [if_neg (by omega), hp]
      exact a

/-- An added passive message that matches a frame by its key, be it by a source with the
master number 0, keeps every added message with fewer id symbols from being returned:
`find` returns an added message with at least as many id symbols. -/
theorem MessageMap.find_matchesKey_ge (gmn : Nat → Nat) (msgs : List Message)
    (mm : MessageMap) (hb : MessageMap.Built gmn msgs mm) (hn : MasterNumbering gmn)
    (hwf : ∀ m' ∈ msgs, m'.isPassive = true → m'.wellFormed)
    (F : SymbolString) (hF : F.isBytes) (hsrc : isMaster (F.get 0) = true)
    (hsize : 5 + min (F.get 4) mm.maxIdLength ≤ F.size)
    (n : Message) (hmem : n ∈ msgs) (hk : n.matchesKey gmn F)
    (hNN : n.id.length - 2 ≤ F.get 4) :
    ∃ r, MessageMap.find gmn mm F = some r ∧ r ∈ msgs ∧ r.matchesKey gmn F ∧
      n.id.length ≤ r.id.length := by
  have hw := hwf n hmem hk.1
  obtain ⟨w1, w2⟩ := MessageMap.idLength_window hb n hmem hk.1 hw
  have hmax := MessageMap.maxIdLength_le hb hwf
  have h4 := F.get_lt hF 4
  have hmod : F.get 4 % 256 = F.get 4 := Nat.mod_eq_of_lt h4
  have hl2 := hw.1
  have hfind := MessageMap.find_eq_findLoop gmn mm F (by omega) (by omega)
    (by rw [hmod]; exact hsize)
  rw [hmod] at hfind
  have hsk : 5 + (n.id.length - 2) ≤ F.size := by omega
  obtain ⟨x, hx⟩ := (MessageMap.probe_of_matchesKey hb hn hwf F hF n hmem hk hsk).1
  obtain ⟨r, k', a, b, c, d⟩ := MessageMap.findLoop_ge gmn mm F
    (min (F.get 4) mm.maxIdLength) _ x w1 (by omega) hx
  obtain ⟨e1, e2, e3, _⟩ := MessageMap.probe_matches hb hn hwf F hF hsrc k' (by omega)
    (by omega) r d
  exact ⟨r, by rw [hfind]; exact a, e1, e3, by omega⟩

theorem exMsgShort_matches : exMsgShort.matchesFrame exFrame10 := by
  refine ⟨rfl, Or.inr rfl, rfl, rfl, ?_⟩
  simp [exMsgShort]

theorem exMsgWild_matches : exMsgWild.matchesFrame exFrame10 := by
  refine ⟨rfl, Or.inr rfl, rfl, rfl, ?_⟩
  simp [exMsgWild, exFrame10, SymbolString.empty]

theorem exMsgExact_matches : exMsgExact.matchesFrame exFrame10 := by
  refine ⟨rfl, Or.inl rfl, rfl, rfl, ?_⟩
  simp [exMsgExact, exFrame10, SymbolString.empty]

theorem exMsgWild_matches03 : exMsgWild.matchesFrame exFrame03 := by
  refine ⟨rfl, Or.inr rfl, rfl, rfl, ?_⟩
  simp [exMsgWild, exFrame03, SymbolString.empty]

theorem exFind10 :
    (MessageMap.find exampleMasterNumber exMap3 exFrame10).map (fun m => m.srcAddress)
      = some 0x10 := by
  decide

/-- With a third message in the dictionary that matches the frame: the dictionary holds
`exMsgShort` (id B5 09, wildcard source), `exMsgWild` (id B5 09 0D, wildcard source) and
`exMsgExact` (id B5 09 0D, source 0x10), which all match the frame `exFrame10`; `find`
returns `exMsgExact`, the message with the longest id and the exact source. -/
theorem MessageMap.find_longest_third :
    MessageMap.Built exampleMasterNumber [exMsgShort, exMsgExact, exMsgWild] exMap3 ∧
    exMsgShort.matchesFrame exFrame10 ∧ exMsgWild.matchesFrame exFrame10 ∧
    exMsgShort.id.length < exMsgWild.id.length ∧
    exMsgWild.id.length - 2 ≤ min (exFrame10.get 4) exMap3.maxIdLength ∧
    MessageMap.find exampleMasterNumber exMap3 exFrame10 ≠ some exMsgWild := by
  refine ⟨exMap3_built, exMsgShort_matches, exMsgWild_matches, by decide, by decide, ?_⟩
  intro h
  have := exFind10
  rw [h] at this
  revert this
  decide

theorem exFind10_eq :
    MessageMap.find exampleMasterNumber exMap3 exFrame10 = some exMsgExact := by
  rfl

/-- C2 (witness): for the frame from 0x10 the exact-source message wins over the wildcard
message with the same id, and for the frame from 0x03 the wildcard message is returned. -/
theorem MessageMap.find_exact_before_wildcard_witness :
    MessageMap.find exampleMasterNumber exMap3 exFrame10 = some exMsgExact ∧
    MessageMap.find exampleMasterNumber exMap3 exFrame03 = some exMsgWild :=
  ⟨(MessageMap.find_exact_before_wildcard exampleMasterNumber
      [exMsgShort, exMsgExact, exMsgWild] exMap3 exMap3_built exampleMasterNumber_numbering
      exMsgs_wellFormed exFrame10 exFrame10_isBytes (by decide) 1 (by decide)
      (by decide)).2.2 exMsgExact
      ((MessageMap.find_exact_before_wildcard exampleMasterNumber
        [exMsgShort, exMsgExact, exMsgWild] exMap3 exMap3_built
        exampleMasterNumber_numbering exMsgs_wellFormed exFrame10 exFrame10_isBytes
        (by decide) 1 (by decide) (by decide)).1
        exMsgExact (by simp) exMsgWild (by simp) rfl rfl rfl rfl rfl rfl
        exMsgExact_matches.2.2 rfl)
      (by decide) (by decide)
      (fun j' h1 h2 => absurd h2 (by
        have : min (exFrame10.get 4) exMap3.maxIdLength = 1 := by decide
        omega)),
   (MessageMap.find_exact_before_wildcard exampleMasterNumber
      [exMsgShort, exMsgExact, exMsgWild] exMap3 exMap3_built exampleMasterNumber_numbering
      exMsgs_wellFormed exFrame03 exFrame03_isBytes (by decide) 1 (by decide)
      (by decide)).2.2 exMsgWild
      ((MessageMap.find_exact_before_wildcard exampleMasterNumber
        [exMsgShort, exMsgExact, exMsgWild] exMap3 exMap3_built
        exampleMasterNumber_numbering exMsgs_wellFormed exFrame03 exFrame03_isBytes
        (by decide) 1 (by decide) (by decide)).2.1
        exMsgWild (by simp) rfl rfl exMsgWild_matches03.2.2 rfl
        (fun m' hm' _ hs => by
          simp only [List.mem_cons, List.mem_singleton, List.not_mem_nil, or_false] at hm'
          rcases hm' with rfl | rfl | rfl <;> revert hs <;> decide))
      (by decide) (by decide)
      (fun j' h1 h2 => absurd h2 (by
        have : min (exFrame03.get 4) exMap3.maxIdLength = 1 := by decide
        omega))⟩

/-- C4 (witness): cutting the data of the frame from 0x10 from three symbols down to one
symbol keeps the result `exMsgExact`. -/
theorem MessageMap.find_truncate_witness :
    MessageMap.find exampleMasterNumber exMap3 (exFrame10.truncateData 1 [0x55])
      = some exMsgExact :=
  MessageMap.find_truncate exampleMasterNumber [exMsgShort, exMsgExact, exMsgWild] exMap3
    exMap3_built exampleMasterNumber_numbering.lt exMsgs_wellFormed exFrame10
    exFrame10_isBytes exMsgExact exFind10_eq 1 (by decide) (by decide) [0x55]

/-- C5 (witness): adding `exMsgShort` to the dictionary of `exMsgExact` and `exMsgWild`
is no duplicate and enters it; adding `exMsgWild` again is a duplicate. -/
theorem MessageMap.add_duplicate_iff_witness :
    ((exMap2.add exampleMasterNumber exMsgShort).1 = RESULT_OK ∧
      (exMap2.add exampleMasterNumber exMsgShort).2.messageCount = exMap2.messageCount + 1 ∧
      (exMap2.add exampleMasterNumber exMsgShort).2.messagesByName.find
        (nameKey exMsgShort.isPassive exMsgShort.isSet exMsgShort.clazz exMsgShort.name)
          = some exMsgShort ∧
      (exMsgShort.isPassive = true →
        (exMap2.add exampleMasterNumber exMsgShort).2.passiveMessagesByKey.find
          (exMsgShort.getKey exampleMasterNumber) = some exMsgShort)) ∧
    (exMap2.add exampleMasterNumber exMsgWild).1 = RESULT_ERR_DUPLICATE :=
  ⟨(MessageMap.add_duplicate_iff exampleMasterNumber [exMsgExact, exMsgWild] exMap2
      exMsgShort exMap2_built
      (fun m hm => exMsgs_noSeparator m (List.mem_cons_of_mem _ hm))).2 (by decide),
   (MessageMap.add_duplicate_iff exampleMasterNumber [exMsgExact, exMsgWild] exMap2
      exMsgWild exMap2_built
      (fun m hm => exMsgs_noSeparator m (List.mem_cons_of_mem _ hm))).1.2
      (Or.inl ⟨exMsgWild, by simp, rfl, rfl, rfl⟩)⟩

/-- C6 (witness): in the dictionary of the three example messages the passive message
`heat/temp` is found by class and name, and the lookup of `temp` under an unknown class
falls back to the newest passive message named `temp`, which is `exMsgExact`. -/
theorem MessageMap.findByName_spec_witness :
    exMap3.findByName "heat".toList "temp".toList false true = some exMsgWild ∧
    exMap3.findByName "other".toList "temp".toList false true
      = [exMsgShort, exMsgExact, exMsgWild].find?
          (fun m => decide (m.kind = kindPrefix true false ∧ m.name = "temp".toList)) :=
  ⟨(MessageMap.findByName_spec exampleMasterNumber [exMsgShort, exMsgExact, exMsgWild] exMap3
      exMap3_built exMsgs_noSeparator "heat".toList "temp".toList false true).1
      exMsgWild (by simp) rfl rfl rfl,
   (MessageMap.findByName_spec exampleMasterNumber [exMsgShort, exMsgExact, exMsgWild] exMap3
      exMap3_built exMsgs_noSeparator "other".toList "temp".toList false true).2
      (fun m hm hc => by
        simp only [List.mem_cons, List.mem_singleton, List.not_mem_nil, or_false] at hm
        rcases hm with rfl | rfl | rfl <;> revert hc <;> decide)⟩


/-! ## Claims on the type column -/

/-- C7: `Message::create` classifies the type column: an empty string or one starting with
r/R gives an active read whose poll priority is the trailing decimal digit if the string
ends in one (`r3` gives priority 3) and 0 otherwise; one starting with w/W gives an active
write; any other string gives a passive message that is a write iff its last character is
w/W and a read otherwise. -/
theorem Message.createType_spec (t : Str) :
    ((t = [] ∨ startsWithLetter t 'r' 'R' = true) →
      (Message.createType t).isPassive = false ∧ (Message.createType t).isSet = false ∧
      (Message.createType t).pollPriority =
        (match t.getLast? with
         | some c => if '0' ≤ c ∧ c ≤ '9' then c.toNat - '0'.toNat else 0
         | none => 0)) ∧
    (startsWithLetter t 'w' 'W' = true →
      (Message.createType t).isPassive = false ∧ (Message.createType t).isSet = true) ∧
    ((t ≠ [] ∧ startsWithLetter t 'r' 'R' = false ∧ startsWithLetter t 'w' 'W' = false) →
      (Message.createType t).isPassive = true ∧
      ((Message.createType t).isSet = true ↔
        (t.getLast? = some 'w' ∨ t.getLast? = some 'W'))) ∧
    (Message.createType "r3".toList).pollPriority = 3 := by
  refine ⟨?_, ?_, ?_, by decide⟩
  · rintro (h | h)
    · subst h; simp [Message.createType]
    · cases t with
      | nil => simp [Message.createType]
      | cons a as =>
        simp only [Message.createType, List.length_cons, Nat.add_one_ne_zero, if_false, h,
          if_true]
        rw [List.getLast?_eq_getLast _ (List.cons_ne_nil a as)]
        have hl : (a :: as).getLastD ' ' = (a :: as).getLast (List.cons_ne_nil a as) := by
          rw [List.getLastD_eq_getLast?, List.getLast?_eq_getLast _ (List.cons_ne_nil a as)]
          rfl
        rw [hl]
        simp only
        split <;> simp_all
  · intro h
    cases t with
    | nil => simp [startsWithLetter] at h
    | cons a as =>
      have hr : startsWithLetter (a :: as) 'r' 'R' = false := by
        simp only [startsWithLetter, List.head?_cons, Bool.or_eq_true, beq_iff_eq,
          Option.some.injEq] at h ⊢
        rcases h with h | h <;> subst h <;> decide
      simp [Message.createType, hr, h]
  · rintro ⟨hne, hr, hw⟩
    cases t with
    | nil => exact absurd rfl hne
    | cons a as =>
      have hl : (a :: as).getLastD ' ' = (a :: as).getLast (List.cons_ne_nil a as) := by
        rw [List.getLastD_eq_getLast?, List.getLast?_eq_getLast _ (List.cons_ne_nil a as)]
        rfl
      simp only [Message.createType, List.length_cons, Nat.add_one_ne_zero, if_false, hr, hw,
        Bool.false_eq_true, hl, true_and]
      rw [List.getLast?_eq_getLast _ (List.cons_ne_nil a as)]
      simp


/-! ## Lemmas on symbol strings -/

theorem SymbolString.push_back_unescaped (s : SymbolString) (v : Nat)
    (hs : s.escaped = false) :
    s.push_back v false false = (RESULT_OK, { s with data := s.data ++ [v] }) := by
  simp [SymbolString.push_back, hs]

theorem pushSymbols_unescaped (s : SymbolString) (l : List Nat) (hs : s.escaped = false) :
    pushSymbols s l = (RESULT_OK, { s with data := s.data ++ l }) := by
  induction l generalizing s with
  | nil => simp [pushSymbols]
  | cons b bs ih =>
    simp only [pushSymbols, SymbolString.push_back_unescaped s b hs, ne_eq, not_true_eq_false,
      if_false]
    rw [ih { s with data := s.data ++ [b] } hs]
    simp

theorem SymbolString.push_back_escaped (s : SymbolString) (b : Nat) (hs : s.escaped = true) :
    (s.push_back b false true).2
      = { s with data := s.data ++ escapeSymbols [b], crc := updateCRC s.crc b } := by
  have hne : ¬ SYN = ESC := by decide
  by_cases h1 : b = ESC
  · subst h1; simp [SymbolString.push_back, hs, escapeSymbols]
  · by_cases h2 : b = SYN
    · subst h2; simp [SymbolString.push_back, hs, escapeSymbols, hne]
    · simp [SymbolString.push_back, hs, escapeSymbols, h1, h2]

theorem escapeSymbols_append (l k : List Nat) :
    escapeSymbols (l ++ k) = escapeSymbols l ++ escapeSymbols k := by
  induction l with
  | nil => simp [escapeSymbols]
  | cons b bs ih => simp [escapeSymbols, ih]

theorem push_escaped_fold (l : List Nat) (s : SymbolString) (hs : s.escaped = true) :
    l.foldl (fun acc b => (acc.push_back b false true).2) s
      = { s with data := s.data ++ escapeSymbols l, crc := l.foldl updateCRC s.crc } := by
  induction l generalizing s with
  | nil => simp [escapeSymbols]
  | cons b bs ih =>
    simp only [List.foldl_cons]
    rw [SymbolString.push_back_escaped s b hs,
      ih { s with data := s.data ++ escapeSymbols [b], crc := updateCRC s.crc b } hs]
    have : escapeSymbols (b :: bs) = escapeSymbols [b] ++ escapeSymbols bs :=
      escapeSymbols_append [b] bs
    rw [this]
    simp

theorem SymbolString.push_back_escaped_noCrc (s : SymbolString) (b : Nat)
    (hs : s.escaped = true) :
    (s.push_back b false false).2 = { s with data := s.data ++ escapeSymbols [b] } := by
  have hne : ¬ SYN = ESC := by decide
  by_cases h1 : b = ESC
  · subst h1; simp [SymbolString.push_back, hs, escapeSymbols]
  · by_cases h2 : b = SYN
    · subst h2; simp [SymbolString.push_back, hs, escapeSymbols, hne]
    · simp [SymbolString.push_back, hs, escapeSymbols, h1, h2]

theorem SymbolString.copy_data (str : SymbolString) :
    (str.copy true true).data = escapeSymbols (str.data ++ [crcOf str.data]) := by
  have hfold := push_escaped_fold str.data SymbolString.emptyEscaped rfl
  simp only [SymbolString.copy, if_true, hfold, escapeSymbols_append]
  rw [SymbolString.push_back_escaped_noCrc _ _ rfl]
  simp [SymbolString.emptyEscaped, crcOf]

theorem readUnescaped_escapeSymbols (l : List Nat) (acc : SymbolString)
    (ha : acc.escaped = false) (he : acc.expectEscape = false) :
    readUnescaped (escapeSymbols l) acc = some { acc with data := acc.data ++ l } := by
  induction l generalizing acc with
  | nil => simp [escapeSymbols, readUnescaped]
  | cons b bs ih =>
    have hne : ¬ SYN = ESC := by decide
    have hstep : readUnescaped (escapeSymbols (b :: bs)) acc
        = readUnescaped (escapeSymbols bs) { acc with data := acc.data ++ [b] } := by
      by_cases h1 : b = ESC
      · subst h1
        simp [escapeSymbols, readUnescaped, SymbolString.push_back, ha, he, result_t.isError]
      · by_cases h2 : b = SYN
        · subst h2
          simp [escapeSymbols, readUnescaped, SymbolString.push_back, ha, he,
            result_t.isError, hne]
        · simp [escapeSymbols, readUnescaped, SymbolString.push_back, ha, he,
            result_t.isError, h1, h2]
    rw [hstep, ih { acc with data := acc.data ++ [b] } ha he]
    simp

theorem SymbolString.copy_unescapedData (str : SymbolString) :
    (str.copy true true).unescapedData = some (str.data ++ [crcOf str.data]) := by
  unfold SymbolString.unescapedData
  rw [SymbolString.copy_data, readUnescaped_escapeSymbols _ _ rfl rfl]
  simp [SymbolString.empty]


/-! ## Claims on `Message::prepareMaster` -/

/-- For an active message `prepareMaster` is the write of the field data behind the header
followed by the escaped copy with CRC. -/
theorem Message.prepareMaster_eq (m : Message) (srcAddress : Nat) (input : Str)
    (separator : Char) (dstAddress : Nat) (hp : m.isPassive = false) :
    m.prepareMaster srcAddress input separator dstAddress =
      if (m.data.write input pt_masterData (m.masterHeader srcAddress dstAddress)
            ((m.id.length + 254) % 256) separator).1 ≠ RESULT_OK then
        Except.error (m.data.write input pt_masterData (m.masterHeader srcAddress dstAddress)
            ((m.id.length + 254) % 256) separator).1
      else
        Except.ok (SymbolString.copy
          (m.data.write input pt_masterData (m.masterHeader srcAddress dstAddress)
            ((m.id.length + 254) % 256) separator).2 true true) := by
  unfold Message.prepareMaster Message.masterHeader
  simp only [hp, Bool.false_eq_true, if_false]
  by_cases hd : dstAddress % 256 = SYN
  · simp [hd, SymbolString.push_back_unescaped, pushSymbols_unescaped, SymbolString.empty]
  · simp [hd, SymbolString.push_back_unescaped, pushSymbols_unescaped, SymbolString.empty]

set_option maxRecDepth 8000 in
/-- C8: for every active message with at least two id symbols whose master data length
fits a symbol, and byte addresses, when `prepareMaster` succeeds and the write of the field
data only appends to the buffer, the returned frame read unescaped is `QQ` = the given
source, `ZZ` = the override destination if one other than `SYN` was passed and the
destination of the message otherwise, `PB SB` = `id[0] id[1]`,
`NN = (idLen-2) + fields.getLength(master)`, the further id symbols as the first data
symbols, the encoded field data and the CRC; source 0x03, destination 0xFE, id B5 16 08
and data 04 00 00 give 03 FE B5 16 04 08 04 00 00. -/
theorem Message.prepareMaster_frame :
    (∀ (m : Message) (srcAddress : Nat) (input : Str) (separator : Char) (dstAddress : Nat)
        (frame : SymbolString),
      m.isPassive = false → 2 ≤ m.id.length → srcAddress < 256 → dstAddress < 256 →
      m.id.length - 2 + m.data.getLength pt_masterData < 256 →
      (∀ buf res, m.data.write input pt_masterData buf ((m.id.length + 254) % 256) separator
          = (RESULT_OK, res) → buf.data <+: res.data) →
      m.prepareMaster srcAddress input separator dstAddress = Except.ok frame →
      ∃ enc : List Nat,
        frame.unescapedData = some (
          srcAddress :: (if dstAddress = SYN then m.dstAddress else dstAddress) ::
          m.id.getD 0 0 :: m.id.getD 1 0 ::
          (m.id.length - 2 + m.data.getLength pt_masterData) ::
          (m.id.drop 2 ++ enc ++
            [crcOf (srcAddress :: (if dstAddress = SYN then m.dstAddress else dstAddress) ::
              m.id.getD 0 0 :: m.id.getD 1 0 ::
              (m.id.length - 2 + m.data.getLength pt_masterData) ::
              (m.id.drop 2 ++ enc))]))) ∧
    ((exMsgBroadcast.prepareMaster 0x03 "040000".toList ';' SYN).toOption.bind
        (fun frame => frame.unescapedData)).map (List.take 9)
      = some [0x03, 0xFE, 0xB5, 0x16, 0x04, 0x08, 0x04, 0x00, 0x00] := by
  refine ⟨?_, by rfl⟩
  intro m src input sep dst frame hp h2 hsrc hdst hNN hw h
  rw [Message.prepareMaster_eq m src input sep dst hp] at h
  split at h
  · cases h
  · rename_i hok
    simp only [ne_eq, Decidable.not_not] at hok
    injection h with h
    subst h
    have hwr := hw (m.masterHeader src dst)
      (m.data.write input pt_masterData (m.masterHeader src dst)
        ((m.id.length + 254) % 256) sep).2 (by rw [← hok])
    obtain ⟨enc, henc⟩ := hwr
    refine ⟨enc, ?_⟩
    rw [SymbolString.copy_unescapedData, ← henc]
    have e1 : src % 256 = src := Nat.mod_eq_of_lt hsrc
    have e2 : dst % 256 = dst := Nat.mod_eq_of_lt hdst
    have e3 : (m.id.length + (2 ^ 64 - 2) + m.data.getLength pt_masterData % 256) % 2 ^ 64 % 256
        = m.id.length - 2 + m.data.getLength pt_masterData := by omega
    simp only [Message.masterHeader, SymbolString.empty, e1, e2]
    rw [e3]
    simp

/-- C8 (witness): the broadcast example of the spec, sent from 0x03 without an override
destination. -/
theorem Message.prepareMaster_frame_witness :
    ∃ enc : List Nat,
      exFrameBroadcast.unescapedData
        = some (0x03 :: 0xFE :: 0xB5 :: 0x16 :: 4 ::
            ([0x08] ++ enc ++ [crcOf (0x03 :: 0xFE :: 0xB5 :: 0x16 :: 4 :: ([0x08] ++ enc))])) :=
  Message.prepareMaster_frame.1 exMsgBroadcast 0x03 "040000".toList ';' SYN exFrameBroadcast
    rfl (by decide) (by decide) (by decide) (by decide)
    (by
      intro buf res h
      simp only [exMsgBroadcast, hexField, if_true] at h
      split at h
      · split at h
        · injection h with _ h; subst h; simp
        · injection h with h _; cases h
      · injection h with h _; cases h)
    rfl


set_option maxRecDepth 8000 in
/-- C9 (amended): `prepareMaster` itself does not limit the master data length
`NN = (idLen-2) + fields.getLength(master)`: for every active message it returns a frame
exactly when the write of the field data behind the header succeeds, and any error it
returns is the result of that write. So the messages with `NN = 0` and `NN = 16` are
accepted, and a message with `NN > 16` is accepted as well whenever its field data is
written. -/
theorem Message.prepareMaster_noLimit :
    (∀ (m : Message) (srcAddress : Nat) (input : Str) (separator : Char) (dstAddress : Nat),
      m.isPassive = false →
      ((∃ frame, m.prepareMaster srcAddress input separator dstAddress = Except.ok frame) ↔
        (m.data.write input pt_masterData (m.masterHeader srcAddress dstAddress)
          ((m.id.length + 254) % 256) separator).1 = RESULT_OK) ∧
      (∀ r, m.prepareMaster srcAddress input separator dstAddress = Except.error r →
        r = (m.data.write input pt_masterData (m.masterHeader srcAddress dstAddress)
          ((m.id.length + 254) % 256) separator).1)) ∧
    (exMsgEmpty.id.length - 2 + exMsgEmpty.data.getLength pt_masterData = 0 ∧
      (exMsgEmpty.prepareMaster 0x03 [] ';' SYN).toBool = true) ∧
    (exMsgFull.id.length - 2 + exMsgFull.data.getLength pt_masterData = 16 ∧
      (exMsgFull.prepareMaster 0x03 exInputFull ';' SYN).toBool = true) := by
  refine ⟨?_, ⟨rfl, rfl⟩, ⟨rfl, rfl⟩⟩
  intro m src input sep dst hp
  rw [Message.prepareMaster_eq m src input sep dst hp]
  constructor
  · constructor
    · rintro ⟨frame, h⟩
      split at h
      · cases h
      · rename_i hok
        simpa using hok
    · intro hok
      rw [if_neg (by simp [hok])]
      exact ⟨_, rfl⟩
  · intro r h
    split at h
    · injection h with h; exact h.symm
    · cases h

/-- C9 (witness): the broadcast example is active and its field data is written, so
`prepareMaster` returns a frame. -/
theorem Message.prepareMaster_noLimit_witness :
    ∃ frame, exMsgBroadcast.prepareMaster 0x03 "040000".toList ';' SYN = Except.ok frame :=
  ((Message.prepareMaster_noLimit.1 exMsgBroadcast 0x03 "040000".toList ';' SYN rfl).1).2 rfl

set_option maxRecDepth 8000 in
/-- C9 (counterexample): the active message `exMsgLong` has two id symbols and 17 symbols
of master data, so `NN = 17 > 16`, and `prepareMaster` returns no error but a frame, whose
`NN` symbol is 17. -/
theorem Message.prepareMaster_limit_counterexample :
    16 < exMsgLong.id.length - 2 + exMsgLong.data.getLength pt_masterData ∧
    ∃ frame, exMsgLong.prepareMaster 0x03 exInputLong ';' SYN = Except.ok frame ∧
      frame.unescapedData.map (List.take 5) = some [0x03, 0x08, 0xB5, 0x09, 17] :=
  ⟨by decide, _, rfl, rfl⟩

/-! ## Claims on the bus state machine -/

theorem BusHandler.notifyRequest_state (h : BusHandler) (state : BusState)
    (result : result_t) (first : Bool) :
    (h.notifyRequest state result first).state = h.state := by
  unfold BusHandler.notifyRequest
  split
  · split <;> rfl
  · rfl

theorem BusHandler.notifyRequest_remainLockCount (h : BusHandler) (state : BusState)
    (result : result_t) (first : Bool) :
    (h.notifyRequest state result first).remainLockCount = h.remainLockCount := by
  unfold BusHandler.notifyRequest
  split
  · split <;> rfl
  · rfl

theorem BusHandler.setState_fst (h : BusHandler) (state : BusState) (result : result_t)
    (first : Bool) : (h.setState state result first).1 = result := by
  unfold BusHandler.setState
  simp only
  split
  · rfl
  · split <;> rfl

theorem BusHandler.setState_state (h : BusHandler) (state : BusState) (result : result_t)
    (first : Bool) : (h.setState state result first).2.state = state := by
  unfold BusHandler.setState
  simp only
  split
  · rename_i heq; exact heq.symm
  · split <;> rfl

theorem BusHandler.setState_remainLockCount (h : BusHandler) (state : BusState)
    (result : result_t) (first : Bool) :
    (h.setState state result first).2.remainLockCount = h.remainLockCount := by
  unfold BusHandler.setState
  simp only
  split
  · exact BusHandler.notifyRequest_remainLockCount h state result first
  · split <;> exact BusHandler.notifyRequest_remainLockCount h state result first

theorem BusHandler.decideSend_remainLockCount (h : BusHandler) :
    h.decideSend.handler.remainLockCount = h.remainLockCount := by
  unfold BusHandler.decideSend
  cases hs : h.state <;> simp only
  · by_cases hreq : h.request.isSome = true
    · simp only [hreq, if_true]
      split
      · split <;> simp [BusHandler.setState_remainLockCount]
      · simp [BusHandler.setState_remainLockCount]
    · simp only [hreq, Bool.false_eq_true, if_false]
      split
      · split <;> rfl
      · rfl
  · split <;> rfl
  · split <;> rfl

theorem BusHandler.doSend_remainLockCount (d : SendDecision) (io : PortStep) :
    (BusHandler.doSend d io).handler.remainLockCount = d.handler.remainLockCount := by
  unfold BusHandler.doSend
  split
  · split
    · rfl
    · simp [BusHandler.setState_remainLockCount]
  · rfl

/-- C10: SYN handling. For every state of the handler, when the received symbol is `SYN`
the step ends in state `ready` with result `SYN`, and `remainLockCount` is decremented by
one iff no symbol was emitted in the step and `remainLockCount > 0`; otherwise it is
unchanged. -/
theorem BusHandler.handleSymbol_syn (h : BusHandler) (io : PortStep)
    (hrecv : io.recv = RecvResult.symbol SYN) :
    (h.handleSymbol io).1 = RESULT_SYN ∧ (h.handleSymbol io).2.state = bs_ready ∧
    (h.handleSymbol io).2.remainLockCount =
      (if h.emits io = false ∧ h.remainLockCount > 0 then h.remainLockCount - 1
       else h.remainLockCount) ∧
    (h.emits io = true ↔ (h.decideSend.sending = true ∧ io.sendResult = 1)) := by
  have hemit : h.emits io = true ↔ (h.decideSend.sending = true ∧ io.sendResult = 1) := by
    unfold BusHandler.emits BusHandler.doSend
    by_cases h1 : h.decideSend.sending = true
    · by_cases h2 : io.sendResult = 1
      · simp [h1, h2]
      · simp [h1, h2]
    · simp [h1]
  have hrem : (BusHandler.doSend h.decideSend io).handler.remainLockCount
      = h.remainLockCount := by
    rw [BusHandler.doSend_remainLockCount, BusHandler.decideSend_remainLockCount]
  unfold BusHandler.handleSymbol
  simp only [hrecv, if_true]
  unfold BusHandler.emits
  refine ⟨BusHandler.setState_fst _ _ _ _, BusHandler.setState_state _ _ _ _, ?_, hemit⟩
  rw [BusHandler.setState_remainLockCount]
  by_cases hc : io.clientRemoved = true
  · cases hq : (BusHandler.doSend h.decideSend io).handler.request with
    | none => simp only [hc, if_true, hq, hrem]; split <;> rfl
    | some req => simp only [hc, if_true, hq, hrem]; split <;> rfl
  · simp only [hc, Bool.false_eq_true, if_false, hrem]; split <;> rfl

/-- C10 (witness): a ready handler that still has to wait two SYN symbols emits nothing,
and the received `SYN` brings the count down to one. -/
theorem BusHandler.handleSymbol_syn_witness :
    (exHandlerLocked.handleSymbol
        { sendResult := 1, recv := RecvResult.symbol SYN, clientRemoved := false }).1
      = RESULT_SYN ∧
    (exHandlerLocked.handleSymbol
        { sendResult := 1, recv := RecvResult.symbol SYN, clientRemoved := false }).2.state
      = bs_ready ∧
    (exHandlerLocked.handleSymbol
        { sendResult := 1, recv := RecvResult.symbol SYN,
          clientRemoved := false }).2.remainLockCount
      = (if exHandlerLocked.emits
            { sendResult := 1, recv := RecvResult.symbol SYN, clientRemoved := false } = false
          ∧ exHandlerLocked.remainLockCount > 0
         then exHandlerLocked.remainLockCount - 1 else exHandlerLocked.remainLockCount) ∧
    (exHandlerLocked.handleSymbol
        { sendResult := 1, recv := RecvResult.symbol SYN,
          clientRemoved := false }).2.remainLockCount = 1 :=
  ⟨(BusHandler.handleSymbol_syn exHandlerLocked
      { sendResult := 1, recv := RecvResult.symbol SYN, clientRemoved := false } rfl).1,
   (BusHandler.handleSymbol_syn exHandlerLocked
      { sendResult := 1, recv := RecvResult.symbol SYN, clientRemoved := false } rfl).2.1,
   (BusHandler.handleSymbol_syn exHandlerLocked
      { sendResult := 1, recv := RecvResult.symbol SYN, clientRemoved := false } rfl).2.2.1,
   rfl⟩

/-! ## Lemmas on the steps of the bus state machine -/

theorem queueRemove_head (req : BusRequest) (rest : List BusRequest) :
    (queueRemove (req :: rest) req).1 = true := by
  unfold queueRemove
  have hle : (List.filter (fun r => r.id != req.id) rest).length ≤ rest.length :=
    List.length_filter_le _ _
  simp only [List.filter_cons, bne_self_eq_false, Bool.false_eq_true, if_false,
    List.length_cons, bne_iff_ne, ne_eq]
  omega

/-- The step that loses the arbitration: the lock count the code computes, the
notification and the request dropped. -/
theorem BusHandler.handleSymbol_lost (h : BusHandler) (io : PortStep)
    (req : BusRequest) (rest : List BusRequest) (b : Nat)
    (hstate : h.state = bs_ready) (hlock : h.remainLockCount = 0)
    (hqueue : h.requests = req :: rest) (hsend : io.sendResult = 1)
    (hclient : io.clientRemoved = false) (hrecv : io.recv = RecvResult.symbol b)
    (hsyn : b ≠ SYN) (hlost : b ≠ req.master.get 0) :
    (h.handleSymbol io).2.remainLockCount =
      (if b % 16 ≠ req.master.get 0 % 16 ∧ h.lockCount > (if isMaster b then 2 else 1)
       then h.lockCount else (if isMaster b then 2 else 1)) ∧
    BusEvent.notified req RESULT_ERR_BUS_LOST h.response ∈ h.stepEvents io ∧
    (h.handleSymbol io).2.request = none ∧
    (h.handleSymbol io).2.lockCount = h.lockCount ∧
    (h.handleSymbol io).2.requests = (queueRemove h.requests req).2 := by
  cases hreq : h.request <;>
  · simp only [BusHandler.stepEvents]
    simp [BusHandler.handleSymbol, BusHandler.decideSend, BusHandler.doSend,
      BusHandler.dispatch, hstate, hlock, hqueue, hsend, hclient, hrecv, hsyn, hlost, hreq,
      queueRemove_head, BusHandler.setState, BusHandler.notifyRequest]
    split <;> simp

/-- What `decideSend` does in state `ready` when the lock count is 0 and a request is
queued: the arbitration is started with the source address of the first request. -/
theorem BusHandler.decideSend_ready (h : BusHandler) (req : BusRequest)
    (rest : List BusRequest) (hstate : h.state = bs_ready) (hlock : h.remainLockCount = 0)
    (hqueue : h.requests = req :: rest) :
    h.decideSend.sending = true ∧ h.decideSend.sendSymbol = req.master.get 0 ∧
    h.decideSend.handler.request = some req := by
  cases hreq : h.request <;>
    simp [BusHandler.decideSend, hstate, hlock, hqueue, hreq, BusHandler.setState,
      BusHandler.notifyRequest]

/-! ## Claims on the arbitration -/

/-- C11 (amended): lock count after arbitration loss. When the byte `b` read back after
emitting the own address `req.master[0]` differs from it (and is not `SYN`, and the request
is still queued), `remainLockCount` is set to 2 if `b` is a master address with the same low
nibble as the own address, to 1 if `b` has the same low nibble and is not a master address,
and to `lockCount` if the low nibble differs and `lockCount > 2`; the request is notified
with `BUS_LOST` in the step and is no longer in flight. -/
theorem BusHandler.handleSymbol_arbitrationLost (h : BusHandler) (io : PortStep)
    (req : BusRequest) (rest : List BusRequest) (b : Nat)
    (hstate : h.state = bs_ready) (hlock : h.remainLockCount = 0)
    (hqueue : h.requests = req :: rest) (hsend : io.sendResult = 1)
    (hclient : io.clientRemoved = false) (hrecv : io.recv = RecvResult.symbol b)
    (hsyn : b ≠ SYN) (hlost : b ≠ req.master.get 0) :
    h.decideSend.sending = true ∧ h.decideSend.sendSymbol = req.master.get 0 ∧
    (b % 16 = req.master.get 0 % 16 → isMaster b = true →
      (h.handleSymbol io).2.remainLockCount = 2) ∧
    (b % 16 = req.master.get 0 % 16 → isMaster b = false →
      (h.handleSymbol io).2.remainLockCount = 1) ∧
    (b % 16 ≠ req.master.get 0 % 16 → h.lockCount > 2 →
      (h.handleSymbol io).2.remainLockCount = h.lockCount) ∧
    BusEvent.notified req RESULT_ERR_BUS_LOST h.response ∈ h.stepEvents io ∧
    (h.handleSymbol io).2.request = none := by
  have hd := BusHandler.decideSend_ready h req rest hstate hlock hqueue
  have hl := BusHandler.handleSymbol_lost h io req rest b hstate hlock hqueue hsend hclient
    hrecv hsyn hlost
  refine ⟨hd.1, hd.2.1, ?_, ?_, ?_, hl.2.1, hl.2.2.1⟩
  · intro hn hm
    rw [hl.1]
    simp [hn, hm]
  · intro hn hm
    rw [hl.1]
    simp [hn, hm]
  · intro hn hc
    rw [hl.1]
    by_cases hm : isMaster b = true
    · simp [hn, hm, hc]
    · have hc1 : 1 < h.lockCount := by omega
      simp [hn, hm, hc1]

/-- C11 (witness): with the own address 0x03 and `lockCount` 5, reading back the master
address 0x13 leaves two SYN symbols to wait, reading back 0x10 leaves five. -/
theorem BusHandler.handleSymbol_arbitrationLost_witness :
    (exHandlerReady.handleSymbol (PortStep.echo 0x13)).2.remainLockCount = 2 ∧
    (exHandlerReady.handleSymbol (PortStep.echo 0x10)).2.remainLockCount = 5 ∧
    BusEvent.notified exRequest RESULT_ERR_BUS_LOST exHandlerReady.response
      ∈ exHandlerReady.stepEvents (PortStep.echo 0x13) :=
  ⟨(BusHandler.handleSymbol_arbitrationLost exHandlerReady (PortStep.echo 0x13) exRequest []
      0x13 rfl rfl rfl rfl rfl rfl (by decide) (by decide)).2.2.1 (by decide) (by decide),
   (BusHandler.handleSymbol_arbitrationLost exHandlerReady (PortStep.echo 0x10) exRequest []
      0x10 rfl rfl rfl rfl rfl rfl (by decide) (by decide)).2.2.2.2.1 (by decide) (by decide),
   (BusHandler.handleSymbol_arbitrationLost exHandlerReady (PortStep.echo 0x13) exRequest []
      0x13 rfl rfl rfl rfl rfl rfl (by decide) (by decide)).2.2.2.2.2.1⟩

/-- C11 (counterexample): the own address 0x03 is emitted and 0x23 is read back, which has
the same low nibble and is not a master address: `remainLockCount` is set to 1, not to 2,
and the request is notified with `BUS_LOST`. -/
theorem BusHandler.arbitrationLost_sameNibble_counterexample :
    exHandlerReady.decideSend.sendSymbol = 0x03 ∧ 0x23 % 16 = 0x03 % 16 ∧
    BusEvent.notified exRequest RESULT_ERR_BUS_LOST exHandlerReady.response
      ∈ exHandlerReady.stepEvents (PortStep.echo 0x23) ∧
    (exHandlerReady.handleSymbol (PortStep.echo 0x23)).2.remainLockCount = 1 ∧
    (exHandlerReady.handleSymbol (PortStep.echo 0x23)).2.remainLockCount ≠ 2 := by
  decide

/-- The step that wins the arbitration. -/
theorem BusHandler.handleSymbol_won (h : BusHandler) (io : PortStep)
    (req : BusRequest) (rest : List BusRequest)
    (hstate : h.state = bs_ready) (hlock : h.remainLockCount = 0)
    (hqueue : h.requests = req :: rest) (hsend : io.sendResult = 1)
    (hclient : io.clientRemoved = false)
    (hrecv : io.recv = RecvResult.symbol (req.master.get 0))
    (hsyn : req.master.get 0 ≠ SYN) :
    (h.handleSymbol io).1 = RESULT_OK ∧
    (h.handleSymbol io).2.state = bs_sendCmd ∧
    (h.handleSymbol io).2.nextSendPos = 1 ∧
    (h.handleSymbol io).2.request = some req ∧
    (h.handleSymbol io).2.repeated = false ∧
    (h.handleSymbol io).2.remainLockCount = 0 := by
  cases hreq : h.request <;>
    simp [BusHandler.handleSymbol, BusHandler.decideSend, BusHandler.doSend,
      BusHandler.dispatch, hstate, hlock, hqueue, hsend, hclient, hrecv, hsyn, hreq,
      queueRemove_head, BusHandler.setState, BusHandler.notifyRequest]

theorem BusHandler.isWaiting_decideSend (h : BusHandler) (hw : h.isWaiting) :
    h.decideSend.sending = false ∧ h.decideSend.handler = h := by
  obtain ⟨hreq, hst | hst | hst⟩ := hw
  · have h0 : h.remainLockCount ≠ 0 := by omega
    simp [BusHandler.decideSend, hst.1, hreq, h0]
  · simp [BusHandler.decideSend, hst]
  · simp [BusHandler.decideSend, hst]

/-- A SYN symbol received by a waiting handler. -/
theorem BusHandler.handleSymbol_syn_waiting (h : BusHandler) (io : PortStep)
    (hw : h.isWaiting) (hrecv : io.recv = RecvResult.symbol SYN) :
    (h.handleSymbol io).2.state = bs_ready ∧
    (h.handleSymbol io).2.remainLockCount = h.remainLockCount - 1 ∧
    (h.handleSymbol io).2.request = none ∧
    (h.handleSymbol io).2.requests = h.requests ∧
    (h.handleSymbol io).2.lockCount = h.lockCount := by
  have hd := BusHandler.isWaiting_decideSend h hw
  have hreq := hw.1
  have hds : BusHandler.doSend h.decideSend io = h.decideSend := by
    simp [BusHandler.doSend, hd.1]
  unfold BusHandler.handleSymbol
  simp only [hds, hd.1, hd.2, hrecv, hreq]
  by_cases hc : io.clientRemoved = true <;> by_cases h0 : 0 < h.remainLockCount <;>
    simp [hc, h0, BusHandler.setState, BusHandler.notifyRequest, hreq] <;>
    split <;> simp <;>
    first
      | omega
      | (rename_i hs; exact hs.symm)
      | (rename_i hs; exact ⟨hs.symm, by omega⟩)

/-- After the arbitration is lost the handler waits for SYN symbols. -/
theorem BusHandler.handleSymbol_lost_waiting (h : BusHandler) (io : PortStep)
    (req : BusRequest) (rest : List BusRequest) (b : Nat)
    (hstate : h.state = bs_ready) (hlock : h.remainLockCount = 0)
    (hqueue : h.requests = req :: rest) (hsend : io.sendResult = 1)
    (hclient : io.clientRemoved = false) (hrecv : io.recv = RecvResult.symbol b)
    (hsyn : b ≠ SYN) (hlost : b ≠ req.master.get 0) :
    (h.handleSymbol io).2.isWaiting := by
  unfold BusHandler.isWaiting
  cases hreq : h.request <;>
  · simp [BusHandler.handleSymbol, BusHandler.decideSend, BusHandler.doSend,
      BusHandler.dispatch, hstate, hlock, hqueue, hsend, hclient, hrecv, hsyn, hlost, hreq,
      queueRemove_head, BusHandler.setState, BusHandler.notifyRequest]
    split <;> simp

/-- A waiting handler that receives SYN symbols, not more than its lock count: every one
takes one off the lock count, and nothing else changes but the state. -/
theorem BusHandler.run_syn_waiting (syns : List PortStep) :
    ∀ h : BusHandler, h.isWaiting →
      (∀ io ∈ syns, io.recv = RecvResult.symbol SYN) → syns.length ≤ h.remainLockCount →
      (h.run syns).request = none ∧ (h.run syns).requests = h.requests ∧
      (h.run syns).remainLockCount = h.remainLockCount - syns.length ∧
      (h.run syns).lockCount = h.lockCount ∧
      (syns ≠ [] → (h.run syns).state = bs_ready) ∧
      (syns.length < h.remainLockCount → (h.run syns).isWaiting) := by
  induction syns with
  | nil =>
    intro h hw _ _
    exact ⟨hw.1, rfl, rfl, rfl, fun hne => absurd rfl hne, fun _ => hw⟩
  | cons io ios ih =>
    intro h hw hsyn hlen
    have hs := BusHandler.handleSymbol_syn_waiting h io hw (hsyn io (List.mem_cons_self _ _))
    simp only [List.length_cons] at hlen
    cases ios with
    | nil =>
      simp only [BusHandler.run, List.length_cons, List.length_nil]
      refine ⟨hs.2.2.1, hs.2.2.2.1, hs.2.1, hs.2.2.2.2, fun _ => hs.1, fun hlt => ?_⟩
      exact ⟨hs.2.2.1, Or.inl ⟨hs.1, by rw [hs.2.1]; omega⟩⟩
    | cons io2 ios2 =>
      simp only [List.length_cons] at hlen
      have hw1 : (h.handleSymbol io).2.isWaiting :=
        ⟨hs.2.2.1, Or.inl ⟨hs.1, by rw [hs.2.1]; omega⟩⟩
      have hr := ih (h.handleSymbol io).2 hw1
        (fun x hx => hsyn x (List.mem_cons_of_mem _ hx))
        (by rw [hs.2.1]; simp only [List.length_cons]; omega)
      simp only [BusHandler.run, List.length_cons] at hr ⊢
      refine ⟨hr.1, hr.2.1.trans hs.2.2.2.1, ?_, hr.2.2.2.1.trans hs.2.2.2.2,
        fun _ => hr.2.2.2.2.1 (by simp), fun hlt => hr.2.2.2.2.2 ?_⟩
      · rw [hr.2.2.1, hs.2.1]; omega
      · rw [hs.2.1]; omega

/-- C12 (amended): arbitration scenario. With the own address 0x03 and the default
`lockCount` of 5, reading back 0x03 after emitting it wins the arbitration (state `sendCmd`,
`nextSendPos = 1`), while reading back 0x10 loses it: the request is notified `BUS_LOST`
and `remainLockCount` becomes 5, the lock count, as the low nibbles of 0x10 and 0x03 differ;
the next pending request is started after five received SYN symbols, and not before. -/
theorem BusHandler.arbitration_scenario (h : BusHandler) (req next : BusRequest)
    (rest : List BusRequest) (syns : List PortStep)
    (hstate : h.state = bs_ready) (hlock : h.remainLockCount = 0)
    (hcount : h.lockCount = 5) (hqueue : h.requests = req :: next :: rest)
    (hown : req.master.get 0 = 0x03) (hid : next.id ≠ req.id)
    (hsyns : ∀ io ∈ syns, io.recv = RecvResult.symbol SYN) :
    h.decideSend.sending = true ∧ h.decideSend.sendSymbol = 0x03 ∧
    (h.handleSymbol (PortStep.echo 0x03)).2.state = bs_sendCmd ∧
    (h.handleSymbol (PortStep.echo 0x03)).2.nextSendPos = 1 ∧
    BusEvent.notified req RESULT_ERR_BUS_LOST h.response ∈ h.stepEvents (PortStep.echo 0x10) ∧
    (h.handleSymbol (PortStep.echo 0x10)).2.remainLockCount = 5 ∧
    (syns.length < 5 →
      ((h.handleSymbol (PortStep.echo 0x10)).2.run syns).decideSend.sending = false) ∧
    (syns.length = 5 →
      ((h.handleSymbol (PortStep.echo 0x10)).2.run syns).decideSend.sending = true ∧
      ((h.handleSymbol (PortStep.echo 0x10)).2.run syns).decideSend.handler.request
        = some next) := by
  have hd := BusHandler.decideSend_ready h req (next :: rest) hstate hlock hqueue
  have hw := BusHandler.handleSymbol_won h (PortStep.echo 0x03) req (next :: rest) hstate
    hlock hqueue rfl rfl (by rw [hown]; rfl) (by rw [hown]; decide)
  have hl := BusHandler.handleSymbol_lost h (PortStep.echo 0x10) req (next :: rest) 0x10
    hstate hlock hqueue rfl rfl rfl (by decide) (by rw [hown]; decide)
  have hlw := BusHandler.handleSymbol_lost_waiting h (PortStep.echo 0x10) req (next :: rest)
    0x10 hstate hlock hqueue rfl rfl rfl (by decide) (by rw [hown]; decide)
  have hrem : (h.handleSymbol (PortStep.echo 0x10)).2.remainLockCount = 5 := by
    rw [hl.1, hown, hcount]; decide
  have hq : (h.handleSymbol (PortStep.echo 0x10)).2.requests
      = next :: (queueRemove rest req).2 := by
    rw [hl.2.2.2.2, hqueue]
    simp [queueRemove, hid]
  refine ⟨hd.1, hd.2.1.trans hown, hw.2.1, hw.2.2.1, hl.2.1, hrem, fun hlt => ?_, fun heq => ?_⟩
  · have hr := BusHandler.run_syn_waiting syns _ hlw hsyns (by rw [hrem]; omega)
    exact (BusHandler.isWaiting_decideSend _ (hr.2.2.2.2.2 (by rw [hrem]; exact hlt))).1
  · have hr := BusHandler.run_syn_waiting syns _ hlw hsyns (by rw [hrem]; omega)
    have hne : syns ≠ [] := by
      intro he; rw [he] at heq; simp at heq
    have hd2 := BusHandler.decideSend_ready _ next (queueRemove rest req).2
      (hr.2.2.2.2.1 hne) (by rw [hr.2.2.1, hrem, heq]) (by rw [hr.2.1, hq])
    exact ⟨hd2.1, hd2.2.2⟩

/-- C12 (witness): the scenario with `exRequest` (source 0x03) and `exRequestSlave` queued:
after the arbitration is lost against 0x10 and five SYN symbols are received the handler
starts `exRequestSlave`. -/
theorem BusHandler.arbitration_scenario_witness :
    (exHandlerTwo.handleSymbol (PortStep.echo 0x03)).2.state = bs_sendCmd ∧
    (exHandlerTwo.handleSymbol (PortStep.echo 0x10)).2.remainLockCount = 5 ∧
    (((exHandlerTwo.handleSymbol (PortStep.echo 0x10)).2.run
        (List.replicate 5 (PortStep.echo SYN))).decideSend.sending = true ∧
     ((exHandlerTwo.handleSymbol (PortStep.echo 0x10)).2.run
        (List.replicate 5 (PortStep.echo SYN))).decideSend.handler.request
        = some exRequestSlave) :=
  ⟨(BusHandler.arbitration_scenario exHandlerTwo exRequest exRequestSlave []
      (List.replicate 5 (PortStep.echo SYN)) rfl rfl rfl rfl rfl (by decide)
      (by decide)).2.2.1,
   (BusHandler.arbitration_scenario exHandlerTwo exRequest exRequestSlave []
      (List.replicate 5 (PortStep.echo SYN)) rfl rfl rfl rfl rfl (by decide)
      (by decide)).2.2.2.2.2.1,
   (BusHandler.arbitration_scenario exHandlerTwo exRequest exRequestSlave []
      (List.replicate 5 (PortStep.echo SYN)) rfl rfl rfl rfl rfl (by decide)
      (by decide)).2.2.2.2.2.2.2 rfl⟩

/-- C12 (counterexample): with the own address 0x03 and `lockCount` 5, after 0x10 is read
back `remainLockCount` is 5, not 2, and after two received SYN symbols the next pending
request is not started: nothing is sent and three SYN symbols remain to wait. -/
theorem BusHandler.arbitration_scenario_counterexample :
    exHandlerTwo.lockCount = 5 ∧ exHandlerTwo.decideSend.sendSymbol = 0x03 ∧
    (exHandlerTwo.handleSymbol (PortStep.echo 0x10)).2.remainLockCount = 5 ∧
    (exHandlerTwo.handleSymbol (PortStep.echo 0x10)).2.remainLockCount ≠ 2 ∧
    ((exHandlerTwo.handleSymbol (PortStep.echo 0x10)).2.run
        [PortStep.echo SYN, PortStep.echo SYN]).requests = [exRequestSlave] ∧
    ((exHandlerTwo.handleSymbol (PortStep.echo 0x10)).2.run
        [PortStep.echo SYN, PortStep.echo SYN]).decideSend.sending = false ∧
    ((exHandlerTwo.handleSymbol (PortStep.echo 0x10)).2.run
        [PortStep.echo SYN, PortStep.echo SYN]).remainLockCount = 3 := by
  decide

/-! ## Claims on the send path -/

/-- The step in `sendCmd` that reads back the last byte of the master frame. -/
theorem BusHandler.handleSymbol_sendCmd_end (h : BusHandler) (io : PortStep)
    (req : BusRequest) (hstate : h.state = bs_sendCmd) (hreq : h.request = some req)
    (hlast : h.nextSendPos + 1 = req.master.size) (hsend : io.sendResult = 1)
    (hrecv : io.recv = RecvResult.symbol (req.master.get h.nextSendPos))
    (hsyn : req.master.get h.nextSendPos ≠ SYN) :
    (h.handleSymbol io).1 = RESULT_OK ∧
    (h.handleSymbol io).2.state
      = (if req.master.get 1 = BROADCAST then bs_sendSyn else bs_recvCmdAck) ∧
    (h.handleSymbol io).2.request
      = (if req.master.get 1 = BROADCAST then none else some req) ∧
    (req.master.get 1 ≠ BROADCAST → (h.handleSymbol io).2.commandCrcValid = true) ∧
    h.stepEvents io = [BusEvent.sent (req.master.get h.nextSendPos),
      BusEvent.recv SEND_TIMEOUT] ++
      (if req.master.get 1 = BROADCAST then [BusEvent.notified req RESULT_OK h.response]
       else []) := by
  simp only [BusHandler.stepEvents]
  by_cases hc : io.clientRemoved = true <;> by_cases hb : req.master.get 1 = BROADCAST <;>
    simp [BusHandler.handleSymbol, BusHandler.decideSend, BusHandler.doSend,
      BusHandler.dispatch, hstate, hreq, hsend, hrecv, hsyn, hc, hb, hlast.symm,
      BusHandler.setState, BusHandler.notifyRequest]

/-- The step in `recvCmdAck` that reads the ACK of a master addressed by the request in
flight. -/
theorem BusHandler.handleSymbol_recvCmdAck_master (h : BusHandler) (io : PortStep)
    (req : BusRequest) (hstate : h.state = bs_recvCmdAck) (hreq : h.request = some req)
    (hcrc : h.commandCrcValid = true) (hdst : isMaster (req.master.get 1) = true)
    (hrecv : io.recv = RecvResult.symbol ACK) :
    (h.handleSymbol io).2.state = bs_sendSyn := by
  by_cases hc : io.clientRemoved = true <;>
    simp [BusHandler.handleSymbol, BusHandler.decideSend, BusHandler.doSend,
      BusHandler.dispatch, hstate, hreq, hrecv, hc, hcrc, hdst,
      BusHandler.setState, BusHandler.notifyRequest, ACK, SYN]

/-- C13 (amended): end of the send path. When the last byte of the master frame (the CRC)
has been read back correctly in state `sendCmd`, the next state is `sendSyn` if the frame's
destination is `BROADCAST`, and `recvCmdAck` otherwise, also for a destination that is a
master address; for a master destination `sendSyn` follows in the step that reads the
`ACK` of the addressed master. -/
theorem BusHandler.handleSymbol_sendCmd_last (h : BusHandler) (io : PortStep)
    (req : BusRequest) (hstate : h.state = bs_sendCmd) (hreq : h.request = some req)
    (hlast : h.nextSendPos + 1 = req.master.size) (hsend : io.sendResult = 1)
    (hrecv : io.recv = RecvResult.symbol (req.master.get h.nextSendPos))
    (hsyn : req.master.get h.nextSendPos ≠ SYN) :
    h.decideSend.sending = true ∧ h.decideSend.sendSymbol = req.master.get h.nextSendPos ∧
    (req.master.get 1 = BROADCAST → (h.handleSymbol io).2.state = bs_sendSyn) ∧
    (req.master.get 1 ≠ BROADCAST → (h.handleSymbol io).2.state = bs_recvCmdAck) ∧
    (isMaster (req.master.get 1) = true →
      (h.handleSymbol io).2.state = bs_recvCmdAck ∧
      ∀ io2 : PortStep, io2.recv = RecvResult.symbol ACK →
        ((h.handleSymbol io).2.handleSymbol io2).2.state = bs_sendSyn) := by
  have he := BusHandler.handleSymbol_sendCmd_end h io req hstate hreq hlast hsend hrecv hsyn
  refine ⟨by simp [BusHandler.decideSend, hstate, hreq],
    by simp [BusHandler.decideSend, hstate, hreq], fun hb => ?_, fun hb => ?_, fun hm => ?_⟩
  · rw [he.2.1, if_pos hb]
  · rw [he.2.1, if_neg hb]
  · have hb : req.master.get 1 ≠ BROADCAST := by
      intro hb; rw [hb] at hm; exact absurd hm (by decide)
    have hs : (h.handleSymbol io).2.state = bs_recvCmdAck := by rw [he.2.1, if_neg hb]
    refine ⟨hs, fun io2 hio2 => ?_⟩
    exact BusHandler.handleSymbol_recvCmdAck_master _ io2 req hs
      (by rw [he.2.2.1, if_neg hb]) (he.2.2.2.1 hb) hm hio2

/-- C13 (witness): the CRC 0xD0 of the frame to the master 0x10 is read back: the state
is `recvCmdAck`, and `sendSyn` after the `ACK`. -/
theorem BusHandler.handleSymbol_sendCmd_last_witness :
    (exSendingMaster.handleSymbol (PortStep.echo 0xD0)).2.state = bs_recvCmdAck ∧
    ((exSendingMaster.handleSymbol (PortStep.echo 0xD0)).2.handleSymbol
      (PortStep.echo ACK)).2.state = bs_sendSyn :=
  ⟨((BusHandler.handleSymbol_sendCmd_last exSendingMaster (PortStep.echo 0xD0)
      exRequestMaster rfl rfl rfl rfl rfl (by decide)).2.2.2.2 (by decide)).1,
   ((BusHandler.handleSymbol_sendCmd_last exSendingMaster (PortStep.echo 0xD0)
      exRequestMaster rfl rfl rfl rfl rfl (by decide)).2.2.2.2 (by decide)).2
      (PortStep.echo ACK) rfl⟩

/-- C13 (counterexample): the destination 0x10 of the frame is a master address, and when
its last byte 0xD0 has been read back in state `sendCmd` the next state is `recvCmdAck`,
not `sendSyn`. -/
theorem BusHandler.sendCmd_last_master_counterexample :
    exSendingMaster.state = bs_sendCmd ∧ exSendingMaster.request = some exRequestMaster ∧
    exSendingMaster.nextSendPos + 1 = exRequestMaster.master.size ∧
    exRequestMaster.master.get exSendingMaster.nextSendPos = 0xD0 ∧
    isMaster (exRequestMaster.master.get 1) = true ∧
    (exSendingMaster.handleSymbol (PortStep.echo 0xD0)).2.state = bs_recvCmdAck ∧
    (exSendingMaster.handleSymbol (PortStep.echo 0xD0)).2.state ≠ bs_sendSyn := by
  decide


/-- A step in state `sendSyn` without a request in flight notifies nothing. -/
theorem BusHandler.handleSymbol_sendSyn_events (h : BusHandler) (io : PortStep)
    (hstate : h.state = bs_sendSyn) (hreq : h.request = none) :
    ∀ e ∈ h.stepEvents io, e.isNotified = false := by
  simp only [BusHandler.stepEvents]
  by_cases hc : io.clientRemoved = true <;> by_cases hs : io.sendResult = 1 <;>
    cases hr : io.recv with
    | error code =>
      simp [BusHandler.handleSymbol, BusHandler.decideSend, BusHandler.doSend,
        BusHandler.dispatch, hstate, hreq, hc, hs, hr, BusHandler.setState,
        BusHandler.notifyRequest, BusEvent.isNotified]
    | symbol b =>
      by_cases hb : b = SYN <;> by_cases h0 : 0 < h.remainLockCount <;>
        simp [BusHandler.handleSymbol, BusHandler.decideSend, BusHandler.doSend,
          BusHandler.dispatch, hstate, hreq, hc, hs, hr, hb, h0, BusHandler.setState,
          BusHandler.notifyRequest, BusEvent.isNotified]

/-- C14 (amended): completion of a broadcast send. For a request in flight whose
destination is `BROADCAST`, the request is completed (notified with `OK`) in the step in
which the last byte of the master frame is read back in `sendCmd` and `sendSyn` is entered,
before the SYN is emitted; the following step, in which the daemon emits its SYN and
receives a symbol, notifies nothing. -/
theorem BusHandler.broadcast_completion (h : BusHandler) (io : PortStep)
    (req : BusRequest) (hstate : h.state = bs_sendCmd) (hreq : h.request = some req)
    (hdst : req.master.get 1 = BROADCAST)
    (hlast : h.nextSendPos + 1 = req.master.size) (hsend : io.sendResult = 1)
    (hrecv : io.recv = RecvResult.symbol (req.master.get h.nextSendPos))
    (hsyn : req.master.get h.nextSendPos ≠ SYN) :
    h.stepEvents io = [BusEvent.sent (req.master.get h.nextSendPos),
      BusEvent.recv SEND_TIMEOUT, BusEvent.notified req RESULT_OK h.response] ∧
    (h.handleSymbol io).2.state = bs_sendSyn ∧ (h.handleSymbol io).2.request = none ∧
    ∀ io2 : PortStep, (h.handleSymbol io).2.decideSend.sendSymbol = SYN ∧
      ∀ e ∈ (h.handleSymbol io).2.stepEvents io2, e.isNotified = false := by
  have he := BusHandler.handleSymbol_sendCmd_end h io req hstate hreq hlast hsend hrecv hsyn
  have hs : (h.handleSymbol io).2.state = bs_sendSyn := by rw [he.2.1, if_pos hdst]
  have hn : (h.handleSymbol io).2.request = none := by rw [he.2.2.1, if_pos hdst]
  refine ⟨by rw [he.2.2.2.2, if_pos hdst]; rfl, hs, hn, fun io2 => ⟨?_, ?_⟩⟩
  · simp [BusHandler.decideSend, hs]
  · exact BusHandler.handleSymbol_sendSyn_events _ io2 hs hn

/-- C14 (witness): the CRC 0xF8 of the broadcast frame of `exRequest` is read back: the
request is notified with `OK` in this step, and nothing is notified in the next. -/
theorem BusHandler.broadcast_completion_witness :
    exSendingBroadcast.stepEvents (PortStep.echo 0xF8)
      = [BusEvent.sent 0xF8, BusEvent.recv SEND_TIMEOUT,
         BusEvent.notified exRequest RESULT_OK exSendingBroadcast.response] ∧
    ∀ e ∈ (exSendingBroadcast.handleSymbol (PortStep.echo 0xF8)).2.stepEvents
      (PortStep.echo SYN), e.isNotified = false :=
  ⟨(BusHandler.broadcast_completion exSendingBroadcast (PortStep.echo 0xF8) exRequest
      rfl rfl rfl rfl rfl rfl (by decide)).1,
   ((BusHandler.broadcast_completion exSendingBroadcast (PortStep.echo 0xF8) exRequest
      rfl rfl rfl rfl rfl rfl (by decide)).2.2.2 (PortStep.echo SYN)).2⟩

/-- C14 (counterexample): the broadcast request `exRequest` is notified with `OK` in the
step that reads back the last byte 0xF8 of its frame, in which no SYN is emitted, and no
SYN was emitted before; the step that emits the SYN and reads it back notifies nothing. -/
theorem BusHandler.broadcast_completion_counterexample :
    exSendingBroadcast.request = some exRequest ∧
    exRequest.master.get 1 = BROADCAST ∧
    BusEvent.sent SYN ∉ (exSendingBroadcast.handleSymbol (PortStep.echo 0xF8)).2.events ∧
    BusEvent.notified exRequest RESULT_OK SymbolString.empty
      ∈ exSendingBroadcast.stepEvents (PortStep.echo 0xF8) ∧
    (exSendingBroadcast.handleSymbol (PortStep.echo 0xF8)).2.stepEvents (PortStep.echo SYN)
      = [BusEvent.sent SYN, BusEvent.recv SEND_TIMEOUT] := by
  decide


/-! ## Claims on the acknowledgement and the response -/

/-- C15: NAK is accepted once per direction. In `recvCmdAck` and in `recvResAck`, the
first NAK of a frame (`m_repeat` not set) sets `m_repeat`, clears the corresponding buffer
and restarts the transfer (with a request in flight: `sendCmd` with `nextSendPos = 0`;
without: `recvCmd`; in `recvResAck`: `recvRes`) without notifying the request, which stays
in flight; a second NAK in the same frame (`m_repeat` set) ends the step in state `skip`
with the NAK error, notifying the request if one is in flight. -/
theorem BusHandler.handleSymbol_nak (h : BusHandler) (io : PortStep)
    (hrecv : io.recv = RecvResult.symbol NAK) :
    (h.state = bs_recvCmdAck → h.repeated = false →
      (h.handleSymbol io).1 = RESULT_ERR_NAK ∧
      (h.handleSymbol io).2.repeated = true ∧
      (h.handleSymbol io).2.command.data = [] ∧
      (h.handleSymbol io).2.nextSendPos = 0 ∧
      (h.handleSymbol io).2.state = (if h.request.isSome then bs_sendCmd else bs_recvCmd) ∧
      (h.handleSymbol io).2.request = h.request ∧
      ∀ e ∈ h.stepEvents io, e.isNotified = false) ∧
    (h.state = bs_recvResAck → h.repeated = false →
      (h.handleSymbol io).1 = RESULT_ERR_NAK ∧
      (h.handleSymbol io).2.repeated = true ∧
      (h.handleSymbol io).2.response.data = [] ∧
      (h.handleSymbol io).2.state = bs_recvRes ∧
      (h.handleSymbol io).2.request = h.request ∧
      ∀ e ∈ h.stepEvents io, e.isNotified = false) ∧
    ((h.state = bs_recvCmdAck ∨ h.state = bs_recvResAck) → h.repeated = true →
      (h.handleSymbol io).1 = RESULT_ERR_NAK ∧
      (h.handleSymbol io).2.state = bs_skip ∧
      (h.handleSymbol io).2.request = none ∧
      ∀ req, h.request = some req →
        h.stepEvents io = [BusEvent.recv h.slaveRecvTimeout,
          BusEvent.notified req RESULT_ERR_NAK h.response]) := by
  simp only [BusHandler.stepEvents]
  refine ⟨fun hstate hrep => ?_, fun hstate hrep => ?_, fun hstate hrep => ?_⟩
  · by_cases hc : io.clientRemoved = true <;> cases hreq : h.request <;>
      simp [BusHandler.handleSymbol, BusHandler.decideSend, BusHandler.doSend,
        BusHandler.dispatch, hstate, hreq, hrecv, hc, hrep, BusHandler.setState,
        BusHandler.notifyRequest, BusEvent.isNotified, SymbolString.clear, NAK, ACK, SYN]
  · by_cases hc : io.clientRemoved = true <;> cases hreq : h.request <;>
      simp [BusHandler.handleSymbol, BusHandler.decideSend, BusHandler.doSend,
        BusHandler.dispatch, hstate, hreq, hrecv, hc, hrep, BusHandler.setState,
        BusHandler.notifyRequest, BusEvent.isNotified, SymbolString.clear, NAK, ACK, SYN]
  · rcases hstate with hstate | hstate <;>
      by_cases hc : io.clientRemoved = true <;> cases hreq : h.request <;>
      simp [BusHandler.handleSymbol, BusHandler.decideSend, BusHandler.doSend,
        BusHandler.dispatch, hstate, hreq, hrecv, hc, hrep, BusHandler.setState,
        BusHandler.notifyRequest, BusEvent.isNotified, SymbolString.clear, NAK, ACK, SYN]

/-- C15 (witness): the slave answers the frame of `exRequestSlave` with NAK: the frame is
sent again from its first byte and the request stays in flight; a second NAK, after the
frame has been read back again, ends in `skip` and notifies the request. -/
theorem BusHandler.handleSymbol_nak_witness :
    (exSentSlave.handleSymbol (PortStep.echo NAK)).2.state = bs_sendCmd ∧
    (exSentSlave.handleSymbol (PortStep.echo NAK)).2.nextSendPos = 0 ∧
    (exSentSlave.handleSymbol (PortStep.echo NAK)).2.request = some exRequestSlave ∧
    (((exSentSlave.handleSymbol (PortStep.echo NAK)).2.run
      ([0x03, 0x08, 0xB5, 0x09, 0x01, 0x0D, 0xF0].map PortStep.echo)).handleSymbol
        (PortStep.echo NAK)).2.state = bs_skip :=
  ⟨((BusHandler.handleSymbol_nak exSentSlave (PortStep.echo NAK) rfl).1 rfl rfl).2.2.2.2.1,
   ((BusHandler.handleSymbol_nak exSentSlave (PortStep.echo NAK) rfl).1 rfl rfl).2.2.2.1,
   ((BusHandler.handleSymbol_nak exSentSlave (PortStep.echo NAK) rfl).1 rfl rfl).2.2.2.2.2.1,
   ((BusHandler.handleSymbol_nak
      ((exSentSlave.handleSymbol (PortStep.echo NAK)).2.run
        ([0x03, 0x08, 0xB5, 0x09, 0x01, 0x0D, 0xF0].map PortStep.echo))
      (PortStep.echo NAK) rfl).2.2 (Or.inl (by decide)) (by decide)).2.1⟩


/-- C16: response CRC recovery for an own request, evaluated on the code. The request
`exRequestSlave` is in flight and the slave has sent 01 05 of its response, whose CRC is
B8. When 00 is received as the CRC, the request is notified with the CRC error in this
step and is no longer in flight, the handler is in `sendResAck` and sends nothing in the
next step, so no NAK is emitted, and the symbol received next ends the frame in `skip`.
For comparison, when B8 is received the request stays in flight, the handler emits ACK
and the request is notified with `OK` when the ACK is read back. -/
theorem BusHandler.response_crc_first_failure :
    exReceivingSlave.state = bs_recvRes ∧
    exReceivingSlave.request = some exRequestSlave ∧
    exReceivingSlave.repeated = false ∧
    exReceivingSlave.response.data = [0x01, 0x05] ∧
    exReceivingSlave.response.getCRC = 0xB8 ∧
    exReceivingSlave.stepEvents (PortStep.echo 0x00)
      = [BusEvent.recv 15000,
         BusEvent.notified exRequestSlave RESULT_ERR_CRC
           { data := [0x01, 0x05, 0x00], escaped := false, expectEscape := false,
             crc := 0xB8 }] ∧
    (exReceivingSlave.handleSymbol (PortStep.echo 0x00)).2.state = bs_sendResAck ∧
    (exReceivingSlave.handleSymbol (PortStep.echo 0x00)).2.request = none ∧
    (exReceivingSlave.handleSymbol (PortStep.echo 0x00)).2.decideSend.sending = false ∧
    (exReceivingSlave.handleSymbol (PortStep.echo 0x00)).2.stepEvents (PortStep.echo 0x01)
      = [BusEvent.recv SYN_TIMEOUT] ∧
    ((exReceivingSlave.handleSymbol (PortStep.echo 0x00)).2.handleSymbol
      (PortStep.echo 0x01)).1 = RESULT_ERR_INVALID_ARG ∧
    ((exReceivingSlave.handleSymbol (PortStep.echo 0x00)).2.handleSymbol
      (PortStep.echo 0x01)).2.state = bs_skip ∧
    exReceivingSlave.stepEvents (PortStep.echo 0xB8) = [BusEvent.recv 15000] ∧
    (exReceivingSlave.handleSymbol (PortStep.echo 0xB8)).2.request = some exRequestSlave ∧
    (exReceivingSlave.handleSymbol (PortStep.echo 0xB8)).2.stepEvents (PortStep.echo ACK)
      = [BusEvent.sent ACK, BusEvent.recv SEND_TIMEOUT,
         BusEvent.notified exRequestSlave RESULT_OK
           { data := [0x01, 0x05, 0xB8], escaped := false, expectEscape := false,
             crc := 0xB8 }] := by
  decide


/-! ## Lemmas on the log of the state machine -/

theorem BusHandler.notifyRequest_events (h : BusHandler) (state : BusState)
    (result : result_t) (first : Bool) :
    ∃ l, (h.notifyRequest state result first).events = h.events ++ l := by
  unfold BusHandler.notifyRequest
  split
  · split
    · exact ⟨_, rfl⟩
    · exact ⟨[], by simp⟩
  · exact ⟨[], by simp⟩

theorem BusHandler.setState_events (h : BusHandler) (state : BusState) (result : result_t)
    (first : Bool) :
    (h.setState state result first).2.events = (h.notifyRequest state result first).events := by
  unfold BusHandler.setState
  simp only
  split
  · rfl
  · split <;> rfl

theorem BusHandler.setState_request (h : BusHandler) (state : BusState) (result : result_t)
    (first : Bool) :
    (h.setState state result first).2.request
      = (h.notifyRequest state result first).request := by
  unfold BusHandler.setState
  simp only
  split
  · rfl
  · split <;> rfl

theorem BusHandler.setState_events_prefix (h : BusHandler) (state : BusState)
    (result : result_t) (first : Bool) :
    ∃ l, (h.setState state result first).2.events = h.events ++ l := by
  rw [BusHandler.setState_events]
  exact BusHandler.notifyRequest_events h state result first

/-- A state change with an error result that is not a first repetition drops the request
in flight. -/
theorem BusHandler.setState_request_error (h : BusHandler) (state : BusState)
    (result : result_t) (hr : result ≠ RESULT_OK) :
    (h.setState state result false).2.request = none := by
  rw [BusHandler.setState_request]
  unfold BusHandler.notifyRequest
  cases hreq : h.request with
  | none => simp [hreq]
  | some req => simp [hr]

/-- A state change with an error result that is not a first repetition notifies the
request in flight with the result. -/
theorem BusHandler.setState_events_error (h : BusHandler) (state : BusState)
    (result : result_t) (req : BusRequest) (hr : result ≠ RESULT_OK)
    (hreq : h.request = some req) :
    (h.setState state result false).2.events
      = h.events ++ [BusEvent.notified req result h.response] := by
  rw [BusHandler.setState_events]
  unfold BusHandler.notifyRequest
  simp [hreq, hr]

theorem BusHandler.decideSend_events_prefix (h : BusHandler) :
    ∃ l, h.decideSend.handler.events = h.events ++ l := by
  unfold BusHandler.decideSend
  cases hs : h.state <;> simp only
  case bs_ready =>
    by_cases hreq : h.request.isSome = true
    · simp only [hreq, if_true]
      split
      · split <;> exact BusHandler.setState_events_prefix h _ _ _
      · exact BusHandler.setState_events_prefix h _ _ _
    · simp only [hreq, Bool.false_eq_true, if_false]
      split
      · split <;> exact ⟨[], by simp⟩
      · exact ⟨[], by simp⟩
  case bs_sendCmd => split <;> exact ⟨[], by simp⟩
  case bs_sendResAck => split <;> exact ⟨[], by simp⟩
  all_goals exact ⟨[], by simp⟩

theorem BusHandler.doSend_events_prefix (d : SendDecision) (io : PortStep) :
    ∃ l, (BusHandler.doSend d io).handler.events = d.handler.events ++ l := by
  unfold BusHandler.doSend
  split
  · split
    · exact ⟨_, rfl⟩
    · obtain ⟨l, hl⟩ := BusHandler.setState_events_prefix
        { d.handler with events := d.handler.events ++ [BusEvent.sendFailed d.sendSymbol] }
        bs_skip RESULT_ERR_SEND false
      exact ⟨[BusEvent.sendFailed d.sendSymbol] ++ l, by simp only [hl, List.append_assoc]⟩
  · exact ⟨[], by simp⟩

/-- The handler just before the received symbol is looked at: after the send part, with
the receive call logged and the client's removal applied. -/
theorem BusHandler.handleSymbol_error (h : BusHandler) (io : PortStep) (code : result_t)
    (hrecv : io.recv = RecvResult.error code) (hcode : code ≠ RESULT_OK) :
    (h.handleSymbol io).1 = code ∧ (h.handleSymbol io).2.state = bs_skip ∧
    (h.handleSymbol io).2.request = none ∧
    ∀ req, (BusHandler.doSend h.decideSend io).handler.request = some req →
      BusEvent.notified req code (BusHandler.doSend h.decideSend io).handler.response
        ∈ h.stepEvents io := by
  unfold BusHandler.stepEvents BusHandler.handleSymbol
  simp only [hrecv]
  refine ⟨BusHandler.setState_fst _ _ _ _, BusHandler.setState_state _ _ _ _,
    BusHandler.setState_request_error _ _ _ hcode, fun req hreq => ?_⟩
  obtain ⟨l1, hl1⟩ := BusHandler.decideSend_events_prefix h
  obtain ⟨l2, hl2⟩ := BusHandler.doSend_events_prefix h.decideSend io
  by_cases hc : io.clientRemoved = true
  · simp only [hc, if_true, hreq]
    rw [BusHandler.setState_events]
    simp [BusHandler.notifyRequest, hcode, hl2, hl1]
  · simp only [hc, Bool.false_eq_true, if_false]
    rw [BusHandler.setState_events]
    simp [BusHandler.notifyRequest, hcode, hreq, hl2, hl1]

/-- A symbol emitted in `sendCmd`, `sendResAck` or `sendSyn` that is read back as a
different symbol, not SYN. -/
theorem BusHandler.handleSymbol_echo_mismatch (h : BusHandler) (io : PortStep) (b : Nat)
    (hstate : h.state = bs_sendCmd ∨ h.state = bs_sendResAck ∨ h.state = bs_sendSyn)
    (hemit : h.emits io = true) (hrecv : io.recv = RecvResult.symbol b) (hsyn : b ≠ SYN)
    (hne : b ≠ h.decideSend.sendSymbol) :
    (h.handleSymbol io).1 = RESULT_ERR_INVALID_ARG ∧ (h.handleSymbol io).2.state = bs_skip ∧
    (h.handleSymbol io).2.request = none ∧
    ∀ req, h.request = some req →
      BusEvent.notified req RESULT_ERR_INVALID_ARG h.response ∈ h.stepEvents io := by
  simp only [BusHandler.stepEvents]
  have hs1 : io.sendResult = 1 := by
    by_contra hs
    unfold BusHandler.emits BusHandler.doSend at hemit
    by_cases hd : h.decideSend.sending = true
    · simp [hd, hs] at hemit
    · simp only [hd, Bool.false_eq_true, if_false] at hemit
  rcases hstate with hstate | hstate | hstate
  · cases hreq : h.request with
    | none => simp [BusHandler.emits, BusHandler.doSend, BusHandler.decideSend, hstate, hreq]
        at hemit
    | some req =>
      simp only [BusHandler.decideSend, hstate, hreq] at hne
      by_cases hc : io.clientRemoved = true <;>
        simp [BusHandler.handleSymbol, BusHandler.decideSend, BusHandler.doSend,
          BusHandler.dispatch, hstate, hreq, hrecv, hc, hs1, hsyn, hne, BusHandler.setState,
          BusHandler.notifyRequest]
  · cases hreq : h.request with
    | none => simp [BusHandler.emits, BusHandler.doSend, BusHandler.decideSend, hstate, hreq]
        at hemit
    | some req =>
      simp only [BusHandler.decideSend, hstate, hreq] at hne
      by_cases hc : io.clientRemoved = true <;>
        simp [BusHandler.handleSymbol, BusHandler.decideSend, BusHandler.doSend,
          BusHandler.dispatch, hstate, hreq, hrecv, hc, hs1, hsyn, hne, BusHandler.setState,
          BusHandler.notifyRequest]
  · cases hreq : h.request <;> by_cases hc : io.clientRemoved = true <;>
      simp [BusHandler.handleSymbol, BusHandler.decideSend, BusHandler.doSend,
        BusHandler.dispatch, hstate, hreq, hrecv, hc, hs1, hsyn, BusHandler.setState,
        BusHandler.notifyRequest]

/-- A symbol that is none of ACK, NAK and SYN received in `recvCmdAck` or `recvResAck`. -/
theorem BusHandler.handleSymbol_no_ack (h : BusHandler) (io : PortStep) (b : Nat)
    (hstate : h.state = bs_recvCmdAck ∨ h.state = bs_recvResAck)
    (hrecv : io.recv = RecvResult.symbol b) (hsyn : b ≠ SYN) (hack : b ≠ ACK)
    (hnak : b ≠ NAK) :
    (h.handleSymbol io).1 = RESULT_ERR_ACK ∧ (h.handleSymbol io).2.state = bs_skip ∧
    (h.handleSymbol io).2.request = none ∧
    ∀ req, h.request = some req →
      BusEvent.notified req RESULT_ERR_ACK h.response ∈ h.stepEvents io := by
  simp only [BusHandler.stepEvents]
  rcases hstate with hstate | hstate <;> cases hreq : h.request <;>
    by_cases hc : io.clientRemoved = true <;>
    simp [BusHandler.handleSymbol, BusHandler.decideSend, BusHandler.doSend,
      BusHandler.dispatch, hstate, hreq, hrecv, hc, hsyn, hack, hnak, BusHandler.setState,
      BusHandler.notifyRequest]

/-! ## Claims on the failures of the state machine -/

/-- C18 (amended): the state machine fails to `skip`. For every state, if the receive call
returns an error code, or if a symbol emitted in `sendCmd`, `sendResAck` or `sendSyn` is
read back as a different symbol other than SYN, or if `recvCmdAck` or `recvResAck` receives
a symbol that is none of ACK, NAK and SYN, the step ends in state `skip` with the error as
its result (the code received, `INVALID_ARG`, `ACK` error), the request in flight at that
moment is notified with this error in the step, and no request is in flight after it. -/
theorem BusHandler.handleSymbol_fails_to_skip (h : BusHandler) (io : PortStep) :
    (∀ code, io.recv = RecvResult.error code → code ≠ RESULT_OK →
      (h.handleSymbol io).1 = code ∧ (h.handleSymbol io).2.state = bs_skip ∧
      (h.handleSymbol io).2.request = none ∧
      ∀ req, (BusHandler.doSend h.decideSend io).handler.request = some req →
        BusEvent.notified req code (BusHandler.doSend h.decideSend io).handler.response
          ∈ h.stepEvents io) ∧
    (∀ b, (h.state = bs_sendCmd ∨ h.state = bs_sendResAck ∨ h.state = bs_sendSyn) →
      h.emits io = true → io.recv = RecvResult.symbol b → b ≠ SYN →
      b ≠ h.decideSend.sendSymbol →
      (h.handleSymbol io).1 = RESULT_ERR_INVALID_ARG ∧
      (h.handleSymbol io).2.state = bs_skip ∧ (h.handleSymbol io).2.request = none ∧
      ∀ req, h.request = some req →
        BusEvent.notified req RESULT_ERR_INVALID_ARG h.response ∈ h.stepEvents io) ∧
    (∀ b, (h.state = bs_recvCmdAck ∨ h.state = bs_recvResAck) →
      io.recv = RecvResult.symbol b → b ≠ SYN → b ≠ ACK → b ≠ NAK →
      (h.handleSymbol io).1 = RESULT_ERR_ACK ∧
      (h.handleSymbol io).2.state = bs_skip ∧ (h.handleSymbol io).2.request = none ∧
      ∀ req, h.request = some req →
        BusEvent.notified req RESULT_ERR_ACK h.response ∈ h.stepEvents io) :=
  ⟨fun code hrecv hcode => BusHandler.handleSymbol_error h io code hrecv hcode,
   fun b hstate hemit hrecv hsyn hne =>
     BusHandler.handleSymbol_echo_mismatch h io b hstate hemit hrecv hsyn hne,
   fun b hstate hrecv hsyn hack hnak =>
     BusHandler.handleSymbol_no_ack h io b hstate hrecv hsyn hack hnak⟩

/-- C18 (witness): the receive call times out while the frame of `exRequestMaster` is
being sent; the CRC 0xD0 of this frame is read back as 0x00; the slave answers the frame
of `exRequestSlave` with 0x55: each step ends in `skip` and notifies the request. -/
theorem BusHandler.handleSymbol_fails_to_skip_witness :
    ((exSendingMaster.handleSymbol
        { sendResult := 1, recv := RecvResult.error RESULT_ERR_TIMEOUT,
          clientRemoved := false }).2.state = bs_skip ∧
      BusEvent.notified exRequestMaster RESULT_ERR_TIMEOUT SymbolString.empty
        ∈ exSendingMaster.stepEvents
            { sendResult := 1, recv := RecvResult.error RESULT_ERR_TIMEOUT,
              clientRemoved := false }) ∧
    ((exSendingMaster.handleSymbol (PortStep.echo 0x00)).2.state = bs_skip ∧
      BusEvent.notified exRequestMaster RESULT_ERR_INVALID_ARG exSendingMaster.response
        ∈ exSendingMaster.stepEvents (PortStep.echo 0x00)) ∧
    ((exSentSlave.handleSymbol (PortStep.echo 0x55)).2.state = bs_skip ∧
      (exSentSlave.handleSymbol (PortStep.echo 0x55)).2.request = none ∧
      BusEvent.notified exRequestSlave RESULT_ERR_ACK exSentSlave.response
        ∈ exSentSlave.stepEvents (PortStep.echo 0x55)) :=
  ⟨⟨((BusHandler.handleSymbol_fails_to_skip exSendingMaster
        { sendResult := 1, recv := RecvResult.error RESULT_ERR_TIMEOUT,
          clientRemoved := false }).1 RESULT_ERR_TIMEOUT rfl (by decide)).2.1,
     ((BusHandler.handleSymbol_fails_to_skip exSendingMaster
        { sendResult := 1, recv := RecvResult.error RESULT_ERR_TIMEOUT,
          clientRemoved := false }).1 RESULT_ERR_TIMEOUT rfl (by decide)).2.2.2
        exRequestMaster rfl⟩,
   ⟨((BusHandler.handleSymbol_fails_to_skip exSendingMaster (PortStep.echo 0x00)).2.1 0x00
        (Or.inl rfl) rfl rfl (by decide) (by decide)).2.1,
     ((BusHandler.handleSymbol_fails_to_skip exSendingMaster (PortStep.echo 0x00)).2.1 0x00
        (Or.inl rfl) rfl rfl (by decide) (by decide)).2.2.2 exRequestMaster rfl⟩,
   ⟨((BusHandler.handleSymbol_fails_to_skip exSentSlave (PortStep.echo 0x55)).2.2 0x55
        (Or.inl rfl) rfl (by decide) (by decide) (by decide)).2.1,
     ((BusHandler.handleSymbol_fails_to_skip exSentSlave (PortStep.echo 0x55)).2.2 0x55
        (Or.inl rfl) rfl (by decide) (by decide) (by decide)).2.2.1,
     ((BusHandler.handleSymbol_fails_to_skip exSentSlave (PortStep.echo 0x55)).2.2 0x55
        (Or.inl rfl) rfl (by decide) (by decide) (by decide)).2.2.2 exRequestSlave rfl⟩⟩


/-- C18 (counterexample): the handler waits in `recvCmdAck` for the acknowledgement of the
frame of `exRequestSlave` and receives SYN, a symbol that is neither ACK nor NAK: the step
ends in `ready`, not in `skip`, with the result `SYN`, with which the request is
notified. -/
theorem BusHandler.recvCmdAck_syn_counterexample :
    exSentSlave.state = bs_recvCmdAck ∧ exSentSlave.request = some exRequestSlave ∧
    SYN ≠ ACK ∧ SYN ≠ NAK ∧
    (exSentSlave.handleSymbol (PortStep.echo SYN)).1 = RESULT_SYN ∧
    (exSentSlave.handleSymbol (PortStep.echo SYN)).2.state = bs_ready ∧
    (exSentSlave.handleSymbol (PortStep.echo SYN)).2.state ≠ bs_skip ∧
    BusEvent.notified exRequestSlave RESULT_SYN exSentSlave.response
      ∈ exSentSlave.stepEvents (PortStep.echo SYN) := by
  decide

/-! ## Claims on `sendAndWait` -/

theorem wrapInt_eq (i : Int) (h1 : -2147483648 ≤ i) (h2 : i < 2147483648) : wrapInt i = i := by
  unfold wrapInt
  omega

/-- The counter that `sendAndWait` starts with while the sum fits `int`. -/
theorem wrapInt_succ (n : Nat) (h : n + 1 < 2 ^ 31) :
    wrapInt (wrapUnsigned (wrapUnsigned n + 1)) = (n : Int) + 1 := by
  unfold wrapUnsigned wrapInt
  omega

/-- One iteration of the loop while the counters stay in the range of `int`. -/
theorem BusHandler.sendLoop_step (lostStart : Int) (results : Nat → result_t)
    (sendRetries lostRetries : Int) (attempt : Nat)
    (hs0 : 0 ≤ sendRetries) (hs : sendRetries + 1 < 2147483648)
    (hl1 : -2147483648 < lostRetries) (hl2 : lostRetries < 2147483648) :
    BusHandler.sendLoop lostStart results sendRetries lostRetries attempt =
      if results attempt = RESULT_OK then (attempt + 1, results attempt)
      else if results attempt = RESULT_ERR_BUS_LOST ∧ lostRetries - 1 > 0 then
        BusHandler.sendLoop lostStart results sendRetries (lostRetries - 1) (attempt + 1)
      else if sendRetries = 0 then (attempt + 1, results attempt)
      else BusHandler.sendLoop lostStart results (sendRetries - 1)
        (if results attempt = RESULT_ERR_BUS_LOST then lostStart else lostRetries)
        (attempt + 1) := by
  rw [BusHandler.sendLoop]
  simp only
  have w1 : wrapInt (lostRetries - 1) = lostRetries - 1 := wrapInt_eq _ (by omega) (by omega)
  have w2 : wrapInt (wrapInt (sendRetries + 1) - 1) = sendRetries := by
    rw [wrapInt_eq (sendRetries + 1) (by omega) (by omega)]
    rw [wrapInt_eq _ (by omega) (by omega)]
    omega
  have w3 : wrapInt (sendRetries - 1) = sendRetries - 1 :=
    wrapInt_eq _ (by omega) (by omega)
  rw [w1, w2, w3]
  by_cases hok : results attempt = RESULT_OK
  · rw [if_pos hok, if_pos hok]
  · rw [if_neg hok, if_neg hok]
    by_cases hfree : results attempt = RESULT_ERR_BUS_LOST ∧ lostRetries - 1 > 0
    · rw [if_pos hfree, if_pos hfree, if_pos hs0]
    · rw [if_neg hfree, if_neg hfree]
      by_cases h0 : sendRetries = 0
      · rw [if_pos h0, if_neg (by omega)]
      · rw [if_neg h0, if_pos (by omega)]

/-- One iteration of the loop for counters given as natural numbers in the range of `int`. -/
theorem BusHandler.sendLoop_step_nat (busLostRetries : Nat) (results : Nat → result_t)
    (sendRetries lostRetries attempt : Nat)
    (hs : sendRetries + 1 < 2 ^ 31) (hl : lostRetries < 2 ^ 31) :
    BusHandler.sendLoop ((busLostRetries + 1 : Nat) : Int) results (sendRetries : Int)
        (lostRetries : Int) attempt =
      if results attempt = RESULT_OK then (attempt + 1, results attempt)
      else if results attempt = RESULT_ERR_BUS_LOST ∧ lostRetries - 1 > 0 then
        BusHandler.sendLoop ((busLostRetries + 1 : Nat) : Int) results (sendRetries : Int)
          ((lostRetries - 1 : Nat) : Int) (attempt + 1)
      else if sendRetries = 0 then (attempt + 1, results attempt)
      else BusHandler.sendLoop ((busLostRetries + 1 : Nat) : Int) results
        ((sendRetries - 1 : Nat) : Int)
        (if results attempt = RESULT_ERR_BUS_LOST then ((busLostRetries + 1 : Nat) : Int)
          else (lostRetries : Int)) (attempt + 1) := by
  rw [BusHandler.sendLoop_step _ results (sendRetries : Int) (lostRetries : Int) attempt
    (by omega) (by omega) (by omega) (by omega)]
  by_cases hok : results attempt = RESULT_OK
  · rw [if_pos hok, if_pos hok]
  · rw [if_neg hok, if_neg hok]
    by_cases hfree : results attempt = RESULT_ERR_BUS_LOST ∧ lostRetries - 1 > 0
    · have hfreeI : results attempt = RESULT_ERR_BUS_LOST ∧ (lostRetries : Int) - 1 > 0 :=
        ⟨hfree.1, by omega⟩
      have e : (lostRetries : Int) - 1 = ((lostRetries - 1 : Nat) : Int) := by omega
      rw [if_pos hfreeI, if_pos hfree, e]
    · have hfreeI : ¬ (results attempt = RESULT_ERR_BUS_LOST ∧ (lostRetries : Int) - 1 > 0) :=
        fun h => hfree ⟨h.1, by omega⟩
      rw [if_neg hfreeI, if_neg hfree]
      by_cases h0 : sendRetries = 0
      · have h0I : (sendRetries : Int) = 0 := by omega
        rw [if_pos h0I, if_pos h0]
      · have h0I : ¬ (sendRetries : Int) = 0 := by omega
        have e : (sendRetries : Int) - 1 = ((sendRetries - 1 : Nat) : Int) := by omega
        rw [if_neg h0I, if_neg h0, e]

/-- The start of `sendAndWait` while the sums with 1 fit `int`: the loop starts with
`failedSendRetries + 1` send retries and `busLostRetries + 1` lost retries. -/
theorem BusHandler.sendAndWait_start (failedSendRetries busLostRetries : Nat)
    (results : Nat → result_t) (hF : failedSendRetries + 1 < 2 ^ 31)
    (hB : busLostRetries + 1 < 2 ^ 31) :
    BusHandler.sendAndWait failedSendRetries busLostRetries results =
      BusHandler.sendLoop ((busLostRetries + 1 : Nat) : Int) results
        ((failedSendRetries + 1 : Nat) : Int) ((busLostRetries + 1 : Nat) : Int) 0 := by
  unfold BusHandler.sendAndWait
  simp only
  rw [wrapInt_succ failedSendRetries hF, wrapInt_succ busLostRetries hB, if_pos (by omega)]
  rfl

/-- The retry loop when every attempt ends with an error other than `BUS_LOST`: from an
iteration with `sendRetries` left it makes `sendRetries + 1` more attempts. -/
theorem BusHandler.sendLoop_errors (lostStart : Int) (results : Nat → result_t)
    (herr : ∀ n, results n ≠ RESULT_OK ∧ results n ≠ RESULT_ERR_BUS_LOST)
    (sendRetries : Nat) (hs : sendRetries < 2 ^ 31) :
    ∀ (lostRetries : Int) (attempt : Nat),
      BusHandler.sendLoop lostStart results (sendRetries : Int) lostRetries attempt
        = (attempt + sendRetries + 1, results (attempt + sendRetries)) := by
  induction sendRetries with
  | zero =>
    intro l n
    rw [BusHandler.sendLoop]
    have w : wrapInt (-1) = -1 := by unfold wrapInt; omega
    simp [(herr n).1, (herr n).2, w]
  | succ s ih =>
    intro l n
    rw [BusHandler.sendLoop]
    have w : wrapInt (((s + 1 : Nat) : Int) - 1) = (s : Int) := by unfold wrapInt; omega
    simp only [(herr n).1, (herr n).2, false_and, if_false, w]
    rw [if_pos (by omega), ih (by omega)]
    have e1 : n + 1 + s + 1 = n + (s + 1) + 1 := by omega
    have e2 : n + 1 + s = n + (s + 1) := by omega
    rw [e1, e2]

/-- The unsigned sum with 1 as an `int` when it fits `int` (the other summand may be any
`unsigned int`). -/
theorem wrapInt_succ_nat (n : Nat) (h : n + 1 < 2 ^ 31) :
    wrapInt (wrapUnsigned (wrapUnsigned n + 1)) = ((n + 1 : Nat) : Int) := by
  rw [wrapInt_succ n h]
  omega

/-- C20: send retries, evaluated on the code. When every attempt of `sendAndWait` ends
with an error other than `BUS_LOST`, `sendAndWait` makes `failedSendRetries + 2` attempts
overall, one more than `failedSendRetries + 1`, and returns the error of the last one
(for `failedSendRetries + 1` in the range of the `int` counter). -/
theorem BusHandler.sendAndWait_errors (failedSendRetries busLostRetries : Nat)
    (results : Nat → result_t)
    (herr : ∀ n, results n ≠ RESULT_OK ∧ results n ≠ RESULT_ERR_BUS_LOST)
    (hF : failedSendRetries + 1 < 2 ^ 31) :
    BusHandler.sendAndWait failedSendRetries busLostRetries results
      = (failedSendRetries + 2, results (failedSendRetries + 1)) := by
  unfold BusHandler.sendAndWait
  simp only
  rw [wrapInt_succ_nat failedSendRetries hF, if_pos (by omega),
    BusHandler.sendLoop_errors _ results herr _ hF]
  simp

/-- C20 (witness): with `failedSendRetries = 2` and every attempt ending in `TIMEOUT`,
four attempts are made. -/
theorem BusHandler.sendAndWait_errors_witness :
    BusHandler.sendAndWait 2 3 exAllTimeout = (4, RESULT_ERR_TIMEOUT) :=
  BusHandler.sendAndWait_errors 2 3 exAllTimeout
    (fun _ => ⟨by simp [exAllTimeout], by simp [exAllTimeout]⟩) (by decide)

/-- Outside the range of the counters the loop is not entered: with `m_failedSendRetries` at
2^31 - 1 the sum with 1 converts to a negative `int`, no attempt is made and the initial
`RESULT_SYN` is returned. -/
theorem BusHandler.sendAndWait_noAttempt (busLostRetries : Nat) (results : Nat → result_t) :
    BusHandler.sendAndWait 2147483647 busLostRetries results = (0, RESULT_SYN) := by
  unfold BusHandler.sendAndWait
  simp [wrapInt, wrapUnsigned]

/-! ## The re-synchronisation invariant -/

theorem BusHandler.notifyRequest_resyncOk (h : BusHandler) (state : BusState)
    (result : result_t) (first : Bool) (hok : h.resyncOk) :
    (h.notifyRequest state result first).resyncOk := by
  unfold BusHandler.notifyRequest
  split
  · split
    · exact hok
    · exact hok
  · exact hok

/-- A state change keeps the property: a change to `ready` or `skip` clears the buffers,
and when the state stays the same nothing but the request and the log changes. -/
theorem BusHandler.setState_resyncOk (h : BusHandler) (state : BusState) (result : result_t)
    (first : Bool) (hok : state = h.state → h.resyncOk) :
    (h.setState state result first).2.resyncOk := by
  unfold BusHandler.setState
  simp only [BusHandler.notifyRequest_state]
  split
  · rename_i heq
    exact BusHandler.notifyRequest_resyncOk h state result first (hok heq)
  · split
    · intro _
      simp [BusHandler.isResynced, SymbolString.clear]
    · rename_i hne
      intro hst
      exact absurd hst hne

theorem BusHandler.decideSend_resyncOk (h : BusHandler) (hok : h.resyncOk) :
    h.decideSend.handler.resyncOk := by
  unfold BusHandler.decideSend
  cases hs : h.state <;> simp only
  case bs_ready =>
    by_cases hreq : h.request.isSome = true
    · simp only [hreq, if_true]
      have h1 := BusHandler.setState_resyncOk h bs_ready RESULT_ERR_TIMEOUT false
        (fun _ => hok)
      split
      · split <;> exact h1
      · exact h1
    · simp only [hreq, Bool.false_eq_true, if_false]
      split
      · split <;> exact hok
      · exact hok
  case bs_sendCmd => split <;> exact hok
  case bs_sendResAck => split <;> exact hok
  all_goals exact hok

theorem BusHandler.doSend_resyncOk (d : SendDecision) (io : PortStep)
    (hok : d.handler.resyncOk) : (BusHandler.doSend d io).handler.resyncOk := by
  unfold BusHandler.doSend
  split
  · split
    · exact hok
    · exact BusHandler.setState_resyncOk _ _ _ _ (fun _ => hok)
  · exact hok

theorem BusHandler.dispatch_resyncOk (h : BusHandler) (sendSymbol : Nat) (sending : Bool)
    (recvSymbol : Nat) (hok : h.resyncOk) :
    (h.dispatch sendSymbol sending recvSymbol).2.resyncOk := by
  unfold BusHandler.dispatch
  cases hs : h.state <;> simp only
  case bs_skip => exact hok
  all_goals
    repeat' split
    all_goals
      first
        | (apply BusHandler.setState_resyncOk
           intro heq
           simp [hs, BusHandler.receiveCompleted, BusHandler.setState_state] at heq)
        | (intro hst
           simp [hs] at hst)

/-- The step in terms of the handler at the moment the receive call has returned. -/
theorem BusHandler.handleSymbol_eq (h : BusHandler) (io : PortStep) :
    h.handleSymbol io =
      match io.recv with
      | RecvResult.error code => (h.received io).setState bs_skip code false
      | RecvResult.symbol recvSymbol =>
        if recvSymbol = SYN then
          (if (BusHandler.doSend h.decideSend io).sending = false
              ∧ (h.received io).remainLockCount > 0
            then { h.received io with remainLockCount := (h.received io).remainLockCount - 1 }
            else h.received io).setState bs_ready RESULT_SYN false
        else BusHandler.dispatch (h.received io) (BusHandler.doSend h.decideSend io).sendSymbol
          (BusHandler.doSend h.decideSend io).sending recvSymbol := rfl

theorem BusHandler.received_resyncOk (h : BusHandler) (io : PortStep) (hok : h.resyncOk) :
    (h.received io).resyncOk := by
  have hd := BusHandler.doSend_resyncOk h.decideSend io (BusHandler.decideSend_resyncOk h hok)
  unfold BusHandler.received
  simp only
  split
  · split <;> exact hd
  · exact hd

theorem BusHandler.handleSymbol_resyncOk (h : BusHandler) (io : PortStep)
    (hok : h.resyncOk) : (h.handleSymbol io).2.resyncOk := by
  have h2 := BusHandler.received_resyncOk h io hok
  rw [BusHandler.handleSymbol_eq]
  split
  · exact BusHandler.setState_resyncOk _ _ _ _ (fun _ => h2)
  · split
    · apply BusHandler.setState_resyncOk
      intro _
      split
      · exact h2
      · exact h2
    · exact BusHandler.dispatch_resyncOk _ _ _ _ h2

theorem BusHandler.Reachable.resyncOk (h : BusHandler) (hr : h.Reachable) : h.resyncOk := by
  induction hr with
  | initial l b s =>
    intro _
    rfl
  | step h io _ ih => exact BusHandler.handleSymbol_resyncOk h io ih
  | client h c _ ih =>
    cases c <;> exact ih

/-! ## Claims on the invariants of the state machine -/

/-- C19: buffer re-synchronisation invariant. Starting from the initial state `skip` with
empty buffers, with the clients adding and removing requests between the steps, after
every `handleSymbol` step that ends in state `ready` or `skip` the command buffer and the
response buffer are empty, `nextSendPos` is 0 and both CRC-valid flags are false. -/
theorem BusHandler.resync_invariant (h : BusHandler) (io : PortStep)
    (hr : h.Reachable)
    (hend : (h.handleSymbol io).2.state = bs_ready ∨ (h.handleSymbol io).2.state = bs_skip) :
    (h.handleSymbol io).2.command.data = [] ∧ (h.handleSymbol io).2.response.data = [] ∧
    (h.handleSymbol io).2.nextSendPos = 0 ∧
    (h.handleSymbol io).2.commandCrcValid = false ∧
    (h.handleSymbol io).2.responseCrcValid = false := by
  have hok := BusHandler.handleSymbol_resyncOk h io (BusHandler.Reachable.resyncOk h hr) hend
  simp only [BusHandler.isResynced, Bool.and_eq_true, List.isEmpty_iff, beq_iff_eq,
    Bool.not_eq_true'] at hok
  exact ⟨hok.1.1.1.1, hok.1.1.1.2, hok.1.1.2, hok.1.2, hok.2⟩

/-- C19 (witness): the handler that lost the arbitration against 0x10 holds this symbol
in its command buffer; the SYN received next ends the step in `ready`, with empty
buffers. -/
theorem BusHandler.resync_invariant_witness :
    exHandlerLost.state = bs_recvCmd ∧ exHandlerLost.command.data = [0x10] ∧
    (exHandlerLost.handleSymbol (PortStep.echo SYN)).2.state = bs_ready ∧
    ((exHandlerLost.handleSymbol (PortStep.echo SYN)).2.command.data = [] ∧
     (exHandlerLost.handleSymbol (PortStep.echo SYN)).2.response.data = [] ∧
     (exHandlerLost.handleSymbol (PortStep.echo SYN)).2.nextSendPos = 0 ∧
     (exHandlerLost.handleSymbol (PortStep.echo SYN)).2.commandCrcValid = false ∧
     (exHandlerLost.handleSymbol (PortStep.echo SYN)).2.responseCrcValid = false) :=
  ⟨rfl, rfl, rfl,
   BusHandler.resync_invariant exHandlerLost (PortStep.echo SYN)
     (BusHandler.Reachable.step _ (PortStep.echo 0x10)
       (BusHandler.Reachable.step _ (PortStep.echo SYN)
         (BusHandler.Reachable.client _ (ClientStep.add exRequest)
           (BusHandler.Reachable.initial 5 10000 15000))))
     (Or.inl rfl)⟩


/-! ## Lemmas on the notifications -/

/-- The events a state change logs: a notification with `OK` is logged only on entering
`sendSyn`, for the request in flight, with the response buffer. -/
theorem BusHandler.setState_notified (h : BusHandler) (state : BusState) (result : result_t)
    (first : Bool) :
    ∃ l, (h.setState state result first).2.events = h.events ++ l ∧
      ∀ req slave, BusEvent.notified req RESULT_OK slave ∈ l →
        state = bs_sendSyn ∧ result = RESULT_OK ∧ h.request = some req ∧ slave = h.response := by
  rw [BusHandler.setState_events]
  unfold BusHandler.notifyRequest
  cases hreq : h.request with
  | none => exact ⟨[], by simp⟩
  | some r =>
    simp only
    split
    · rename_i hc
      refine ⟨_, rfl, fun req slave hm => ?_⟩
      simp only [List.mem_singleton, BusEvent.notified.injEq] at hm
      obtain ⟨h1, h2, h3⟩ := hm
      rcases hc with hc | hc
      · exact ⟨hc, h2.symm, by rw [h1], h3⟩
      · exact absurd h2.symm hc.1
    · exact ⟨[], by simp⟩

/-- A state change to a state other than `sendSyn`, after events without a notification
with `OK`, logs no notification with `OK`. -/
theorem BusHandler.setState_notified_other (h X : BusHandler) (state : BusState)
    (result : result_t) (first : Bool) (Q : BusRequest → SymbolString → Prop)
    (pre : List BusEvent) (hpre : X.events = h.events ++ pre)
    (hfree : ∀ req slave, BusEvent.notified req RESULT_OK slave ∉ pre)
    (ht : state ≠ bs_sendSyn) :
    ∃ l, (X.setState state result first).2.events = h.events ++ l ∧
      ∀ req slave, BusEvent.notified req RESULT_OK slave ∈ l → Q req slave := by
  obtain ⟨l, hl, hp⟩ := BusHandler.setState_notified X state result first
  refine ⟨pre ++ l, by rw [hl, hpre, List.append_assoc], fun req slave hm => ?_⟩
  rcases List.mem_append.1 hm with hm | hm
  · exact absurd hm (hfree req slave)
  · exact absurd (hp req slave hm).1 ht

/-- A state change to `sendSyn` of a handler that differs from `h` in neither the log, the
request nor the response buffer. -/
theorem BusHandler.setState_notified_syn (h X : BusHandler) (result : result_t)
    (first : Bool) (Q : BusRequest → SymbolString → Prop)
    (hev : X.events = h.events) (hreq : X.request = h.request)
    (hres : X.response = h.response)
    (hq : ∀ req slave, h.request = some req → slave = h.response → Q req slave) :
    ∃ l, (X.setState bs_sendSyn result first).2.events = h.events ++ l ∧
      ∀ req slave, BusEvent.notified req RESULT_OK slave ∈ l → Q req slave := by
  obtain ⟨l, hl, hp⟩ := BusHandler.setState_notified X bs_sendSyn result first
  refine ⟨l, by rw [hl, hev], fun req slave hm => ?_⟩
  have := hp req slave hm
  exact hq req slave (hreq ▸ this.2.2.1) (hres ▸ this.2.2.2)

/-- A state change to a state other than `sendSyn`, after another one. -/
theorem BusHandler.setState_notified_twice (h X Y : BusHandler) (state state2 : BusState)
    (result result2 : result_t) (first first2 : Bool)
    (Q : BusRequest → SymbolString → Prop)
    (hX : X.events = (Y.setState state2 result2 first2).2.events) (hY : Y.events = h.events)
    (ht2 : state2 ≠ bs_sendSyn) (ht : state ≠ bs_sendSyn) :
    ∃ l, (X.setState state result first).2.events = h.events ++ l ∧
      ∀ req slave, BusEvent.notified req RESULT_OK slave ∈ l → Q req slave := by
  obtain ⟨l2, hl2, hp2⟩ := BusHandler.setState_notified Y state2 result2 first2
  exact BusHandler.setState_notified_other h X state result first Q l2
    (by rw [hX, hl2, hY]) (fun req slave hm => absurd (hp2 req slave hm).1 ht2) ht

theorem BusHandler.dispatch_notified (h : BusHandler) (sendSymbol : Nat) (sending : Bool)
    (recvSymbol : Nat) :
    ∃ l, (h.dispatch sendSymbol sending recvSymbol).2.events = h.events ++ l ∧
      ∀ req slave, BusEvent.notified req RESULT_OK slave ∈ l →
        h.request = some req ∧ slave = h.response ∧
        ((h.state = bs_sendCmd ∧ req.master.get 1 = BROADCAST) ∨
         (h.state = bs_recvCmdAck ∧ isMaster (req.master.get 1) = true) ∨
         (h.state = bs_sendResAck ∧ sending = true ∧ recvSymbol = sendSymbol)) := by
  unfold BusHandler.dispatch
  cases hs : h.state <;> simp only
  case bs_skip => exact ⟨[], (List.append_nil _).symm, fun _ _ hm => absurd hm (List.not_mem_nil _)⟩
  case bs_sendResAck =>
    split
    · rename_i hc
      exact BusHandler.setState_notified_syn h _ _ _ _ rfl rfl rfl
        (fun req slave hr hsl => ⟨hr, hsl, Or.inr (Or.inr ⟨trivial, hc.2.1, hc.2.2⟩)⟩)
    · exact BusHandler.setState_notified_other h _ _ _ _ _ [] (List.append_nil _).symm
        (fun _ _ hm => List.not_mem_nil _ hm) (by decide)
  case bs_sendCmd =>
    split
    · rename_i req0 hreq0
      split
      · split
        · split
          · rename_i hb
            refine BusHandler.setState_notified_syn h _ _ _ _ rfl rfl rfl
              (fun req slave hr hsl => ⟨hr, hsl, Or.inl ⟨trivial, ?_⟩⟩)
            rw [hreq0] at hr
            cases hr
            exact hb
          · exact BusHandler.setState_notified_other h _ _ _ _ _ [] (List.append_nil _).symm
              (fun _ _ hm => List.not_mem_nil _ hm) (by decide)
        · exact ⟨[], (List.append_nil _).symm, fun _ _ hm => absurd hm (List.not_mem_nil _)⟩
      · exact BusHandler.setState_notified_other h _ _ _ _ _ [] (List.append_nil _).symm
          (fun _ _ hm => List.not_mem_nil _ hm) (by decide)
    · exact BusHandler.setState_notified_other h _ _ _ _ _ [] (List.append_nil _).symm
        (fun _ _ hm => List.not_mem_nil _ hm) (by decide)
  case bs_recvCmdAck =>
    repeat' split
    all_goals
      first
        | exact BusHandler.setState_notified_other h _ _ _ _ _ [] (List.append_nil _).symm
            (fun _ _ hm => List.not_mem_nil _ hm) (by decide)
        | exact BusHandler.setState_notified_other h _ _ _ _ _ [_] rfl
            (fun _ _ hm => by cases hm with | tail _ hm2 => cases hm2) (by decide)
        | skip
    · rename_i req0 hreq0 hm0
      refine BusHandler.setState_notified_syn h _ _ _ _ rfl rfl rfl
        (fun req slave hr hsl => ⟨hr, hsl, Or.inr (Or.inl ⟨trivial, ?_⟩)⟩)
      rw [hreq0] at hr
      cases hr
      exact hm0
  case bs_recvCmd =>
    repeat' split
    all_goals
      first
        | exact BusHandler.setState_notified_other h _ _ _ _ _ [] (List.append_nil _).symm
            (fun _ _ hm => List.not_mem_nil _ hm) (by decide)
        | exact BusHandler.setState_notified_other h _ _ _ _ _ [_] rfl
            (fun _ _ hm => by cases hm with | tail _ hm2 => cases hm2) (by decide)
        | exact ⟨[], (List.append_nil _).symm, fun _ _ hm => absurd hm (List.not_mem_nil _)⟩
  case bs_recvRes =>
    repeat' split
    all_goals
      first
        | exact BusHandler.setState_notified_other h _ _ _ _ _ [] (List.append_nil _).symm
            (fun _ _ hm => List.not_mem_nil _ hm) (by decide)
        | exact ⟨[], (List.append_nil _).symm, fun _ _ hm => absurd hm (List.not_mem_nil _)⟩
  case bs_recvResAck =>
    repeat' split
    all_goals
      first
        | exact BusHandler.setState_notified_other h _ _ _ _ _ [] (List.append_nil _).symm
            (fun _ _ hm => List.not_mem_nil _ hm) (by decide)
        | exact BusHandler.setState_notified_other h _ _ _ _ _ [_] rfl
            (fun _ _ hm => by cases hm with | tail _ hm2 => cases hm2) (by decide)
  case bs_sendSyn =>
    repeat' split
    all_goals
      exact BusHandler.setState_notified_other h _ _ _ _ _ [] (List.append_nil _).symm
        (fun _ _ hm => List.not_mem_nil _ hm) (by decide)
  case bs_ready =>
    repeat' split
    all_goals
      first
        | exact BusHandler.setState_notified_other h _ _ _ _ _ [] (List.append_nil _).symm
            (fun _ _ hm => List.not_mem_nil _ hm) (by decide)
        | exact BusHandler.setState_notified_twice h _ _ _ _ _ _ _ _ _ rfl rfl
            (by decide) (by decide)

theorem BusHandler.decideSend_state (h : BusHandler) :
    h.decideSend.handler.state = h.state := by
  unfold BusHandler.decideSend
  cases hs : h.state <;> simp only
  case bs_ready =>
    by_cases hreq : h.request.isSome = true
    · simp only [hreq, if_true]
      split
      · split <;> simp [BusHandler.setState_state]
      · simp [BusHandler.setState_state]
    · simp only [hreq, Bool.false_eq_true, if_false]
      split
      · split <;> simp [hs]
      · simp [hs]
  case bs_sendCmd => split <;> simp [hs]
  case bs_sendResAck => split <;> simp [hs]
  all_goals simp [hs]

/-- Outside the state `ready` the decision to send leaves the handler as it is. -/
theorem BusHandler.decideSend_handler (h : BusHandler) (hs : h.state ≠ bs_ready) :
    h.decideSend.handler = h := by
  unfold BusHandler.decideSend
  cases hst : h.state <;> simp only
  case bs_ready => exact absurd hst hs
  case bs_sendCmd => split <;> rfl
  case bs_sendResAck => split <;> rfl

/-- When the receive call returns in a state other than `skip` and `ready`, the handler
is the one the step started from, but for the log and the queue. -/
theorem BusHandler.received_of_state (h : BusHandler) (io : PortStep)
    (hskip : (h.received io).state ≠ bs_skip) (hready : (h.received io).state ≠ bs_ready) :
    (h.received io).state = h.state ∧ (h.received io).request = h.request ∧
    (h.received io).response = h.response ∧
    (h.received io).responseCrcValid = h.responseCrcValid ∧
    (h.received io).nextSendPos = h.nextSendPos := by
  have hst : (h.received io).state = (BusHandler.doSend h.decideSend io).handler.state := by
    unfold BusHandler.received
    simp only
    split
    · split <;> rfl
    · rfl
  have hfields : (h.received io).request = (BusHandler.doSend h.decideSend io).handler.request ∧
      (h.received io).response = (BusHandler.doSend h.decideSend io).handler.response ∧
      (h.received io).responseCrcValid
        = (BusHandler.doSend h.decideSend io).handler.responseCrcValid ∧
      (h.received io).nextSendPos = (BusHandler.doSend h.decideSend io).handler.nextSendPos := by
    unfold BusHandler.received
    simp only
    split
    · split <;> exact ⟨rfl, rfl, rfl, rfl⟩
    · exact ⟨rfl, rfl, rfl, rfl⟩
  have hd : (BusHandler.doSend h.decideSend io).handler.state = h.state ∧
      (h.state ≠ bs_ready →
        (BusHandler.doSend h.decideSend io).handler.request = h.request ∧
        (BusHandler.doSend h.decideSend io).handler.response = h.response ∧
        (BusHandler.doSend h.decideSend io).handler.responseCrcValid = h.responseCrcValid ∧
        (BusHandler.doSend h.decideSend io).handler.nextSendPos = h.nextSendPos) := by
    rw [hst] at hskip
    unfold BusHandler.doSend at hskip ⊢
    split
    · split
      · exact ⟨BusHandler.decideSend_state h, fun hr => by
          simp only [BusHandler.decideSend_handler h hr, and_self]⟩
      · rename_i h1 h2
        simp only [h1, h2, if_true, if_false, BusHandler.setState_state] at hskip
        exact absurd rfl hskip
    · exact ⟨BusHandler.decideSend_state h, fun hr => by
        simp only [BusHandler.decideSend_handler h hr, and_self]⟩
  have hs : h.state ≠ bs_ready := by
    rw [← hd.1, ← hst]; exact hready
  exact ⟨hst.trans hd.1, hfields.1.trans (hd.2 hs).1, hfields.2.1.trans (hd.2 hs).2.1,
    hfields.2.2.1.trans (hd.2 hs).2.2.1, hfields.2.2.2.trans (hd.2 hs).2.2.2⟩

theorem BusHandler.decideSend_notified (h : BusHandler) :
    ∃ l, h.decideSend.handler.events = h.events ++ l ∧
      ∀ req slave, BusEvent.notified req RESULT_OK slave ∉ l := by
  have hset : ∃ l, (h.setState bs_ready RESULT_ERR_TIMEOUT false).2.events = h.events ++ l ∧
      ∀ req slave, BusEvent.notified req RESULT_OK slave ∉ l := by
    obtain ⟨l, hl, hp⟩ := BusHandler.setState_notified h bs_ready RESULT_ERR_TIMEOUT false
    exact ⟨l, hl, fun req slave hm => absurd (hp req slave hm).1 (by decide)⟩
  have hnil : ∃ l, h.events = h.events ++ l ∧
      ∀ req slave, BusEvent.notified req RESULT_OK slave ∉ l :=
    ⟨[], (List.append_nil _).symm, fun _ _ hm => List.not_mem_nil _ hm⟩
  unfold BusHandler.decideSend
  cases hs : h.state <;> simp only
  case bs_ready =>
    by_cases hreq : h.request.isSome = true
    · simp only [hreq, if_true]
      split
      · split <;> exact hset
      · exact hset
    · simp only [hreq, Bool.false_eq_true, if_false]
      split
      · split <;> exact hnil
      · exact hnil
  case bs_sendCmd => split <;> exact hnil
  case bs_sendResAck => split <;> exact hnil
  all_goals exact hnil

theorem BusHandler.doSend_notified (d : SendDecision) (io : PortStep) :
    ∃ l, (BusHandler.doSend d io).handler.events = d.handler.events ++ l ∧
      ∀ req slave, BusEvent.notified req RESULT_OK slave ∉ l := by
  unfold BusHandler.doSend
  split
  · split
    · exact ⟨_, rfl, fun _ _ hm => by cases hm with | tail _ hm2 => cases hm2⟩
    · obtain ⟨l, hl, hp⟩ := BusHandler.setState_notified
        { d.handler with events := d.handler.events ++ [BusEvent.sendFailed d.sendSymbol] }
        bs_skip RESULT_ERR_SEND false
      refine ⟨[BusEvent.sendFailed d.sendSymbol] ++ l,
        by simp only [hl, List.append_assoc], fun req slave hm => ?_⟩
      rcases List.mem_append.1 hm with hm | hm
      · cases hm with | tail _ hm2 => cases hm2
      · exact absurd (hp req slave hm).1 (by decide)
  · exact ⟨[], (List.append_nil _).symm, fun _ _ hm => List.not_mem_nil _ hm⟩

theorem BusHandler.received_notified (h : BusHandler) (io : PortStep) :
    ∃ l, (h.received io).events = h.events ++ l ∧
      ∀ req slave, BusEvent.notified req RESULT_OK slave ∉ l := by
  obtain ⟨l1, hl1, hp1⟩ := BusHandler.decideSend_notified h
  obtain ⟨l2, hl2, hp2⟩ := BusHandler.doSend_notified h.decideSend io
  have hev : (h.received io).events = (BusHandler.doSend h.decideSend io).handler.events
      ++ [BusEvent.recv (BusHandler.doSend h.decideSend io).timeout] := by
    unfold BusHandler.received
    simp only
    split
    · split <;> rfl
    · rfl
  refine ⟨l1 ++ l2 ++ [BusEvent.recv (BusHandler.doSend h.decideSend io).timeout],
    by rw [hev, hl2, hl1]; simp only [List.append_assoc], fun req slave hm => ?_⟩
  rcases List.mem_append.1 hm with hm | hm
  · rcases List.mem_append.1 hm with hm | hm
    · exact hp1 req slave hm
    · exact hp2 req slave hm
  · cases hm with | tail _ hm2 => cases hm2

/-- A step notifies a request with `OK` only when it enters `sendSyn`: for the request in
flight, with the response buffer as it is before the step, after the last symbol of a
broadcast frame is read back in `sendCmd`, after the ACK of an addressed master is received
in `recvCmdAck`, or when the symbol emitted in `sendResAck` is read back. -/
theorem BusHandler.handleSymbol_notified (h : BusHandler) (io : PortStep)
    (req : BusRequest) (slave : SymbolString)
    (hn : BusEvent.notified req RESULT_OK slave ∈ h.stepEvents io) :
    h.request = some req ∧ slave = h.response ∧
    ((h.state = bs_sendCmd ∧ req.master.get 1 = BROADCAST) ∨
     (h.state = bs_recvCmdAck ∧ isMaster (req.master.get 1) = true) ∨
     (h.state = bs_sendResAck ∧ h.emits io = true ∧
       io.recv = RecvResult.symbol h.decideSend.sendSymbol)) := by
  obtain ⟨l0, hl0, hp0⟩ := BusHandler.received_notified h io
  have hfree : ∀ (X : BusHandler) (state : BusState) (result : result_t) (first : Bool),
      X.events = (h.received io).events → state ≠ bs_sendSyn →
      BusEvent.notified req RESULT_OK slave ∈
        List.drop h.events.length (X.setState state result first).2.events → False := by
    intro X state result first hX hst hm
    obtain ⟨l, hl, hp⟩ := BusHandler.setState_notified X state result first
    rw [hl, hX, hl0, List.append_assoc, List.drop_left] at hm
    rcases List.mem_append.1 hm with hm | hm
    · exact hp0 req slave hm
    · exact hst (hp req slave hm).1
  unfold BusHandler.stepEvents at hn
  rw [BusHandler.handleSymbol_eq] at hn
  cases hr : io.recv with
  | error code =>
    simp only [hr] at hn
    exact absurd hn (hfree _ _ _ _ rfl (by decide))
  | symbol b =>
    simp only [hr] at hn
    by_cases hb : b = SYN
    · simp only [hb, if_true] at hn
      refine absurd hn (hfree _ _ _ _ ?_ (by decide))
      split <;> rfl
    · simp only [hb, if_false] at hn
      obtain ⟨l, hl, hp⟩ := BusHandler.dispatch_notified (h.received io)
        (BusHandler.doSend h.decideSend io).sendSymbol
        (BusHandler.doSend h.decideSend io).sending b
      rw [hl, hl0, List.append_assoc, List.drop_left] at hn
      rcases List.mem_append.1 hn with hm | hm
      · exact absurd hm (hp0 req slave)
      · obtain ⟨hq, hsl, hcase⟩ := hp req slave hm
        have hsend : (BusHandler.doSend h.decideSend io).sendSymbol
            = h.decideSend.sendSymbol := by
          unfold BusHandler.doSend
          split
          · split <;> rfl
          · rfl
        rcases hcase with hc | hc | hc
        · have hf := BusHandler.received_of_state h io (by rw [hc.1]; decide)
            (by rw [hc.1]; decide)
          exact ⟨hf.2.1 ▸ hq, hf.2.2.1 ▸ hsl, Or.inl ⟨hf.1 ▸ hc.1, hc.2⟩⟩
        · have hf := BusHandler.received_of_state h io (by rw [hc.1]; decide)
            (by rw [hc.1]; decide)
          exact ⟨hf.2.1 ▸ hq, hf.2.2.1 ▸ hsl, Or.inr (Or.inl ⟨hf.1 ▸ hc.1, hc.2⟩)⟩
        · have hf := BusHandler.received_of_state h io (by rw [hc.1]; decide)
            (by rw [hc.1]; decide)
          exact ⟨hf.2.1 ▸ hq, hf.2.2.1 ▸ hsl,
            Or.inr (Or.inr ⟨hf.1 ▸ hc.1, hc.2.1, by rw [hc.2.2, hsend]⟩)⟩


/-! ## Lemmas on the request in flight -/

/-- The request in flight after a state change. -/
theorem BusHandler.setState_request_eq (h : BusHandler) (state : BusState)
    (result : result_t) (first : Bool) :
    (h.setState state result first).2.request
      = (if state = bs_sendSyn ∨ (result ≠ RESULT_OK ∧ first = false) then none
         else h.request) := by
  rw [BusHandler.setState_request]
  unfold BusHandler.notifyRequest
  cases hreq : h.request with
  | none => simp [hreq]
  | some r =>
    simp only
    split
    · rfl
    · exact hreq

theorem result_t.ne_ok_of_isError (r : result_t) (h : r.isError = true) : r ≠ RESULT_OK := by
  intro he
  rw [he] at h
  exact absurd h (by decide)

theorem BusHandler.setState_nextSendPos (h : BusHandler) (state : BusState)
    (result : result_t) (first : Bool) (hr : state ≠ bs_ready) (hs : state ≠ bs_skip) :
    (h.setState state result first).2.nextSendPos = h.nextSendPos := by
  unfold BusHandler.setState BusHandler.notifyRequest
  simp only [hr, hs, or_self, if_false]
  cases hreq : h.request with
  | none => simp only; split <;> rfl
  | some r => simp only; split <;> split <;> rfl

theorem BusHandler.setState_response (h : BusHandler) (state : BusState)
    (result : result_t) (first : Bool) (hr : state ≠ bs_ready) (hs : state ≠ bs_skip) :
    (h.setState state result first).2.response = h.response := by
  unfold BusHandler.setState BusHandler.notifyRequest
  simp only [hr, hs, or_self, if_false]
  cases hreq : h.request with
  | none => simp only; split <;> rfl
  | some r => simp only; split <;> split <;> rfl

theorem BusHandler.setState_responseCrcValid (h : BusHandler) (state : BusState)
    (result : result_t) (first : Bool) (hr : state ≠ bs_ready) (hs : state ≠ bs_skip) :
    (h.setState state result first).2.responseCrcValid = h.responseCrcValid := by
  unfold BusHandler.setState BusHandler.notifyRequest
  simp only [hr, hs, or_self, if_false]
  cases hreq : h.request with
  | none => simp only; split <;> rfl
  | some r => simp only; split <;> split <;> rfl

/-- The transitions of `dispatch` that leave a request in flight. -/
theorem BusHandler.dispatch_request (h : BusHandler) (sendSymbol : Nat) (sending : Bool)
    (recvSymbol : Nat) (req : BusRequest)
    (hq : (h.dispatch sendSymbol sending recvSymbol).2.request = some req) :
    h.request = some req ∧
    ((h.state = bs_ready ∧
        ((sending = true ∧ recvSymbol = sendSymbol ∧
          (h.dispatch sendSymbol sending recvSymbol).2.state = bs_sendCmd ∧
          (h.dispatch sendSymbol sending recvSymbol).2.nextSendPos = 1) ∨ sending = false)) ∨
     (h.state = bs_sendCmd ∧ sending = true ∧ recvSymbol = sendSymbol ∧
        (((h.dispatch sendSymbol sending recvSymbol).2.state = bs_sendCmd ∧
          (h.dispatch sendSymbol sending recvSymbol).2.nextSendPos = h.nextSendPos + 1) ∨
         ((h.dispatch sendSymbol sending recvSymbol).2.state = bs_recvCmdAck ∧
          req.master.size ≤ h.nextSendPos + 1))) ∨
     (h.state = bs_recvCmdAck ∧
        ((recvSymbol = ACK ∧ (h.dispatch sendSymbol sending recvSymbol).2.state = bs_recvRes) ∨
         ((h.dispatch sendSymbol sending recvSymbol).2.state = bs_sendCmd ∧
          (h.dispatch sendSymbol sending recvSymbol).2.nextSendPos = 0))) ∨
     (h.state = bs_recvRes ∧
        ((h.dispatch sendSymbol sending recvSymbol).2.state = bs_recvRes ∨
         ((h.dispatch sendSymbol sending recvSymbol).2.state = bs_sendResAck ∧
          (h.dispatch sendSymbol sending recvSymbol).2.responseCrcValid = true))) ∨
     h.state = bs_skip ∨ h.state = bs_recvCmd ∨ h.state = bs_recvResAck ∨
     h.state = bs_sendSyn) := by
  generalize hd : h.dispatch sendSymbol sending recvSymbol = d at hq ⊢
  unfold BusHandler.dispatch at hd
  cases hs : h.state <;> simp only [hs] at hd
  case bs_skip => subst hd; exact ⟨hq, by simp⟩
  case bs_sendSyn =>
    refine ⟨?_, by simp⟩
    split at hd
    all_goals
      subst hd
      simp [BusHandler.setState_request_eq] at hq
    exact hq
  case bs_sendResAck =>
    split at hd
    all_goals
      subst hd
      simp [BusHandler.setState_request_eq] at hq
  case bs_recvResAck =>
    refine ⟨?_, by simp⟩
    repeat' split at hd
    all_goals
      subst hd
      simp [BusHandler.setState_request_eq, BusHandler.receiveCompleted] at hq
    all_goals exact hq
  case bs_recvCmd =>
    refine ⟨?_, by simp⟩
    repeat' split at hd
    all_goals
      subst hd
      simp [BusHandler.setState_request_eq, BusHandler.receiveCompleted] at hq
    all_goals first | exact hq | exact hq.2
  case bs_sendCmd =>
    repeat' split at hd
    all_goals
      subst hd
      simp [BusHandler.setState_request_eq, BusHandler.setState_state,
        BusHandler.setState_nextSendPos] at hq ⊢
    all_goals simp_all
  case bs_recvCmdAck =>
    repeat' split at hd
    all_goals
      subst hd
      simp [BusHandler.setState_request_eq, BusHandler.setState_state,
        BusHandler.setState_nextSendPos, BusHandler.receiveCompleted] at hq ⊢
    all_goals simp_all
  case bs_recvRes =>
    repeat' split at hd
    all_goals
      subst hd
      simp [BusHandler.setState_request_eq, BusHandler.setState_state,
        BusHandler.setState_responseCrcValid] at hq ⊢
    all_goals simp_all [result_t.isError]
  case bs_ready =>
    repeat' split at hd
    all_goals
      subst hd
      simp [BusHandler.setState_request_eq, BusHandler.setState_state,
        BusHandler.setState_nextSendPos] at hq ⊢
    all_goals simp_all [result_t.isError]

/-- In state `ready` a request is in flight after the decision to send only when it has
been taken from the queue to start the arbitration. -/
theorem BusHandler.decideSend_ready_request (h : BusHandler) (req : BusRequest)
    (hs : h.state = bs_ready) (hq : h.decideSend.handler.request = some req) :
    h.decideSend.sending = true ∧ h.decideSend.sendSymbol = req.master.get 0 := by
  unfold BusHandler.decideSend at hq ⊢
  simp only [hs] at hq ⊢
  by_cases hreq : h.request.isSome = true
  · simp only [hreq, if_true] at hq ⊢
    split at hq
    · rename_i h0
      simp only [h0, if_true]
      split at hq
      · rename_i r hr
        simp only [hr]
        simp only [Option.some.injEq] at hq
        exact ⟨trivial, by rw [hq]⟩
      · simp at hq
    · simp [BusHandler.setState_request_eq] at hq
  · simp only [hreq, Bool.false_eq_true, if_false] at hq ⊢
    split at hq
    · rename_i h0
      simp only [h0, if_true]
      split at hq
      · rename_i r hr
        simp only [hr]
        simp only [Option.some.injEq] at hq
        exact ⟨trivial, by rw [hq]⟩
      · simp at hq
    · rw [hq] at hreq
      simp at hreq

/-- When a request is in flight at the moment the receive call returns, the send did not
fail, and the handler is the one after the decision to send, but for the log and the
queue. -/
theorem BusHandler.received_request (h : BusHandler) (io : PortStep) (req : BusRequest)
    (hq : (h.received io).request = some req) :
    (h.received io).state = h.state ∧
    (h.received io).nextSendPos = h.decideSend.handler.nextSendPos ∧
    h.decideSend.handler.request = some req ∧
    (BusHandler.doSend h.decideSend io).sending = h.decideSend.sending ∧
    (BusHandler.doSend h.decideSend io).sendSymbol = h.decideSend.sendSymbol := by
  have hf : (h.received io).state = (BusHandler.doSend h.decideSend io).handler.state ∧
      (h.received io).request = (BusHandler.doSend h.decideSend io).handler.request ∧
      (h.received io).nextSendPos
        = (BusHandler.doSend h.decideSend io).handler.nextSendPos := by
    unfold BusHandler.received
    simp only
    split
    · split <;> exact ⟨rfl, rfl, rfl⟩
    · exact ⟨rfl, rfl, rfl⟩
  rw [hf.2.1] at hq
  rw [hf.1, hf.2.2]
  unfold BusHandler.doSend at hq ⊢
  split
  · rename_i h1
    split
    · rename_i h2
      simp only [h1, h2, if_true] at hq
      exact ⟨BusHandler.decideSend_state h, rfl, hq, rfl, rfl⟩
    · rename_i h2
      simp only [h1, h2, if_true, if_false, BusHandler.setState_request_eq] at hq
      simp at hq
  · rename_i h1
    simp only [h1, if_false] at hq
    exact ⟨BusHandler.decideSend_state h, rfl, hq, rfl, rfl⟩

/-- The steps that leave a request in flight: the arbitration won for it in `ready`, or it
was in flight before and a symbol of its frame is read back in `sendCmd`, the ACK or the
first NAK is received in `recvCmdAck`, or a symbol of the response in `recvRes`; in the
other states a request in flight stays, if there is one. -/
theorem BusHandler.handleSymbol_request (h : BusHandler) (io : PortStep) (req : BusRequest)
    (hv : io.valid) (hq : (h.handleSymbol io).2.request = some req) :
    (BusHandler.wins req (h, io) ∧ (h.handleSymbol io).2.nextSendPos = 1) ∨
    (h.request = some req ∧
      ((h.state = bs_sendCmd ∧ BusHandler.echoes req h.nextSendPos (h, io) ∧
          (((h.handleSymbol io).2.state = bs_sendCmd ∧
            (h.handleSymbol io).2.nextSendPos = h.nextSendPos + 1) ∨
           ((h.handleSymbol io).2.state = bs_recvCmdAck ∧
            req.master.size ≤ h.nextSendPos + 1))) ∨
       (h.state = bs_recvCmdAck ∧
          ((BusHandler.acknowledged req (h, io) ∧ (h.handleSymbol io).2.state = bs_recvRes) ∨
           ((h.handleSymbol io).2.state = bs_sendCmd ∧
            (h.handleSymbol io).2.nextSendPos = 0))) ∨
       (h.state = bs_recvRes ∧
          ((h.handleSymbol io).2.state = bs_recvRes ∨
           ((h.handleSymbol io).2.state = bs_sendResAck ∧
            (h.handleSymbol io).2.responseCrcValid = true))) ∨
       h.state = bs_skip ∨ h.state = bs_recvCmd ∨ h.state = bs_recvResAck ∨
       h.state = bs_sendSyn)) := by
  cases hr : io.recv with
  | error code =>
    rw [BusHandler.handleSymbol_eq] at hq
    simp only [hr] at hq
    rw [BusHandler.setState_request_eq] at hq
    have hc := result_t.ne_ok_of_isError code (hv.1 code hr)
    simp [hc] at hq
  | symbol b =>
    by_cases hb : b = SYN
    · rw [BusHandler.handleSymbol_eq] at hq
      simp only [hr, hb, if_true] at hq
      rw [BusHandler.setState_request_eq] at hq
      simp at hq
    · have hE : h.handleSymbol io = BusHandler.dispatch (h.received io)
          (BusHandler.doSend h.decideSend io).sendSymbol
          (BusHandler.doSend h.decideSend io).sending b := by
        rw [BusHandler.handleSymbol_eq]
        simp only [hr, hb, if_false]
      rw [hE] at hq ⊢
      obtain ⟨hX, hcase⟩ := BusHandler.dispatch_request _ _ _ _ req hq
      obtain ⟨hst, hpos, hdq, hsg, hss⟩ := BusHandler.received_request h io req hX
      have hemit : h.emits io = (BusHandler.doSend h.decideSend io).sending := rfl
      rw [hst] at hcase
      rcases hcase with hc | hc | hc | hc | hc
      · -- ready
        left
        have hd := BusHandler.decideSend_ready_request h req hc.1 hdq
        rcases hc.2 with hw | hw
        · refine ⟨⟨hc.1, hdq, by rw [hemit]; exact hw.1, hd.2, ?_, by rw [hE]; exact hw.2.2.1⟩,
            hw.2.2.2⟩
          rw [hr, hw.2.1, hss, hd.2]
        · rw [hsg, hd.1] at hw
          exact absurd hw (by decide)
      · -- sendCmd
        right
        have hne : h.state ≠ bs_ready := by rw [hc.1]; decide
        have hh := BusHandler.decideSend_handler h hne
        rw [hh] at hdq hpos
        have hsym : h.decideSend.sendSymbol = req.master.get h.nextSendPos := by
          simp [BusHandler.decideSend, hc.1, hdq]
        refine ⟨hdq, Or.inl ⟨hc.1, ⟨hc.1, hdq, rfl, by rw [hemit]; exact hc.2.1, hsym, ?_⟩, ?_⟩⟩
        · rw [hr, hc.2.2.1, hss, hsym]
        · rw [hpos] at hc
          exact hc.2.2.2
      · -- recvCmdAck
        right
        have hne : h.state ≠ bs_ready := by rw [hc.1]; decide
        have hh := BusHandler.decideSend_handler h hne
        rw [hh] at hdq
        refine ⟨hdq, Or.inr (Or.inl ⟨hc.1, ?_⟩)⟩
        rcases hc.2 with ha | ha
        · exact Or.inl ⟨⟨hc.1, hdq, by rw [hr, ha.1]⟩, ha.2⟩
        · exact Or.inr ha
      · -- recvRes
        right
        have hne : h.state ≠ bs_ready := by rw [hc.1]; decide
        have hh := BusHandler.decideSend_handler h hne
        rw [hh] at hdq
        exact ⟨hdq, Or.inr (Or.inr (Or.inl hc))⟩
      · right
        have hne : h.state ≠ bs_ready := by
          rcases hc with hc | hc | hc | hc <;> rw [hc] <;> decide
        have hh := BusHandler.decideSend_handler h hne
        rw [hh] at hdq
        exact ⟨hdq, Or.inr (Or.inr (Or.inr hc))⟩


/-! ## The exchange invariant -/

theorem BusHandler.exchange_step (hist : List (BusHandler × PortStep)) (h : BusHandler)
    (io : PortStep) (hv : io.valid) (hex : BusHandler.exchange hist h) :
    BusHandler.exchange ((h, io) :: hist) (h.handleSymbol io).2 := by
  intro req hq
  rcases BusHandler.handleSymbol_request h io req hv hq with hw | ⟨hreq, hcase⟩
  · refine ⟨[], (h, io), hist, rfl, hw.1, fun p hp => absurd hp (List.not_mem_nil _),
      Or.inl ⟨hw.1.2.2.2.2.2, fun k h1 h2 => ?_⟩⟩
    rw [hw.2] at h2
    omega
  · obtain ⟨rest, pw, pre, hh, hwin, hall, hphase⟩ := hex req hreq
    have hall2 : ∀ p ∈ (h, io) :: rest, p.1.request = some req := by
      intro p hp
      rcases List.mem_cons.1 hp with hp | hp
      · rw [hp]; exact hreq
      · exact hall p hp
    have hlift : ∀ P : BusHandler × PortStep → Prop,
        (∃ p ∈ rest, P p) → ∃ p ∈ (h, io) :: rest, P p :=
      fun P ⟨p, hp, hP⟩ => ⟨p, List.mem_cons_of_mem _ hp, hP⟩
    refine ⟨(h, io) :: rest, pw, pre, by rw [hh]; rfl, hwin, hall2, ?_⟩
    rcases hcase with hc | hc | hc | hc
    · -- sendCmd
      have hph : ∀ k, 1 ≤ k → k < h.nextSendPos → ∃ p ∈ rest, BusHandler.echoes req k p := by
        rcases hphase with hp | hp
        · exact hp.2
        · rcases hp.2 with hp2 | hp2
          · rw [hc.1] at hp2; exact absurd hp2 (by decide)
          · rcases hp2.2 with hp3 | hp3
            · rw [hc.1] at hp3; exact absurd hp3 (by decide)
            · rw [hc.1] at hp3; exact absurd hp3.1 (by decide)
      have hech : ∀ k, 1 ≤ k → k < h.nextSendPos + 1 →
          ∃ p ∈ (h, io) :: rest, BusHandler.echoes req k p := by
        intro k h1 h2
        by_cases hk : k < h.nextSendPos
        · exact hlift _ (hph k h1 hk)
        · have hkeq : k = h.nextSendPos := by omega
          exact ⟨(h, io), List.mem_cons_self _ _, by rw [hkeq]; exact hc.2.1⟩
      rcases hc.2.2 with hn | hn
      · exact Or.inl ⟨hn.1, fun k h1 h2 => hech k h1 (by rw [hn.2] at h2; exact h2)⟩
      · exact Or.inr ⟨fun k h1 h2 => hech k h1 (by omega), Or.inl hn.1⟩
    · -- recvCmdAck
      have hph : ∀ k, 1 ≤ k → k < req.master.size →
          ∃ p ∈ rest, BusHandler.echoes req k p := by
        rcases hphase with hp | hp
        · rw [hc.1] at hp; exact absurd hp.1 (by decide)
        · exact hp.1
      rcases hc.2 with ha | ha
      · exact Or.inr ⟨fun k h1 h2 => hlift _ (hph k h1 h2),
          Or.inr ⟨⟨(h, io), List.mem_cons_self _ _, ha.1⟩, Or.inl ha.2⟩⟩
      · exact Or.inl ⟨ha.1, fun k h1 h2 => by rw [ha.2] at h2; omega⟩
    · -- recvRes
      have hph : (∀ k, 1 ≤ k → k < req.master.size →
          ∃ p ∈ rest, BusHandler.echoes req k p) ∧
          ∃ p ∈ rest, BusHandler.acknowledged req p := by
        rcases hphase with hp | hp
        · rw [hc.1] at hp; exact absurd hp.1 (by decide)
        · rcases hp.2 with hp2 | hp2
          · rw [hc.1] at hp2; exact absurd hp2 (by decide)
          · exact ⟨hp.1, hp2.1⟩
      refine Or.inr ⟨fun k h1 h2 => hlift _ (hph.1 k h1 h2), Or.inr ⟨hlift _ hph.2, ?_⟩⟩
      rcases hc.2 with hn | hn
      · exact Or.inl hn
      · exact Or.inr ⟨hn.1, hn.2, (h, io), List.mem_cons_self _ _,
          ⟨hc.1, hreq, hn.1, hn.2, rfl⟩⟩
    · -- the states without a request in flight
      exfalso
      rcases hphase with hp | hp
      · rcases hc with hc | hc | hc | hc <;> rw [hc] at hp <;> exact absurd hp.1 (by decide)
      · rcases hp.2 with hp2 | hp2
        · rcases hc with hc | hc | hc | hc <;> rw [hc] at hp2 <;> exact absurd hp2 (by decide)
        · rcases hp2.2 with hp3 | hp3
          · rcases hc with hc | hc | hc | hc <;> rw [hc] at hp3 <;>
              exact absurd hp3 (by decide)
          · rcases hc with hc | hc | hc | hc <;> rw [hc] at hp3 <;>
              exact absurd hp3.1 (by decide)

/-- The exchange invariant holds for every handler with its history. -/
theorem BusHandler.History.exchange (hist : List (BusHandler × PortStep)) (h : BusHandler)
    (hh : BusHandler.History hist h) : BusHandler.exchange hist h := by
  induction hh with
  | initial l b s =>
    intro req hq
    exact absurd hq (by simp [BusHandler.initial])
  | step hist h io _ hv ih => exact BusHandler.exchange_step hist h io hv ih
  | client hist h c _ ih =>
    cases c <;> exact ih


/-! ## The response invariant -/

theorem crcOf_append (l : List Nat) (w : Nat) : crcOf (l ++ [w]) = updateCRC (crcOf l) w := by
  simp [crcOf, List.foldl_append]

theorem SymbolString.crcTracks_clear (s : SymbolString) (hs : s.crcTracks) :
    s.clear.crcTracks :=
  ⟨hs.1, fun _ hx => absurd hx (List.not_mem_nil _), fun _ => rfl, fun hne => absurd rfl hne⟩

/-- Appending a byte to a receive buffer, the CRC running while the buffer is shorter than
the CRC position. -/
theorem SymbolString.crcTracks_append (s t : SymbolString) (w : Nat)
    (hs : s.crcTracks) (hw : w < 256) (hdata : t.data = s.data ++ [w])
    (hmode : t.escaped = s.escaped)
    (hcrc : t.crc = if s.size < (if s.size > 0 then (1 + s.get 0) % 256 else 255)
      then updateCRC s.crc w else s.crc) : t.crcTracks := by
  obtain ⟨hesc, hbytes, hnil, hcons⟩ := hs
  refine ⟨hmode.trans hesc, ?_, ?_, ?_⟩
  · intro x hx
    rw [hdata] at hx
    rcases List.mem_append.1 hx with hx | hx
    · exact hbytes x hx
    · rw [List.mem_singleton.1 hx]; exact hw
  · intro he
    rw [hdata] at he
    simp at he
  · intro _ hnn
    cases hd : s.data with
    | nil =>
      have h0 := hnil hd
      have hsz : s.size = 0 := by simp [SymbolString.size, hd]
      rw [hcrc, hdata, hd, h0, hsz]
      have hget : t.get 0 = w := by simp [SymbolString.get, hdata, hd]
      rw [hget]
      simp [crcOf]
    | cons nn ds =>
      have hne : s.data ≠ [] := by rw [hd]; simp
      have hget : s.get 0 = nn := by simp [SymbolString.get, hd]
      have hget2 : t.get 0 = nn := by simp [SymbolString.get, hdata, hd]
      rw [hget2] at hnn
      have hc := hcons hne (by rw [hget]; exact hnn)
      rw [hget] at hc
      have hsz : s.size = ds.length + 1 := by simp [SymbolString.size, hd]
      have hpos : (1 + nn) % 256 = nn + 1 := by omega
      have hgt : ds.length + 1 > 0 := by omega
      rw [hcrc, hget2, hdata, hsz, hget, hpos, if_pos hgt]
      by_cases hlt : ds.length + 1 < nn + 1
      · rw [if_pos hlt]
        have hlen : s.data.length ≤ nn + 1 := by rw [hd]; simp; omega
        have hlen2 : (s.data ++ [w]).length ≤ nn + 1 := by rw [hd]; simp; omega
        rw [List.take_of_length_le hlen2, crcOf_append, hc, List.take_of_length_le hlen]
      · rw [if_neg hlt]
        have hlen : nn + 1 ≤ s.data.length := by rw [hd]; simp; omega
        rw [List.take_append_of_le_length hlen, hc]

/-- A received byte pushed into a receive buffer: the CRC keeps running, and when the
result is `OK` one byte has been appended. -/
theorem SymbolString.crcTracks_push (s : SymbolString) (v : Nat) (u : Bool)
    (hs : s.crcTracks) (hv : v < 256)
    (hu : u = decide (s.size < (if s.size > 0 then (1 + s.get 0) % 256 else 255))) :
    (s.push_back v true u).2.crcTracks ∧
    ((s.push_back v true u).1 = RESULT_OK →
      ∃ w, (s.push_back v true u).2.data = s.data ++ [w] ∧
        (s.push_back v true u).2.crc = if u = true then updateCRC s.crc w else s.crc) := by
  have happ : ∀ (t : SymbolString) (w : Nat), w < 256 → t.data = s.data ++ [w] →
      t.escaped = s.escaped → (t.crc = if u = true then updateCRC s.crc w else s.crc) →
      t.crcTracks := by
    intro t w hw hd hm hc
    refine SymbolString.crcTracks_append s t w hs hw hd hm ?_
    rw [hc, hu]
    by_cases hlt : s.size < (if s.size > 0 then (1 + s.get 0) % 256 else 255)
    · simp [hlt]
    · simp [hlt]
  have hsame : ∀ t : SymbolString, t.data = s.data → t.escaped = false → t.crc = s.crc →
      t.crcTracks := by
    intro t hd hm hc
    refine ⟨hm, by rw [hd]; exact hs.2.1, by rw [hd, hc]; exact hs.2.2.1, ?_⟩
    have hg : t.get 0 = s.get 0 := by simp [SymbolString.get, hd]
    rw [hd, hc, hg]
    exact hs.2.2.2
  unfold SymbolString.push_back
  simp only [hs.1, Bool.false_eq_true, if_false, Bool.not_true]
  split
  · split
    · exact ⟨happ _ ESC (by decide) rfl hs.1.symm rfl, fun _ => ⟨ESC, rfl, rfl⟩⟩
    · split
      · exact ⟨happ _ SYN (by decide) rfl hs.1.symm rfl, fun _ => ⟨SYN, rfl, rfl⟩⟩
      · exact ⟨hsame _ rfl rfl rfl, fun he => absurd he (by simp)⟩
  · split
    · exact ⟨hsame _ rfl rfl rfl, fun he => absurd he (by simp)⟩
    · exact ⟨happ _ v hv rfl hs.1.symm rfl, fun _ => ⟨v, rfl, rfl⟩⟩

/-- The check of `recvRes` for a complete response: when the pushed symbol is the one at
the CRC position and equals the running CRC, the buffer holds a response with a valid
CRC. -/
theorem SymbolString.isResponse_push (s : SymbolString) (v : Nat) (u : Bool)
    (hs : s.crcTracks) (hv : v < 256)
    (hu : u = decide (s.size < (if s.size > 0 then (1 + s.get 0) % 256 else 255)))
    (hok : (s.push_back v true u).1 = RESULT_OK)
    (hpos : (if s.size > 0 then (1 + s.get 0) % 256 else 255) ≠ 255)
    (hsize : (s.push_back v true u).2.size
      = (if s.size > 0 then (1 + s.get 0) % 256 else 255) + 1)
    (hcrc : (s.push_back v true u).2.get (1 + (s.push_back v true u).2.get 0)
      = (s.push_back v true u).2.getCRC) :
    (s.push_back v true u).2.isResponse = true := by
  obtain ⟨w, hdata, hc⟩ := (SymbolString.crcTracks_push s v u hs hv hu).2 hok
  generalize (s.push_back v true u).2 = r at hdata hc hsize hcrc ⊢
  have hlen : r.size = s.size + 1 := by simp [SymbolString.size, hdata]
  have hgt : s.size > 0 := by
    by_contra h0
    simp only [h0, if_false] at hpos
    exact hpos rfl
  simp only [hgt, if_true] at hpos hsize hu
  cases hd : s.data with
  | nil => simp [SymbolString.size, hd] at hgt
  | cons nn ds =>
    have hnn : nn < 256 := hs.2.1 nn (by rw [hd]; exact List.mem_cons_self _ _)
    have hget : s.get 0 = nn := by simp [SymbolString.get, hd]
    have hget2 : r.get 0 = nn := by simp [SymbolString.get, hdata, hd]
    rw [hget] at hpos hsize hu
    rw [hlen] at hsize
    have hsz : s.size = ds.length + 1 := by simp [SymbolString.size, hd]
    have hle : nn ≤ 253 := by omega
    have hmod : (1 + nn) % 256 = nn + 1 := by omega
    rw [hmod] at hsize hu
    have hsn : s.size = nn + 1 := by omega
    have hu2 : u = false := by rw [hu, hsn]; simp
    have hcs := hs.2.2.2 (by rw [hd]; simp) (by rw [hget]; exact hle)
    rw [hget] at hcs
    have hlen2 : s.data.length = nn + 1 := hsn
    have hrw : r.get (1 + nn) = w := by
      have e : 1 + nn = s.data.length := by omega
      simp [SymbolString.get, hdata, e]
    rw [hget2, hrw] at hcrc
    have hrc : r.crc = crcOf s.data := by
      rw [hc, hu2, hcs, List.take_of_length_le (by omega)]
      simp
    have hw : w = crcOf s.data := by
      rw [← hrc]; exact hcrc
    unfold SymbolString.isResponse
    rw [hget2]
    have e1 : r.data.length = nn + 2 := by rw [hdata]; simp; omega
    have e2 : r.get (nn + 1) = w := by rw [Nat.add_comm]; exact hrw
    have e3 : List.take (nn + 1) r.data = s.data := by
      rw [hdata, List.take_append_of_le_length (by omega), List.take_of_length_le (by omega)]
    rw [e1, e2, e3, hw]
    simp

/-- A state change keeps the response invariant when the buffer it starts from has a
running CRC and, in case the new state is `sendResAck` and the CRC flag is set, holds a
response with a valid CRC. -/
theorem BusHandler.setState_responseOk (h : BusHandler) (state : BusState)
    (result : result_t) (first : Bool) (h1 : h.response.crcTracks)
    (h2 : state = bs_sendResAck → h.responseCrcValid = true →
      h.response.isResponse = true) :
    (h.setState state result first).2.responseOk := by
  constructor
  · have hcases : (h.setState state result first).2.response = h.response ∨
        (h.setState state result first).2.response = h.response.clear := by
      unfold BusHandler.setState BusHandler.notifyRequest
      cases hreq : h.request <;> simp only <;> (repeat' split) <;>
        first
          | exact Or.inl rfl
          | exact Or.inr rfl
    rcases hcases with e | e
    · rw [e]; exact h1
    · rw [e]; exact SymbolString.crcTracks_clear _ h1
  · intro hst hv
    rw [BusHandler.setState_state] at hst
    rw [BusHandler.setState_response _ _ _ _ (by rw [hst]; decide) (by rw [hst]; decide)]
    rw [BusHandler.setState_responseCrcValid _ _ _ _ (by rw [hst]; decide)
      (by rw [hst]; decide)] at hv
    exact h2 hst hv

theorem BusHandler.decideSend_responseOk (h : BusHandler) (hok : h.responseOk) :
    h.decideSend.handler.responseOk := by
  unfold BusHandler.decideSend
  cases hs : h.state <;> simp only
  case bs_ready =>
    have hr : h.responseOk := hok
    have h1 := BusHandler.setState_responseOk h bs_ready RESULT_ERR_TIMEOUT false hok.1
      (fun ht => absurd ht (by decide))
    have h3 : (h.state = bs_sendResAck → h.responseCrcValid = true →
        h.response.isResponse = true) := hok.2
    by_cases hreq : h.request.isSome = true
    · simp only [hreq, if_true]
      split
      · split <;> exact h1
      · exact h1
    · simp only [hreq, Bool.false_eq_true, if_false]
      split
      · split <;> exact ⟨hok.1, fun hst => absurd (hs.symm.trans hst) (by decide)⟩
      · exact ⟨hok.1, fun hst => absurd (hs.symm.trans hst) (by decide)⟩
  case bs_sendCmd => split <;> exact ⟨hok.1, fun hst => absurd (hs.symm.trans hst) (by decide)⟩
  case bs_sendResAck => split <;> exact ⟨hok.1, fun _ => hok.2 hs⟩
  all_goals exact ⟨hok.1, fun hst => absurd (hs.symm.trans hst) (by decide)⟩

theorem BusHandler.doSend_responseOk (d : SendDecision) (io : PortStep)
    (hok : d.handler.responseOk) : (BusHandler.doSend d io).handler.responseOk := by
  unfold BusHandler.doSend
  split
  · split
    · exact hok
    · exact BusHandler.setState_responseOk _ _ _ _ hok.1 (fun ht => absurd ht (by decide))
  · exact hok

theorem BusHandler.received_responseOk (h : BusHandler) (io : PortStep) (hok : h.responseOk) :
    (h.received io).responseOk := by
  have hd := BusHandler.doSend_responseOk h.decideSend io
    (BusHandler.decideSend_responseOk h hok)
  unfold BusHandler.received
  simp only
  split
  · split <;> exact hd
  · exact hd

theorem BusHandler.dispatch_responseOk (h : BusHandler) (sendSymbol : Nat) (sending : Bool)
    (recvSymbol : Nat) (hok : h.responseOk) (hb : recvSymbol < 256) :
    (h.dispatch sendSymbol sending recvSymbol).2.responseOk := by
  unfold BusHandler.dispatch
  cases hs : h.state <;> simp only
  case bs_skip => exact hok
  case bs_recvRes =>
    by_cases hsz : h.response.size > 0
    · simp only [hsz, if_true]
      have hu : decide (h.response.size < (0 + 1 + h.response.get 0) % 256)
          = decide (h.response.size < (if h.response.size > 0
            then (1 + h.response.get 0) % 256 else 255)) := by
        simp [hsz]
      have hp := SymbolString.crcTracks_push h.response recvSymbol _ hok.1 hb hu
      split
      · exact BusHandler.setState_responseOk _ _ _ _ hp.1 (fun ht => absurd ht (by decide))
      · split
        · rename_i hc
          have hresp := SymbolString.isResponse_push h.response recvSymbol _ hok.1 hb hu
            hc.1 (by simpa [hsz] using hc.2.1) (by simpa [hsz] using hc.2.2)
          split
          · rename_i hv
            split
            · exact BusHandler.setState_responseOk _ _ _ _ hp.1
                (fun _ _ => hresp (by simpa using hv))
            · exact BusHandler.setState_responseOk _ _ _ _ hp.1
                (fun ht => absurd ht (by decide))
          · rename_i hv
            split
            · exact BusHandler.setState_responseOk _ _ _ _ hp.1
                (fun ht => absurd ht (by decide))
            · split
              · exact BusHandler.setState_responseOk _ _ _ _ hp.1
                  (fun _ hv2 => absurd hv2 hv)
              · exact BusHandler.setState_responseOk _ _ _ _ hp.1
                  (fun ht => absurd ht (by decide))
        · exact ⟨hp.1, fun hst => by cases hst⟩
    · simp only [hsz, if_false]
      have hu : decide (h.response.size < 255)
          = decide (h.response.size < (if h.response.size > 0
            then (1 + h.response.get 0) % 256 else 255)) := by
        simp [hsz]
      have hp := SymbolString.crcTracks_push h.response recvSymbol _ hok.1 hb hu
      split
      · exact BusHandler.setState_responseOk _ _ _ _ hp.1 (fun ht => absurd ht (by decide))
      · split
        · rename_i hc
          exact absurd rfl hc.2.1
        · exact ⟨hp.1, fun hst => by cases hst⟩
  all_goals
    repeat' split
    all_goals
      first
        | exact BusHandler.setState_responseOk _ _ _ _ hok.1 (fun ht => absurd ht (by decide))
        | exact BusHandler.setState_responseOk _ _ _ _
            (SymbolString.crcTracks_clear _ hok.1) (fun ht => absurd ht (by decide))
        | (refine BusHandler.setState_responseOk _ _ _ _
            (And.left (BusHandler.setState_responseOk _ bs_ready RESULT_ERR_BUS_LOST false
              ?_ (fun ht => absurd ht (by decide)))) (fun ht => absurd ht (by decide))
           exact hok.1)
        | exact ⟨hok.1, fun hst => by cases hst⟩

theorem BusHandler.handleSymbol_responseOk (h : BusHandler) (io : PortStep)
    (hv : io.valid) (hok : h.responseOk) : (h.handleSymbol io).2.responseOk := by
  have h2 := BusHandler.received_responseOk h io hok
  rw [BusHandler.handleSymbol_eq]
  cases hr : io.recv with
  | error code =>
    exact BusHandler.setState_responseOk _ _ _ _ h2.1 (fun ht => absurd ht (by decide))
  | symbol b =>
    simp only
    split
    · refine BusHandler.setState_responseOk _ _ _ _ ?_ (fun ht => absurd ht (by decide))
      split
      · exact h2.1
      · exact h2.1
    · exact BusHandler.dispatch_responseOk _ _ _ _ h2 (hv.2 b hr)

/-- The response invariant holds for every handler with a history. -/
theorem BusHandler.History.responseOk (hist : List (BusHandler × PortStep)) (h : BusHandler)
    (hh : BusHandler.History hist h) : h.responseOk := by
  induction hh with
  | initial l b s =>
    exact ⟨⟨rfl, fun _ hx => absurd hx (List.not_mem_nil _), fun _ => rfl,
      fun hne => absurd rfl hne⟩, fun hst => by cases hst⟩
  | step hist h io _ hv ih => exact BusHandler.handleSymbol_responseOk h io hv ih
  | client hist h c _ ih =>
    cases c <;> exact ih

/-! ## Claims on the exchange with a slave -/

/-- C17: successful master-slave exchange. In every run from the initial handler, when a
step notifies a request to a slave destination with `OK`, this step reads back the ACK the
handler emits in `sendResAck`, and the history of the run has a step that won the
arbitration for the request, after which the request stayed in flight and which was
followed by steps that read back each symbol of the master frame after the source address,
by a step that received the ACK of the slave and by the step that completed the response;
the slave buffer of the notification is the unescaped response buffer as that step left
it, of the form `NN D1..Dn CRC` with a valid CRC. -/
theorem BusHandler.exchange_ok (hist : List (BusHandler × PortStep)) (h : BusHandler)
    (io : PortStep) (req : BusRequest) (slave : SymbolString)
    (hh : BusHandler.History hist h)
    (hbc : req.master.get 1 ≠ BROADCAST) (hdst : isMaster (req.master.get 1) = false)
    (hn : BusEvent.notified req RESULT_OK slave ∈ h.stepEvents io) :
    (h.state = bs_sendResAck ∧ h.request = some req ∧ h.emits io = true ∧
      h.decideSend.sendSymbol = ACK ∧ io.recv = RecvResult.symbol ACK) ∧
    (slave = h.response ∧ slave.isResponse = true) ∧
    ∃ rest pw pre, hist = rest ++ pw :: pre ∧ BusHandler.wins req pw ∧
      (∀ p ∈ rest, p.1.request = some req) ∧
      (∀ k, 1 ≤ k → k < req.master.size → ∃ p ∈ rest, BusHandler.echoes req k p) ∧
      (∃ p ∈ rest, BusHandler.acknowledged req p) ∧
      (∃ p ∈ rest, BusHandler.responded req slave p) := by
  obtain ⟨hreq, hsl, hcase⟩ := BusHandler.handleSymbol_notified h io req slave hn
  have hst : h.state = bs_sendResAck ∧ h.emits io = true ∧
      io.recv = RecvResult.symbol h.decideSend.sendSymbol := by
    rcases hcase with hc | hc | hc
    · exact absurd hc.2 hbc
    · rw [hdst] at hc; exact absurd hc.2 (by decide)
    · exact hc
  obtain ⟨rest, pw, pre, hhist, hwin, hall, hphase⟩ := BusHandler.History.exchange hist h hh
    req hreq
  have hph : (∀ k, 1 ≤ k → k < req.master.size → ∃ p ∈ rest, BusHandler.echoes req k p) ∧
      (∃ p ∈ rest, BusHandler.acknowledged req p) ∧ h.responseCrcValid = true ∧
      ∃ p ∈ rest, BusHandler.responded req h.response p := by
    rcases hphase with hp | hp
    · rw [hst.1] at hp; exact absurd hp.1 (by decide)
    · rcases hp.2 with hp2 | hp2
      · rw [hst.1] at hp2; exact absurd hp2 (by decide)
      · rcases hp2.2 with hp3 | hp3
        · rw [hst.1] at hp3; exact absurd hp3 (by decide)
        · exact ⟨hp.1, hp2.1, hp3.2.1, hp3.2.2⟩
  have hsym : h.decideSend.sendSymbol = ACK := by
    simp [BusHandler.decideSend, hst.1, hreq, hph.2.2.1]
  have hresp := (BusHandler.History.responseOk hist h hh).2 hst.1 hph.2.2.1
  refine ⟨⟨hst.1, hreq, hst.2.1, hsym, by rw [hst.2.2, hsym]⟩, ⟨hsl, by rw [hsl]; exact hresp⟩,
    rest, pw, pre, hhist, hwin, hall, hph.1, hph.2.1, ?_⟩
  rw [hsl]
  exact hph.2.2.2


theorem PortStep.valid_echo (b : Nat) (hb : b < 256) : (PortStep.echo b).valid :=
  ⟨fun _ hc => (by cases hc), fun x hx => (by cases hx; exact hb)⟩

/-- A run of possible steps extends the history. -/
theorem BusHandler.History.run (ios : List PortStep) :
    ∀ (hist : List (BusHandler × PortStep)) (h : BusHandler),
      BusHandler.History hist h → (∀ io ∈ ios, io.valid) →
      BusHandler.History (h.trace ios hist) (h.run ios) := by
  induction ios with
  | nil => intro hist h hh _; exact hh
  | cons io ios ih =>
    intro hist h hh hv
    exact ih _ _ (BusHandler.History.step hist h io hh (hv io (List.mem_cons_self _ _)))
      (fun x hx => hv x (List.mem_cons_of_mem _ hx))

theorem exExchanged_history : BusHandler.History exExchangeHistory exExchanged := by
  refine BusHandler.History.run exExchangeSteps [] _
    (BusHandler.History.client [] _ (ClientStep.add exRequestSlave)
      (BusHandler.History.initial 5 10000 15000)) ?_
  intro io hio
  simp only [exExchangeSteps, List.map_cons, List.map_nil, List.mem_cons, List.mem_singleton,
    List.not_mem_nil, or_false] at hio
  rcases hio with h | h | h | h | h | h | h | h | h | h | h | h <;> rw [h] <;>
    exact PortStep.valid_echo _ (by decide)

/-- C17 (witness): the example exchange. After the frame of `exRequestSlave` has been read
back, the slave has acknowledged it and sent the response 01 05 B8, the step that reads
back the ACK of the handler notifies the request with `OK` and this response, and the
history has the step that won the arbitration and the step that completed the response. -/
theorem BusHandler.exchange_ok_witness :
    BusEvent.notified exRequestSlave RESULT_OK exExchanged.response
      ∈ exExchanged.stepEvents (PortStep.echo ACK) ∧
    exExchanged.response.data = [0x01, 0x05, 0xB8] ∧
    exExchanged.response.isResponse = true ∧
    ∃ rest pw pre, exExchangeHistory = rest ++ pw :: pre ∧
      BusHandler.wins exRequestSlave pw ∧
      (∃ p ∈ rest, BusHandler.acknowledged exRequestSlave p) ∧
      (∃ p ∈ rest, BusHandler.responded exRequestSlave exExchanged.response p) := by
  have hn : BusEvent.notified exRequestSlave RESULT_OK exExchanged.response
      ∈ exExchanged.stepEvents (PortStep.echo ACK) := by decide
  have hw := BusHandler.exchange_ok exExchangeHistory exExchanged (PortStep.echo ACK)
    exRequestSlave exExchanged.response exExchanged_history (by decide) (by decide) hn
  obtain ⟨_, ⟨_, hresp⟩, rest, pw, pre, h1, h2, _, _, h5, h6⟩ := hw
  exact ⟨hn, by decide, hresp, rest, pw, pre, h1, h2, h5, h6⟩

/-! ## Claims on the bus-lost retries -/

/-- One attempt that ends with `BUS_LOST` while `lostRetries` is above one: the loop goes
on with the same `sendRetries` and `lostRetries` one lower. -/
theorem BusHandler.sendLoop_lost_step (busLostRetries : Nat) (results : Nat → result_t)
    (sendRetries lostRetries attempt : Nat) (hs : sendRetries + 1 < 2 ^ 31)
    (hl2 : lostRetries < 2 ^ 31) (hl : 2 ≤ lostRetries)
    (hlost : results attempt = RESULT_ERR_BUS_LOST) :
    BusHandler.sendLoop ((busLostRetries + 1 : Nat) : Int) results (sendRetries : Int)
        (lostRetries : Int) attempt =
      BusHandler.sendLoop ((busLostRetries + 1 : Nat) : Int) results (sendRetries : Int)
        ((lostRetries - 1 : Nat) : Int) (attempt + 1) := by
  rw [BusHandler.sendLoop_step_nat busLostRetries results sendRetries lostRetries attempt
    hs hl2]
  have h1 : lostRetries - 1 > 0 := by omega
  simp [hlost, h1, RESULT_ERR_BUS_LOST, RESULT_OK]

/-- Attempts that end with `BUS_LOST` while `lostRetries` stays above zero: `count` of them
lower `lostRetries` by `count` and keep `sendRetries`. -/
theorem BusHandler.sendLoop_lost_free (busLostRetries : Nat) (results : Nat → result_t)
    (sendRetries : Nat) (hs : sendRetries + 1 < 2 ^ 31) (count : Nat) :
    ∀ (lostRetries attempt : Nat), lostRetries < 2 ^ 31 → count + 1 ≤ lostRetries →
      (∀ i, i < count → results (attempt + i) = RESULT_ERR_BUS_LOST) →
      BusHandler.sendLoop ((busLostRetries + 1 : Nat) : Int) results (sendRetries : Int)
          (lostRetries : Int) attempt =
        BusHandler.sendLoop ((busLostRetries + 1 : Nat) : Int) results (sendRetries : Int)
          ((lostRetries - count : Nat) : Int) (attempt + count) := by
  induction count with
  | zero => intro l n _ _ _; rfl
  | succ k ih =>
    intro l n hl2 hl hlost
    rw [BusHandler.sendLoop_lost_step busLostRetries results sendRetries l n hs hl2
      (by omega) (hlost 0 (by omega))]
    rw [ih (l - 1) (n + 1) (by omega) (by omega)
      (fun i hi => by have := hlost (i + 1) (by omega); rwa [Nat.add_assoc, Nat.add_comm 1 i])]
    have e1 : l - 1 - k = l - (k + 1) := by omega
    have e2 : n + 1 + k = n + (k + 1) := by omega
    rw [e1, e2]

/-- An attempt that ends with `BUS_LOST` while `lostRetries` is one (or zero): the loop ends
when `sendRetries` is zero, and goes on with one send retry less and `lostRetries` reset
otherwise. -/
theorem BusHandler.sendLoop_lost_exhausted (busLostRetries : Nat) (results : Nat → result_t)
    (sendRetries lostRetries attempt : Nat) (hs : sendRetries + 1 < 2 ^ 31)
    (hl : lostRetries ≤ 1) (hlost : results attempt = RESULT_ERR_BUS_LOST) :
    BusHandler.sendLoop ((busLostRetries + 1 : Nat) : Int) results (sendRetries : Int)
        (lostRetries : Int) attempt =
      if sendRetries = 0 then (attempt + 1, RESULT_ERR_BUS_LOST)
      else BusHandler.sendLoop ((busLostRetries + 1 : Nat) : Int) results
        ((sendRetries - 1 : Nat) : Int) ((busLostRetries + 1 : Nat) : Int) (attempt + 1) := by
  rw [BusHandler.sendLoop_step_nat busLostRetries results sendRetries lostRetries attempt
    hs (by omega)]
  have h1 : ¬ (lostRetries - 1 > 0) := by omega
  simp [hlost, h1, RESULT_ERR_BUS_LOST, RESULT_OK]

/-- C21, amended: bus-lost retries, for retry options in the range of the `int` counters.
From the start of `sendAndWait` the first `count` attempts that end with `BUS_LOST`, for
`count` up to `busLostRetries`, are retried without consuming a send retry: the loop goes on
with `failedSendRetries + 1` send retries and `lostRetries` lowered by `count`. When
`busLostRetries` such attempts have been made, a further `BUS_LOST` consumes one send retry
and resets `lostRetries` to `busLostRetries + 1`. -/
theorem BusHandler.sendAndWait_busLost (failedSendRetries busLostRetries : Nat)
    (results : Nat → result_t) (count : Nat)
    (hF : failedSendRetries + 2 < 2 ^ 31) (hB : busLostRetries + 1 < 2 ^ 31)
    (hcount : count ≤ busLostRetries)
    (hlost : ∀ i, i < count → results i = RESULT_ERR_BUS_LOST) :
    BusHandler.sendAndWait failedSendRetries busLostRetries results =
        BusHandler.sendLoop ((busLostRetries + 1 : Nat) : Int) results
          ((failedSendRetries + 1 : Nat) : Int) ((busLostRetries + 1 - count : Nat) : Int)
          count ∧
      (count = busLostRetries → results count = RESULT_ERR_BUS_LOST →
        BusHandler.sendAndWait failedSendRetries busLostRetries results =
          BusHandler.sendLoop ((busLostRetries + 1 : Nat) : Int) results
            (failedSendRetries : Int) ((busLostRetries + 1 : Nat) : Int)
            (busLostRetries + 1)) := by
  have hfree : BusHandler.sendAndWait failedSendRetries busLostRetries results =
      BusHandler.sendLoop ((busLostRetries + 1 : Nat) : Int) results
        ((failedSendRetries + 1 : Nat) : Int) ((busLostRetries + 1 - count : Nat) : Int)
        count := by
    rw [BusHandler.sendAndWait_start failedSendRetries busLostRetries results (by omega) hB,
      BusHandler.sendLoop_lost_free busLostRetries results (failedSendRetries + 1) (by omega)
        count (busLostRetries + 1) 0 hB (by omega) (fun i hi => by simpa using hlost i hi)]
    simp
  refine ⟨hfree, fun hc hl => ?_⟩
  rw [hfree, BusHandler.sendLoop_lost_exhausted busLostRetries results _ _ _ (by omega)
    (by omega) hl]
  subst hc
  simp

/-- The amended C21 at two bus-lost retries and three send retries: after two attempts that
end with `BUS_LOST` the call still has its four send retries. -/
theorem BusHandler.sendAndWait_busLost_witness :
    BusHandler.sendAndWait 3 2 (exLostThen 3) =
        BusHandler.sendLoop ((2 + 1 : Nat) : Int) (exLostThen 3) ((3 + 1 : Nat) : Int)
          ((2 + 1 - 2 : Nat) : Int) 2 ∧
      (2 = 2 → exLostThen 3 2 = RESULT_ERR_BUS_LOST →
        BusHandler.sendAndWait 3 2 (exLostThen 3) =
          BusHandler.sendLoop ((2 + 1 : Nat) : Int) (exLostThen 3) ((3 : Nat) : Int)
            ((2 + 1 : Nat) : Int) (2 + 1)) :=
  BusHandler.sendAndWait_busLost 3 2 (exLostThen 3) 2 (by decide) (by decide) (by decide)
    (fun i hi => by
      have : i = 0 ∨ i = 1 := by omega
      rcases this with h | h <;> subst h <;> simp [exLostThen])

/-- The example results of the C21 counterexample in the loop: one `BUS_LOST`, then a
time-out, with no send retry and no lost retry configured. -/
theorem BusHandler.sendLoop_exLost :
    BusHandler.sendLoop 1 (exLostThen 1) 0 1 1 = (2, RESULT_ERR_TIMEOUT) ∧
      BusHandler.sendLoop 1 (exLostThen 1) 1 1 0 = (2, RESULT_ERR_TIMEOUT) ∧
      BusHandler.sendLoop 1 exAllTimeout 1 1 0 = (2, RESULT_ERR_TIMEOUT) := by
  have w0 : wrapInt 0 = 0 := by unfold wrapInt; omega
  have w1 : wrapInt (-1) = -1 := by unfold wrapInt; omega
  have h1 : BusHandler.sendLoop 1 (exLostThen 1) 0 1 1 = (2, RESULT_ERR_TIMEOUT) := by
    rw [BusHandler.sendLoop]
    simp [exLostThen, w0, w1]
  have h3 : BusHandler.sendLoop 1 exAllTimeout 0 1 1 = (2, RESULT_ERR_TIMEOUT) := by
    rw [BusHandler.sendLoop]
    simp [exAllTimeout, w0, w1]
  refine ⟨h1, ?_, ?_⟩
  · rw [BusHandler.sendLoop]
    simp [exLostThen, w0, h1]
  · rw [BusHandler.sendLoop]
    simp [exAllTimeout, w0, h3]

/-- C21 as stated fails on the code: with `busLostRetries = 0` the claim lets the attempt
after a `BUS_LOST` run without consuming a send retry, so that the two attempts of
`failedSendRetries = 0` are still to come (three attempts in all, as many as one more than
with time-outs only). The code makes two attempts, as with time-outs only: the first
`BUS_LOST` has consumed a send retry. -/
theorem BusHandler.sendAndWait_busLost_counterexample :
    BusHandler.sendAndWait 0 0 (exLostThen 1) = (2, RESULT_ERR_TIMEOUT) ∧
      BusHandler.sendAndWait 0 0 exAllTimeout = (2, RESULT_ERR_TIMEOUT) ∧
      exLostThen 1 0 = RESULT_ERR_BUS_LOST ∧
      BusHandler.sendAndWait 0 0 (exLostThen 1) =
        BusHandler.sendLoop 1 (exLostThen 1) 0 1 1 := by
  have hs : ∀ results, BusHandler.sendAndWait 0 0 results
      = BusHandler.sendLoop 1 results 1 1 0 := by
    intro results
    rw [BusHandler.sendAndWait_start 0 0 results (by decide) (by decide)]
    rfl
  refine ⟨?_, ?_, ?_, ?_⟩
  · rw [hs, BusHandler.sendLoop_exLost.2.1]
  · rw [hs, BusHandler.sendLoop_exLost.2.2]
  · simp [exLostThen]
  · rw [hs, BusHandler.sendLoop_exLost.2.1, BusHandler.sendLoop_exLost.1]

/-! ## Claims on the poll queue -/

/-- The value of `isLessPollWeight`: one of the three tests holds. -/
theorem Message.isLessPollWeight_iff (a b : Message) :
    a.isLessPollWeight b = true ↔
      ((a.pollPriority * a.pollCount) % 2 ^ 32 < (b.pollPriority * b.pollCount) % 2 ^ 32 ∨
        a.pollPriority < b.pollPriority ∨ a.lastPollTime < b.lastPollTime) := by
  unfold Message.isLessPollWeight
  split
  · rename_i h1
    exact ⟨fun _ => Or.inl h1, fun _ => rfl⟩
  · rename_i h1
    split
    · rename_i h2
      exact ⟨fun _ => Or.inr (Or.inl h2), fun _ => rfl⟩
    · rename_i h2
      split
      · rename_i h3
        exact ⟨fun _ => Or.inr (Or.inr h3), fun _ => rfl⟩
      · rename_i h3
        exact ⟨fun h => absurd h (by simp), fun h => by
          rcases h with h | h | h
          · exact absurd h h1
          · exact absurd h h2
          · exact absurd h h3⟩

/-- A message of lexicographically smaller weight is less for `isLessPollWeight` when the
products fit `unsigned int`; the converse fails (`exPollLow` and `exPollHigh`). -/
theorem Message.isLessPollWeight_of_pollWeightLess (a b : Message)
    (ha : a.pollPriority * a.pollCount < 2 ^ 32) (hb : b.pollPriority * b.pollCount < 2 ^ 32)
    (h : a.pollWeightLess b = true) : a.isLessPollWeight b = true := by
  rw [Message.isLessPollWeight_iff, Nat.mod_eq_of_lt ha, Nat.mod_eq_of_lt hb]
  simp only [Message.pollWeightLess, lexLess, Message.pollWeight, Bool.or_eq_true,
    Bool.and_eq_true, decide_eq_true_eq] at h
  rcases h with h | ⟨_, h | ⟨_, h⟩⟩
  · exact Or.inl h
  · exact Or.inr (Or.inl h)
  · exact Or.inr (Or.inr h)

/-- C23, evaluated on the code: the poll weight of the code is not the lexicographic order
of the tuples. For the message `exPollLow` of priority 1 with poll count 3 and the message
`exPollHigh` of priority 3 with poll count 0 (tuples (3, 1, 0) and (0, 3, 0)),
`isLessPollWeight` holds in both directions: the message of priority 3 is less by the
first test, and the message of priority 1 is less as well, by the second test
(`1 < 3`), although its tuple is the greater one. -/
theorem Message.isLessPollWeight_both :
    exPollLow.pollWeight = (3, 1, 0) ∧ exPollHigh.pollWeight = (0, 3, 0) ∧
      exPollHigh.isLessPollWeight exPollLow = true ∧
      exPollHigh.pollWeightLess exPollLow = true ∧
      exPollLow.isLessPollWeight exPollHigh = true ∧
      exPollLow.pollWeightLess exPollHigh = false := by
  decide

/-- Adding items one after the other appends them to the queue. -/
theorem WQueue.addAll_eq {α : Type} (items : List (Option α)) :
    ∀ q : WQueue α, WQueue.addAll q items = q ++ items := by
  induction items with
  | nil => intro q; simp [WQueue.addAll]
  | cons a rest ih =>
    intro q
    have h := ih (WQueue.add q a)
    simp only [WQueue.addAll, List.foldl_cons] at h ⊢
    rw [h]
    simp [WQueue.add]

/-- Successive calls of `remove(false)` on a queue with at least `count` entries return
its first `count` entries and leave the others. -/
theorem WQueue.removeMany_eq {α : Type} (count : Nat) :
    ∀ q : WQueue α, count ≤ q.length →
      WQueue.removeMany count q = (q.take count, q.drop count) := by
  induction count with
  | zero => intro q _; simp [WQueue.removeMany]
  | succ k ih =>
    intro q hk
    cases q with
    | nil => simp at hk
    | cons a rest =>
      have hk : k ≤ rest.length := by simpa using hk
      simp [WQueue.removeMany, WQueue.remove, ih rest hk]

/-- C24: the request queue is first in, first out. After `add(a1)`, ..., `add(an)` on an
empty queue, `next(false)` returns `a1` (NULL for `n = 0`) and leaves the queue as it is;
the first `count` successive calls of `remove(false)` return `a1`, ..., in this order and
leave the later items, so `n` calls return all items and leave the queue empty; on an
empty queue `remove(false)` and `next(false)` return NULL and leave it empty. -/
theorem WQueue.fifo {α : Type} (items : List (Option α)) :
    (WQueue.addAll ([] : WQueue α) items).next false =
        some (items.head?.join, WQueue.addAll [] items) ∧
      (∀ count, count ≤ items.length →
        WQueue.removeMany count (WQueue.addAll ([] : WQueue α) items) =
          (items.take count, items.drop count)) ∧
      WQueue.removeMany items.length (WQueue.addAll ([] : WQueue α) items) = (items, []) ∧
      WQueue.remove ([] : WQueue α) false = some (none, []) ∧
      WQueue.next ([] : WQueue α) false = some (none, []) := by
  rw [WQueue.addAll_eq items []]
  simp only [List.nil_append]
  refine ⟨?_, fun count hc => WQueue.removeMany_eq count items hc, ?_, ?_, ?_⟩
  · cases items <;> simp [WQueue.next]
  · rw [WQueue.removeMany_eq items.length items (Nat.le_refl _)]
    simp
  · simp [WQueue.remove]
  · simp [WQueue.next]

/-! ## Claims on the device of a port -/

/-- On a name without NUL character `strchr` finds a character iff the name contains
it. -/
theorem strchrFound_eq (s : Str) (c : Char) (hnul : Char.ofNat 0 ∉ s) :
    strchrFound s c = s.contains c := by
  have h : cString s = s := by
    unfold cString
    rw [List.takeWhile_eq_self_iff]
    intro x hx
    simp only [ne_eq, decide_eq_true_eq]
    intro hx0
    exact hnul (hx0 ▸ hx)
  rw [strchrFound, h]

/-- C25: the classification of the device name. For every device name (a C string, so
without NUL character) the constructor of `Port` selects the network device iff the name
contains no `/` and contains a `:`, and the serial device for every other name. -/
theorem Port.deviceType_spec (deviceName : Str) (hnul : Char.ofNat 0 ∉ deviceName) :
    (Port.deviceType deviceName = DeviceType.dt_network ↔
        ('/' ∉ deviceName ∧ ':' ∈ deviceName)) ∧
      (¬ ('/' ∉ deviceName ∧ ':' ∈ deviceName) →
        Port.deviceType deviceName = DeviceType.dt_serial) := by
  unfold Port.deviceType
  rw [strchrFound_eq _ _ hnul, strchrFound_eq _ _ hnul]
  have hs : ∀ c : Char, (deviceName.contains c = true ↔ c ∈ deviceName) := fun c => by simp
  have hf : ∀ c : Char, (deviceName.contains c = false ↔ c ∉ deviceName) := fun c => by
    rw [← hs c]; simp
  have hc : (deviceName.contains '/' = false ∧ deviceName.contains ':' = true) ↔
      ('/' ∉ deviceName ∧ ':' ∈ deviceName) := by rw [hf, hs]
  constructor
  · constructor
    · intro h
      by_contra hn
      rw [if_neg (fun hp => hn (hc.mp hp))] at h
      cases h
    · intro h
      rw [if_pos (hc.mpr h)]
  · intro h
    rw [if_neg (fun hp => h (hc.mp hp))]

/-- C25 on the device name `192.168.0.10:5000`. -/
theorem Port.deviceType_spec_witness :
    (Port.deviceType "192.168.0.10:5000".toList = DeviceType.dt_network ↔
        ('/' ∉ "192.168.0.10:5000".toList ∧ ':' ∈ "192.168.0.10:5000".toList)) ∧
      (¬ ('/' ∉ "192.168.0.10:5000".toList ∧ ':' ∈ "192.168.0.10:5000".toList) →
        Port.deviceType "192.168.0.10:5000".toList = DeviceType.dt_serial) :=
  Port.deviceType_spec "192.168.0.10:5000".toList (by decide)

/-! ## Claims on the name duplicates -/

/-- Two messages have the same P, W or R kind iff they agree on the passive flag and, when
they are active, on the set flag. -/
theorem kindPrefix_eq_iff (p s p' s' : Bool) :
    kindPrefix p s = kindPrefix p' s' ↔ (p = p' ∧ (p' = false → s = s')) := by
  cases p <;> cases s <;> cases p' <;> cases s' <;> simp [kindPrefix]

/-- The answer of `add` for a message that is no duplicate by its passive key: it is
`RESULT_ERR_DUPLICATE` iff an added message has the same name key. -/
theorem MessageMap.add_duplicate_name (gmn : Nat → Nat) (msgs : List Message)
    (mm : MessageMap) (msg : Message) (hb : MessageMap.Built gmn msgs mm)
    (hsep : ∀ m ∈ msgs, FIELD_SEPARATOR ∉ m.clazz ∧ FIELD_SEPARATOR ∉ m.name)
    (hkey : msg.isPassive = true → mm.passiveMessagesByKey.find (msg.getKey gmn) = none) :
    (mm.add gmn msg).1 = RESULT_ERR_DUPLICATE ↔
      ∃ m ∈ msgs, m.kind = msg.kind ∧ m.clazz = msg.clazz ∧ m.name = msg.name := by
  constructor
  · intro hd
    unfold MessageMap.add at hd
    simp only at hd
    split at hd
    · rename_i h1
      rw [hkey h1.1] at h1
      simp at h1
    · split at hd
      · rename_i h2
        cases hf : Map.find mm.messagesByName
            (nameKey msg.isPassive msg.isSet msg.clazz msg.name) with
        | none => simp [hf] at h2
        | some m =>
          have hkm := Map.find_some_mem _ _ _ hf
          have hst : m ∈ mm.stored :=
            (MessageMap.mem_stored_iff mm m).2 ⟨_, hkm, nameKey_head _ _ _ _⟩
          rw [hb.stored_eq] at hst
          rcases hb.inv.byName _ m hkm with hk | hk
          · have := nameKey_inj_left _ _ _ _ _ _ _ _ (hsep m hst).1 (hsep m hst).2 hk.symm
            exact ⟨m, hst, this.1, this.2.1, this.2.2⟩
          · exact absurd hk (nameKey_ne_nameKeyNoClass _ _ _ _ _ _ _)
      · simp at hd
  · rintro ⟨m, hm, hkind, hc, hn⟩
    rcases MessageMap.add_result gmn mm msg with hd | hok
    · exact hd.1
    · exfalso
      obtain ⟨_, hnk, _⟩ := MessageMap.add_ok gmn mm msg hok
      have hf := hb.inv.storedFind m (by rw [hb.stored_eq]; exact hm)
      unfold Message.kind at hkind
      have hkeq : nameKey m.isPassive m.isSet m.clazz m.name
          = nameKey msg.isPassive msg.isSet msg.clazz msg.name := by
        unfold nameKey; rw [hkind, hc, hn]
      rw [hkeq, hnk] at hf
      cases hf

/-- C29, amended: messages are identified by the kind (passive, active write or active
read), the class and the name. For a dictionary built by successful adds (class and name
cells free of the field separator) and a message that is no duplicate by its passive key,
`add` rejects the message as a duplicate iff an added message agrees with it on the
passive flag, on the class and on the name, and, when the message is active, on the set
flag. So two active messages that differ in the set flag can both be added, and two passive
messages of the same class and name cannot, whatever their set flags are. -/
theorem MessageMap.add_name_duplicate (gmn : Nat → Nat) (msgs : List Message)
    (mm : MessageMap) (msg : Message) (hb : MessageMap.Built gmn msgs mm)
    (hsep : ∀ m ∈ msgs, FIELD_SEPARATOR ∉ m.clazz ∧ FIELD_SEPARATOR ∉ m.name)
    (hkey : msg.isPassive = true → mm.passiveMessagesByKey.find (msg.getKey gmn) = none) :
    (mm.add gmn msg).1 = RESULT_ERR_DUPLICATE ↔
      ∃ m ∈ msgs, m.isPassive = msg.isPassive ∧ (msg.isPassive = false → m.isSet = msg.isSet) ∧
        m.clazz = msg.clazz ∧ m.name = msg.name := by
  rw [MessageMap.add_duplicate_name gmn msgs mm msg hb hsep hkey]
  constructor
  · rintro ⟨m, hm, hkind, hc, hn⟩
    have := (kindPrefix_eq_iff _ _ _ _).mp hkind
    exact ⟨m, hm, this.1, this.2, hc, hn⟩
  · rintro ⟨m, hm, hp, hs, hc, hn⟩
    exact ⟨m, hm, (kindPrefix_eq_iff _ _ _ _).mpr ⟨hp, hs⟩, hc, hn⟩

theorem exActiveMap_built : MessageMap.Built exampleMasterNumber [exPollFresh] exActiveMap :=
  MessageMap.Built.add [] MessageMap.clear exPollFresh MessageMap.Built.clear (by decide)

/-- The amended C29 on the active read `heat/low` and the active write `heat/low`: the
write is added to the dictionary that holds the read. -/
theorem MessageMap.add_name_duplicate_witness :
    (exActiveMap.add exampleMasterNumber exActiveWrite).1 ≠ RESULT_ERR_DUPLICATE ∧
      ((exActiveMap.add exampleMasterNumber exActiveWrite).1 = RESULT_ERR_DUPLICATE ↔
        ∃ m ∈ [exPollFresh], m.isPassive = exActiveWrite.isPassive ∧
          (exActiveWrite.isPassive = false → m.isSet = exActiveWrite.isSet) ∧
          m.clazz = exActiveWrite.clazz ∧ m.name = exActiveWrite.name) :=
  ⟨by decide,
   MessageMap.add_name_duplicate exampleMasterNumber [exPollFresh] exActiveMap exActiveWrite
    exActiveMap_built (fun m hm => by
      rw [List.mem_singleton] at hm
      subst hm
      exact ⟨by decide, by decide⟩)
    (fun h => absurd h (by decide))⟩

/-- C29 as stated fails on the code: the passive write `exMsgWildWrite` and the passive
read `exMsgWild` have the same class and name, differ in the set flag and have different
passive keys, and `add` rejects the write as a duplicate in the dictionary that holds the
read, since both have the name key `Pheat,temp`. -/
theorem MessageMap.add_passive_write_counterexample :
    exMap1.stored.map Message.name = [exMsgWild.name] ∧
      exMsgWildWrite.isPassive = true ∧ exMsgWild.isPassive = true ∧
      exMsgWildWrite.isSet = true ∧ exMsgWild.isSet = false ∧
      exMsgWildWrite.clazz = exMsgWild.clazz ∧ exMsgWildWrite.name = exMsgWild.name ∧
      exMsgWildWrite.getKey exampleMasterNumber ≠ exMsgWild.getKey exampleMasterNumber ∧
      (exMap1.passiveMessagesByKey.find
        (exMsgWildWrite.getKey exampleMasterNumber)).isNone = true ∧
      nameKey true true exMsgWildWrite.clazz exMsgWildWrite.name = "Pheat,temp".toList ∧
      nameKey true false exMsgWild.clazz exMsgWild.name = "Pheat,temp".toList ∧
      (exMap1.add exampleMasterNumber exMsgWildWrite).1 = RESULT_ERR_DUPLICATE := by
  decide

/-! ## Lemmas on `Message::create` -/

/-- What a successful `createWith` has passed: the cells of the class, the comment, the
source and the destination after the defaults, the two id tokens, and the checks on them;
the message is made of these. -/
theorem Message.createWith_ok (lib : RowLib) (type : MessageType)
    (defaults : Option (List Str)) (it : List Str) (m : Message)
    (h : Message.createWith lib type defaults it = some (RESULT_OK, some m)) :
    ∃ clazz comment src dst token1 token2,
      getDefault (it.headD []) defaults 1 = some clazz ∧
      getDefault (it.tail.tail.headD []) defaults 3 = some comment ∧
      getDefault (it.tail.tail.tail.headD []) defaults 4 = some src ∧
      getDefault (it.tail.tail.tail.tail.headD []) defaults 5 = some dst ∧
      (if decide ((it.tail.tail.tail.tail.tail.headD []).length = 0) = true then
          (getDefault [] defaults 6).map (fun d => d ++ it.tail.tail.tail.tail.tail.headD [])
        else some (it.tail.tail.tail.tail.tail.headD [])) = some token1 ∧
      (if decide ((it.tail.tail.tail.tail.tail.headD []).length = 0) = true then
          (getDefault [] defaults 7).map
            (fun d => d ++ it.tail.tail.tail.tail.tail.tail.headD [])
        else some (it.tail.tail.tail.tail.tail.tail.headD [])) = some token2 ∧
      it.tail.tail.tail.tail.tail.tail.tail.isEmpty = false ∧
      (it.tail.headD []).length ≠ 0 ∧
      (cString src ≠ [] → (lib.parseInt (cString src)).1 = RESULT_OK ∧
        isMaster ((lib.parseInt (cString src)).2 % 256) = true) ∧
      (lib.parseInt (cString dst)).1 = RESULT_OK ∧
      lib.isValidAddress ((lib.parseInt (cString dst)).2 % 256) = true ∧
      (Message.parseId lib token1 []).1 = RESULT_OK ∧
      (Message.parseId lib token1 []).2.length = 2 ∧
      (Message.parseId lib token2 (Message.parseId lib token1 []).2).1 = RESULT_OK ∧
      (Message.parseId lib token2 (Message.parseId lib token1 []).2).2.length ≤ 6 ∧
      (lib.createData (Message.fieldCells defaults it.tail.tail.tail.tail.tail.tail.tail)
        type.isSet ((lib.parseInt (cString dst)).2 % 256)).1 = RESULT_OK ∧
      m = { clazz := clazz, name := it.tail.headD [], isSet := type.isSet,
            isPassive := type.isPassive, comment := comment,
            srcAddress := if cString src = [] then SYN
              else (lib.parseInt (cString src)).2 % 256,
            dstAddress := (lib.parseInt (cString dst)).2 % 256,
            id := (Message.parseId lib token2 (Message.parseId lib token1 []).2).2,
            data := (lib.createData
              (Message.fieldCells defaults it.tail.tail.tail.tail.tail.tail.tail)
              type.isSet ((lib.parseInt (cString dst)).2 % 256)).2,
            pollPriority := type.pollPriority } := by
  unfold Message.createWith at h
  simp only [] at h
  cases h1 : getDefault (it.headD []) defaults 1 with
  | none => rw [h1] at h; exact Option.noConfusion h
  | some clazz =>
  rw [h1] at h
  dsimp only at h
  by_cases c1 : it.tail.isEmpty = true
  · rw [if_pos c1] at h; cases h
  rw [if_neg c1] at h
  by_cases c2 : it.tail.tail.isEmpty = true
  · rw [if_pos c2] at h; cases h
  rw [if_neg c2] at h
  by_cases c3 : (it.tail.headD []).length = 0
  · rw [if_pos c3] at h; cases h
  rw [if_neg c3] at h
  cases h2 : getDefault (it.tail.tail.headD []) defaults 3 with
  | none => rw [h2] at h; exact Option.noConfusion h
  | some comment =>
  rw [h2] at h
  dsimp only at h
  by_cases c4 : it.tail.tail.tail.isEmpty = true
  · rw [if_pos c4] at h; cases h
  rw [if_neg c4] at h
  cases h3 : getDefault (it.tail.tail.tail.headD []) defaults 4 with
  | none => rw [h3] at h; exact Option.noConfusion h
  | some src =>
  rw [h3] at h
  dsimp only at h
  by_cases c5 : it.tail.tail.tail.tail.isEmpty = true
  · rw [if_pos c5] at h; cases h
  rw [if_neg c5] at h
  by_cases c6 : cString src ≠ [] ∧ (lib.parseInt (cString src)).1 ≠ RESULT_OK
  · rw [if_pos c6] at h
    exact absurd (congrArg Prod.fst (Option.some.inj h)) c6.2
  rw [if_neg c6] at h
  by_cases c7 : cString src ≠ [] ∧ isMaster ((lib.parseInt (cString src)).2 % 256) = false
  · rw [if_pos c7] at h; cases h
  rw [if_neg c7] at h
  cases h4 : getDefault (it.tail.tail.tail.tail.headD []) defaults 5 with
  | none => rw [h4] at h; exact Option.noConfusion h
  | some dst =>
  rw [h4] at h
  dsimp only at h
  by_cases c8 : it.tail.tail.tail.tail.tail.isEmpty = true
  · rw [if_pos c8] at h; cases h
  rw [if_neg c8] at h
  by_cases c9 : (lib.parseInt (cString dst)).1 ≠ RESULT_OK
  · rw [if_pos c9] at h
    exact absurd (congrArg Prod.fst (Option.some.inj h)) c9
  rw [if_neg c9] at h
  by_cases c10 : lib.isValidAddress ((lib.parseInt (cString dst)).2 % 256) = false
  · rw [if_pos c10] at h; cases h
  rw [if_neg c10] at h
  generalize h5 : (if decide ((it.tail.tail.tail.tail.tail.headD []).length = 0) = true then
      (getDefault [] defaults 6).map (fun d => d ++ it.tail.tail.tail.tail.tail.headD [])
    else some (it.tail.tail.tail.tail.tail.headD [])) = t1 at h
  cases t1 with
  | none => exact Option.noConfusion h
  | some token1 =>
  dsimp only at h
  by_cases c11 : it.tail.tail.tail.tail.tail.tail.isEmpty = true
  · rw [if_pos c11] at h; cases h
  rw [if_neg c11] at h
  by_cases c12 : (Message.parseId lib token1 []).1 ≠ RESULT_OK
  · rw [if_pos c12] at h
    exact absurd (congrArg Prod.fst (Option.some.inj h)) c12
  rw [if_neg c12] at h
  by_cases c13 : (Message.parseId lib token1 []).2.length ≠ 2
  · rw [if_pos c13] at h; cases h
  rw [if_neg c13] at h
  generalize h6 : (if decide ((it.tail.tail.tail.tail.tail.headD []).length = 0) = true then
      (getDefault [] defaults 7).map
        (fun d => d ++ it.tail.tail.tail.tail.tail.tail.headD [])
    else some (it.tail.tail.tail.tail.tail.tail.headD [])) = t2 at h
  cases t2 with
  | none => exact Option.noConfusion h
  | some token2 =>
  dsimp only at h
  by_cases c14 : it.tail.tail.tail.tail.tail.tail.tail.isEmpty = true
  · rw [if_pos c14] at h; cases h
  rw [if_neg c14] at h
  by_cases c15 : (Message.parseId lib token2 (Message.parseId lib token1 []).2).1 ≠ RESULT_OK
  · rw [if_pos c15] at h
    exact absurd (congrArg Prod.fst (Option.some.inj h)) c15
  rw [if_neg c15] at h
  by_cases c16 : (Message.parseId lib token2 (Message.parseId lib token1 []).2).2.length < 2 ∨
      (Message.parseId lib token2 (Message.parseId lib token1 []).2).2.length > 6
  · rw [if_pos c16] at h; cases h
  rw [if_neg c16] at h
  by_cases c17 : (lib.createData
      (Message.fieldCells defaults it.tail.tail.tail.tail.tail.tail.tail)
      type.isSet ((lib.parseInt (cString dst)).2 % 256)).1 ≠ RESULT_OK
  · rw [if_pos c17] at h
    exact absurd (congrArg Prod.fst (Option.some.inj h)) c17
  rw [if_neg c17] at h
  have hm : _ = m := Option.some.inj (congrArg Prod.snd (Option.some.inj h))
  refine ⟨clazz, comment, src, dst, token1, token2, rfl, rfl, rfl, rfl, rfl, rfl,
    by simpa using c14, c3, ?_, by simpa using c9, by simpa using c10, by simpa using c12,
    by simpa using c13, by simpa using c15, by omega, by simpa using c17, hm.symm⟩
  intro hs
  refine ⟨?_, ?_⟩
  · by_contra hp
    exact c6 ⟨hs, hp⟩
  · cases hmm : isMaster ((lib.parseInt (cString src)).2 % 256) with
    | true => rfl
    | false => exact absurd ⟨hs, hmm⟩ c7

/-- The cell with index 4 of a row, as the iterator reaches it. -/
theorem List.tail4_headD {α : Type} (row : List α) (a : α) :
    row.tail.tail.tail.tail.headD a = row.getD 4 a := by
  rcases row with _ | ⟨_, _ | ⟨_, _ | ⟨_, _ | ⟨_, _ | ⟨_, _⟩⟩⟩⟩⟩ <;> rfl

/-- A successful `create` is a successful `createWith` on the cells behind the type. -/
theorem Message.create_ok (lib : RowLib) (row : List Str)
    (defaultsRows : Option (List (List Str))) (m : Message)
    (h : Message.create lib row defaultsRows = some (RESULT_OK, some m)) :
    Message.createWith lib (Message.createType (cString (row.headD [])))
      (Message.findDefaults defaultsRows
        (Message.createType (cString (row.headD []))).defaultName) row.tail
      = some (RESULT_OK, some m) := by
  unfold Message.create at h
  simp only [] at h
  by_cases c1 : row.isEmpty = true
  · rw [if_pos c1] at h; cases h
  rw [if_neg c1] at h
  by_cases c2 : row.tail.isEmpty = true
  · rw [if_pos c2] at h; cases h
  rw [if_neg c2] at h
  exact h

/-! ## Claims on `Message::create` -/

/-- C26, amended: the source address of a created message. When `Message::create` returns
a message (active or passive), the source cell of the row (the fifth cell, replaced by the
cell of the defaults row when it is empty) decides its source address: it is `SYN` when
the cell is empty as a C string, and else it is the value that `parseInt` gives for the
cell, which is a master address. -/
theorem Message.create_srcAddress (lib : RowLib) (row : List Str)
    (defaultsRows : Option (List (List Str))) (m : Message)
    (h : Message.create lib row defaultsRows = some (RESULT_OK, some m)) :
    ∃ src,
      getDefault (row.getD 4 [])
        (Message.findDefaults defaultsRows
          (Message.createType (cString (row.headD []))).defaultName) 4 = some src ∧
      (cString src = [] → m.srcAddress = SYN) ∧
      (cString src ≠ [] → (lib.parseInt (cString src)).1 = RESULT_OK ∧
        m.srcAddress = (lib.parseInt (cString src)).2 % 256 ∧
        isMaster m.srcAddress = true) := by
  obtain ⟨clazz, comment, src, dst, t1, t2, _, _, hsrc, _, _, _, _, _, hp, _, _, _, _, _,
    _, _, hm⟩ := Message.createWith_ok lib _ _ _ m (Message.create_ok lib row defaultsRows m h)
  refine ⟨src, ?_, ?_, ?_⟩
  · rw [← List.tail4_headD]
    exact hsrc
  · intro hs
    rw [hm]
    simp [hs]
  · intro hs
    have hsa : m.srcAddress = (lib.parseInt (cString src)).2 % 256 := by
      rw [hm]
      simp [hs]
    exact ⟨(hp hs).1, hsa, by rw [hsa]; exact (hp hs).2⟩

/-- The amended C26 on the row `r2,,temp,,,08,b509,0d,,,` without default rows: the source
cell is empty and the source address is `SYN`. -/
theorem Message.create_srcAddress_witness :
    ∃ src,
      getDefault (exRowPlain.getD 4 [])
        (Message.findDefaults none
          (Message.createType (cString (exRowPlain.headD []))).defaultName) 4 = some src ∧
      (cString src = [] → exCreatedPlain.srcAddress = SYN) ∧
      (cString src ≠ [] → (exampleLib.parseInt (cString src)).1 = RESULT_OK ∧
        exCreatedPlain.srcAddress = (exampleLib.parseInt (cString src)).2 % 256 ∧
        isMaster exCreatedPlain.srcAddress = true) :=
  Message.create_srcAddress exampleLib exRowPlain none exCreatedPlain rfl

/-- C26 as stated fails on the code: the row `r2,,temp,,10,08,b509,0d,,,` of an active read
names the master 0x10 in its source column, `create` returns a message for it, and the
message is active and has the source address 0x10, not `SYN`. -/
theorem Message.create_active_source_counterexample :
    exRowSource.getD 4 [] = "10".toList ∧
      (Message.create exampleLib exRowSource none).map
        (fun r => (r.1, r.2.map (fun m => (m.isPassive, m.isSet, m.srcAddress)))) =
          some (RESULT_OK, some (false, false, 0x10)) ∧
      0x10 ≠ SYN := by
  decide

/-- The defaults row found among the default rows `pre ++ d :: post` when `d` starts with
the default name and no row of `post` does: it is `d`. -/
theorem Message.findDefaults_last (name : Str) (pre post : List (List Str)) (d : List Str)
    (hd : d.head? = some name) (hpost : ∀ e, e ∈ post → e.head? ≠ some name) :
    Message.findDefaults (some (pre ++ d :: post)) name = some d := by
  unfold Message.findDefaults
  simp only [List.reverse_append, List.reverse_cons, List.append_assoc, List.find?_append]
  have h1 : post.reverse.find? (fun row => row.head? == some name) = none := by
    rw [List.find?_eq_none]
    intro e he
    have := hpost e (List.mem_reverse.mp he)
    simpa using this
  rw [h1]
  simp [hd]

/-- No defaults row is found when no default row starts with the default name. -/
theorem Message.findDefaults_none (name : Str) (rows : List (List Str))
    (hrows : ∀ e, e ∈ rows → e.head? ≠ some name) :
    Message.findDefaults (some rows) name = none := by
  unfold Message.findDefaults
  simp only []
  rw [List.find?_eq_none]
  intro e he
  have := hrows e (List.mem_reverse.mp he)
  simpa using this

/-- What `getDefault` returns when it returns: the value if it is not empty, and else the
cell of the defaults row, which is empty behind the end of the row. -/
theorem getDefault_some (value : Str) (d : List Str) (pos : Nat) (r : Str)
    (h : getDefault value (some d) pos = some r) :
    (value = [] → r = d.getD pos []) ∧ (value ≠ [] → r = value) := by
  unfold getDefault at h
  simp only at h
  by_cases hv : value.length > 0 ∨ pos > d.length
  · rw [if_pos hv] at h
    have hr : r = value := (Option.some.inj h).symm
    refine ⟨fun he => ?_, fun _ => hr⟩
    rw [hr, he]
    rcases hv with hv | hv
    · rw [he] at hv
      simp at hv
    · rw [List.getD_eq_default _ _ (by omega)]
  · rw [if_neg hv] at h
    have hl : ¬ value.length > 0 := fun hc => hv (Or.inl hc)
    have hvn : value = [] := List.length_eq_zero.mp (by omega)
    refine ⟨fun _ => ?_, fun hne => absurd hvn hne⟩
    rw [List.getD_eq_getElem?_getD, ← List.get?_eq_getElem?, h]
    rfl

/-- The cells with index 1, 3 and 5 of a row, as the iterator reaches them behind the type
cell. -/
theorem List.tail_cells_low {α : Type} (row : List α) (a : α) :
    row.tail.headD a = row.getD 1 a ∧ row.tail.tail.tail.headD a = row.getD 3 a ∧
      row.tail.tail.tail.tail.tail.headD a = row.getD 5 a := by
  rcases row with _ | ⟨_, _ | ⟨_, _ | ⟨_, _ | ⟨_, _ | ⟨_, _ | ⟨_, _⟩⟩⟩⟩⟩⟩ <;>
    exact ⟨rfl, rfl, rfl⟩

/-- The cells of the selected defaults row reach the message: when `createWith` returns a
message for the defaults row `d`, the class, the comment, the source and the destination
of the message are made of the cell of `d` where the cell of the row is empty, and of the
cell of the row where it is not. -/
theorem Message.createWith_defaults (lib : RowLib) (type : MessageType) (d : List Str)
    (row : List Str) (m : Message)
    (h : Message.createWith lib type (some d) row.tail = some (RESULT_OK, some m)) :
    m.clazz = (if row.getD 1 [] = [] then d.getD 1 [] else row.getD 1 []) ∧
    m.comment = (if row.getD 3 [] = [] then d.getD 3 [] else row.getD 3 []) ∧
    m.srcAddress =
      (if cString (if row.getD 4 [] = [] then d.getD 4 [] else row.getD 4 []) = [] then SYN
        else (lib.parseInt
          (cString (if row.getD 4 [] = [] then d.getD 4 [] else row.getD 4 []))).2 % 256) ∧
    m.dstAddress = (lib.parseInt
      (cString (if row.getD 5 [] = [] then d.getD 5 [] else row.getD 5 []))).2 % 256 := by
  obtain ⟨clazz, comment, src, dst, t1, t2, g1, g3, g4, g5, -, -, -, -, -, -, -, -, -, -, -,
    -, hm⟩ := Message.createWith_ok lib type (some d) row.tail m h
  obtain ⟨e1, e3, e5⟩ := List.tail_cells_low row ([] : Str)
  have e1' : row.tail.headD [] = row.getD 1 [] := e1
  have e3' : row.tail.tail.tail.headD [] = row.getD 3 [] := e3
  have e4' : row.tail.tail.tail.tail.headD [] = row.getD 4 [] := List.tail4_headD row []
  have e5' : row.tail.tail.tail.tail.tail.headD [] = row.getD 5 [] := e5
  rw [e1'] at g1
  rw [e3'] at g3
  rw [e4'] at g4
  rw [e5'] at g5
  have k : ∀ (cell r : Str) (pos : Nat), getDefault cell (some d) pos = some r →
      r = (if cell = [] then d.getD pos [] else cell) := by
    intro cell r pos hg
    obtain ⟨a, b⟩ := getDefault_some cell d pos r hg
    by_cases hc : cell = []
    · rw [if_pos hc]; exact a hc
    · rw [if_neg hc]; exact b hc
  rw [← k _ _ _ g1, ← k _ _ _ g3, ← k _ _ _ g4, ← k _ _ _ g5, hm]
  exact ⟨rfl, rfl, rfl, rfl⟩

/-- C27, amended: default rows are selected by the default name of the type. For a message
row and the default rows read before, the name looked up is the type of the row as a C
string, without its last character when the type starts with `r` or `R` and ends with a
digit, and `r` when the type is empty. With the most recent default row `d` whose first
cell is that name, `create` gives what it gives with `d` alone, and the message it creates
has the class, the comment, the source and the destination of the cells of `d` where the
cells of the row are empty. When no default row has that first cell, `create` gives what it
gives without default rows, and the message has the class and the comment of the row. For
the type `r2` the name is `r`. -/
theorem Message.create_defaults (lib : RowLib) (row : List Str) (rows : List (List Str)) :
    (∀ pre d post, rows = pre ++ d :: post →
      d.head? = some (Message.createType (cString (row.headD []))).defaultName →
      (∀ e, e ∈ post →
        e.head? ≠ some (Message.createType (cString (row.headD []))).defaultName) →
      Message.create lib row (some rows) = Message.create lib row (some [d]) ∧
      ∀ m, Message.create lib row (some rows) = some (RESULT_OK, some m) →
        m.clazz = (if row.getD 1 [] = [] then d.getD 1 [] else row.getD 1 []) ∧
        m.comment = (if row.getD 3 [] = [] then d.getD 3 [] else row.getD 3 []) ∧
        m.srcAddress =
          (if cString (if row.getD 4 [] = [] then d.getD 4 [] else row.getD 4 []) = []
            then SYN
            else (lib.parseInt
              (cString (if row.getD 4 [] = [] then d.getD 4 [] else row.getD 4 []))).2
                % 256) ∧
        m.dstAddress = (lib.parseInt
          (cString (if row.getD 5 [] = [] then d.getD 5 [] else row.getD 5 []))).2 % 256) ∧
    ((∀ e, e ∈ rows →
        e.head? ≠ some (Message.createType (cString (row.headD []))).defaultName) →
      Message.create lib row (some rows) = Message.create lib row none ∧
      ∀ m, Message.create lib row (some rows) = some (RESULT_OK, some m) →
        m.clazz = row.getD 1 [] ∧ m.comment = row.getD 3 []) ∧
    (Message.createType (cString "r2".toList)).defaultName = "r".toList := by
  refine ⟨fun pre d post hrows hd hpost => ⟨?_, fun m hm => ?_⟩,
    fun hrows => ⟨?_, fun m hm => ?_⟩, by decide⟩
  · unfold Message.create
    simp only []
    have h1 := Message.findDefaults_last _ [] [] d hd
      (fun e he => absurd he (List.not_mem_nil e))
    rw [List.nil_append] at h1
    rw [hrows, Message.findDefaults_last _ pre post d hd hpost, h1]
  · have hc := Message.create_ok lib row (some rows) m hm
    rw [hrows, Message.findDefaults_last _ pre post d hd hpost] at hc
    exact Message.createWith_defaults lib _ d row m hc
  · unfold Message.create
    simp only []
    rw [Message.findDefaults_none _ rows hrows]
    rfl
  · have hc := Message.create_ok lib row (some rows) m hm
    rw [Message.findDefaults_none _ rows hrows] at hc
    obtain ⟨clazz, comment, src, dst, t1, t2, g1, g3, -, -, -, -, -, -, -, -, -, -, -, -, -,
      -, hmeq⟩ := Message.createWith_ok lib _ none row.tail m hc
    obtain ⟨e1, e3, _⟩ := List.tail_cells_low row ([] : Str)
    have e1' : row.tail.headD [] = row.getD 1 [] := e1
    have e3' : row.tail.tail.tail.headD [] = row.getD 3 [] := e3
    rw [e1'] at g1
    rw [e3'] at g3
    have c1 : clazz = row.getD 1 [] := (Option.some.inj g1).symm
    have c3 : comment = row.getD 3 [] := (Option.some.inj g3).symm
    rw [hmeq, ← c1, ← c3]
    exact ⟨rfl, rfl⟩

/-- The amended C27 on the row `r2,,temp,,,08,b509,0d,,,` behind the default rows
`r,heat,,,,,,,` and `r2,boiler,,,,,,,`: the defaults are those of the row `r`, and the
message created has its class `heat`. -/
theorem Message.create_defaults_witness :
    Message.create exampleLib exRowPlain (some [exDefaultsR, exDefaultsR2]) =
        Message.create exampleLib exRowPlain (some [exDefaultsR]) ∧
      Message.create exampleLib exRowPlain (some [exDefaultsR, exDefaultsR2]) =
        some (RESULT_OK, some { exCreatedPlain with clazz := "heat".toList }) ∧
      exRowPlain.getD 1 [] = [] ∧ exDefaultsR.getD 1 [] = "heat".toList ∧
      ({ exCreatedPlain with clazz := "heat".toList } : Message).clazz
        = (if exRowPlain.getD 1 [] = [] then exDefaultsR.getD 1 []
            else exRowPlain.getD 1 []) :=
  have h := (Message.create_defaults exampleLib exRowPlain [exDefaultsR, exDefaultsR2]).1
    [] exDefaultsR [exDefaultsR2] rfl (by decide)
    (fun e he => by
      rw [List.mem_singleton] at he
      subst he
      decide)
  ⟨h.1, rfl, by decide, by decide,
    (h.2 { exCreatedPlain with clazz := "heat".toList } rfl).1⟩

/-- C27 as stated fails on the code: for the message row `r2,,temp,,,08,b509,0d,,,` of
type `r2` the default row `r2,boiler,,,,,,,`, whose first column equals the type, is not
used (the class stays empty), and the default row `r,heat,,,,,,,` is (the class is
`heat`). -/
theorem Message.create_defaults_counterexample :
    exRowPlain.headD [] = "r2".toList ∧ exDefaultsR2.head? = some "r2".toList ∧
      exDefaultsR2.getD 1 [] = "boiler".toList ∧
      (Message.create exampleLib exRowPlain (some [exDefaultsR2])).map
        (fun r => (r.1, r.2.map (fun m => m.clazz))) = some (RESULT_OK, some []) ∧
      (Message.create exampleLib exRowPlain (some [exDefaultsR])).map
        (fun r => (r.1, r.2.map (fun m => m.clazz))) = some (RESULT_OK, some "heat".toList) := by
  decide

/-! ## Claims on the decoding of received frames -/

/-- After the two calls of `decode` in `receiveCompleted`, when the master data decoded,
the last value of the message is the text of the slave data alone (empty when the slave
data did not decode): the second call takes the text behind the position where it found
the stream, which is the end of the text of the master data. -/
theorem BusHandler.decodeReceived_lastValue (m : Message) (command response : SymbolString)
    (leading : Bool) (separator : Char) (now later : Nat)
    (hm : (m.data.read pt_masterData command ((m.id.length + 254) % 256) leading false
      separator).1 = RESULT_OK) :
    (BusHandler.decodeReceived m command response leading separator now later).2.2.lastValue =
      (if (m.data.read pt_slaveData response 0
            (decide ((m.data.read pt_masterData command ((m.id.length + 254) % 256) leading
              false separator).2.isEmpty = false)) false separator).1 = RESULT_OK then
        (m.data.read pt_slaveData response 0
            (decide ((m.data.read pt_masterData command ((m.id.length + 254) % 256) leading
              false separator).2.isEmpty = false)) false separator).2
      else []) ∧
    (BusHandler.decodeReceived m command response leading separator now later).2.2.lastUpdateTime
      = later := by
  unfold BusHandler.decodeReceived
  simp only [Message.decode, hm, ne_eq, not_true_eq_false, if_false, if_true, List.nil_append,
    List.length_nil, List.drop_zero, reduceCtorEq]
  generalize m.data.read pt_slaveData response 0
    (decide ((m.data.read pt_masterData command ((m.id.length + 254) % 256) leading false
      separator).2.isEmpty = false)) false separator = rs
  by_cases hs : rs.1 = RESULT_OK
  · simp [hs]
  · simp [hs]

/-- C28, evaluated on the code: the passive broadcast `time/now` with three symbols of
master data and no slave data is found for the frame 10 FE B5 16 03 01 02 03 with its CRC;
the decode of the master data gives the text `010203` and stores it as the last value, and
the decode of the empty response, which `receiveCompleted` calls as well, replaces it: the
result is OK, the text of the frame is `010203`, the update time is stamped, and the last
value of the message is empty. -/
theorem BusHandler.receiveCompleted_lastValue_empty :
    (exPassiveMap.find exampleMasterNumber exCommandBroadcast).map Message.name =
        some "now".toList ∧
      (fun r => (r.1, r.2.1, r.2.2.lastValue, r.2.2.lastUpdateTime))
        (exMsgPassiveBroadcast.decode pt_masterData exCommandBroadcast [] false ';' 100) =
          (RESULT_OK, "010203".toList, "010203".toList, 100) ∧
      (BusHandler.receiveCompletedFound exampleMasterNumber exPassiveMap exCommandBroadcast
          SymbolString.empty false ';' 100 101).map
        (fun r => (r.1, r.2.1, r.2.2.lastValue, r.2.2.lastUpdateTime)) =
          some (RESULT_OK, "010203".toList, [], 101) := by
  decide

/-! ## Lemmas on the reception of a command -/

/-- A push of a received symbol into an unescaped buffer that answers OK has appended one
symbol, and has updated the CRC with it if asked to. -/
theorem SymbolString.push_back_ok (s : SymbolString) (v : Nat) (u : Bool)
    (hs : s.escaped = false) (hok : (s.push_back v true u).1 = RESULT_OK) :
    ∃ w, (s.push_back v true u).2.data = s.data ++ [w] ∧
      (s.push_back v true u).2.crc = (if u = true then updateCRC s.crc w else s.crc) ∧
      (s.push_back v true u).2.escaped = false := by
  unfold SymbolString.push_back at hok ⊢
  simp only [hs, Bool.false_eq_true, if_false, Bool.not_true] at hok ⊢
  by_cases he : s.expectEscape = true
  · by_cases h0 : (v == 0x00) = true
    · exact ⟨ESC, by simp [he, h0]⟩
    · by_cases h1 : (v == 0x01) = true
      · exact ⟨SYN, by simp [he, h0, h1]⟩
      · simp [he, h0, h1] at hok
  · by_cases h2 : (v == ESC) = true
    · simp [he, h2] at hok
    · exact ⟨v, by simp [he, h2]⟩

/-- The handler at the moment the receive call has returned, for a step that starts in
`recvCmd`: nothing is sent, and only the log and the queue may differ. -/
theorem BusHandler.received_recvCmd (h : BusHandler) (io : PortStep)
    (hstate : h.state = bs_recvCmd) :
    (h.received io).state = bs_recvCmd ∧ (h.received io).command = h.command ∧
      (h.received io).repeated = h.repeated ∧
      (h.received io).commandCrcValid = h.commandCrcValid ∧
      (h.received io).request = h.request ∧
      (h.received io).response = h.response ∧
      (h.received io).events = h.events ++ [BusEvent.recv h.slaveRecvTimeout] := by
  by_cases hc : io.clientRemoved = true <;> cases hreq : h.request <;>
    simp [BusHandler.received, BusHandler.decideSend, BusHandler.doSend, hstate, hc, hreq]

/-- A push of a received symbol into an unescaped buffer that only holds an escape prefix
leaves the symbols as they are. -/
theorem SymbolString.push_back_inEsc (s : SymbolString) (v : Nat) (u : Bool)
    (hs : s.escaped = false) (hin : (s.push_back v true u).1 = RESULT_IN_ESC) :
    (s.push_back v true u).2.data = s.data := by
  unfold SymbolString.push_back at hin ⊢
  simp only [hs, Bool.false_eq_true, if_false, Bool.not_true] at hin ⊢
  by_cases he : s.expectEscape = true
  · by_cases h0 : (v == 0x00) = true
    · simp [he, h0] at hin
    · by_cases h1 : (v == 0x01) = true
      · simp [he, h0, h1] at hin
      · simp [he, h0, h1] at hin
  · by_cases h2 : (v == ESC) = true
    · simp [he, h2]
    · simp [he, h2] at hin

/-- The transition of `recvCmd` for a symbol whose push `r` answers OK, with the CRC
position `crcPos` of the step: the command buffer takes the push; when the buffer then ends
at the CRC position, the CRC flag is set by the comparison and the state changes by the
destination, the flag and `m_repeat`; otherwise nothing else changes. -/
theorem BusHandler.dispatch_recvCmd (g : BusHandler) (sendSymbol : Nat) (sending : Bool)
    (b crcPos : Nat) (r : result_t × SymbolString) (hstate : g.state = bs_recvCmd)
    (hpos : (if g.command.size > 4 then (4 + 1 + g.command.get 4) % 256 else 0xff) = crcPos)
    (hr : g.command.push_back b true (decide (g.command.size < crcPos)) = r)
    (hok : r.1 = RESULT_OK) :
    g.dispatch sendSymbol sending b =
      (if crcPos ≠ 0xff ∧ r.2.size = crcPos + 1 then
        (if (r.2.get (4 + 1 + r.2.get 4) == r.2.getCRC) = true then
          (if r.2.get 1 = BROADCAST then
            BusHandler.setState (BusHandler.receiveCompleted
              { g with command := r.2, commandCrcValid := true }) bs_skip RESULT_OK false
          else
            BusHandler.setState { g with command := r.2, commandCrcValid := true }
              bs_recvCmdAck RESULT_OK false)
        else
          (if r.2.get 1 = BROADCAST then
            BusHandler.setState { g with command := r.2, commandCrcValid := false }
              bs_skip RESULT_OK false
          else if g.repeated = true then
            BusHandler.setState { g with command := r.2, commandCrcValid := false }
              bs_skip RESULT_ERR_CRC false
          else
            BusHandler.setState { g with command := r.2, commandCrcValid := false }
              bs_recvCmdAck RESULT_ERR_CRC false))
      else (RESULT_OK, { g with command := r.2 })) := by
  unfold BusHandler.dispatch
  simp only [hstate, hpos, hr]
  simp only [hok, result_t.isError, Bool.false_eq_true, if_false, true_and]
  by_cases hp : crcPos ≠ 0xff ∧ r.2.size = crcPos + 1
  · rw [if_pos hp, if_pos hp]
    by_cases hv : (r.2.get (4 + 1 + r.2.get 4) == r.2.getCRC) = true
    · simp only [hv, if_true]
    · simp only [hv]
      simp
  · rw [if_neg hp, if_neg hp]

/-- A state change logs at most a notification, no call of `receiveCompleted`. -/
theorem BusHandler.setState_events_noReceive (h : BusHandler) (state : BusState)
    (result : result_t) (first : Bool) :
    ∃ l, (h.setState state result first).2.events = h.events ++ l ∧
      ∀ e, e ∈ l → e.isReceiveCompleted = false := by
  rw [BusHandler.setState_events]
  unfold BusHandler.notifyRequest
  cases hreq : h.request with
  | none => exact ⟨[], by simp, fun e he => absurd he (List.not_mem_nil e)⟩
  | some req =>
    simp only
    split
    · refine ⟨[BusEvent.notified req result h.response], rfl, fun e he => ?_⟩
      rw [List.mem_singleton] at he
      rw [he]
      rfl
    · exact ⟨[], by simp, fun e he => absurd he (List.not_mem_nil e)⟩

/-- A state change to a state other than `ready` and `skip` keeps the CRC flag of the
command. -/
theorem BusHandler.setState_commandCrcValid (h : BusHandler) (state : BusState)
    (result : result_t) (first : Bool) (hr : state ≠ bs_ready) (hs : state ≠ bs_skip) :
    (h.setState state result first).2.commandCrcValid = h.commandCrcValid := by
  unfold BusHandler.setState BusHandler.notifyRequest
  simp only [hr, hs, or_self, if_false]
  cases hreq : h.request with
  | none => simp only; split <;> rfl
  | some r => simp only; split <;> split <;> rfl

/-! ## Claims on the reception of a command -/

/-- C30, amended: passive command framing. A step in `recvCmd` receives a symbol other
than `SYN`; the running CRC of the unescaped command buffer covers the symbols received so
far, and, once the length `NN` is in, `NN` is at most 16 and the frame is not yet complete.
When the push of the symbol only holds an escape prefix, the step stays in `recvCmd` and
validates nothing. When the push answers OK, an unescaped symbol `w` is appended. While `w`
is not the symbol at position `4 + 1 + NN`, the step stays in `recvCmd`, keeps the CRC
running over `w` and validates nothing. When `w` is the symbol at that position, it is compared
with the CRC over the `5 + NN` symbols before it: for the destination `BROADCAST` the step
ends in `skip` and `receiveCompleted` is called iff they are equal; for another
destination the step ends in `recvCmdAck` with the CRC flag set if they are equal, in
`recvCmdAck` with the flag unset and the result CRC if they differ in the first
transfer, and in `skip` with the result CRC if they differ in the repetition (`m_repeat`
set), and `receiveCompleted` is not called. -/
theorem BusHandler.handleSymbol_recvCmd (h : BusHandler) (io : PortStep) (b : Nat)
    (hstate : h.state = bs_recvCmd) (hrecv : io.recv = RecvResult.symbol b) (hsyn : b ≠ SYN)
    (hmode : h.command.escaped = false) (hcrc : h.command.crc = crcOf h.command.data)
    (hNN : 5 ≤ h.command.size →
      h.command.get 4 ≤ 16 ∧ h.command.size ≤ 5 + h.command.get 4) :
    ((h.command.push_back b true (decide (h.command.size <
      (if h.command.size > 4 then (4 + 1 + h.command.get 4) % 256 else 0xff)))).1
        = RESULT_IN_ESC →
      (h.handleSymbol io).1 = RESULT_OK ∧ (h.handleSymbol io).2.state = bs_recvCmd ∧
      (h.handleSymbol io).2.command.data = h.command.data ∧
      (h.handleSymbol io).2.commandCrcValid = h.commandCrcValid ∧
      ∀ e, e ∈ h.stepEvents io → e.isReceiveCompleted = false) ∧
    ((h.command.push_back b true (decide (h.command.size <
      (if h.command.size > 4 then (4 + 1 + h.command.get 4) % 256 else 0xff)))).1
        = RESULT_OK →
    ∃ w,
      (h.command.push_back b true (decide (h.command.size <
        (if h.command.size > 4 then (4 + 1 + h.command.get 4) % 256 else 0xff)))).2.data
          = h.command.data ++ [w] ∧
      ((h.command.size < 5 ∨ h.command.size < 5 + h.command.get 4) →
        (h.handleSymbol io).1 = RESULT_OK ∧ (h.handleSymbol io).2.state = bs_recvCmd ∧
        (h.handleSymbol io).2.command.data = h.command.data ++ [w] ∧
        (h.handleSymbol io).2.command.crc = crcOf (h.command.data ++ [w]) ∧
        (h.handleSymbol io).2.commandCrcValid = h.commandCrcValid ∧
        ∀ e, e ∈ h.stepEvents io → e.isReceiveCompleted = false) ∧
      (5 ≤ h.command.size → h.command.size = 5 + h.command.get 4 →
        (h.command.get 1 = BROADCAST →
          (h.handleSymbol io).2.state = bs_skip ∧
          ((∃ e, e ∈ h.stepEvents io ∧ e.isReceiveCompleted = true) ↔
            w = crcOf h.command.data)) ∧
        (h.command.get 1 ≠ BROADCAST →
          (w = crcOf h.command.data →
            (h.handleSymbol io).1 = RESULT_OK ∧
            (h.handleSymbol io).2.state = bs_recvCmdAck ∧
            (h.handleSymbol io).2.commandCrcValid = true) ∧
          (w ≠ crcOf h.command.data →
            (h.handleSymbol io).1 = RESULT_ERR_CRC ∧
            (h.handleSymbol io).2.state
              = (if h.repeated = true then bs_skip else bs_recvCmdAck) ∧
            (h.repeated = false → (h.handleSymbol io).2.commandCrcValid = false)) ∧
          ∀ e, e ∈ h.stepEvents io → e.isReceiveCompleted = false))) := by
  obtain ⟨gs, gc, gr, gv, -, -, ge⟩ := BusHandler.received_recvCmd h io hstate
  have hstep : h.handleSymbol io =
      BusHandler.dispatch (h.received io) (BusHandler.doSend h.decideSend io).sendSymbol
        (BusHandler.doSend h.decideSend io).sending b := by
    rw [BusHandler.handleSymbol_eq]
    simp only [hrecv]
    rw [if_neg hsyn]
  refine ⟨fun hin => ?_, fun hok => ?_⟩
  · simp only [BusHandler.stepEvents]
    rw [hstep]
    have hd : (h.command.push_back b true (decide (h.command.size <
        (if h.command.size > 4 then (4 + 1 + h.command.get 4) % 256 else 0xff)))).2.data
          = h.command.data := SymbolString.push_back_inEsc h.command b _ hmode hin
    generalize h.received io = g at gs gc gr gv ge ⊢
    generalize hr : h.command.push_back b true (decide (h.command.size <
      (if h.command.size > 4 then (4 + 1 + h.command.get 4) % 256 else 0xff))) = r
      at hin hd
    have hdis : g.dispatch (BusHandler.doSend h.decideSend io).sendSymbol
        (BusHandler.doSend h.decideSend io).sending b
          = (RESULT_OK, { g with command := r.2 }) := by
      unfold BusHandler.dispatch
      simp only [gs, gc, hr]
      simp [hin, result_t.isError]
    rw [hdis]
    refine ⟨rfl, gs, hd, gv, fun e he => ?_⟩
    change e ∈ g.events.drop h.events.length at he
    rw [ge, List.drop_left] at he
    rw [List.mem_singleton.mp he]
    rfl
  obtain ⟨w, hw, hwc, -⟩ := SymbolString.push_back_ok h.command b _ hmode hok
  simp only [BusHandler.stepEvents]
  rw [hstep]
  generalize h.received io = g at gs gc gr gv ge ⊢
  generalize hpos : (if h.command.size > 4 then (4 + 1 + h.command.get 4) % 256 else 0xff)
    = crcPos at hok hw hwc ⊢
  generalize hr : h.command.push_back b true (decide (h.command.size < crcPos)) = r
    at hok hw hwc ⊢
  rw [BusHandler.dispatch_recvCmd g _ _ b crcPos r gs (by rw [gc]; exact hpos)
    (by rw [gc]; exact hr) hok]
  have hsz : r.2.size = h.command.size + 1 := by simp [SymbolString.size, hw]
  have hdrop : ∀ l : List BusEvent, (g.events ++ l).drop h.events.length
      = BusEvent.recv h.slaveRecvTimeout :: l := by
    intro l
    rw [ge, List.append_assoc, List.drop_left]
    rfl
  refine ⟨w, hw, fun hlt => ?_, fun h5 heq => ?_⟩
  · have hcond : ¬ (crcPos ≠ 0xff ∧ r.2.size = crcPos + 1) := by
      rintro ⟨hne, hs1⟩
      by_cases h4 : h.command.size > 4
      · rw [if_pos h4] at hpos
        have := hNN h4
        omega
      · rw [if_neg h4] at hpos
        exact hne hpos.symm
    rw [if_neg hcond]
    refine ⟨rfl, gs, hw, ?_, gv, ?_⟩
    · have hu : h.command.size < crcPos := by
        by_cases h4 : h.command.size > 4
        · rw [if_pos h4] at hpos
          have := hNN h4
          omega
        · rw [if_neg h4] at hpos
          omega
      show r.2.crc = _
      rw [hwc, crcOf_append, hcrc]
      simp [hu]
    · intro e he
      have hd := hdrop []
      rw [List.append_nil] at hd
      simp only [hd, List.mem_singleton] at he
      rw [he]
      rfl
  · have h4 : h.command.size > 4 := by omega
    have hnn := (hNN h5).1
    rw [if_pos h4] at hpos
    have hp : crcPos = 5 + h.command.get 4 := by omega
    have hcond : crcPos ≠ 0xff ∧ r.2.size = crcPos + 1 := by omega
    rw [if_pos hcond]
    have hlen : h.command.data.length = 5 + h.command.get 4 := by
      simpa [SymbolString.size] using heq
    have hg4 : r.2.get 4 = h.command.get 4 := by
      simp only [SymbolString.get, hw]
      rw [List.getD_append _ _ _ _ (by omega)]
    have hg1 : r.2.get 1 = h.command.get 1 := by
      simp only [SymbolString.get, hw]
      rw [List.getD_append _ _ _ _ (by omega)]
    have hgw : r.2.get (4 + 1 + r.2.get 4) = w := by
      have hi : 4 + 1 + h.command.get 4 = h.command.data.length := by omega
      rw [hg4, hi]
      simp only [SymbolString.get, hw]
      rw [List.getD_append_right _ _ _ _ (Nat.le_refl _), Nat.sub_self]
      rfl
    have hgc : r.2.getCRC = crcOf h.command.data := by
      show r.2.crc = _
      rw [hwc, hcrc]
      have : ¬ h.command.size < crcPos := by omega
      simp [this]
    have hvalid : ((r.2.get (4 + 1 + r.2.get 4) == r.2.getCRC) = true)
        ↔ w = crcOf h.command.data := by
      rw [hgw, hgc]
      simp
    rw [hg1]
    refine ⟨fun hb => ?_, fun hb => ⟨fun hv => ?_, fun hv => ?_, ?_⟩⟩
    · rw [if_pos hb, if_pos hb]
      by_cases hv : w = crcOf h.command.data
      · rw [if_pos (hvalid.mpr hv)]
        refine ⟨BusHandler.setState_state _ _ _ _, ?_⟩
        obtain ⟨l, hl, -⟩ := BusHandler.setState_events_noReceive
          (BusHandler.receiveCompleted { g with command := r.2, commandCrcValid := true })
          bs_skip RESULT_OK false
        refine ⟨fun _ => hv, fun _ => ?_⟩
        refine ⟨BusEvent.receiveCompleted r.2 g.response true g.responseCrcValid, ?_, rfl⟩
        rw [hl]
        simp only [BusHandler.receiveCompleted, List.append_assoc]
        rw [hdrop]
        simp
      · rw [if_neg (fun hc => hv (hvalid.mp hc))]
        refine ⟨BusHandler.setState_state _ _ _ _, ?_⟩
        obtain ⟨l, hl, hno⟩ := BusHandler.setState_events_noReceive
          { g with command := r.2, commandCrcValid := false } bs_skip RESULT_OK false
        refine ⟨fun hex => ?_, fun hc => absurd hc hv⟩
        obtain ⟨e, he, hrc⟩ := hex
        rw [hl] at he
        change e ∈ (g.events ++ l).drop h.events.length at he
        rw [hdrop] at he
        rcases List.mem_cons.mp he with he | he
        · rw [he] at hrc
          cases hrc
        · rw [hno e he] at hrc
          cases hrc
    · rw [if_pos (hvalid.mpr hv), if_neg hb]
      exact ⟨BusHandler.setState_fst _ _ _ _, BusHandler.setState_state _ _ _ _,
        BusHandler.setState_commandCrcValid _ _ _ _ (by decide) (by decide)⟩
    · rw [if_neg (fun hc => hv (hvalid.mp hc)), if_neg hb]
      by_cases hrep : g.repeated = true
      · rw [if_pos hrep, if_pos (gr ▸ hrep)]
        exact ⟨BusHandler.setState_fst _ _ _ _, BusHandler.setState_state _ _ _ _,
          fun hf => absurd (gr ▸ hrep) (by rw [hf]; decide)⟩
      · rw [if_neg hrep, if_neg (fun hc => hrep (gr ▸ hc))]
        exact ⟨BusHandler.setState_fst _ _ _ _, BusHandler.setState_state _ _ _ _,
          fun _ => BusHandler.setState_commandCrcValid _ _ _ _ (by decide) (by decide)⟩
    · intro e he
      have hall : ∀ (X : BusHandler) (s : BusState) (c : result_t), X.events = g.events →
          e ∈ ((X.setState s c false).2.events).drop h.events.length →
          e.isReceiveCompleted = false := by
        intro X s c hX hm
        obtain ⟨l, hl, hno⟩ := BusHandler.setState_events_noReceive X s c false
        rw [hl, hX, hdrop] at hm
        rcases List.mem_cons.mp hm with hm | hm
        · rw [hm]
          rfl
        · exact hno e hm
      by_cases hv : (r.2.get (4 + 1 + r.2.get 4) == r.2.getCRC) = true
      · rw [if_pos hv, if_neg hb] at he
        exact hall { g with command := r.2, commandCrcValid := true } _ _ rfl he
      · rw [if_neg hv, if_neg hb] at he
        by_cases hrep : g.repeated = true
        · rw [if_pos hrep] at he
          exact hall { g with command := r.2, commandCrcValid := false } _ _ rfl he
        · rw [if_neg hrep] at he
          exact hall { g with command := r.2, commandCrcValid := false } _ _ rfl he

set_option maxRecDepth 16000 in
/-- The amended C30 on the handler that receives the frame 10 08 B5 09 01 0D for the second
time, for the received symbol 00 at the CRC position. -/
theorem BusHandler.handleSymbol_recvCmd_witness :
    ((exHandlerRepeat.command.push_back 0 true (decide (exHandlerRepeat.command.size <
      (if exHandlerRepeat.command.size > 4 then (4 + 1 + exHandlerRepeat.command.get 4) % 256 else 0xff)))).1
        = RESULT_IN_ESC →
      (exHandlerRepeat.handleSymbol (PortStep.echo 0)).1 = RESULT_OK ∧ (exHandlerRepeat.handleSymbol (PortStep.echo 0)).2.state = bs_recvCmd ∧
      (exHandlerRepeat.handleSymbol (PortStep.echo 0)).2.command.data = exHandlerRepeat.command.data ∧
      (exHandlerRepeat.handleSymbol (PortStep.echo 0)).2.commandCrcValid = exHandlerRepeat.commandCrcValid ∧
      ∀ e, e ∈ exHandlerRepeat.stepEvents (PortStep.echo 0) → e.isReceiveCompleted = false) ∧
    ((exHandlerRepeat.command.push_back 0 true (decide (exHandlerRepeat.command.size <
      (if exHandlerRepeat.command.size > 4 then (4 + 1 + exHandlerRepeat.command.get 4) % 256 else 0xff)))).1
        = RESULT_OK →
    ∃ w,
      (exHandlerRepeat.command.push_back 0 true (decide (exHandlerRepeat.command.size <
        (if exHandlerRepeat.command.size > 4 then (4 + 1 + exHandlerRepeat.command.get 4) % 256 else 0xff)))).2.data
          = exHandlerRepeat.command.data ++ [w] ∧
      ((exHandlerRepeat.command.size < 5 ∨ exHandlerRepeat.command.size < 5 + exHandlerRepeat.command.get 4) →
        (exHandlerRepeat.handleSymbol (PortStep.echo 0)).1 = RESULT_OK ∧ (exHandlerRepeat.handleSymbol (PortStep.echo 0)).2.state = bs_recvCmd ∧
        (exHandlerRepeat.handleSymbol (PortStep.echo 0)).2.command.data = exHandlerRepeat.command.data ++ [w] ∧
        (exHandlerRepeat.handleSymbol (PortStep.echo 0)).2.command.crc = crcOf (exHandlerRepeat.command.data ++ [w]) ∧
        (exHandlerRepeat.handleSymbol (PortStep.echo 0)).2.commandCrcValid = exHandlerRepeat.commandCrcValid ∧
        ∀ e, e ∈ exHandlerRepeat.stepEvents (PortStep.echo 0) → e.isReceiveCompleted = false) ∧
      (5 ≤ exHandlerRepeat.command.size → exHandlerRepeat.command.size = 5 + exHandlerRepeat.command.get 4 →
        (exHandlerRepeat.command.get 1 = BROADCAST →
          (exHandlerRepeat.handleSymbol (PortStep.echo 0)).2.state = bs_skip ∧
          ((∃ e, e ∈ exHandlerRepeat.stepEvents (PortStep.echo 0) ∧ e.isReceiveCompleted = true) ↔
            w = crcOf exHandlerRepeat.command.data)) ∧
        (exHandlerRepeat.command.get 1 ≠ BROADCAST →
          (w = crcOf exHandlerRepeat.command.data →
            (exHandlerRepeat.handleSymbol (PortStep.echo 0)).1 = RESULT_OK ∧
            (exHandlerRepeat.handleSymbol (PortStep.echo 0)).2.state = bs_recvCmdAck ∧
            (exHandlerRepeat.handleSymbol (PortStep.echo 0)).2.commandCrcValid = true) ∧
          (w ≠ crcOf exHandlerRepeat.command.data →
            (exHandlerRepeat.handleSymbol (PortStep.echo 0)).1 = RESULT_ERR_CRC ∧
            (exHandlerRepeat.handleSymbol (PortStep.echo 0)).2.state
              = (if exHandlerRepeat.repeated = true then bs_skip else bs_recvCmdAck) ∧
            (exHandlerRepeat.repeated = false → (exHandlerRepeat.handleSymbol (PortStep.echo 0)).2.commandCrcValid = false)) ∧
          ∀ e, e ∈ exHandlerRepeat.stepEvents (PortStep.echo 0) → e.isReceiveCompleted = false))) :=
  BusHandler.handleSymbol_recvCmd exHandlerRepeat (PortStep.echo 0) 0 (by decide) rfl
    (by decide) (by decide) (by decide) (fun _ => by decide)

set_option maxRecDepth 16000 in
/-- C30 as stated fails on the code: the handler receives the frame 10 08 B5 09 01 0D to
the destination 08, which is not `BROADCAST`, for the second time (`m_repeat` is set), and
the symbol 00 at the CRC position is not the CRC 30 of the frame; the step ends in `skip`
with the result CRC, not in `recvCmdAck`. -/
theorem BusHandler.recvCmd_repeat_counterexample :
    exHandlerRepeat.state = bs_recvCmd ∧ exHandlerRepeat.repeated = true ∧
      exHandlerRepeat.command.data = [0x10, 0x08, 0xB5, 0x09, 0x01, 0x0D] ∧
      exHandlerRepeat.command.get 4 = 1 ∧ exHandlerRepeat.command.get 1 ≠ BROADCAST ∧
      crcOf exHandlerRepeat.command.data = 0x30 ∧
      (exHandlerRepeat.handleSymbol (PortStep.echo 0x00)).1 = RESULT_ERR_CRC ∧
      (exHandlerRepeat.handleSymbol (PortStep.echo 0x00)).2.state = bs_skip := by
  decide

/-! ## Claims on the failure of `MessageMap::add` -/

/-- C33: `add` is atomic on failure. Whenever `add` returns `RESULT_ERR_DUPLICATE`, the
dictionary is the one before the call: the name index with its with-class and class-less
keys, the passive key index, the message count, the id length window and the poll queue
are unchanged. -/
theorem MessageMap.add_duplicate_unchanged (gmn : Nat → Nat) (mm : MessageMap)
    (msg : Message) (h : (mm.add gmn msg).1 = RESULT_ERR_DUPLICATE) :
    (mm.add gmn msg).2 = mm ∧
      (mm.add gmn msg).2.messagesByName = mm.messagesByName ∧
      (mm.add gmn msg).2.passiveMessagesByKey = mm.passiveMessagesByKey ∧
      (mm.add gmn msg).2.messageCount = mm.messageCount ∧
      (mm.add gmn msg).2.minIdLength = mm.minIdLength ∧
      (mm.add gmn msg).2.maxIdLength = mm.maxIdLength ∧
      (mm.add gmn msg).2.pollMessages = mm.pollMessages := by
  rcases MessageMap.add_result gmn mm msg with hd | hok
  · rw [hd.2]
    exact ⟨rfl, rfl, rfl, rfl, rfl, rfl, rfl⟩
  · rw [hok] at h
    cases h

/-- C33 on the dictionary of `exMsgExact` and `exMsgWild`: adding `exMsgWild` again is a
duplicate and leaves the dictionary as it is. -/
theorem MessageMap.add_duplicate_unchanged_witness :
    (exMap2.add exampleMasterNumber exMsgWild).2 = exMap2 ∧
      (exMap2.add exampleMasterNumber exMsgWild).2.messagesByName = exMap2.messagesByName ∧
      (exMap2.add exampleMasterNumber exMsgWild).2.passiveMessagesByKey
        = exMap2.passiveMessagesByKey ∧
      (exMap2.add exampleMasterNumber exMsgWild).2.messageCount = exMap2.messageCount ∧
      (exMap2.add exampleMasterNumber exMsgWild).2.minIdLength = exMap2.minIdLength ∧
      (exMap2.add exampleMasterNumber exMsgWild).2.maxIdLength = exMap2.maxIdLength ∧
      (exMap2.add exampleMasterNumber exMsgWild).2.pollMessages = exMap2.pollMessages :=
  MessageMap.add_duplicate_unchanged exampleMasterNumber exMap2 exMsgWild (by decide)

/-! ## Claims on the order of the poll weights -/

/-- C34, evaluated on the code: `isLessPollWeight` is irreflexive, but it is not
asymmetric. For the message `exPollLow` of priority 1 with poll count 3 and the message
`exPollHigh` of priority 3 with poll count 0 it holds in both directions: `exPollHigh` is
less by the first test (`0 < 3`), and `exPollLow` is less by the second test (`1 < 3`),
which is reached because the first test has no branch for the greater product. -/
theorem Message.isLessPollWeight_not_asymmetric :
    (∀ a : Message, a.isLessPollWeight a = false) ∧
      exPollLow.isLessPollWeight exPollHigh = true ∧
      exPollHigh.isLessPollWeight exPollLow = true := by
  refine ⟨fun a => ?_, by decide, by decide⟩
  cases h : a.isLessPollWeight a with
  | false => rfl
  | true =>
    rcases (Message.isLessPollWeight_iff a a).mp h with h1 | h1 | h1 <;> omega

/-! ## Claims on `getDefault` -/

/-- C40, evaluated on the code: `getDefault` returns the value when the value is not empty,
when there is no defaults row and when `pos` is larger than the size of the row, and the
cell `pos` of the row when the value is empty and `pos` is below the size. When the value
is empty and `pos` is the size of the row, the test `pos > defaults->size()` lets the call
reach `defaults->at(pos)`, which throws: the value is not returned. `Message::create`
reaches this case: for the row `r2,,temp,,,08,b509,0d,,,` and the default row `r,heat,,`
of four cells the source cell asks for the position 4, and `create` throws. -/
theorem getDefault_at_size (value : Str) (row : List Str) (pos : Nat) :
    (value ≠ [] → getDefault value (some row) pos = some value) ∧
      getDefault value none pos = some value ∧
      (row.length < pos → getDefault value (some row) pos = some value) ∧
      (∀ hpos : pos < row.length, getDefault [] (some row) pos = some (row.get ⟨pos, hpos⟩)) ∧
      getDefault [] (some row) row.length = none ∧
      exDefaultsShort.length = 4 ∧
      Option.isNone (Message.create exampleLib exRowPlain (some [exDefaultsShort])) = true := by
  refine ⟨fun hv => ?_, rfl, fun hp => ?_, fun hp => ?_, ?_, by decide, by decide⟩
  · have : value.length > 0 := List.length_pos.mpr hv
    simp [getDefault, this]
  · simp [getDefault, hp]
  · have : ¬ pos > row.length := by omega
    simp [getDefault, this, List.getElem?_eq_getElem hp]
  · simp [getDefault]

/-! ## Claims on the termination of `sendAndWait` -/

/-- The loop of `sendAndWait` from any state with `lostRetries` between 1 and
`busLostRetries + 1` and counters in the range of `int`: it makes at least one and at most
`sendRetries * (busLostRetries + 1) + lostRetries` further attempts, returns the result of
the last attempt, and no attempt before the last one has the result OK. -/
theorem BusHandler.sendLoop_bound (busLostRetries : Nat) (results : Nat → result_t)
    (hB : busLostRetries + 1 < 2 ^ 31) :
    ∀ (fuel sendRetries lostRetries attempt : Nat),
      sendRetries * (busLostRetries + 1) + lostRetries ≤ fuel →
      sendRetries + 1 < 2 ^ 31 →
      1 ≤ lostRetries → lostRetries ≤ busLostRetries + 1 →
      attempt + 1 ≤ (BusHandler.sendLoop ((busLostRetries + 1 : Nat) : Int) results
        (sendRetries : Int) (lostRetries : Int) attempt).1 ∧
      (BusHandler.sendLoop ((busLostRetries + 1 : Nat) : Int) results (sendRetries : Int)
          (lostRetries : Int) attempt).1
        ≤ attempt + sendRetries * (busLostRetries + 1) + lostRetries ∧
      (BusHandler.sendLoop ((busLostRetries + 1 : Nat) : Int) results (sendRetries : Int)
          (lostRetries : Int) attempt).2 =
        results ((BusHandler.sendLoop ((busLostRetries + 1 : Nat) : Int) results
          (sendRetries : Int) (lostRetries : Int) attempt).1 - 1) ∧
      ∀ i, attempt ≤ i →
        i + 1 < (BusHandler.sendLoop ((busLostRetries + 1 : Nat) : Int) results
          (sendRetries : Int) (lostRetries : Int) attempt).1 → results i ≠ RESULT_OK := by
  intro fuel
  induction fuel with
  | zero =>
    intro s l a hf _ hl _
    omega
  | succ fuel ih =>
    intro s l a hf hs hl hlB
    rw [BusHandler.sendLoop_step_nat busLostRetries results s l a hs (by omega)]
    by_cases hok : results a = RESULT_OK
    · rw [if_pos hok]
      refine ⟨Nat.le_refl _, by simp only; omega, by simp [hok], fun i h1 h2 => ?_⟩
      simp only at h2
      omega
    · rw [if_neg hok]
      by_cases hfree : results a = RESULT_ERR_BUS_LOST ∧ l - 1 > 0
      · rw [if_pos hfree]
        obtain ⟨h1, h2, h3, h4⟩ := ih s (l - 1) (a + 1) (by omega) hs (by omega) (by omega)
        refine ⟨by omega, by omega, h3, fun i hi1 hi2 => ?_⟩
        by_cases hia : i = a
        · rw [hia]
          exact hok
        · exact h4 i (by omega) hi2
      · rw [if_neg hfree]
        by_cases hs0 : s = 0
        · rw [if_pos hs0]
          refine ⟨Nat.le_refl _, by simp only; omega, by simp, fun i h1 h2 => ?_⟩
          simp only at h2
          omega
        · rw [if_neg hs0]
          obtain ⟨s', rfl⟩ : ∃ s', s = s' + 1 := ⟨s - 1, by omega⟩
          have hmul : (s' + 1) * (busLostRetries + 1)
              = s' * (busLostRetries + 1) + (busLostRetries + 1) := Nat.succ_mul _ _
          simp only [Nat.add_sub_cancel]
          by_cases hlost : results a = RESULT_ERR_BUS_LOST
          · rw [if_pos hlost]
            obtain ⟨h1, h2, h3, h4⟩ := ih s' (busLostRetries + 1) (a + 1) (by omega)
              (by omega) (by omega) (Nat.le_refl _)
            refine ⟨by omega, by omega, h3, fun i hi1 hi2 => ?_⟩
            by_cases hia : i = a
            · rw [hia]
              exact hok
            · exact h4 i (by omega) hi2
          · rw [if_neg hlost]
            obtain ⟨h1, h2, h3, h4⟩ := ih s' l (a + 1) (by omega) (by omega) hl hlB
            refine ⟨by omega, by omega, h3, fun i hi1 hi2 => ?_⟩
            by_cases hia : i = a
            · rw [hia]
              exact hok
            · exact h4 i (by omega) hi2

/-- C35: `sendAndWait` terminates for every sequence of results of the attempts (the loop
is a total function of the sequence). For retry options in the range of the `int` counters
it makes at least one and at most `(failedSendRetries + 2) * (busLostRetries + 1)`
attempts, no attempt before the last one has the result OK, so it stops at the first
attempt with the result OK, and it returns the result of its last attempt. -/
theorem BusHandler.sendAndWait_bound (failedSendRetries busLostRetries : Nat)
    (results : Nat → result_t)
    (hF : failedSendRetries + 2 < 2 ^ 31) (hB : busLostRetries + 1 < 2 ^ 31) :
    1 ≤ (BusHandler.sendAndWait failedSendRetries busLostRetries results).1 ∧
      (BusHandler.sendAndWait failedSendRetries busLostRetries results).1
        ≤ (failedSendRetries + 2) * (busLostRetries + 1) ∧
      (BusHandler.sendAndWait failedSendRetries busLostRetries results).2 =
        results ((BusHandler.sendAndWait failedSendRetries busLostRetries results).1 - 1) ∧
      (∀ i, i + 1 < (BusHandler.sendAndWait failedSendRetries busLostRetries results).1 →
        results i ≠ RESULT_OK) ∧
      (∀ i, results i = RESULT_OK → (∀ j, j < i → results j ≠ RESULT_OK) →
        i < (BusHandler.sendAndWait failedSendRetries busLostRetries results).1 →
        BusHandler.sendAndWait failedSendRetries busLostRetries results
          = (i + 1, RESULT_OK)) := by
  rw [BusHandler.sendAndWait_start failedSendRetries busLostRetries results (by omega) hB]
  obtain ⟨h1, h2, h3, h4⟩ := BusHandler.sendLoop_bound busLostRetries results hB _
    (failedSendRetries + 1) (busLostRetries + 1) 0 (Nat.le_refl _) (by omega) (by omega)
    (Nat.le_refl _)
  have hmul : (failedSendRetries + 2) * (busLostRetries + 1)
      = (failedSendRetries + 1) * (busLostRetries + 1) + (busLostRetries + 1) :=
    Nat.succ_mul _ _
  refine ⟨by omega, by omega, h3, fun i hi => h4 i (Nat.zero_le _) hi, fun i hok _ hlt => ?_⟩
  have hlast : (BusHandler.sendLoop ((busLostRetries + 1 : Nat) : Int) results
      ((failedSendRetries + 1 : Nat) : Int) ((busLostRetries + 1 : Nat) : Int) 0).1
      = i + 1 := by
    by_contra hne
    exact h4 i (Nat.zero_le _) (by omega) hok
  refine Prod.ext hlast ?_
  rw [h3, hlast]
  simpa using hok

/-- C35 (witness): three send retries and two lost retries, every attempt timing out: the
call makes five attempts, within the bound of fifteen, and returns the last time-out. -/
theorem BusHandler.sendAndWait_bound_witness :
    3 + 2 < 2 ^ 31 ∧ 2 + 1 < 2 ^ 31 ∧
    1 ≤ (BusHandler.sendAndWait 3 2 exAllTimeout).1 ∧
      (BusHandler.sendAndWait 3 2 exAllTimeout).1 ≤ (3 + 2) * (2 + 1) ∧
      (BusHandler.sendAndWait 3 2 exAllTimeout).2 =
        exAllTimeout ((BusHandler.sendAndWait 3 2 exAllTimeout).1 - 1) ∧
      (∀ i, i + 1 < (BusHandler.sendAndWait 3 2 exAllTimeout).1 →
        exAllTimeout i ≠ RESULT_OK) ∧
      (∀ i, exAllTimeout i = RESULT_OK → (∀ j, j < i → exAllTimeout j ≠ RESULT_OK) →
        i < (BusHandler.sendAndWait 3 2 exAllTimeout).1 →
        BusHandler.sendAndWait 3 2 exAllTimeout = (i + 1, RESULT_OK)) :=
  ⟨by decide, by decide,
    BusHandler.sendAndWait_bound 3 2 exAllTimeout (by decide) (by decide)⟩

/-! ## Claims on the injectivity of the passive key -/

/-- The key of an active message in arithmetic form: the source field holds 0x1f. -/
theorem Message.getKey_eq_active (gmn : Nat → Nat) (m : Message) (hp : m.isPassive = false)
    (h2 : 2 ≤ m.id.length) (h6 : m.id.length ≤ 6) (hb : ∀ b ∈ m.id, b < 256)
    (hd : m.dstAddress < 256) :
    m.getKey gmn = (m.id.length - 2) * 2 ^ 61 + 0x1f * 2 ^ 56
      + m.dstAddress * 2 ^ 48 + packSymbols m.id 5 := by
  unfold Message.getKey
  simp only [hp, Bool.false_eq_true, if_false]
  have e0 : (m.id.length + (2 ^ 64 - 2)) % 2 ^ 64 = m.id.length - 2 := by omega
  have e1 : (m.id.length - 2) <<< (8 * 7 + 5) % 2 ^ 64 = (m.id.length - 2) * 2 ^ 61 := by
    rw [Nat.shiftLeft_eq]; apply Nat.mod_eq_of_lt; omega
  have e2 : ((m.id.length - 2) * 2 ^ 61 ||| 0x1f <<< (8 * 7)) % 2 ^ 64
      = (m.id.length - 2) * 2 ^ 61 + 0x1f * 2 ^ 56 := by
    rw [or_field _ _ (8 * 7) 5 (by omega) (by omega)]; apply Nat.mod_eq_of_lt; omega
  have e3 : ((m.id.length - 2) * 2 ^ 61 + 0x1f * 2 ^ 56 |||
      m.dstAddress <<< (8 * 6)) % 2 ^ 64
      = (m.id.length - 2) * 2 ^ 61 + 0x1f * 2 ^ 56 + m.dstAddress * 2 ^ 48 := by
    rw [or_field _ _ (8 * 6) 8 (by omega) (by omega)]; apply Nat.mod_eq_of_lt; omega
  rw [e0, e1, e2, e3]
  exact orSymbols_eq m.id 5 _ (by omega) hb (by omega) (by omega) (by omega)

/-- C32: the key is injective on what it encodes. For messages with two to six id symbols
(bytes, as the destination is) and master numbers below 0x1f, two passive messages have the
same key iff they have the same id length, the same master number of the source, the same
destination and the same id symbols; and the key of an active message is never the key of a
passive message. -/
theorem Message.getKey_injective (gmn : Nat → Nat) (a b : Message)
    (ha2 : 2 ≤ a.id.length) (ha6 : a.id.length ≤ 6) (hab : ∀ x ∈ a.id, x < 256)
    (had : a.dstAddress < 256) (hb2 : 2 ≤ b.id.length) (hb6 : b.id.length ≤ 6)
    (hbb : ∀ x ∈ b.id, x < 256) (hbd : b.dstAddress < 256)
    (hga : gmn a.srcAddress < 0x1f) (hgb : gmn b.srcAddress < 0x1f)
    (hpb : b.isPassive = true) :
    (a.isPassive = true →
      (a.getKey gmn = b.getKey gmn ↔
        a.id.length = b.id.length ∧ gmn a.srcAddress = gmn b.srcAddress ∧
          a.dstAddress = b.dstAddress ∧ a.id = b.id)) ∧
    (a.isPassive = false → a.getKey gmn ≠ b.getKey gmn) := by
  have p1 := packSymbols_lt a.id 5 (by omega) hab
  have p2 := packSymbols_lt b.id 5 (by omega) hbb
  have kb := Message.getKey_eq gmn b hpb hb2 hb6 hbb hbd (by omega)
  refine ⟨fun hpa => ?_, fun hpa => ?_⟩
  · have ka := Message.getKey_eq gmn a hpa ha2 ha6 hab had (by omega)
    rw [ka, kb]
    constructor
    · intro h
      have hk : a.id.length = b.id.length ∧ gmn a.srcAddress = gmn b.srcAddress ∧
          a.dstAddress = b.dstAddress ∧ packSymbols a.id 5 = packSymbols b.id 5 := by
        norm_num at p1 p2 h ⊢
        omega
      exact ⟨hk.1, hk.2.1, hk.2.2.1,
        packSymbols_inj _ _ 5 hk.1 (by omega) hab hbb hk.2.2.2⟩
    · rintro ⟨hl, hg, hd, hid⟩
      rw [hl, hg, hd, hid]
  · have ka := Message.getKey_eq_active gmn a hpa ha2 ha6 hab had
    rw [ka, kb]
    intro h
    norm_num at p1 p2 h
    omega

/-- C32 on the example messages: the passive messages `exMsgExact` and `exMsgWild` differ
in the source only, and so do their keys. -/
theorem Message.getKey_injective_witness :
    (exMsgExact.isPassive = true →
      (exMsgExact.getKey exampleMasterNumber = exMsgWild.getKey exampleMasterNumber ↔
        exMsgExact.id.length = exMsgWild.id.length ∧
          exampleMasterNumber exMsgExact.srcAddress
            = exampleMasterNumber exMsgWild.srcAddress ∧
          exMsgExact.dstAddress = exMsgWild.dstAddress ∧ exMsgExact.id = exMsgWild.id)) ∧
    (exMsgExact.isPassive = false →
      exMsgExact.getKey exampleMasterNumber ≠ exMsgWild.getKey exampleMasterNumber) :=
  Message.getKey_injective exampleMasterNumber exMsgExact exMsgWild (by decide) (by decide)
    (by decide) (by decide) (by decide) (by decide) (by decide) (by decide) (by decide)
    (by decide) rfl

/-! ## Claims on the layout of a message row -/

/-- The cells with index 6 and 7 of a row and the cells from index 8 on, as the iterator
reaches them behind the type cell. -/
theorem List.tail_cells {α : Type} (row : List α) (a : α) :
    row.tail.tail.tail.tail.tail.tail.headD a = row.getD 6 a ∧
      row.tail.tail.tail.tail.tail.tail.tail.headD a = row.getD 7 a ∧
      row.tail.tail.tail.tail.tail.tail.tail.tail = row.drop 8 := by
  rcases row with _ | ⟨_, _ | ⟨_, _ | ⟨_, _ | ⟨_, _ | ⟨_, _ | ⟨_, _ | ⟨_, _ | ⟨_, _⟩⟩⟩⟩⟩⟩⟩⟩ <;>
    exact ⟨rfl, rfl, rfl⟩

/-- C31, amended: the layout of a message row. When `Message::create` returns a message,
the id is given by the seventh and the eighth column of the row (each replaced by the cell
of the defaults row when the seventh is empty): the seventh gives exactly two symbols, the
eighth the further ones, and the id of the message is these symbols together. The field
definitions begin at the ninth column: the fields of the message are made from the cells
behind the eighth column (behind the field definitions of the defaults row, if it has
some), and the row has a ninth column. -/
theorem Message.create_layout (lib : RowLib) (row : List Str)
    (defaultsRows : Option (List (List Str))) (m : Message)
    (h : Message.create lib row defaultsRows = some (RESULT_OK, some m)) :
    ∃ token1 token2,
      (if decide ((row.getD 6 []).length = 0) = true then
          (getDefault [] (Message.findDefaults defaultsRows
            (Message.createType (cString (row.headD []))).defaultName) 6).map
              (fun d => d ++ row.getD 6 [])
        else some (row.getD 6 [])) = some token1 ∧
      (if decide ((row.getD 6 []).length = 0) = true then
          (getDefault [] (Message.findDefaults defaultsRows
            (Message.createType (cString (row.headD []))).defaultName) 7).map
              (fun d => d ++ row.getD 7 [])
        else some (row.getD 7 [])) = some token2 ∧
      (Message.parseId lib token1 []).1 = RESULT_OK ∧
      (Message.parseId lib token1 []).2.length = 2 ∧
      (Message.parseId lib token2 (Message.parseId lib token1 []).2).1 = RESULT_OK ∧
      m.id = (Message.parseId lib token2 (Message.parseId lib token1 []).2).2 ∧
      m.data = (lib.createData
        (Message.fieldCells (Message.findDefaults defaultsRows
          (Message.createType (cString (row.headD []))).defaultName) (row.drop 8))
        m.isSet m.dstAddress).2 ∧
      9 ≤ row.length := by
  obtain ⟨clazz, comment, src, dst, t1, t2, -, -, -, -, h1, h2, hne, -, -, -, -, hp1, hl1,
    hp2, -, -, hm⟩ :=
      Message.createWith_ok lib _ _ _ m (Message.create_ok lib row defaultsRows m h)
  obtain ⟨e6, e7, e8⟩ := List.tail_cells row ([] : Str)
  have e6' : row.tail.tail.tail.tail.tail.tail.headD [] = row.getD 6 [] := e6
  have e7' : row.tail.tail.tail.tail.tail.tail.tail.headD [] = row.getD 7 [] := e7
  have e8' : row.tail.tail.tail.tail.tail.tail.tail.tail = row.drop 8 := e8
  rw [e6'] at h1 h2
  rw [e7'] at h2
  rw [e8'] at hm hne
  refine ⟨t1, t2, h1, h2, hp1, hl1, hp2, by rw [hm], by rw [hm], ?_⟩
  by_contra hlen
  have : row.drop 8 = [] := List.drop_eq_nil_of_le (by omega)
  rw [this] at hne
  cases hne

/-- The amended C31 on the row `r,heat,temp,,,08,b509,0d,value,,UCH,,,` without default
rows: the id is B5 09 0D, from the seventh and the eighth column. -/
theorem Message.create_layout_witness :
    ∃ token1 token2,
      (if decide ((exRowTwoColumns.getD 6 []).length = 0) = true then
          (getDefault [] (Message.findDefaults none
            (Message.createType (cString (exRowTwoColumns.headD []))).defaultName) 6).map
              (fun d => d ++ exRowTwoColumns.getD 6 [])
        else some (exRowTwoColumns.getD 6 [])) = some token1 ∧
      (if decide ((exRowTwoColumns.getD 6 []).length = 0) = true then
          (getDefault [] (Message.findDefaults none
            (Message.createType (cString (exRowTwoColumns.headD []))).defaultName) 7).map
              (fun d => d ++ exRowTwoColumns.getD 7 [])
        else some (exRowTwoColumns.getD 7 [])) = some token2 ∧
      (Message.parseId exampleLib token1 []).1 = RESULT_OK ∧
      (Message.parseId exampleLib token1 []).2.length = 2 ∧
      (Message.parseId exampleLib token2 (Message.parseId exampleLib token1 []).2).1
        = RESULT_OK ∧
      exCreatedTwoColumns.id
        = (Message.parseId exampleLib token2 (Message.parseId exampleLib token1 []).2).2 ∧
      exCreatedTwoColumns.data = (exampleLib.createData
        (Message.fieldCells (Message.findDefaults none
          (Message.createType (cString (exRowTwoColumns.headD []))).defaultName)
          (exRowTwoColumns.drop 8))
        exCreatedTwoColumns.isSet exCreatedTwoColumns.dstAddress).2 ∧
      9 ≤ exRowTwoColumns.length :=
  Message.create_layout exampleLib exRowTwoColumns none exCreatedTwoColumns rfl

/-- C31 as stated fails on the code: the row `r,heat,temp,,,08,b5090d,value,,UCH,,,` has
its id B5 09 0D in the seventh column and its first field definition from the eighth column
on. `create` returns no message for it, whatever the functions it calls do: the seventh
column must give exactly two id symbols. With the example functions the result is
`RESULT_ERR_INVALID_ARG`. -/
theorem Message.create_idColumn_counterexample :
    exRowIdColumn.getD 6 [] = "b5090d".toList ∧ exRowIdColumn.getD 7 [] = "value".toList ∧
      (∀ (lib : RowLib) (m : Message),
        Message.create lib exRowIdColumn none ≠ some (RESULT_OK, some m)) ∧
      (Message.create exampleLib exRowIdColumn none).map (fun r => r.1)
        = some RESULT_ERR_INVALID_ARG := by
  refine ⟨by decide, by decide, fun lib m h => ?_, by decide⟩
  obtain ⟨clazz, comment, src, dst, t1, t2, -, -, -, -, h1, -, -, -, -, -, -, hp1, hl1, -⟩ :=
    Message.createWith_ok lib _ _ _ m (Message.create_ok lib exRowIdColumn none m h)
  have ht : t1 = "b5090d".toList := by
    have hc : exRowIdColumn.tail.tail.tail.tail.tail.tail.headD [] = "b5090d".toList := by
      decide
    rw [hc] at h1
    simp at h1
    exact h1.symm
  subst ht
  by_cases c1 : (lib.parseInt (cString ['b', '5'])).1 = RESULT_OK <;>
    by_cases c2 : (lib.parseInt (cString ['0', '9'])).1 = RESULT_OK <;>
    by_cases c3 : (lib.parseInt (cString ['0', 'd'])).1 = RESULT_OK <;>
    simp [Message.parseId, c1, c2, c3] at hp1 hl1

/-! ## Claims on `MessageMap::addFromFile` -/

/-- C39, evaluated on the code: the row `r;w,heat,temp,,,08,b509,0d,,,` lists the types `r`
and `w`, and the dictionary holds the active read `heat/temp` already. The message for the
type `r` is created, and `add` rejects it with `RESULT_ERR_DUPLICATE`; the loop goes on,
the message for the type `w` is created and added, and `addFromFile` returns `RESULT_OK`,
with two messages in the dictionary. With the types in the order `w;r` the same failure is
the last result and is returned. -/
theorem MessageMap.addFromFile_duplicate_lost :
    getlines (exRowReadWrite.headD []) = ["r".toList, "w".toList] ∧
      (Message.create exampleLib ("r".toList :: exRowReadWrite.tail) none).map
        (fun r => (r.1, r.2.map (fun m => (exReadMap.add exampleMasterNumber m).1)))
          = some (RESULT_OK, some RESULT_ERR_DUPLICATE) ∧
      exReadMap.messageCount = 1 ∧
      (MessageMap.addFromFile exampleLib exampleMasterNumber exReadMap exRowReadWrite
          none).map (fun r => (r.1, r.2.messageCount)) = some (RESULT_OK, 2) ∧
      (MessageMap.addFromFile exampleLib exampleMasterNumber exReadMap exRowWriteRead
          none).map (fun r => (r.1, r.2.messageCount)) = some (RESULT_ERR_DUPLICATE, 2) := by
  decide

/-! ## Lemmas on the emission of symbols -/

/-- The decision to send: a symbol is to be sent only in `ready` with no SYN symbol to wait
and a request in the queue, which is taken as the request in flight, in `sendCmd` and
`sendResAck` with a request in flight, and in `sendSyn`. -/
theorem BusHandler.decideSend_sending (h : BusHandler) (hs : h.decideSend.sending = true) :
    (h.state = bs_ready ∧ h.remainLockCount = 0 ∧ h.requests ≠ [] ∧
        h.decideSend.handler.request = h.requests.head?) ∨
      (h.state = bs_sendCmd ∧ h.request.isSome = true ∧
        h.decideSend.handler.request = h.request) ∨
      (h.state = bs_sendResAck ∧ h.request.isSome = true ∧
        h.decideSend.handler.request = h.request) ∨
      h.state = bs_sendSyn := by
  unfold BusHandler.decideSend at hs ⊢
  cases hst : h.state <;> simp only [hst] at hs ⊢
  case bs_ready =>
    have hl := BusHandler.setState_remainLockCount h bs_ready RESULT_ERR_TIMEOUT false
    have hq : (h.setState bs_ready RESULT_ERR_TIMEOUT false).2.requests = h.requests := by
      unfold BusHandler.setState BusHandler.notifyRequest
      cases hreq : h.request with
      | none => simp only; split <;> rfl
      | some r => simp only; split <;> split <;> rfl
    by_cases hreq : h.request.isSome = true
    · simp only [hreq, if_true, hl, hq] at hs ⊢
      by_cases h0 : h.remainLockCount = 0
      · simp only [h0, if_true] at hs ⊢
        cases hh : h.requests with
        | nil => simp [hh] at hs
        | cons r rest => simp
      · simp [h0] at hs
    · simp only [hreq, Bool.false_eq_true, if_false] at hs ⊢
      by_cases h0 : h.remainLockCount = 0
      · simp only [h0, if_true] at hs ⊢
        cases hh : h.requests with
        | nil => simp [hh] at hs
        | cons r rest => simp
      · simp [h0] at hs
  case bs_sendCmd =>
    cases hreq : h.request with
    | none => simp [hreq] at hs
    | some r => simp [hreq]
  case bs_sendResAck =>
    cases hreq : h.request with
    | none => simp [hreq] at hs
    | some r => simp [hreq]
  case bs_sendSyn => simp
  all_goals simp at hs

/-- A symbol is emitted only when the handler decided to send and the port wrote it. -/
theorem BusHandler.emits_sending (h : BusHandler) (io : PortStep) (he : h.emits io = true) :
    h.decideSend.sending = true ∧ io.sendResult = 1 := by
  unfold BusHandler.emits BusHandler.doSend at he
  by_cases hd : h.decideSend.sending = true
  · rw [if_pos hd] at he
    by_cases hw : io.sendResult = 1
    · exact ⟨hd, hw⟩
    · rw [if_neg hw] at he
      simp at he
  · rw [if_neg hd] at he
    exact absurd he hd

/-- The transition enters `sendSyn` only with a request in flight: from `sendCmd`, from
`recvCmdAck` and from `sendResAck`. -/
theorem BusHandler.dispatch_sendSyn (h : BusHandler) (sendSymbol : Nat) (sending : Bool)
    (recvSymbol : Nat)
    (hsyn : (h.dispatch sendSymbol sending recvSymbol).2.state = bs_sendSyn) :
    h.request.isSome = true ∧
      (h.state = bs_sendCmd ∨ h.state = bs_recvCmdAck ∨ h.state = bs_sendResAck) := by
  generalize hd : h.dispatch sendSymbol sending recvSymbol = d at hsyn
  unfold BusHandler.dispatch at hd
  cases hs : h.state <;> simp only [hs] at hd
  all_goals
    repeat' split at hd
    all_goals
      subst hd
      simp [BusHandler.setState_state, hs] at hsyn ⊢
  all_goals simp_all

/-! ## Claims on the emission of symbols -/

/-- C37: the handler never transmits without owning a request. In every step a symbol is
sent only in `ready` when `remainLockCount` is 0 and the queue is not empty (its first
request is then in flight), in `sendCmd` and `sendResAck` with a request in flight, and in
`sendSyn`; a symbol is emitted only when it is sent and the port has written it. A step
ends in `sendSyn` only when a request was in flight when it began, in `sendCmd`,
`recvCmdAck` or `sendResAck`. With no request in flight after the decision to send and a
state other than `sendSyn`, nothing is sent and nothing is emitted. -/
theorem BusHandler.emits_owns_request (h : BusHandler) (io : PortStep) :
    (h.decideSend.sending = true →
      (h.state = bs_ready ∧ h.remainLockCount = 0 ∧ h.requests ≠ [] ∧
          h.decideSend.handler.request = h.requests.head?) ∨
        (h.state = bs_sendCmd ∧ h.request.isSome = true ∧
          h.decideSend.handler.request = h.request) ∨
        (h.state = bs_sendResAck ∧ h.request.isSome = true ∧
          h.decideSend.handler.request = h.request) ∨
        h.state = bs_sendSyn) ∧
      (h.emits io = true → h.decideSend.sending = true ∧ io.sendResult = 1) ∧
      ((h.handleSymbol io).2.state = bs_sendSyn →
        h.request.isSome = true ∧
          (h.state = bs_sendCmd ∨ h.state = bs_recvCmdAck ∨ h.state = bs_sendResAck)) ∧
      (h.decideSend.handler.request = none → h.state ≠ bs_sendSyn →
        h.decideSend.sending = false ∧ h.emits io = false) := by
  refine ⟨BusHandler.decideSend_sending h, BusHandler.emits_sending h io, fun hsyn => ?_,
    fun hreq hst => ?_⟩
  · rw [BusHandler.handleSymbol_eq] at hsyn
    cases hr : io.recv with
    | error code =>
      simp only [hr, BusHandler.setState_state] at hsyn
      cases hsyn
    | symbol b =>
      simp only [hr] at hsyn
      by_cases hb : b = SYN
      · rw [if_pos hb, BusHandler.setState_state] at hsyn
        cases hsyn
      · rw [if_neg hb] at hsyn
        obtain ⟨hq, hcase⟩ := BusHandler.dispatch_sendSyn _ _ _ _ hsyn
        obtain ⟨hs, hrq, -⟩ := BusHandler.received_of_state h io
          (by rcases hcase with hc | hc | hc <;> rw [hc] <;> decide)
          (by rcases hcase with hc | hc | hc <;> rw [hc] <;> decide)
        rw [hs] at hcase
        rw [hrq] at hq
        exact ⟨hq, hcase⟩
  · have hno : h.decideSend.sending = false := by
      cases hd : h.decideSend.sending with
      | false => rfl
      | true =>
        rcases BusHandler.decideSend_sending h hd with hc | hc | hc | hc
        · rw [hreq] at hc
          cases hh : h.requests with
          | nil => exact absurd hh hc.2.2.1
          | cons r rest =>
            rw [hh] at hc
            exact absurd hc.2.2.2 (by simp)
        · rw [hreq] at hc
          rw [← hc.2.2] at hc
          simp at hc
        · rw [hreq] at hc
          rw [← hc.2.2] at hc
          simp at hc
        · exact absurd hc hst
    refine ⟨hno, ?_⟩
    cases he : h.emits io with
    | false => rfl
    | true =>
      have := (BusHandler.emits_sending h io he).1
      rw [hno] at this
      cases this

/-! ## The CRC flag of the command -/

/-- A state change keeps the property when the CRC flag of the command is set for a change
to `recvRes` or `recvResAck`. -/
theorem BusHandler.setState_commandChecked (h : BusHandler) (state : BusState)
    (result : result_t) (first : Bool)
    (hok : (state = bs_recvRes ∨ state = bs_recvResAck) → h.commandCrcValid = true) :
    (h.setState state result first).2.commandChecked := by
  intro hst
  rw [BusHandler.setState_state] at hst
  rw [BusHandler.setState_commandCrcValid h state result first
    (by rcases hst with hc | hc <;> rw [hc] <;> decide)
    (by rcases hst with hc | hc <;> rw [hc] <;> decide)]
  exact hok hst

theorem BusHandler.decideSend_commandChecked (h : BusHandler) (hok : h.commandChecked) :
    h.decideSend.handler.commandChecked := by
  intro hst
  rw [BusHandler.decideSend_state] at hst
  rw [BusHandler.decideSend_handler h (by rcases hst with hc | hc <;> rw [hc] <;> decide)]
  exact hok hst

theorem BusHandler.doSend_commandChecked (d : SendDecision) (io : PortStep)
    (hok : d.handler.commandChecked) : (BusHandler.doSend d io).handler.commandChecked := by
  unfold BusHandler.doSend
  split
  · split
    · exact hok
    · exact BusHandler.setState_commandChecked _ _ _ _
        (fun hc => by rcases hc with hc | hc <;> cases hc)
  · exact hok

theorem BusHandler.received_commandChecked (h : BusHandler) (io : PortStep)
    (hok : h.commandChecked) : (h.received io).commandChecked := by
  have hd := BusHandler.doSend_commandChecked h.decideSend io
    (BusHandler.decideSend_commandChecked h hok)
  unfold BusHandler.received
  simp only
  split
  · split <;> exact hd
  · exact hd

theorem BusHandler.dispatch_commandChecked (h : BusHandler) (sendSymbol : Nat)
    (sending : Bool) (recvSymbol : Nat) (hok : h.commandChecked) :
    (h.dispatch sendSymbol sending recvSymbol).2.commandChecked := by
  unfold BusHandler.dispatch
  cases hs : h.state <;> simp only
  case bs_skip =>
    intro hst
    simp [hs] at hst
  all_goals
    repeat' split
    all_goals
      first
        | (apply BusHandler.setState_commandChecked
           intro hc
           first
             | (simp at hc
                done)
             | simp_all [BusHandler.commandChecked])
        | (intro hst
           simp [hs] at hst
           done)
        | (intro _
           exact hok (Or.inl hs))

theorem BusHandler.handleSymbol_commandChecked (h : BusHandler) (io : PortStep)
    (hok : h.commandChecked) : (h.handleSymbol io).2.commandChecked := by
  have h2 := BusHandler.received_commandChecked h io hok
  rw [BusHandler.handleSymbol_eq]
  split
  · exact BusHandler.setState_commandChecked _ _ _ _
      (fun hc => by rcases hc with hc | hc <;> cases hc)
  · split
    · exact BusHandler.setState_commandChecked _ _ _ _
        (fun hc => by rcases hc with hc | hc <;> cases hc)
    · exact BusHandler.dispatch_commandChecked _ _ _ _ h2

theorem BusHandler.Reachable.commandChecked (h : BusHandler) (hr : h.Reachable) :
    h.commandChecked := by
  induction hr with
  | initial l b s =>
    intro hst
    rcases hst with hc | hc <;> cases hc
  | step h io _ ih => exact BusHandler.handleSymbol_commandChecked h io ih
  | client h c _ ih =>
    cases c <;> exact ih

/-! ## The CRC flags at the calls of `receiveCompleted` -/

theorem BusEvent.crcChecked_of_noReceive (b : Bool) (e : BusEvent)
    (he : e.isReceiveCompleted = false) : e.crcChecked b = true := by
  cases e <;> first | rfl | cases he

/-- A state change behind events with the CRC flags set logs only such events. -/
theorem BusHandler.setState_crcChecked (g X : BusHandler) (state : BusState)
    (result : result_t) (first : Bool) (b : Bool) (pre : List BusEvent)
    (hpre : X.events = g.events ++ pre) (hP : ∀ e, e ∈ pre → e.crcChecked b = true) :
    ∃ l, (X.setState state result first).2.events = g.events ++ l ∧
      ∀ e, e ∈ l → e.crcChecked b = true := by
  obtain ⟨l, hl, hno⟩ := BusHandler.setState_events_noReceive X state result first
  refine ⟨pre ++ l, by rw [hl, hpre, List.append_assoc], fun e he => ?_⟩
  rcases List.mem_append.1 he with he | he
  · exact hP e he
  · exact BusEvent.crcChecked_of_noReceive b e (hno e he)

theorem BusHandler.setState_crcChecked_twice (g X Y : BusHandler) (state state2 : BusState)
    (result result2 : result_t) (first first2 : Bool) (b : Bool)
    (hX : X.events = (Y.setState state2 result2 first2).2.events) (hY : Y.events = g.events) :
    ∃ l, (X.setState state result first).2.events = g.events ++ l ∧
      ∀ e, e ∈ l → e.crcChecked b = true := by
  obtain ⟨l2, hl2, hp2⟩ := BusHandler.setState_events_noReceive Y state2 result2 first2
  exact BusHandler.setState_crcChecked g X state result first b l2
    (by rw [hX, hl2, hY]) (fun e he => BusEvent.crcChecked_of_noReceive b e (hp2 e he))

/-- The transition logs a call of `receiveCompleted` only with the CRC flag of the command
set, and from `recvResAck` only with the CRC flag of the response set as well. -/
theorem BusHandler.dispatch_crcChecked (h : BusHandler) (sendSymbol : Nat) (sending : Bool)
    (recvSymbol : Nat) (hok : h.commandChecked) :
    ∃ l, (h.dispatch sendSymbol sending recvSymbol).2.events = h.events ++ l ∧
      ∀ e, e ∈ l → e.crcChecked (decide (h.state = bs_recvResAck)) = true := by
  unfold BusHandler.dispatch
  cases hs : h.state <;> simp only
  case bs_skip => exact ⟨[], (List.append_nil _).symm, fun _ hm => absurd hm (List.not_mem_nil _)⟩
  all_goals
    repeat' split
    all_goals
      first
        | exact BusHandler.setState_crcChecked h _ _ _ _ _ [] (List.append_nil _).symm
            (fun _ hm => absurd hm (List.not_mem_nil _))
        | exact ⟨[], (List.append_nil _).symm, fun _ hm => absurd hm (List.not_mem_nil _)⟩
        | exact BusHandler.setState_crcChecked_twice h _ _ _ _ _ _ _ _ _ rfl rfl
        | (refine BusHandler.setState_crcChecked h _ _ _ _ _ [_] rfl (fun e he => ?_)
           rw [List.mem_singleton] at he
           subst he
           have hc := hok
           simp_all [BusEvent.crcChecked, BusHandler.commandChecked,
             BusHandler.receiveCompleted])

theorem BusHandler.decideSend_noReceive (h : BusHandler) :
    ∃ l, h.decideSend.handler.events = h.events ++ l ∧
      ∀ e, e ∈ l → e.isReceiveCompleted = false := by
  have hset := BusHandler.setState_events_noReceive h bs_ready RESULT_ERR_TIMEOUT false
  have hnil : ∃ l, h.events = h.events ++ l ∧ ∀ e, e ∈ l → e.isReceiveCompleted = false :=
    ⟨[], (List.append_nil _).symm, fun _ hm => absurd hm (List.not_mem_nil _)⟩
  unfold BusHandler.decideSend
  cases hs : h.state <;> simp only
  case bs_ready =>
    by_cases hreq : h.request.isSome = true
    · simp only [hreq, if_true]
      split
      · split <;> exact hset
      · exact hset
    · simp only [hreq, Bool.false_eq_true, if_false]
      split
      · split <;> exact hnil
      · exact hnil
  case bs_sendCmd => split <;> exact hnil
  case bs_sendResAck => split <;> exact hnil
  all_goals exact hnil

theorem BusHandler.doSend_noReceive (d : SendDecision) (io : PortStep) :
    ∃ l, (BusHandler.doSend d io).handler.events = d.handler.events ++ l ∧
      ∀ e, e ∈ l → e.isReceiveCompleted = false := by
  unfold BusHandler.doSend
  split
  · split
    · refine ⟨_, rfl, fun e he => ?_⟩
      rw [List.mem_singleton] at he
      rw [he]
      rfl
    · obtain ⟨l, hl, hp⟩ := BusHandler.setState_events_noReceive
        { d.handler with events := d.handler.events ++ [BusEvent.sendFailed d.sendSymbol] }
        bs_skip RESULT_ERR_SEND false
      refine ⟨[BusEvent.sendFailed d.sendSymbol] ++ l,
        by simp only [hl, List.append_assoc], fun e he => ?_⟩
      rcases List.mem_append.1 he with he | he
      · rw [List.mem_singleton] at he
        rw [he]
        rfl
      · exact hp e he
  · exact ⟨[], (List.append_nil _).symm, fun _ hm => absurd hm (List.not_mem_nil _)⟩

/-- Up to the return of the receive call a step logs no call of `receiveCompleted`. -/
theorem BusHandler.received_noReceive (h : BusHandler) (io : PortStep) :
    ∃ l, (h.received io).events = h.events ++ l ∧
      ∀ e, e ∈ l → e.isReceiveCompleted = false := by
  obtain ⟨l1, hl1, hp1⟩ := BusHandler.decideSend_noReceive h
  obtain ⟨l2, hl2, hp2⟩ := BusHandler.doSend_noReceive h.decideSend io
  have hev : (h.received io).events = (BusHandler.doSend h.decideSend io).handler.events
      ++ [BusEvent.recv (BusHandler.doSend h.decideSend io).timeout] := by
    unfold BusHandler.received
    simp only
    split
    · split <;> rfl
    · rfl
  refine ⟨l1 ++ l2 ++ [BusEvent.recv (BusHandler.doSend h.decideSend io).timeout],
    by rw [hev, hl2, hl1]; simp only [List.append_assoc], fun e he => ?_⟩
  rcases List.mem_append.1 he with he | he
  · rcases List.mem_append.1 he with he | he
    · exact hp1 e he
    · exact hp2 e he
  · rw [List.mem_singleton] at he
    rw [he]
    rfl

theorem BusHandler.received_recvResAck (h : BusHandler) (io : PortStep)
    (hstate : h.state = bs_recvResAck) : (h.received io).state = bs_recvResAck := by
  by_cases hc : io.clientRemoved = true <;> cases hreq : h.request <;>
    simp [BusHandler.received, BusHandler.decideSend, BusHandler.doSend, hstate, hc, hreq]

/-! ## Claims on the CRC flags at the decoding -/

/-- C36: frames are decoded only after their CRC checked out. In every run of the state
machine from the initial handler (steps with any behaviour of the port, clients adding and
removing queue entries in between), whenever a step calls `receiveCompleted` the CRC flag
of the command is set at the call, and when the step starts in `recvResAck` the CRC flag
of the response is set as well. -/
theorem BusHandler.receiveCompleted_checked (h : BusHandler) (io : PortStep)
    (hr : h.Reachable) (command response : SymbolString)
    (commandCrcValid responseCrcValid : Bool)
    (he : BusEvent.receiveCompleted command response commandCrcValid responseCrcValid
      ∈ h.stepEvents io) :
    commandCrcValid = true ∧ (h.state = bs_recvResAck → responseCrcValid = true) := by
  have hg := BusHandler.received_commandChecked h io (BusHandler.Reachable.commandChecked h hr)
  obtain ⟨l0, hl0, hp0⟩ := BusHandler.received_noReceive h io
  have hno : ∀ l : List BusEvent, (∀ e, e ∈ l → e.isReceiveCompleted = false) →
      BusEvent.receiveCompleted command response commandCrcValid responseCrcValid ∈ l →
      False := by
    intro l hl hm
    have := hl _ hm
    cases this
  have hset : ∀ (X : BusHandler) (state : BusState) (result : result_t),
      X.events = (h.received io).events →
      BusEvent.receiveCompleted command response commandCrcValid responseCrcValid ∈
        List.drop h.events.length (X.setState state result false).2.events → False := by
    intro X state result hX hm
    obtain ⟨l, hl, hp⟩ := BusHandler.setState_events_noReceive X state result false
    rw [hl, hX, hl0, List.append_assoc, List.drop_left] at hm
    rcases List.mem_append.1 hm with hm | hm
    · exact hno l0 hp0 hm
    · exact hno l hp hm
  unfold BusHandler.stepEvents at he
  rw [BusHandler.handleSymbol_eq] at he
  cases hrecv : io.recv with
  | error code =>
    simp only [hrecv] at he
    exact (hset _ _ _ rfl he).elim
  | symbol b =>
    simp only [hrecv] at he
    by_cases hb : b = SYN
    · rw [if_pos hb] at he
      refine (hset _ _ _ ?_ he).elim
      split <;> rfl
    · rw [if_neg hb] at he
      obtain ⟨l, hl, hp⟩ := BusHandler.dispatch_crcChecked (h.received io)
        (BusHandler.doSend h.decideSend io).sendSymbol
        (BusHandler.doSend h.decideSend io).sending b hg
      rw [hl, hl0, List.append_assoc, List.drop_left] at he
      rcases List.mem_append.1 he with he | he
      · exact (hno l0 hp0 he).elim
      · have hc := hp _ he
        simp only [BusEvent.crcChecked, Bool.and_eq_true, Bool.or_eq_true,
          Bool.not_eq_true', decide_eq_false_iff_not] at hc
        refine ⟨hc.1, fun hst => ?_⟩
        rcases hc.2 with hn | hv
        · exact absurd (BusHandler.received_recvResAck h io hst) hn
        · exact hv

/-- A run from a reachable handler ends in a reachable handler. -/
theorem BusHandler.Reachable.after_run (ios : List PortStep) :
    ∀ h : BusHandler, h.Reachable → (h.run ios).Reachable := by
  induction ios with
  | nil => intro h hr; exact hr
  | cons io ios ih =>
    intro h hr
    exact ih _ (BusHandler.Reachable.step h io hr)

set_option maxRecDepth 16000 in
/-- C36 on the handler that has received the frame 10 08 B5 09 01 0D 30 of another master
and the response 01 05 B8: the ACK of the master calls `receiveCompleted` from
`recvResAck`, with both CRC flags set. -/
theorem BusHandler.receiveCompleted_checked_witness :
    BusEvent.receiveCompleted exHandlerPassive.command exHandlerPassive.response true true
        ∈ exHandlerPassive.stepEvents (PortStep.echo ACK) ∧
      exHandlerPassive.state = bs_recvResAck ∧
      (true = true ∧ (exHandlerPassive.state = bs_recvResAck → true = true)) :=
  ⟨by decide, by decide,
    BusHandler.receiveCompleted_checked exHandlerPassive (PortStep.echo ACK)
      (BusHandler.Reachable.after_run _ _ (BusHandler.Reachable.initial 5 10000 15000))
      exHandlerPassive.command exHandlerPassive.response true true (by decide)⟩

/-! ## Claims on the life of a request -/

theorem BusEvent.notifications_append (req : BusRequest) (a b : List BusEvent) :
    BusEvent.notifications req (a ++ b)
      = BusEvent.notifications req a + BusEvent.notifications req b := by
  unfold BusEvent.notifications
  exact List.countP_append _ _ _

/-- The first part of `setState` clears `m_request` exactly when it logs the notification
of the request in flight. -/
theorem BusHandler.notifyRequest_balance (h : BusHandler) (state : BusState)
    (result : result_t) (first : Bool) (req : BusRequest) :
    ∃ l, (h.notifyRequest state result first).events = h.events ++ l ∧
      h.inFlight req
        = (h.notifyRequest state result first).inFlight req + BusEvent.notifications req l := by
  unfold BusHandler.notifyRequest
  cases hreq : h.request with
  | none => exact ⟨[], (List.append_nil _).symm, rfl⟩
  | some r =>
    simp only
    split
    · refine ⟨[BusEvent.notified r result h.response], rfl, ?_⟩
      by_cases hr : r = req
      · simp [BusHandler.inFlight, hreq, BusEvent.notifications, BusEvent.isNotification, hr]
      · simp [BusHandler.inFlight, hreq, BusEvent.notifications, BusEvent.isNotification, hr]
    · exact ⟨[], (List.append_nil _).symm, rfl⟩

theorem BusHandler.setState_balance (g X : BusHandler) (state : BusState) (result : result_t)
    (first : Bool) (req : BusRequest) (pre : List BusEvent) (n : Nat)
    (he : X.events = g.events ++ pre)
    (hb : n = X.inFlight req + BusEvent.notifications req pre) :
    ∃ l, (X.setState state result first).2.events = g.events ++ l ∧
      n = (X.setState state result first).2.inFlight req + BusEvent.notifications req l := by
  obtain ⟨l, hl, hbl⟩ := BusHandler.notifyRequest_balance X state result first req
  have hin : (X.setState state result first).2.inFlight req
      = (X.notifyRequest state result first).inFlight req := by
    unfold BusHandler.inFlight
    rw [BusHandler.setState_request]
  refine ⟨pre ++ l, by rw [BusHandler.setState_events, hl, he, List.append_assoc], ?_⟩
  rw [hin, BusEvent.notifications_append, hb, hbl]
  omega

theorem BusHandler.setState_balance_twice (g X Y : BusHandler) (state state2 : BusState)
    (result result2 : result_t) (first first2 : Bool) (req : BusRequest)
    (hX : X.events = (Y.setState state2 result2 first2).2.events)
    (hXr : X.request = (Y.setState state2 result2 first2).2.request)
    (hY : Y.events = g.events) (hYr : Y.request = g.request) :
    ∃ l, (X.setState state result first).2.events = g.events ++ l ∧
      g.inFlight req
        = (X.setState state result first).2.inFlight req + BusEvent.notifications req l := by
  obtain ⟨l2, hl2, hb2⟩ := BusHandler.setState_balance g Y state2 result2 first2 req []
    (g.inFlight req) (by rw [hY, List.append_nil])
    (by unfold BusHandler.inFlight; rw [hYr]; rfl)
  exact BusHandler.setState_balance g X state result first req l2 (g.inFlight req)
    (by rw [hX, hl2]) (by rw [hb2]; unfold BusHandler.inFlight; rw [hXr])

/-- The transition for a received symbol logs a notification of a request exactly when it
clears `m_request` of it. -/
theorem BusHandler.dispatch_balance (h : BusHandler) (sendSymbol : Nat) (sending : Bool)
    (recvSymbol : Nat) (req : BusRequest) :
    ∃ l, (h.dispatch sendSymbol sending recvSymbol).2.events = h.events ++ l ∧
      h.inFlight req = (h.dispatch sendSymbol sending recvSymbol).2.inFlight req
        + BusEvent.notifications req l := by
  unfold BusHandler.dispatch
  cases hs : h.state <;> simp only
  case bs_skip => exact ⟨[], (List.append_nil _).symm, rfl⟩
  all_goals
    repeat' split
    all_goals
      first
        | exact BusHandler.setState_balance h _ _ _ _ req [] _ (List.append_nil _).symm rfl
        | exact ⟨[], (List.append_nil _).symm, rfl⟩
        | exact BusHandler.setState_balance_twice h _ _ _ _ _ _ _ _ req rfl rfl rfl rfl
        | exact BusHandler.setState_balance h _ _ _ _ req [_] _ rfl rfl

/-- In state `ready` the send decision notifies a request still in flight before it looks
at the queue. -/
theorem BusHandler.decideSend_ready_balance (h : BusHandler) (req : BusRequest)
    (hs : h.state = bs_ready) :
    ∃ l, h.decideSend.handler.events = h.events ++ l ∧
      h.inFlight req = BusEvent.notifications req l := by
  have hset : ∃ l, (h.setState bs_ready RESULT_ERR_TIMEOUT false).2.events = h.events ++ l ∧
      h.inFlight req = BusEvent.notifications req l := by
    obtain ⟨l, hl, hb⟩ := BusHandler.setState_balance h h bs_ready RESULT_ERR_TIMEOUT false
      req [] (h.inFlight req) (List.append_nil _).symm rfl
    have hn := BusHandler.setState_request_error h bs_ready RESULT_ERR_TIMEOUT (by decide)
    have h0 : (h.setState bs_ready RESULT_ERR_TIMEOUT false).2.inFlight req = 0 := by
      simp [BusHandler.inFlight, hn]
    rw [h0] at hb
    exact ⟨l, hl, by omega⟩
  unfold BusHandler.decideSend
  rw [hs]
  simp only
  by_cases hreq : h.request.isSome = true
  · simp only [hreq, if_true]
    split
    · split <;> exact hset
    · exact hset
  · have hnil : ∃ l, h.events = h.events ++ l ∧
        h.inFlight req = BusEvent.notifications req l := by
      refine ⟨[], (List.append_nil _).symm, ?_⟩
      cases hq : h.request with
      | none => simp [BusHandler.inFlight, hq, BusEvent.notifications]
      | some r => simp [hq] at hreq
    simp only [hreq, Bool.false_eq_true, if_false]
    split
    · split <;> exact hnil
    · exact hnil

/-- The send decision: a request in flight at its start or taken up by it is in flight
after it or has been notified. -/
theorem BusHandler.decideSend_balance (h : BusHandler) (req : BusRequest) :
    ∃ l, h.decideSend.handler.events = h.events ++ l ∧
      h.inFlight req + (if h.takesUp req = true then 1 else 0)
        = h.decideSend.handler.inFlight req + BusEvent.notifications req l := by
  by_cases hs : h.state = bs_ready
  · obtain ⟨l, hl, hb⟩ := BusHandler.decideSend_ready_balance h req hs
    refine ⟨l, hl, ?_⟩
    rw [hb]
    by_cases hR : h.decideSend.handler.request = some req
    · simp [BusHandler.inFlight, BusHandler.takesUp, hs, hR]
      omega
    · simp [BusHandler.inFlight, BusHandler.takesUp, hs, hR]
  · refine ⟨[], by rw [BusHandler.decideSend_handler h hs, List.append_nil], ?_⟩
    rw [BusHandler.decideSend_handler h hs]
    simp [BusHandler.takesUp, hs, BusEvent.notifications]

theorem BusHandler.doSend_balance (d : SendDecision) (io : PortStep) (req : BusRequest) :
    ∃ l, (BusHandler.doSend d io).handler.events = d.handler.events ++ l ∧
      d.handler.inFlight req
        = (BusHandler.doSend d io).handler.inFlight req + BusEvent.notifications req l := by
  unfold BusHandler.doSend
  split
  · split
    · exact ⟨[BusEvent.sent d.sendSymbol], rfl, rfl⟩
    · exact BusHandler.setState_balance d.handler _ bs_skip RESULT_ERR_SEND false req
        [BusEvent.sendFailed d.sendSymbol] _ rfl rfl
  · exact ⟨[], (List.append_nil _).symm, rfl⟩

/-- Up to the return of the receive call: a request in flight at the start of the step or
taken up by it is in flight then or has been notified. -/
theorem BusHandler.received_balance (h : BusHandler) (io : PortStep) (req : BusRequest) :
    ∃ l, (h.received io).events = h.events ++ l ∧
      h.inFlight req + (if h.takesUp req = true then 1 else 0)
        = (h.received io).inFlight req + BusEvent.notifications req l := by
  obtain ⟨l1, hl1, hb1⟩ := BusHandler.decideSend_balance h req
  obtain ⟨l2, hl2, hb2⟩ := BusHandler.doSend_balance h.decideSend io req
  have hev : (h.received io).events = (BusHandler.doSend h.decideSend io).handler.events
      ++ [BusEvent.recv (BusHandler.doSend h.decideSend io).timeout] ∧
      (h.received io).request = (BusHandler.doSend h.decideSend io).handler.request := by
    unfold BusHandler.received
    simp only
    split
    · split <;> exact ⟨rfl, rfl⟩
    · exact ⟨rfl, rfl⟩
  have hin : (h.received io).inFlight req
      = (BusHandler.doSend h.decideSend io).handler.inFlight req := by
    unfold BusHandler.inFlight
    rw [hev.2]
  refine ⟨l1 ++ l2 ++ [BusEvent.recv (BusHandler.doSend h.decideSend io).timeout],
    by rw [hev.1, hl2, hl1]; simp only [List.append_assoc], ?_⟩
  rw [hin, BusEvent.notifications_append, BusEvent.notifications_append, hb1, hb2]
  have h0 : BusEvent.notifications req
      [BusEvent.recv (BusHandler.doSend h.decideSend io).timeout] = 0 := rfl
  rw [h0]
  omega

/-- The conservation law of a step, for every handler: a request in flight at the start of
the step or taken up by it is in flight at its end or has been notified in it, and a
request is notified or in flight at the end only so. -/
theorem BusHandler.handleSymbol_balance (h : BusHandler) (io : PortStep) (req : BusRequest) :
    ∃ l, (h.handleSymbol io).2.events = h.events ++ l ∧
      h.inFlight req + (if h.takesUp req = true then 1 else 0)
        = (h.handleSymbol io).2.inFlight req + BusEvent.notifications req l := by
  obtain ⟨lr, hlr, hbr⟩ := BusHandler.received_balance h io req
  rw [BusHandler.handleSymbol_eq]
  cases hrecv : io.recv with
  | error code =>
    simp only
    exact BusHandler.setState_balance h _ bs_skip code false req lr _ hlr hbr
  | symbol recvSymbol =>
    simp only
    split
    · split
      · exact BusHandler.setState_balance h _ bs_ready RESULT_SYN false req lr _ hlr hbr
      · exact BusHandler.setState_balance h _ bs_ready RESULT_SYN false req lr _ hlr hbr
    · obtain ⟨ld, hld, hbd⟩ := BusHandler.dispatch_balance (h.received io)
        (BusHandler.doSend h.decideSend io).sendSymbol
        (BusHandler.doSend h.decideSend io).sending recvSymbol req
      refine ⟨lr ++ ld, by rw [hld, hlr, List.append_assoc], ?_⟩
      rw [BusEvent.notifications_append, hbr, hbd]
      omega

/-- In state `ready` with no SYN symbol left to wait the send decision leaves the first
request of the queue in `m_request`, and no request otherwise. -/
theorem BusHandler.decideSend_ready_taken (h : BusHandler) (hs : h.state = bs_ready) :
    h.decideSend.handler.request
      = if h.remainLockCount = 0 then h.requests.head? else none := by
  have hl := BusHandler.setState_remainLockCount h bs_ready RESULT_ERR_TIMEOUT false
  have hn := BusHandler.setState_request_error h bs_ready RESULT_ERR_TIMEOUT (by decide)
  have hq : (h.setState bs_ready RESULT_ERR_TIMEOUT false).2.requests = h.requests := by
    unfold BusHandler.setState BusHandler.notifyRequest
    cases hreq : h.request with
    | none => simp only; split <;> rfl
    | some r => simp only; split <;> split <;> rfl
  unfold BusHandler.decideSend
  simp only [hs]
  by_cases hreq : h.request.isSome = true
  · simp only [hreq, if_true, hl, hq]
    by_cases h0 : h.remainLockCount = 0
    · simp only [h0, if_true]
      cases hh : h.requests <;> rfl
    · simp only [h0, if_false]
      exact hn
  · simp only [hreq, Bool.false_eq_true, if_false]
    by_cases h0 : h.remainLockCount = 0
    · simp only [h0, if_true]
      cases hh : h.requests <;> rfl
    · simp only [h0, if_false]
      cases hq2 : h.request with
      | none => rfl
      | some r => simp [hq2] at hreq

theorem BusHandler.takesUp_iff (h : BusHandler) (req : BusRequest) :
    h.takesUp req = true
      ↔ h.state = bs_ready ∧ h.remainLockCount = 0 ∧ h.requests.head? = some req := by
  unfold BusHandler.takesUp
  rw [decide_eq_true_iff]
  constructor
  · intro ⟨hs, hq⟩
    rw [BusHandler.decideSend_ready_taken h hs] at hq
    by_cases h0 : h.remainLockCount = 0
    · rw [if_pos h0] at hq
      exact ⟨hs, h0, hq⟩
    · rw [if_neg h0] at hq
      cases hq
  · intro ⟨hs, h0, hq⟩
    refine ⟨hs, ?_⟩
    rw [BusHandler.decideSend_ready_taken h hs, if_pos h0]
    exact hq

/-- A state change leaves `m_request` and the log as they are, or clears `m_request` and
logs the notification of the request it held. -/
theorem BusHandler.setState_clears (x : BusHandler) (state : BusState) (result : result_t)
    (first : Bool) :
    ((x.setState state result first).2.request = x.request ∧
      (x.setState state result first).2.events = x.events) ∨
    ∃ r, x.request = some r ∧ (x.setState state result first).2.request = none ∧
      (x.setState state result first).2.events
        = x.events ++ [BusEvent.notified r result x.response] := by
  rw [BusHandler.setState_request, BusHandler.setState_events]
  unfold BusHandler.notifyRequest
  cases hreq : x.request with
  | none => exact Or.inl ⟨hreq, rfl⟩
  | some r =>
    simp only
    split
    · exact Or.inr ⟨r, rfl, rfl, rfl⟩
    · exact Or.inl ⟨hreq, rfl⟩

/-- With a history, a request is in flight in none of the states `ready` and `skip`. -/
theorem BusHandler.History.idle (hist : List (BusHandler × PortStep)) (h : BusHandler)
    (hh : BusHandler.History hist h) (hs : h.state = bs_ready ∨ h.state = bs_skip) :
    h.request = none := by
  cases hq : h.request with
  | none => rfl
  | some r =>
    obtain ⟨_, _, _, _, _, _, hst⟩ := BusHandler.History.exchange hist h hh r hq
    rcases hst with ⟨h1, _⟩ | ⟨_, h1 | ⟨_, h1 | ⟨h1, _⟩⟩⟩ <;>
      rcases hs with h2 | h2 <;> rw [h1] at h2 <;> cases h2

/-- Along a history each request was taken up as often as it was notified, once more if it
is in flight. -/
theorem BusHandler.History.balance (hist : List (BusHandler × PortStep)) (h : BusHandler)
    (hh : BusHandler.History hist h) (req : BusRequest) :
    BusHandler.takeUps req hist
      = BusEvent.notifications req h.events + h.inFlight req := by
  induction hh with
  | initial l b s => rfl
  | step hist h io _ _ ih =>
    obtain ⟨l, hl, hb⟩ := BusHandler.handleSymbol_balance h io req
    have ht : BusHandler.takeUps req ((h, io) :: hist)
        = BusHandler.takeUps req hist + (if h.takesUp req = true then 1 else 0) := by
      unfold BusHandler.takeUps
      rw [List.countP_cons]
    rw [ht, hl, BusEvent.notifications_append, ih]
    omega
  | client hist h c _ ih =>
    cases c <;> exact ih

theorem PortStep.valid_echoes (l : List Nat) (hl : ∀ b ∈ l, b < 256) :
    ∀ io ∈ l.map PortStep.echo, io.valid := by
  intro io hio
  obtain ⟨b, hb, rfl⟩ := List.mem_map.1 hio
  exact PortStep.valid_echo b (hl b hb)

theorem exCompleted_history : BusHandler.History exCompletedHistory exCompleted := by
  refine BusHandler.History.run exCompletedSteps [] _
    (BusHandler.History.client [] _ (ClientStep.add exRequestSlave)
      (BusHandler.History.initial 5 10000 15000)) ?_
  exact PortStep.valid_echoes
    [SYN, 0x03, 0x08, 0xB5, 0x09, 0x01, 0x0D, 0xF0, ACK, 0x01, 0x05, 0xB8, ACK, SYN]
    (by decide)

/-- C38: no request is dropped silently. A state change clears `m_request` only together
with the notification of the request it held. For a handler with a history of possible
steps and every request: no request is in flight in the states `ready` and `skip`, so a
step takes a request up (in `ready`, with no SYN symbol left to wait, the first of the
queue) only when none is in flight, and no request is in flight after a step that ends in
`ready` or `skip`; in every step, the request being in flight at the start or taken up
balances with its notifications in the step and its being in flight at the end; and along
the history the request was taken up as often as it was notified, once more if it is still
in flight. -/
theorem BusHandler.request_notified_once (hist : List (BusHandler × PortStep))
    (h : BusHandler) (hh : BusHandler.History hist h) (req : BusRequest) :
    (∀ (x : BusHandler) (state : BusState) (result : result_t) (first : Bool),
      ((x.setState state result first).2.request = x.request ∧
        (x.setState state result first).2.events = x.events) ∨
      ∃ r, x.request = some r ∧ (x.setState state result first).2.request = none ∧
        (x.setState state result first).2.events
          = x.events ++ [BusEvent.notified r result x.response]) ∧
    ((h.state = bs_ready ∨ h.state = bs_skip) → h.request = none) ∧
    (h.takesUp req = true
      ↔ h.state = bs_ready ∧ h.remainLockCount = 0 ∧ h.requests.head? = some req) ∧
    (h.takesUp req = true → h.request = none) ∧
    (∀ io : PortStep,
      h.inFlight req + (if h.takesUp req = true then 1 else 0)
        = BusEvent.notifications req (h.stepEvents io)
          + (h.handleSymbol io).2.inFlight req) ∧
    (∀ io : PortStep, h.request = some req → (h.handleSymbol io).2.request ≠ some req →
      ∃ result response, BusEvent.notified req result response ∈ h.stepEvents io) ∧
    (∀ io : PortStep, io.valid →
      ((h.handleSymbol io).2.state = bs_ready ∨ (h.handleSymbol io).2.state = bs_skip) →
      (h.handleSymbol io).2.request = none) ∧
    BusHandler.takeUps req hist
      = BusEvent.notifications req h.events + h.inFlight req := by
  have hstep : ∀ io : PortStep,
      h.inFlight req + (if h.takesUp req = true then 1 else 0)
        = BusEvent.notifications req (h.stepEvents io)
          + (h.handleSymbol io).2.inFlight req := by
    intro io
    obtain ⟨l, hl, hb⟩ := BusHandler.handleSymbol_balance h io req
    have hse : h.stepEvents io = l := by
      unfold BusHandler.stepEvents
      rw [hl, List.drop_left]
    rw [hse, hb]
    omega
  refine ⟨BusHandler.setState_clears, BusHandler.History.idle hist h hh,
    BusHandler.takesUp_iff h req,
    fun ht => BusHandler.History.idle hist h hh
      (Or.inl ((BusHandler.takesUp_iff h req).1 ht).1),
    hstep, fun io hq hn => ?_,
    fun io hv hs => BusHandler.History.idle _ _ (BusHandler.History.step hist h io hh hv) hs,
    BusHandler.History.balance hist h hh req⟩
  have hb := hstep io
  have h1 : h.inFlight req = 1 := by simp [BusHandler.inFlight, hq]
  have h0 : (h.handleSymbol io).2.inFlight req = 0 := by simp [BusHandler.inFlight, hn]
  have hpos : 0 < BusEvent.notifications req (h.stepEvents io) := by omega
  obtain ⟨e, he, hp⟩ := List.countP_pos_iff.1 hpos
  cases e with
  | notified r result response =>
    have hr : r = req := by simpa [BusEvent.isNotification] using hp
    exact ⟨result, response, hr ▸ he⟩
  | _ => simp [BusEvent.isNotification] at hp

/-- C38 (witness): the completed example exchange. The request `exRequestSlave` was taken
up once, notified once and is not in flight at the end. -/
theorem BusHandler.request_notified_once_witness :
    BusHandler.History exCompletedHistory exCompleted ∧
    BusHandler.takeUps exRequestSlave exCompletedHistory
      = BusEvent.notifications exRequestSlave exCompleted.events
        + exCompleted.inFlight exRequestSlave ∧
    BusEvent.notifications exRequestSlave exCompleted.events = 1 ∧
    exCompleted.inFlight exRequestSlave = 0 :=
  ⟨exCompleted_history,
    (BusHandler.request_notified_once exCompletedHistory exCompleted exCompleted_history
      exRequestSlave).2.2.2.2.2.2.2,
    by decide, by decide⟩

end Ebusd
